import Mathlib

/-!
# Query analyzer (`src/Analyzer/Resolve/QueryAnalyzer.cpp`): shallow embedding

The query tree is embedded as a tree of values.  Every node carries the address of
the C++ object it stands for (`addr`), because the analyzer keys several of its
tables (`resolved_expressions`, `node_to_projection_name`, ...) by node identity and
not by node value.  `clone` allocates fresh addresses.

Exceptions are values of `Exception`; a function that can throw returns its state
together with `Except Exception _`, so that the state reached at the `throw` stays
observable.  `checkStackSize()` is embedded as a bound on the call depth.
-/

namespace DB

/-! ## Values and types -/

/-- Lower-casing of ASCII text, as `Poco::toLower` does it. -/
def toLower (s : String) : String := ⟨s.data.map Char.toLower⟩

/-- Case-insensitive comparison, as `Poco::icompare(a, b) == 0` and `boost::iequals`. -/
def iequals (a b : String) : Bool := toLower a == toLower b

/-- Error codes of `namespace ErrorCodes` used by the analyzer. -/
inductive ErrorCode where
  | UNSUPPORTED_METHOD
  | UNKNOWN_IDENTIFIER
  | UNKNOWN_FUNCTION
  | LOGICAL_ERROR
  | INCORRECT_RESULT_OF_SCALAR_SUBQUERY
  | BAD_ARGUMENTS
  | ILLEGAL_TYPE_OF_ARGUMENT
  | MULTIPLE_EXPRESSIONS_FOR_ALIAS
  | TYPE_MISMATCH
  | AMBIGUOUS_IDENTIFIER
  | INVALID_WITH_FILL_EXPRESSION
  | INVALID_LIMIT_EXPRESSION
  | EMPTY_LIST_OF_COLUMNS_QUERIED
  | TOO_DEEP_SUBQUERIES
  | UNKNOWN_AGGREGATE_FUNCTION
  | TOO_FEW_ARGUMENTS_FOR_FUNCTION
  | TOO_MANY_ARGUMENTS_FOR_FUNCTION
  | ILLEGAL_FINAL
  | SAMPLING_NOT_SUPPORTED
  | NO_COMMON_TYPE
  | NOT_IMPLEMENTED
  | ALIAS_REQUIRED
  | NUMBER_OF_ARGUMENTS_DOESNT_MATCH
  | UNKNOWN_TABLE
  | ILLEGAL_COLUMN
  | NUMBER_OF_COLUMNS_DOESNT_MATCH
  | FUNCTION_CANNOT_HAVE_PARAMETERS
  | SYNTAX_ERROR
  | UNEXPECTED_EXPRESSION
  | INVALID_IDENTIFIER
  | TOO_DEEP_RECURSION
deriving DecidableEq, Repr

/-- A thrown `Exception`: its code and the run-time arguments of its message that the
embedding can compute (numbers and names; dumps of syntax trees are left out). -/
structure Exception where
  code : ErrorCode
  args : List String := []
deriving DecidableEq, Repr

/-- Data types (`IDataType`), as far as the analyzer inspects them.  `NullPtr` stands for
a null `DataTypePtr` kept inside a function type whose argument types are not known yet. -/
inductive DataType where
  | Nothing
  | UInt8
  | UInt64
  | Int64
  | Float64
  | String
  | Nullable (nested : DataType)
  | Array (nested : DataType)
  | Map (key value : DataType)
  | Tuple (elements : List DataType) (names : List String)
  | Function (argument_types : List DataType) (return_type : Option DataType)
  | Set
  | Other (name : String)
  | NullPtr

mutual
/-- Structural equality of types, `IDataType::equals`. -/
def DataType.equals : DataType → DataType → Bool
  | .Nothing, .Nothing => true
  | .UInt8, .UInt8 => true
  | .UInt64, .UInt64 => true
  | .Int64, .Int64 => true
  | .Float64, .Float64 => true
  | .String, .String => true
  | .Nullable a, .Nullable b => DataType.equals a b
  | .Array a, .Array b => DataType.equals a b
  | .Map k v, .Map k2 v2 => DataType.equals k k2 && DataType.equals v v2
  | .Tuple es ns, .Tuple es2 ns2 => DataType.equalsList es es2 && ns == ns2
  | .Function as r, .Function as2 r2 => DataType.equalsList as as2 && DataType.equalsOpt r r2
  | .Set, .Set => true
  | .Other a, .Other b => a == b
  | .NullPtr, .NullPtr => true
  | _, _ => false
/-- Pointwise `equals` on lists of types. -/
def DataType.equalsList : List DataType → List DataType → Bool
  | [], [] => true
  | a :: as, b :: bs => DataType.equals a b && DataType.equalsList as bs
  | _, _ => false
/-- Lifting of `equals` to optional types. -/
def DataType.equalsOpt : Option DataType → Option DataType → Bool
  | none, none => true
  | some a, some b => DataType.equals a b
  | _, _ => false
end

/-- Whether the type is `Nullable(...)`, `IDataType::isNullable`. -/
def DataType.isNullable : DataType → Bool
  | .Nullable _ => true
  | _ => false

/-- A name with its type, `NameAndTypePair`. -/
structure NameAndTypePair where
  name : String
  type : DataType

/-- Values of `Field`; the constructor is the value of `Field::getType()`. -/
inductive Field where
  | Null
  | UInt64 (value : Nat)
  | Int64 (value : Int)
  | Float64 (bits : Nat)
  | String (value : String)
  | Array (values : List Field)
  | Tuple (values : List Field)
  | Bool (value : Bool)

/-- A dotted name `a.b.c`, `Identifier`, kept as its parts. -/
structure Identifier where
  parts : List String
deriving DecidableEq, Repr

/-- Full dotted name of the identifier, `Identifier::getFullName`. -/
def Identifier.getFullName (i : Identifier) : String := ".".intercalate i.parts

/-- First part of the identifier, `Identifier::front`. -/
def Identifier.front (i : Identifier) : String := i.parts.headD ""

/-- More than one part, `Identifier::isCompound`. -/
def Identifier.isCompound (i : Identifier) : Bool := decide (1 < i.parts.length)

/-! ## Query tree -/

/-- Kinds of query tree node, `QueryTreeNodeType`. -/
inductive QueryTreeNodeType where
  | IDENTIFIER | MATCHER | TRANSFORMER | LIST | CONSTANT | FUNCTION | COLUMN | LAMBDA
  | SORT | INTERPOLATE | WINDOW | TABLE | TABLE_FUNCTION | QUERY | ARRAY_JOIN
  | CROSS_JOIN | JOIN | UNION
deriving DecidableEq, Repr

/-- How a function node has been resolved, `FunctionKind`. -/
inductive FunctionKind where
  | UNKNOWN | ORDINARY | AGGREGATE | WINDOW
deriving DecidableEq, Repr

/-- The modifier `RESPECT NULLS` / `IGNORE NULLS` of a function call, `NullsAction`. -/
inductive NullsAction where
  | EMPTY | RESPECT_NULLS | IGNORE_NULLS
deriving DecidableEq, Repr

/-- Kind of matcher, `MatcherNodeType`. -/
inductive MatcherNodeType where
  | ASTERISK | COLUMNS_REGEXP | COLUMNS_LIST
deriving DecidableEq, Repr

/-- Direction of a sort, `SortDirection`. -/
inductive SortDirection where
  | ASCENDING | DESCENDING
deriving DecidableEq, Repr

/-- Kind of a join, `JoinKind`. -/
inductive JoinKind where
  | Inner | Left | Right | Full | Cross | Comma | Paste
deriving DecidableEq, Repr

/-- The test `isRight(kind)` of `Core/Joins.h`. -/
def isRight (k : JoinKind) : Bool := k == .Right

/-- Members of `IdentifierNode`. -/
structure IdentifierNode where
  identifier : Identifier

/-- Members of `ColumnNode`: the column, the address of its source table expression
(a weak pointer in the code) with the kind of node it points to, and the optional defining
expression. -/
structure ColumnNode (N : Type) where
  column_name : String
  column_type : DataType
  column_source : Nat
  expression : Option N
  column_source_type : QueryTreeNodeType := .TABLE

/-- Members of `ConstantNode`. -/
structure ConstantNode (N : Type) where
  value : Field
  result_type : DataType
  source_expression : Option N

/-- Members of `FunctionNode`. -/
structure FunctionNode (N : Type) where
  function_name : String
  parameters : List N
  arguments : List N
  window : Option N
  kind : FunctionKind
  result_type : Option DataType
  nulls_action : NullsAction := .EMPTY

/-- Members of `LambdaNode`. -/
structure LambdaNode (N : Type) where
  argument_names : List String
  expression : N

/-- Members of `ListNode`. -/
structure ListNode (N : Type) where
  nodes : List N

/-- Members of `MatcherNode`; an empty qualified identifier means unqualified. -/
structure MatcherNode (N : Type) where
  matcher_type : MatcherNodeType
  qualified_identifier : Identifier
  columns_identifiers : List Identifier
  column_transformers : List N

/-- Members of `SortNode`. -/
structure SortNode (N : Type) where
  expression : N
  sort_direction : SortDirection
  nulls_sort_direction : Option SortDirection
  fill_from : Option N
  fill_to : Option N
  fill_step : Option N

/-- Members of `QueryNode`. -/
structure QueryNode (N : Type) where
  is_subquery : Bool
  is_cte : Bool
  cte_name : String
  is_correlated : Bool
  is_group_by_with_totals : Bool
  is_group_by_with_rollup : Bool
  is_group_by_with_cube : Bool
  is_group_by_with_grouping_sets : Bool
  is_group_by_all : Bool
  is_order_by_all : Bool
  projection_columns : List NameAndTypePair
  with_nodes : List N
  projection : List N
  join_tree : Option N
  prewhere : Option N
  where_ : Option N
  group_by : List N
  having : Option N
  window : List N
  qualify : Option N
  order_by : List N
  interpolate : Option N
  limit_by_limit : Option N
  limit_by_offset : Option N
  limit_by : List N
  limit : Option N
  offset : Option N

/-- Members of `UnionNode`. -/
structure UnionNode (N : Type) where
  is_subquery : Bool
  is_cte : Bool
  is_recursive_cte : Bool
  cte_name : String
  is_correlated : Bool
  is_resolved : Bool
  queries : List N

/-- Members of `TableNode`: the storage and the columns of its snapshot. -/
structure TableNode where
  storage_id : String
  temporary_table_name : String
  columns : List NameAndTypePair

/-- Members of `TableFunctionNode`. -/
structure TableFunctionNode (N : Type) where
  table_function_name : String
  arguments : List N
  columns : List NameAndTypePair

/-- Members of `JoinNode`. -/
structure JoinNode (N : Type) where
  left_table_expression : N
  right_table_expression : N
  join_expression : Option N
  kind : JoinKind

/-- Members of `CrossJoinNode`. -/
structure CrossJoinNode (N : Type) where
  table_expressions : List N

/-- Members of `ArrayJoinNode`. -/
structure ArrayJoinNode (N : Type) where
  table_expression : N
  join_expressions : List N
  is_left : Bool

/-- Members of `WindowNode`. -/
structure WindowNode (N : Type) where
  parent_window_name : String
  partition_by : List N
  order_by : List N
  frame_is_default : Bool

/-- Members of `InterpolateNode`. -/
structure InterpolateNode (N : Type) where
  expression : N
  interpolate_expression : N

/-- Members of a column transformer node (`APPLY`, `EXCEPT`, `REPLACE`). -/
structure ColumnTransformerNode (N : Type) where
  transformer_name : String
  is_strict : Bool
  names : List String
  expressions : List N

/-- A node of the query tree, `IQueryTreeNode` with its subclasses.  `addr` is the
identity of the C++ object, `node_alias` its alias (empty when there is none). -/
inductive QueryTreeNode where
  | IDENTIFIER (addr : Nat) (node_alias : String) (node : IdentifierNode)
  | MATCHER (addr : Nat) (node_alias : String) (node : MatcherNode QueryTreeNode)
  | TRANSFORMER (addr : Nat) (node_alias : String) (node : ColumnTransformerNode QueryTreeNode)
  | LIST (addr : Nat) (node_alias : String) (node : ListNode QueryTreeNode)
  | CONSTANT (addr : Nat) (node_alias : String) (node : ConstantNode QueryTreeNode)
  | FUNCTION (addr : Nat) (node_alias : String) (node : FunctionNode QueryTreeNode)
  | COLUMN (addr : Nat) (node_alias : String) (node : ColumnNode QueryTreeNode)
  | LAMBDA (addr : Nat) (node_alias : String) (node : LambdaNode QueryTreeNode)
  | SORT (addr : Nat) (node_alias : String) (node : SortNode QueryTreeNode)
  | INTERPOLATE (addr : Nat) (node_alias : String) (node : InterpolateNode QueryTreeNode)
  | WINDOW (addr : Nat) (node_alias : String) (node : WindowNode QueryTreeNode)
  | TABLE (addr : Nat) (node_alias : String) (node : TableNode)
  | TABLE_FUNCTION (addr : Nat) (node_alias : String) (node : TableFunctionNode QueryTreeNode)
  | QUERY (addr : Nat) (node_alias : String) (node : QueryNode QueryTreeNode)
  | ARRAY_JOIN (addr : Nat) (node_alias : String) (node : ArrayJoinNode QueryTreeNode)
  | CROSS_JOIN (addr : Nat) (node_alias : String) (node : CrossJoinNode QueryTreeNode)
  | JOIN (addr : Nat) (node_alias : String) (node : JoinNode QueryTreeNode)
  | UNION (addr : Nat) (node_alias : String) (node : UnionNode QueryTreeNode)

/-- A list of nodes, `QueryTreeNodes`. -/
abbrev QueryTreeNodes := List QueryTreeNode

/-- The projection names of an expression, `ProjectionNames`. -/
abbrev ProjectionNames := List String

namespace QueryTreeNode

/-- Identity of the node object. -/
def addr : QueryTreeNode → Nat
  | IDENTIFIER a _ _ | MATCHER a _ _ | TRANSFORMER a _ _ | LIST a _ _ | CONSTANT a _ _
  | FUNCTION a _ _ | COLUMN a _ _ | LAMBDA a _ _ | SORT a _ _ | INTERPOLATE a _ _
  | WINDOW a _ _ | TABLE a _ _ | TABLE_FUNCTION a _ _ | QUERY a _ _ | ARRAY_JOIN a _ _
  | CROSS_JOIN a _ _ | JOIN a _ _ | UNION a _ _ => a

/-- The alias of the node, `getAlias`. -/
def getAlias : QueryTreeNode → String
  | IDENTIFIER _ s _ | MATCHER _ s _ | TRANSFORMER _ s _ | LIST _ s _ | CONSTANT _ s _
  | FUNCTION _ s _ | COLUMN _ s _ | LAMBDA _ s _ | SORT _ s _ | INTERPOLATE _ s _
  | WINDOW _ s _ | TABLE _ s _ | TABLE_FUNCTION _ s _ | QUERY _ s _ | ARRAY_JOIN _ s _
  | CROSS_JOIN _ s _ | JOIN _ s _ | UNION _ s _ => s

/-- Whether the node has an alias, `hasAlias`. -/
def hasAlias (n : QueryTreeNode) : Bool := n.getAlias != ""

/-- The node with its alias replaced, `setAlias`. -/
def setAlias (s : String) : QueryTreeNode → QueryTreeNode
  | IDENTIFIER a _ n => IDENTIFIER a s n
  | MATCHER a _ n => MATCHER a s n
  | TRANSFORMER a _ n => TRANSFORMER a s n
  | LIST a _ n => LIST a s n
  | CONSTANT a _ n => CONSTANT a s n
  | FUNCTION a _ n => FUNCTION a s n
  | COLUMN a _ n => COLUMN a s n
  | LAMBDA a _ n => LAMBDA a s n
  | SORT a _ n => SORT a s n
  | INTERPOLATE a _ n => INTERPOLATE a s n
  | WINDOW a _ n => WINDOW a s n
  | TABLE a _ n => TABLE a s n
  | TABLE_FUNCTION a _ n => TABLE_FUNCTION a s n
  | QUERY a _ n => QUERY a s n
  | ARRAY_JOIN a _ n => ARRAY_JOIN a s n
  | CROSS_JOIN a _ n => CROSS_JOIN a s n
  | JOIN a _ n => JOIN a s n
  | UNION a _ n => UNION a s n

/-- The node without its alias, `removeAlias`. -/
def removeAlias (n : QueryTreeNode) : QueryTreeNode := n.setAlias ""

/-- Kind of the node, `getNodeType`. -/
def getNodeType : QueryTreeNode → QueryTreeNodeType
  | IDENTIFIER .. => .IDENTIFIER
  | MATCHER .. => .MATCHER
  | TRANSFORMER .. => .TRANSFORMER
  | LIST .. => .LIST
  | CONSTANT .. => .CONSTANT
  | FUNCTION .. => .FUNCTION
  | COLUMN .. => .COLUMN
  | LAMBDA .. => .LAMBDA
  | SORT .. => .SORT
  | INTERPOLATE .. => .INTERPOLATE
  | WINDOW .. => .WINDOW
  | TABLE .. => .TABLE
  | TABLE_FUNCTION .. => .TABLE_FUNCTION
  | QUERY .. => .QUERY
  | ARRAY_JOIN .. => .ARRAY_JOIN
  | CROSS_JOIN .. => .CROSS_JOIN
  | JOIN .. => .JOIN
  | UNION .. => .UNION

end QueryTreeNode

end DB

namespace DB

/-! ## Cloning

`IQueryTreeNode::clone` makes a deep copy: every node of the copy is a new object.
The copy is numbered from the next free address on; members that are not children
(names, types, flags, the weak pointer to the column source) are copied as they are. -/

mutual
/-- Deep copy of a node whose objects get the addresses `a, a + 1, ...`; the second
component is the next free address. -/
def QueryTreeNode.cloneAt : QueryTreeNode → Nat → QueryTreeNode × Nat
  | .IDENTIFIER _ al n, a => (.IDENTIFIER a al n, a + 1)
  | .MATCHER _ al n, a =>
    let t := QueryTreeNode.cloneListAt n.column_transformers (a + 1)
    (.MATCHER a al { n with column_transformers := t.1 }, t.2)
  | .TRANSFORMER _ al n, a =>
    let e := QueryTreeNode.cloneListAt n.expressions (a + 1)
    (.TRANSFORMER a al { n with expressions := e.1 }, e.2)
  | .LIST _ al n, a =>
    let l := QueryTreeNode.cloneListAt n.nodes (a + 1)
    (.LIST a al { nodes := l.1 }, l.2)
  | .CONSTANT _ al n, a =>
    let e := QueryTreeNode.cloneOptAt n.source_expression (a + 1)
    (.CONSTANT a al { n with source_expression := e.1 }, e.2)
  | .FUNCTION _ al n, a =>
    let p := QueryTreeNode.cloneListAt n.parameters (a + 1)
    let g := QueryTreeNode.cloneListAt n.arguments p.2
    let w := QueryTreeNode.cloneOptAt n.window g.2
    (.FUNCTION a al { n with parameters := p.1, arguments := g.1, window := w.1 }, w.2)
  | .COLUMN _ al n, a =>
    let e := QueryTreeNode.cloneOptAt n.expression (a + 1)
    (.COLUMN a al { n with expression := e.1 }, e.2)
  | .LAMBDA _ al n, a =>
    let e := QueryTreeNode.cloneAt n.expression (a + 1)
    (.LAMBDA a al { n with expression := e.1 }, e.2)
  | .SORT _ al n, a =>
    let e := QueryTreeNode.cloneAt n.expression (a + 1)
    let f := QueryTreeNode.cloneOptAt n.fill_from e.2
    let t := QueryTreeNode.cloneOptAt n.fill_to f.2
    let s := QueryTreeNode.cloneOptAt n.fill_step t.2
    (.SORT a al { n with expression := e.1, fill_from := f.1, fill_to := t.1, fill_step := s.1 }, s.2)
  | .INTERPOLATE _ al n, a =>
    let e := QueryTreeNode.cloneAt n.expression (a + 1)
    let i := QueryTreeNode.cloneAt n.interpolate_expression e.2
    (.INTERPOLATE a al { expression := e.1, interpolate_expression := i.1 }, i.2)
  | .WINDOW _ al n, a =>
    let p := QueryTreeNode.cloneListAt n.partition_by (a + 1)
    let o := QueryTreeNode.cloneListAt n.order_by p.2
    (.WINDOW a al { n with partition_by := p.1, order_by := o.1 }, o.2)
  | .TABLE _ al n, a => (.TABLE a al n, a + 1)
  | .TABLE_FUNCTION _ al n, a =>
    let g := QueryTreeNode.cloneListAt n.arguments (a + 1)
    (.TABLE_FUNCTION a al { n with arguments := g.1 }, g.2)
  | .QUERY _ al n, a =>
    let c1 := QueryTreeNode.cloneListAt n.with_nodes (a + 1)
    let c2 := QueryTreeNode.cloneListAt n.projection c1.2
    let c3 := QueryTreeNode.cloneOptAt n.join_tree c2.2
    let c4 := QueryTreeNode.cloneOptAt n.prewhere c3.2
    let c5 := QueryTreeNode.cloneOptAt n.where_ c4.2
    let c6 := QueryTreeNode.cloneListAt n.group_by c5.2
    let c7 := QueryTreeNode.cloneOptAt n.having c6.2
    let c8 := QueryTreeNode.cloneListAt n.window c7.2
    let c9 := QueryTreeNode.cloneOptAt n.qualify c8.2
    let c10 := QueryTreeNode.cloneListAt n.order_by c9.2
    let c11 := QueryTreeNode.cloneOptAt n.interpolate c10.2
    let c12 := QueryTreeNode.cloneOptAt n.limit_by_limit c11.2
    let c13 := QueryTreeNode.cloneOptAt n.limit_by_offset c12.2
    let c14 := QueryTreeNode.cloneListAt n.limit_by c13.2
    let c15 := QueryTreeNode.cloneOptAt n.limit c14.2
    let c16 := QueryTreeNode.cloneOptAt n.offset c15.2
    (.QUERY a al { n with
        with_nodes := c1.1, projection := c2.1, join_tree := c3.1, prewhere := c4.1,
        where_ := c5.1, group_by := c6.1, having := c7.1, window := c8.1, qualify := c9.1,
        order_by := c10.1, interpolate := c11.1, limit_by_limit := c12.1,
        limit_by_offset := c13.1, limit_by := c14.1, limit := c15.1, offset := c16.1 }, c16.2)
  | .ARRAY_JOIN _ al n, a =>
    let t := QueryTreeNode.cloneAt n.table_expression (a + 1)
    let j := QueryTreeNode.cloneListAt n.join_expressions t.2
    (.ARRAY_JOIN a al { n with table_expression := t.1, join_expressions := j.1 }, j.2)
  | .CROSS_JOIN _ al n, a =>
    let t := QueryTreeNode.cloneListAt n.table_expressions (a + 1)
    (.CROSS_JOIN a al { table_expressions := t.1 }, t.2)
  | .JOIN _ al n, a =>
    let l := QueryTreeNode.cloneAt n.left_table_expression (a + 1)
    let r := QueryTreeNode.cloneAt n.right_table_expression l.2
    let e := QueryTreeNode.cloneOptAt n.join_expression r.2
    (.JOIN a al { n with left_table_expression := l.1, right_table_expression := r.1,
                         join_expression := e.1 }, e.2)
  | .UNION _ al n, a =>
    let q := QueryTreeNode.cloneListAt n.queries (a + 1)
    (.UNION a al { n with queries := q.1 }, q.2)
/-- Deep copy of a list of nodes. -/
def QueryTreeNode.cloneListAt : List QueryTreeNode → Nat → List QueryTreeNode × Nat
  | [], a => ([], a)
  | x :: xs, a =>
    let y := QueryTreeNode.cloneAt x a
    let ys := QueryTreeNode.cloneListAt xs y.2
    (y.1 :: ys.1, ys.2)
/-- Deep copy of an optional child. -/
def QueryTreeNode.cloneOptAt : Option QueryTreeNode → Nat → Option QueryTreeNode × Nat
  | none, a => (none, a)
  | some x, a =>
    let y := QueryTreeNode.cloneAt x a
    (some y.1, y.2)
end

end DB

namespace DB

/-! ## Settings, contexts, scopes and the analyzer state -/

/-- A column handed to a function: its name, its type and, for a constant argument, the
value of the constant column (`ColumnWithTypeAndName`). -/
structure ColumnWithTypeAndName where
  name : String
  type : DataType
  column : Option Field

/-- What constant folding inspects of the column a function returned. -/
structure ResultColumn where
  value : Field
  data_type_matches : Bool := true
  is_const : Bool := true
  is_dummy : Bool := false
  byte_size : Nat := 8

/-- A function built for given arguments (`IFunctionBase`). -/
structure FunctionBase where
  result_type : DataType
  is_suitable_for_constant_folding : Bool
  execute : List ColumnWithTypeAndName → Except Exception (Option ResultColumn)
  getConstantResultForNonConstArguments :
    List ColumnWithTypeAndName → Except Exception (Option ResultColumn)

/-- An entry of the function factory (`IFunctionOverloadResolver`). -/
structure FunctionOverloadResolver where
  build : List ColumnWithTypeAndName → Except Exception FunctionBase

/-- An entry of `functions_cache` of a scope, `ResolvedFunctionsCache`. -/
structure ResolvedFunctionsCache where
  resolver : Option FunctionOverloadResolver := none
  function_base : Option FunctionBase := none

/-- The settings the analyzer reads (`Core/Settings.h`). -/
structure Settings where
  enable_positional_arguments : Bool := true
  prefer_column_name_to_alias : Bool := false
  enable_global_with_statement : Bool := true
  enable_scopes_for_with_statement : Bool := true
  allow_experimental_correlated_subqueries : Bool := false
  enable_order_by_all : Bool := true
  enable_scalar_subquery_optimization : Bool := true
  format_display_secrets_in_show_and_select : Bool := true
  transform_null_in : Bool := false
  force_grouping_standard_compatibility : Bool := true
  asterisk_include_alias_columns : Bool := false
  asterisk_include_materialized_columns : Bool := false
  max_subquery_depth : Nat := 100
  max_expanded_ast_elements : Nat := 500000
  max_result_rows : Nat := 0
  extremes : Bool := false
  implicit_table_at_top_level : String := ""
  use_structure_from_insertion_table_in_table_functions : Nat := 2
  analyzer_compatibility_join_using_top_level_identifier : Bool := false

/-- Kind of the query of a client, `ClientInfo::QueryKind`. -/
inductive QueryKind where
  | NO_QUERY | INITIAL_QUERY | SECONDARY_QUERY
deriving DecidableEq, Repr

/-- What the analyzer reads of a `Context`: the settings, the query kind of the client
info, whether there is a query context, and the storage id of the view source. -/
structure Context where
  settings : Settings := {}
  query_kind : QueryKind := .INITIAL_QUERY
  has_query_context : Bool := true
  view_source : Option String := none

/-- Context of a lookup, `IdentifierLookupContext`. -/
inductive IdentifierLookupContext where
  | EXPRESSION | FUNCTION | TABLE_EXPRESSION
deriving DecidableEq, Repr

/-- An identifier together with the context it is looked up in, `IdentifierLookup`. -/
structure IdentifierLookup where
  identifier : Identifier
  lookup_context : IdentifierLookupContext
deriving DecidableEq, Repr

namespace IdentifierLookup

/-- Lookup in expression context, `isExpressionLookup`. -/
def isExpressionLookup (l : IdentifierLookup) : Bool := l.lookup_context == .EXPRESSION

/-- Lookup in function context, `isFunctionLookup`. -/
def isFunctionLookup (l : IdentifierLookup) : Bool := l.lookup_context == .FUNCTION

/-- Lookup in table expression context, `isTableExpressionLookup`. -/
def isTableExpressionLookup (l : IdentifierLookup) : Bool := l.lookup_context == .TABLE_EXPRESSION

end IdentifierLookup

/-- The strategy that resolved an identifier, `IdentifierResolvePlace`. -/
inductive IdentifierResolvePlace where
  | NONE | EXPRESSION_ARGUMENTS | ALIASES | JOIN_TREE | CTE | DATABASE_CATALOG
deriving DecidableEq, Repr

/-- Result of an identifier lookup, `IdentifierResolveResult`. -/
structure IdentifierResolveResult where
  resolved_identifier : Option QueryTreeNode := none
  resolve_place : IdentifierResolvePlace := .NONE

namespace IdentifierResolveResult

/-- The lookup found a node, `isResolved`. -/
def isResolved (r : IdentifierResolveResult) : Bool := r.resolved_identifier.isSome

/-- Resolved by the join tree, `isResolvedFromJoinTree`. -/
def isResolvedFromJoinTree (r : IdentifierResolveResult) : Bool := r.resolve_place == .JOIN_TREE

/-- Resolved by the expression arguments, `isResolvedFromExpressionArguments`. -/
def isResolvedFromExpressionArguments (r : IdentifierResolveResult) : Bool :=
  r.resolve_place == .EXPRESSION_ARGUMENTS

/-- Resolved by the alias table, `isResolvedFromAliases`. -/
def isResolvedFromAliases (r : IdentifierResolveResult) : Bool := r.resolve_place == .ALIASES

end IdentifierResolveResult

/-- Switches of one lookup, `IdentifierResolveContext`; the scope in which aliased
expressions are to be resolved is kept as the index of the scope. -/
structure IdentifierResolveContext where
  allow_to_check_join_tree : Bool := true
  allow_to_check_cte : Bool := true
  allow_to_check_aliases : Bool := true
  allow_to_check_database_catalog : Bool := true
  allow_to_resolve_subquery_during_identifier_resolution : Bool := true
  scope_to_resolve_alias_expression : Option Nat := none

/-- Modelled from the spec: `IdentifierResolveContext::resolveAliasesAt` is declared in a
header that is not among the sources.  It records the scope in which aliased expressions
are resolved unless one is recorded already ("an expression must be resolved in the
context of the current scope"). -/
def IdentifierResolveContext.resolveAliasesAt (c : IdentifierResolveContext) (scope : Nat) :
    IdentifierResolveContext :=
  match c.scope_to_resolve_alias_expression with
  | some _ => c
  | none => { c with scope_to_resolve_alias_expression := some scope }

/-- Modelled from the spec: the alias tables of a scope (`ScopeAliases`, declared in a
header that is not among the sources): "per-scope mappings from alias text to
expression/lambda/table-expression nodes, plus lists of nodes whose aliases must later
be stripped, and nodes with duplicate aliases requiring cross-validation".  The nodes whose
aliases are stripped later are kept by address. -/
structure ScopeAliases where
  alias_name_to_expression_node : List (String × QueryTreeNode) := []
  alias_name_to_lambda_node : List (String × QueryTreeNode) := []
  alias_name_to_table_expression_node : List (String × QueryTreeNode) := []
  nodes_with_duplicated_aliases : List QueryTreeNode := []
  node_to_remove_aliases : List Nat := []
  alias_name_to_expression_type : List (String × Option DataType) := []

/-- Which name of the identifier is the key, `ScopeAliases::FindOption`. -/
inductive FindOption where
  | FIRST_NAME | FULL_NAME
deriving DecidableEq, Repr

namespace ScopeAliases

/-- The alias map of a lookup context, `ScopeAliases::getAliasMap`. -/
def getAliasMap (a : ScopeAliases) : IdentifierLookupContext → List (String × QueryTreeNode)
  | .EXPRESSION => a.alias_name_to_expression_node
  | .FUNCTION => a.alias_name_to_lambda_node
  | .TABLE_EXPRESSION => a.alias_name_to_table_expression_node

/-- The key of an identifier, `ScopeAliases::getKey`. -/
def getKey (identifier : Identifier) : FindOption → String
  | .FIRST_NAME => identifier.front
  | .FULL_NAME => identifier.getFullName

/-- Modelled from the spec: `ScopeAliases::find`, the node registered under the alias in
the map of the lookup context, if any. -/
def find (a : ScopeAliases) (lookup : IdentifierLookup) (find_option : FindOption) :
    Option QueryTreeNode :=
  (a.getAliasMap lookup.lookup_context).lookup (getKey lookup.identifier find_option)

end ScopeAliases

/-- Modelled from the spec: the stack of expressions that are being resolved in a scope
(`ExpressionsStack`, declared in a header that is not among the sources), most recent
first.  It answers whether an expression with a given alias is being resolved and
whether an aggregate function is. -/
structure ExpressionsStack where
  expressions : List QueryTreeNode := []
  aggregate_functions_counter : Nat := 0

/-- What the analyzer keeps for a table expression of a scope,
`AnalysisTableExpressionData`. -/
structure AnalysisTableExpressionData where
  column_name_to_column_node : List (String × QueryTreeNode) := []
  should_qualify_columns : Bool := false

/-- Per-lookup state of a scope, `IdentifierResolveState`: the number of lookups of the
identifier that are in progress. -/
structure IdentifierResolveState where
  count : Nat := 1
deriving DecidableEq, Repr

/-- The resolution context of one query, union, lambda or aliased expression,
`IdentifierResolveScope`.  The parent is the index of its scope in the analyzer. -/
structure IdentifierResolveScope where
  scope_node : QueryTreeNode
  parent_scope : Option Nat := none
  context : Context := {}
  identifier_in_lookup_process : List (IdentifierLookup × IdentifierResolveState) := []
  expression_argument_name_to_node : List (String × QueryTreeNode) := []
  aliases : ScopeAliases := {}
  global_with_aliases : ScopeAliases := {}
  expressions_in_resolve_process_stack : ExpressionsStack := {}
  table_expressions_in_resolve_process : List Nat := []
  registered_table_expression_nodes : List QueryTreeNode := []
  cte_name_to_query_node : List (String × QueryTreeNode) := []
  table_expression_node_to_data : List (Nat × AnalysisTableExpressionData) := []
  nullable_group_by_keys : List QueryTreeNode := []
  join_columns_with_changed_types : List (QueryTreeNode × QueryTreeNode) := []
  group_by_use_nulls : Bool := false
  join_use_nulls : Bool := false
  subquery_depth : Nat := 0
  joins_count : Nat := 0
  functions_cache : List (Nat × ResolvedFunctionsCache) := []

/-- A block of columns with one row, as far as scalar subqueries need it: the name and
the type of each column and its value in the row. -/
structure Block where
  columns : List (String × DataType × Field) := []

/-- Counters of `ProfileEvents` that `evaluateScalarSubqueryIfNeeded` increments, and the
number of interpreters it has built. -/
structure ScalarSubqueryEvents where
  ScalarSubqueriesGlobalCacheHit : Nat := 0
  ScalarSubqueriesLocalCacheHit : Nat := 0
  ScalarSubqueriesCacheMiss : Nat := 0
  interpreters_built : Nat := 0
deriving DecidableEq, Repr

/-- The members of `QueryAnalyzer` and the shared objects it writes to.  Scopes live in
`scopes` and are named by their index; `node_to_scope_map` gives the scope of a node.
The caches of scalar subqueries are keyed by the structural hash of the subquery;
`query_context_scalars` are the scalars of the query context and `context_scalars` those
added to the context of the query node of a scope. -/
structure QueryAnalyzer where
  only_analyze : Bool := false
  next_addr : Nat := 0
  resolved_expressions : List (Nat × ProjectionNames) := []
  node_to_projection_name : List (Nat × String) := []
  scopes : Nat → IdentifierResolveScope := fun _ => { scope_node := .LIST 0 "" { nodes := [] } }
  next_scope : Nat := 0
  node_to_scope_map : List (Nat × Nat) := []
  ctes_in_resolve_process : List Nat := []
  lambdas_in_resolve_process : List Nat := []
  subquery_counter : Nat := 0
  function_name_to_user_defined_lambda : List (String × QueryTreeNode) := []
  scalar_subquery_to_scalar_value_local : List (Nat × Block) := []
  scalar_subquery_to_scalar_value_global : List (Nat × Block) := []
  query_context_scalars : List (String × Block) := []
  context_scalars : List (Nat × String × Block) := []
  events : ScalarSubqueryEvents := {}

/-- The state after a call together with its result or the exception it threw. -/
abbrev Res (α : Type) := Except Exception α × QueryAnalyzer

namespace QueryAnalyzer

/-- Deep copy of a node at the next free addresses, `node->clone()`. -/
def clone (self : QueryAnalyzer) (node : QueryTreeNode) : QueryTreeNode × QueryAnalyzer :=
  let r := node.cloneAt self.next_addr
  (r.1, { self with next_addr := r.2 })

end QueryAnalyzer

end DB

namespace DB

/-! ## Positional arguments (`replaceNodesWithPositionalArguments`) -/

/-- Value of a 64-bit two's complement integer with the given bits. -/
def wrapInt64 (i : Int) : Int := (i + 2 ^ 63) % 2 ^ 64 - 2 ^ 63

/-- Value of a 64-bit unsigned integer with the given bits. -/
def wrapUInt64 (i : Int) : Nat := (i % 2 ^ 64).toNat

/-- The bounds check `if (!pos || pos > projection_nodes.size()) throw ...`. -/
def checkPositionalArgument (pos size : Nat) : Except Exception Nat :=
  if pos = 0 ∨ pos > size then
    .error { code := .BAD_ARGUMENTS, args := [toString pos, toString size] }
  else .ok pos

/-- The position a constant denotes: `none` when the value is neither `UInt64` nor
`Int64` (the loop continues), otherwise the 1-based position or the exception thrown.
A signed value that is not positive counts from the end. -/
def positionalArgumentNumber (value : Field) (size : Nat) : Option (Except Exception Nat) :=
  match value with
  | .UInt64 pos => some (checkPositionalArgument pos size)
  | .Int64 value =>
    if value > 0 then some (checkPositionalArgument (wrapUInt64 value) size)
    else if value < wrapInt64 (- wrapInt64 size) then
      some (.error { code := .BAD_ARGUMENTS, args := [toString value, toString size] })
    else some (checkPositionalArgument (wrapUInt64 (size + value + 1)) size)
  | _ => none

/-- The slot the loop looks at: the expression of a sort node, the node itself
otherwise (`node_to_replace`). -/
def nodeToReplace : QueryTreeNode → QueryTreeNode
  | .SORT _ _ s => s.expression
  | n => n

/-- Assignment through `node_to_replace`: into the expression of a sort node, into the
list entry otherwise. -/
def assignNodeToReplace (node replacement : QueryTreeNode) : QueryTreeNode :=
  match node with
  | .SORT a al s => .SORT a al { s with expression := replacement }
  | _ => replacement

namespace QueryAnalyzer

/-- Body of the loop of `replaceNodesWithPositionalArguments` for one entry of the list:
the entry afterwards and the analyzer state, or the exception thrown. -/
def replaceNodeWithPositionalArgument (self : QueryAnalyzer) (node : QueryTreeNode)
    (projection_nodes : QueryTreeNodes) : Except Exception (QueryTreeNode × QueryAnalyzer) :=
  match nodeToReplace node with
  | .CONSTANT _ _ constant_node =>
    match positionalArgumentNumber constant_node.value projection_nodes.length with
    | none => .ok (node, self)
    | some (.error e) => .error e
    | some (.ok pos) =>
      match projection_nodes[pos - 1]? with
      | none => .ok (node, self)
      | some projection_node =>
        let (replacement, self) := self.clone projection_node
        let self :=
          match self.resolved_expressions.lookup projection_node.addr with
          | some names =>
            { self with resolved_expressions :=
                (replacement.addr, names) ::
                  self.resolved_expressions.filter (fun e => e.1 != replacement.addr) }
          | none => self
        .ok (assignNodeToReplace node replacement, self)
  | _ => .ok (node, self)

/-- The loop of `replaceNodesWithPositionalArguments` over the list.  The list is
changed in place, so the entries replaced before an exception stay replaced. -/
def replaceNodesWithPositionalArgumentsLoop (projection_nodes : QueryTreeNodes) :
    QueryTreeNodes → QueryAnalyzer → Except Exception Unit × QueryTreeNodes × QueryAnalyzer
  | [], self => (.ok (), [], self)
  | node :: rest, self =>
    match self.replaceNodeWithPositionalArgument node projection_nodes with
    | .error e => (.error e, node :: rest, self)
    | .ok (node, self) =>
      let r := replaceNodesWithPositionalArgumentsLoop projection_nodes rest self
      (r.1, node :: r.2.1, r.2.2)

/-- Embedding of `QueryAnalyzer::replaceNodesWithPositionalArguments`: the result
(normal return or exception), the nodes of `node_list` afterwards, and the state. -/
def replaceNodesWithPositionalArguments (self : QueryAnalyzer) (node_list : QueryTreeNodes)
    (projection_nodes : QueryTreeNodes) (scope : IdentifierResolveScope) :
    Except Exception Unit × QueryTreeNodes × QueryAnalyzer :=
  if !scope.context.settings.enable_positional_arguments
      || scope.context.query_kind != .INITIAL_QUERY then
    (.ok (), node_list, self)
  else
    replaceNodesWithPositionalArgumentsLoop projection_nodes node_list self

end QueryAnalyzer

end DB

namespace DB

/-- The slot of the entry holds a constant of type `UInt64` or `Int64`. -/
def isIntegerConstant (node : QueryTreeNode) : Bool :=
  match nodeToReplace node with
  | .CONSTANT _ _ c =>
    match c.value with
    | .UInt64 _ => true
    | .Int64 _ => true
    | _ => false
  | _ => false

/-- The slot of the entry holds the `UInt64` constant `k`. -/
def isUInt64Constant (node : QueryTreeNode) (k : Nat) : Prop :=
  ∃ a al c, nodeToReplace node = .CONSTANT a al c ∧ c.value = .UInt64 k

end DB

namespace DB

namespace Example

/-- Literal `v` of `SELECT`/`ORDER BY` position lists: a `UInt64` constant of type
`UInt8` at address `a`. -/
def literal (a v : Nat) : QueryTreeNode :=
  .CONSTANT a "" { value := .UInt64 v, result_type := .UInt8, source_expression := none }

/-- Ascending sort node at address `a` over `e`. -/
def sortBy (a : Nat) (e : QueryTreeNode) : QueryTreeNode :=
  .SORT a "" { expression := e, sort_direction := .ASCENDING, nulls_sort_direction := none,
               fill_from := none, fill_to := none, fill_step := none }

/-- Scope of an initial query with default settings over the given scope node. -/
def initialScope (scope_node : QueryTreeNode) : IdentifierResolveScope :=
  { scope_node := scope_node }

/-- Projection of `SELECT 1, 2`. -/
def select12 : QueryTreeNodes := [literal 1 1, literal 2 2]

/-- The list of `ORDER BY 2, 1`. -/
def orderBy21 : QueryTreeNodes := [sortBy 3 (literal 4 2), sortBy 5 (literal 6 1)]

/-- The list of `ORDER BY 3`. -/
def orderBy3 : QueryTreeNodes := [sortBy 3 (literal 4 3)]

/-- An analyzer whose next free address is `a`. -/
def analyzerAt (a : Nat) : QueryAnalyzer := { next_addr := a }

end Example

end DB

namespace DB

/-! ## `GROUP BY ALL` (`recursivelyCollectMaxOrdinaryExpressions`, `expandGroupByAll`) -/

/-- Modelled from the spec: `FunctionNode::isAggregateFunction` (the header is not among
the sources), the function node has been resolved as an aggregate function. -/
def FunctionNode.isAggregateFunction {N : Type} (f : FunctionNode N) : Bool :=
  f.kind == .AGGREGATE

/-- Modelled from the spec: `FunctionNode::isWindowFunction` (the header is not among the
sources), the function node has a window. -/
def FunctionNode.isWindowFunction {N : Type} (f : FunctionNode N) : Bool :=
  f.window.isSome

/-- The test at which `recursivelyCollectMaxOrdinaryExpressions` stops descending: an
aggregate function, a window function or a function named `grouping`. -/
def FunctionNode.isAggregateOrGrouping {N : Type} (f : FunctionNode N) : Bool :=
  f.isAggregateFunction || f.isWindowFunction || iequals f.function_name "grouping"

namespace QueryAnalyzer

/-- The loop `into.pop_back()` executed `count` times. -/
def popBack (count : Nat) (into : QueryTreeNodes) : QueryTreeNodes :=
  Nat.iterate List.dropLast count into

/-- The loop of `recursivelyCollectMaxOrdinaryExpressions` over the arguments of a
function; `collect` is the recursive call. -/
def collectFromArguments
    (collect : QueryTreeNode → QueryTreeNodes → Except Exception ((Bool × Nat) × QueryTreeNodes)) :
    QueryTreeNodes → Bool → Nat → QueryTreeNodes →
      Except Exception ((Bool × Nat) × QueryTreeNodes)
  | [], has_aggregate, pushed_children, into => .ok ((has_aggregate, pushed_children), into)
  | child :: rest, has_aggregate, pushed_children, into =>
    match collect child into with
    | .error e => .error e
    | .ok ((child_has_aggregate, child_pushed_children), into) =>
      collectFromArguments collect rest (has_aggregate || child_has_aggregate)
        (pushed_children + child_pushed_children) into

/-- Embedding of `QueryAnalyzer::recursivelyCollectMaxOrdinaryExpressions`.  The first
argument is the room left on the call stack (`checkStackSize`); the result is the
returned pair and the vector `into` afterwards. -/
def recursivelyCollectMaxOrdinaryExpressions :
    Nat → QueryTreeNode → QueryTreeNodes → Except Exception ((Bool × Nat) × QueryTreeNodes)
  | 0, _, _ => .error { code := .TOO_DEEP_RECURSION }
  | stack + 1, node, into =>
    match node with
    | .COLUMN .. => .ok ((false, 1), into ++ [node])
    | .FUNCTION _ _ function =>
      if function.isAggregateOrGrouping then .ok ((true, 0), into)
      else
        match collectFromArguments (recursivelyCollectMaxOrdinaryExpressions stack)
            function.arguments false 0 into with
        | .error e => .error e
        | .ok ((has_aggregate, pushed_children), into) =>
          if !has_aggregate then .ok ((false, 1), popBack pushed_children into ++ [node])
          else .ok ((has_aggregate, pushed_children), into)
    | _ => .ok ((false, 0), into)

/-- The loop of `expandGroupByAll` over the projection list. -/
def collectFromProjection (stack : Nat) :
    QueryTreeNodes → QueryTreeNodes → Except Exception Unit × QueryTreeNodes
  | [], group_by_nodes => (.ok (), group_by_nodes)
  | node :: rest, group_by_nodes =>
    match recursivelyCollectMaxOrdinaryExpressions stack node group_by_nodes with
    | .error e => (.error e, group_by_nodes)
    | .ok (_, group_by_nodes) => collectFromProjection stack rest group_by_nodes

/-- Embedding of `QueryAnalyzer::expandGroupByAll`: the query node afterwards, and
whether the call returned or threw. -/
def expandGroupByAll (stack : Nat) (query_tree_node_typed : QueryNode QueryTreeNode) :
    Except Exception Unit × QueryNode QueryTreeNode :=
  if !query_tree_node_typed.is_group_by_all then (.ok (), query_tree_node_typed)
  else
    match collectFromProjection stack query_tree_node_typed.projection
        query_tree_node_typed.group_by with
    | (.error e, group_by_nodes) =>
      (.error e, { query_tree_node_typed with group_by := group_by_nodes })
    | (.ok (), group_by_nodes) =>
      (.ok (), { query_tree_node_typed with group_by := group_by_nodes, is_group_by_all := false })

end QueryAnalyzer

/-- The node is an aggregate function, a window function or a function named
`grouping` (compared case-insensitively). -/
def QueryTreeNode.isAggregateOrGrouping : QueryTreeNode → Bool
  | .FUNCTION _ _ f => f.isAggregateOrGrouping
  | _ => false

mutual
/-- The node is a function with an aggregate function, a window function or a function
named `grouping` among its arguments, or the arguments of its function arguments, and so
on. -/
def QueryTreeNode.hasAggregateInArguments : QueryTreeNode → Bool
  | .FUNCTION _ _ f => QueryTreeNode.anyAggregate f.arguments
  | _ => false
/-- One of the nodes is such a function or has one among its arguments. -/
def QueryTreeNode.anyAggregate : List QueryTreeNode → Bool
  | [] => false
  | x :: xs =>
    (x.isAggregateOrGrouping || QueryTreeNode.hasAggregateInArguments x)
      || QueryTreeNode.anyAggregate xs
end

mutual
/-- Nesting depth of function calls in a node. -/
def QueryTreeNode.callDepth : QueryTreeNode → Nat
  | .FUNCTION _ _ f => QueryTreeNode.callDepthList f.arguments + 1
  | _ => 1
/-- Largest nesting depth of function calls in a list of nodes. -/
def QueryTreeNode.callDepthList : List QueryTreeNode → Nat
  | [] => 0
  | x :: xs => max (QueryTreeNode.callDepth x) (QueryTreeNode.callDepthList xs)
end

namespace Example

/-- Column `name` of type `UInt64` of the table expression at address `source`. -/
def column (a : Nat) (name : String) (source : Nat) : QueryTreeNode :=
  .COLUMN a "" { column_name := name, column_type := .UInt64, column_source := source,
                 expression := none }

/-- Call `name(arguments)` resolved as the given kind of function. -/
def call (a : Nat) (name : String) (kind : FunctionKind) (arguments : QueryTreeNodes) :
    QueryTreeNode :=
  .FUNCTION a "" { function_name := name, parameters := [], arguments := arguments,
                   window := none, kind := kind, result_type := some .UInt64 }

/-- A query node with the given projection and flags and nothing else. -/
def query (projection : QueryTreeNodes) (is_group_by_all : Bool) : QueryNode QueryTreeNode :=
  { is_subquery := false, is_cte := false, cte_name := "", is_correlated := false,
    is_group_by_with_totals := false, is_group_by_with_rollup := false,
    is_group_by_with_cube := false, is_group_by_with_grouping_sets := false,
    is_group_by_all := is_group_by_all, is_order_by_all := false, projection_columns := [],
    with_nodes := [], projection := projection, join_tree := none, prewhere := none,
    where_ := none, group_by := [], having := none, window := [], qualify := none,
    order_by := [], interpolate := none, limit_by_limit := none, limit_by_offset := none,
    limit_by := [], limit := none, offset := none }

/-- The query `SELECT a, sum(b) FROM t GROUP BY ALL` after its projection is resolved. -/
def selectASumB : QueryNode QueryTreeNode :=
  query [column 1 "a" 0, call 2 "sum" .AGGREGATE [column 3 "b" 0]] true

end Example

end DB

namespace DB

namespace QueryAnalyzer

/-- What a call of `recursivelyCollectMaxOrdinaryExpressions` on `node` has done when it
returns `r`: it has appended `r.1.2` nodes to `into`, none of them an aggregate, window or
`grouping` function nor a function with one among its arguments, and `r.1.1` tells whether
`node` is or has one. -/
def CollectSpec (node : QueryTreeNode) (into : QueryTreeNodes)
    (r : (Bool × Nat) × QueryTreeNodes) : Prop :=
  ∃ new, r.2 = into ++ new ∧ new.length = r.1.2 ∧
    (∀ k ∈ new, k.isAggregateOrGrouping = false ∧ k.hasAggregateInArguments = false) ∧
    r.1.1 = (node.isAggregateOrGrouping || node.hasAggregateInArguments)

end QueryAnalyzer

end DB

namespace DB

/-! ## The analyzer as a state machine

A member function of `QueryAnalyzer` is embedded as a function from the analyzer state
to the outcome of the call (a result or an exception) and the state afterwards. -/

/-- A computation of the analyzer: it may read and change the state and may throw. -/
def RM (α : Type) : Type := QueryAnalyzer → Res α

namespace RM

/-- Normal return of a value. -/
def ret {α : Type} (a : α) : RM α := fun s => (.ok a, s)

/-- Sequencing; an exception of the first computation ends the sequence. -/
def andThen {α β : Type} (x : RM α) (f : α → RM β) : RM β := fun s =>
  match x s with
  | (.ok a, s) => f a s
  | (.error e, s) => (.error e, s)

instance : Monad RM where
  pure := ret
  bind := andThen

/-- The statement `throw Exception(code, ...)`. -/
def throw {α : Type} (e : Exception) : RM α := fun s => (.error e, s)

/-- The current state. -/
def get : RM QueryAnalyzer := fun s => (.ok s, s)

/-- A change of the state. -/
def modify (f : QueryAnalyzer → QueryAnalyzer) : RM Unit := fun s => (.ok (), f s)

/-- The result of a collaborator that may throw. -/
def lift {α : Type} (r : Except Exception α) : RM α := fun s => (r, s)

/-- The statement `try { x } catch (...) { h }`: the state reached at the throw is kept. -/
def tryCatch {α : Type} (x : RM α) (h : Exception → RM α) : RM α := fun s =>
  match x s with
  | (.ok a, s) => (.ok a, s)
  | (.error e, s) => h e s

end RM

/-- An identifier made of a name, `Identifier(full_name)`: the name is split at the
dots. -/
def Identifier.ofString (full_name : String) : Identifier :=
  ⟨(full_name.data.splitOn '.').map String.mk⟩

/-- Replacement of the entries of an alias map that hold the object `n`. -/
def publishInMap (n : QueryTreeNode) (m : List (String × QueryTreeNode)) :
    List (String × QueryTreeNode) :=
  m.map (fun e => if e.2.addr = n.addr then (e.1, n) else e)

/-- The alias tables after the object `n` has been changed in place. -/
def ScopeAliases.publish (a : ScopeAliases) (n : QueryTreeNode) : ScopeAliases :=
  { a with
    alias_name_to_expression_node := publishInMap n a.alias_name_to_expression_node
    alias_name_to_lambda_node := publishInMap n a.alias_name_to_lambda_node
    alias_name_to_table_expression_node := publishInMap n a.alias_name_to_table_expression_node }

/-- The scope after the object `n` has been changed in place: the tables of the scope
that hold a pointer to the object (alias tables and columns of table expressions) see the
new value. -/
def IdentifierResolveScope.publish (sc : IdentifierResolveScope) (n : QueryTreeNode) :
    IdentifierResolveScope :=
  { sc with
    aliases := sc.aliases.publish n
    global_with_aliases := sc.global_with_aliases.publish n
    table_expression_node_to_data := sc.table_expression_node_to_data.map (fun d =>
      (d.1, { d.2 with column_name_to_column_node := publishInMap n d.2.column_name_to_column_node })) }

namespace ExpressionsStack

/-- Modelled from the spec: `ExpressionsStack::push`; `is_aggregate` tells whether the
node is a function with the name of an aggregate function. -/
def push (st : ExpressionsStack) (node : QueryTreeNode) (is_aggregate : Bool) : ExpressionsStack :=
  { expressions := node :: st.expressions
    aggregate_functions_counter :=
      if is_aggregate then st.aggregate_functions_counter + 1 else st.aggregate_functions_counter }

/-- Modelled from the spec: `ExpressionsStack::pop`. -/
def pop (st : ExpressionsStack) (is_aggregate : Bool) : ExpressionsStack :=
  { expressions := st.expressions.tail
    aggregate_functions_counter :=
      if is_aggregate then st.aggregate_functions_counter - 1 else st.aggregate_functions_counter }

/-- Modelled from the spec: `ExpressionsStack::getExpressionWithAlias`, an expression with
the alias that is being resolved, if any ("while an alias named X is being expanded"). -/
def getExpressionWithAlias (st : ExpressionsStack) (node_alias : String) : Option QueryTreeNode :=
  st.expressions.find? (fun e => e.hasAlias && e.getAlias == node_alias)

/-- Modelled from the spec: `ExpressionsStack::hasAggregateFunction`. -/
def hasAggregateFunction (st : ExpressionsStack) : Bool :=
  decide (0 < st.aggregate_functions_counter)

end ExpressionsStack

/-- The collaborators of the analyzer whose code is not in `QueryAnalyzer.cpp`: the
identifier resolver, the catalog, the function registries and helpers of the query tree. -/
structure Collaborators where
  /-- The function `IdentifierResolver::tryResolveIdentifierFromExpressionArguments`. -/
  tryResolveIdentifierFromExpressionArguments :
    IdentifierLookup → IdentifierResolveScope → Except Exception IdentifierResolveResult
  /-- The function `IdentifierResolver::tryResolveIdentifierFromJoinTree`. -/
  tryResolveIdentifierFromJoinTree :
    IdentifierLookup → IdentifierResolveScope → Except Exception IdentifierResolveResult
  /-- The function `IdentifierResolver::tryResolveIdentifierFromCompoundExpression`. -/
  tryResolveIdentifierFromCompoundExpression :
    Identifier → Nat → QueryTreeNode → IdentifierResolveScope → Bool →
      Except Exception (Option QueryTreeNode)
  /-- The function `IdentifierResolver::tryResolveTableIdentifierFromDatabaseCatalog`. -/
  tryResolveTableIdentifierFromDatabaseCatalog :
    Identifier → Context → Except Exception IdentifierResolveResult
  /-- Whether `CorrelatedColumnsCollector` finds correlated columns in the node. -/
  hasCorrelatedColumns : QueryTreeNode → Option Nat → List (Nat × Nat) → Bool
  /-- The function `buildCastFunction(expression, type, context, resolve)`; the new
  objects take the addresses from the given one on. -/
  buildCastFunction : QueryTreeNode → DataType → Context → Nat → QueryTreeNode × Nat
  /-- The function `validateTreeSize(node, max_size, node_to_tree_size)`. -/
  validateTreeSize : QueryTreeNode → Nat → Except Exception Unit
  /-- The method `IQueryTreeNode::convertToNullable`. -/
  convertToNullable : QueryTreeNode → QueryTreeNode
  /-- Equality of a node and a key of `nullable_group_by_keys`. -/
  isEqualToGroupByKey : QueryTreeNode → QueryTreeNode → Bool
  /-- The method `ConstantNode::getValueStringRepresentation`. -/
  getValueStringRepresentation : ConstantNode QueryTreeNode → String
  /-- The structural hash `IQueryTreeNode::getTreeHash`. -/
  getTreeHash : QueryTreeNode → Nat
  /-- The predicate `isNameOfInFunction`. -/
  isNameOfInFunction : String → Bool
  /-- The predicate `functionIsDictGet`. -/
  functionIsDictGet : String → Bool
  /-- The predicate `functionIsJoinGet`. -/
  functionIsJoinGet : String → Bool
  /-- The query tree that `buildQueryTree` makes of the SQL user defined function with
  the given name, if `UserDefinedSQLFunctionFactory` knows one; its objects take the
  addresses from the given one on. -/
  buildUserDefinedSQLFunction : String → Context → Nat → Option (QueryTreeNode × Nat)
  /-- The lookup `UserDefinedExecutableFunctionFactory::tryGet`. -/
  tryGetUserDefinedExecutableFunction :
    String → Context → List Field → Except Exception (Option FunctionOverloadResolver)
  /-- The lookup `FunctionFactory::tryGet`. -/
  tryGetFunction : String → Context → Option FunctionOverloadResolver
  /-- The predicate `AggregateFunctionFactory::isAggregateFunctionName`. -/
  isAggregateFunctionName : String → Bool
  /-- The result type of the function that `AggregateFunctionFactory::get` returns. -/
  getAggregateFunction :
    String → NullsAction → List DataType → List Field → Context → Except Exception DataType
  /-- The result of `FunctionSecretArgumentsFinderTreeNode`: start and count. -/
  findSecretArguments : FunctionNode QueryTreeNode → Nat × Nat
  /-- The result type of a node other than a constant, a column or a function,
  `IQueryTreeNode::getResultType`; `none` is the null pointer. -/
  getResultTypeOfOther : QueryTreeNode → Except Exception (Option DataType)
  /-- The test `hasAggregateFunctionNodes(node)`. -/
  hasAggregateFunctionNodes : QueryTreeNode → Bool
  /-- The test `hasFunctionNode(node, name)`. -/
  hasFunctionNode : QueryTreeNode → String → Bool
  /-- The conversion `toString(field)` of a field. -/
  fieldToString : Field → String
  /-- The function `FunctionGrouping` built for given arguments. -/
  buildGroupingFunction : Bool → List ColumnWithTypeAndName → Except Exception FunctionBase

namespace QueryTreeNode

/-- The result type of a node, `getResultType`; `none` is the null pointer. -/
def getResultType (E : Collaborators) : QueryTreeNode → Except Exception (Option DataType)
  | .CONSTANT _ _ c => .ok (some c.result_type)
  | .COLUMN _ _ c => .ok (some c.column_type)
  | .FUNCTION _ _ f =>
    match f.result_type with
    | some t => .ok (some t)
    | none => .error { code := .LOGICAL_ERROR, args := [f.function_name] }
  | n => E.getResultTypeOfOther n

end QueryTreeNode

namespace QueryAnalyzer

/-- The scope with the given index. -/
def scope (self : QueryAnalyzer) (id : Nat) : IdentifierResolveScope := self.scopes id

/-- The state after a change of the scope with the given index. -/
def modifyScope (self : QueryAnalyzer) (id : Nat)
    (f : IdentifierResolveScope → IdentifierResolveScope) : QueryAnalyzer :=
  { self with scopes := Function.update self.scopes id (f (self.scopes id)) }

/-- The state after the object `n` has been changed in place: every scope sees it. -/
def publish (self : QueryAnalyzer) (n : QueryTreeNode) : QueryAnalyzer :=
  { self with scopes := fun i => (self.scopes i).publish n }

end QueryAnalyzer

namespace RM

/-- The scope with the given index in the current state. -/
def getScope (id : Nat) : RM IdentifierResolveScope := fun s => (.ok (s.scope id), s)

/-- A change of the scope with the given index. -/
def modifyScope (id : Nat) (f : IdentifierResolveScope → IdentifierResolveScope) : RM Unit :=
  fun s => (.ok (), s.modifyScope id f)

/-- In-place change of the object `n`. -/
def publish (n : QueryTreeNode) : RM Unit := fun s => (.ok (), s.publish n)

/-- The call `node->clone()`. -/
def clone (node : QueryTreeNode) : RM QueryTreeNode := fun s =>
  let r := s.clone node
  (.ok r.1, r.2)

/-- Allocation of one new object: its address. -/
def allocate : RM Nat := fun s => (.ok s.next_addr, { s with next_addr := s.next_addr + 1 })

end RM

/-- The node is a function whose name is the name of an aggregate function. -/
def isAggregateFunctionNode (E : Collaborators) : QueryTreeNode → Bool
  | .FUNCTION _ _ f => E.isAggregateFunctionName f.function_name
  | _ => false

namespace RM

/-- The call `scope.pushExpressionNode(node)`. -/
def pushExpressionNode (E : Collaborators) (scope : Nat) (node : QueryTreeNode) : RM Unit :=
  modifyScope scope (fun sc => { sc with
    expressions_in_resolve_process_stack :=
      sc.expressions_in_resolve_process_stack.push node (isAggregateFunctionNode E node) })

/-- The call `scope.popExpressionNode()`. -/
def popExpressionNode (E : Collaborators) (scope : Nat) : RM Unit :=
  modifyScope scope (fun sc => { sc with
    expressions_in_resolve_process_stack :=
      sc.expressions_in_resolve_process_stack.pop
        (match sc.expressions_in_resolve_process_stack.expressions with
         | top :: _ => isAggregateFunctionNode E top
         | [] => false) })

end RM

/-- The member functions of the analyzer that call each other, as they are available to
a caller: each one takes its arguments and runs on the analyzer state. -/
structure Resolver where
  /-- The member `resolveExpressionNode(node, scope, allow_lambda_expression,
  allow_table_expression, ignore_alias)`; the node returned is the new content of the
  slot `node`. -/
  resolveExpressionNode :
    QueryTreeNode → Nat → Bool → Bool → Bool → RM (QueryTreeNode × ProjectionNames)
  /-- The member `resolveExpressionNodeList(node_list, scope, allow_lambda_expression,
  allow_table_expression)` on the nodes of the list. -/
  resolveExpressionNodeList :
    QueryTreeNodes → Nat → Bool → Bool → RM (QueryTreeNodes × ProjectionNames)
  /-- The member `resolveFunction(node, scope)`. -/
  resolveFunction : QueryTreeNode → Nat → RM (QueryTreeNode × ProjectionNames)
  /-- The member `tryResolveIdentifier(identifier_lookup, scope, settings)`. -/
  tryResolveIdentifier :
    IdentifierLookup → Nat → IdentifierResolveContext → RM IdentifierResolveResult
  /-- The member `tryResolveIdentifierFromAliases`. -/
  tryResolveIdentifierFromAliases :
    IdentifierLookup → Nat → IdentifierResolveContext → RM IdentifierResolveResult
  /-- The member `tryResolveIdentifierInParentScopes`. -/
  tryResolveIdentifierInParentScopes :
    IdentifierLookup → Nat → IdentifierResolveContext → RM IdentifierResolveResult
  /-- The member `resolveQuery(query_node, scope)`; the node returned is the query node
  afterwards. -/
  resolveQuery : QueryTreeNode → Nat → RM QueryTreeNode
  /-- The member `resolveUnion(union_node, scope)`. -/
  resolveUnion : QueryTreeNode → Nat → RM QueryTreeNode
  /-- The member `evaluateScalarSubqueryIfNeeded(node, scope)`. -/
  evaluateScalarSubqueryIfNeeded : QueryTreeNode → Nat → RM QueryTreeNode
  /-- The member `resolveMatcher(matcher_node, scope)`. -/
  resolveMatcher : QueryTreeNode → Nat → RM (QueryTreeNode × ProjectionNames)
  /-- The member `resolveLambda(lambda_node, lambda_node_to_resolve, lambda_arguments,
  scope)`; the node returned is the lambda to resolve afterwards. -/
  resolveLambda :
    QueryTreeNode → QueryTreeNode → QueryTreeNodes → Nat → RM (QueryTreeNode × ProjectionNames)
  /-- The member `resolveWindow(window_node, scope)`. -/
  resolveWindow : QueryTreeNode → Nat → RM (QueryTreeNode × String)

end DB

namespace DB

/-! ## Identifier resolution (`tryResolveIdentifier` and its strategies) -/

open RM in
/-- Embedding of the static function `correctColumnExpressionType`: the column node
afterwards. -/
def correctColumnExpressionType (E : Collaborators) (column_node : QueryTreeNode)
    (context : Context) : RM QueryTreeNode :=
  match column_node with
  | .COLUMN a al c =>
    match c.expression with
    | none => pure column_node
    | some column_expression => do
      let result_type ← lift (column_expression.getResultType E)
      match result_type with
      | none => throw { code := .LOGICAL_ERROR }
      | some result_type =>
        if c.column_type.equals result_type then pure column_node
        else do
          let s ← get
          let cast := E.buildCastFunction column_expression c.column_type context s.next_addr
          modify (fun s => { s with next_addr := cast.2 })
          pure (.COLUMN a al { c with expression := some cast.1 })
  | _ => pure column_node

namespace QueryAnalyzer

open RM

/-- Registration of a lookup in `identifier_in_lookup_process` at the start of
`tryResolveIdentifier`: the table afterwards and `already_in_resolve_process`. -/
def registerLookup (table : List (IdentifierLookup × IdentifierResolveState))
    (identifier_lookup : IdentifierLookup) :
    List (IdentifierLookup × IdentifierResolveState) × Bool :=
  match table.lookup identifier_lookup with
  | some _ =>
    (table.map (fun e =>
      if e.1 = identifier_lookup then (e.1, { count := e.2.count + 1 }) else e), true)
  | none => ((identifier_lookup, {}) :: table, false)

/-- The end of `tryResolveIdentifier`: `it->second.count--` and the removal of the
entry when the count is zero. -/
def unregisterLookup (table : List (IdentifierLookup × IdentifierResolveState))
    (identifier_lookup : IdentifierLookup) :
    List (IdentifierLookup × IdentifierResolveState) :=
  (table.map (fun e =>
      if e.1 = identifier_lookup then (e.1, { count := e.2.count - 1 }) else e)).filter
    (fun e => !(decide (e.1 = identifier_lookup) && decide (e.2.count = 0)))

/-- The tail of `tryResolveIdentifierFromAliases` (from "Remember resolved type for typo
correction" on) once the aliased node is at hand. -/
def finishResolveFromAliases (E : Collaborators) (identifier_lookup : IdentifierLookup)
    (scope scope_to_resolve_alias_expression : Nat)
    (identifier_resolve_context : IdentifierResolveContext) (alias_node : QueryTreeNode) :
    RM IdentifierResolveResult := do
  let identifier_bind_part := identifier_lookup.identifier.front
  if identifier_lookup.isExpressionLookup && alias_node.getNodeType != .LIST then do
    let result_type ← lift (alias_node.getResultType E)
    RM.modifyScope scope_to_resolve_alias_expression (fun sc => { sc with
      aliases := { sc.aliases with
        alias_name_to_expression_type :=
          (identifier_bind_part, result_type) ::
            sc.aliases.alias_name_to_expression_type.filter (fun e => e.1 != identifier_bind_part) } })
  else pure ()
  if identifier_lookup.identifier.isCompound then
    if identifier_lookup.isExpressionLookup then do
      let sc ← getScope scope
      let resolved_identifier ← lift (E.tryResolveIdentifierFromCompoundExpression
        identifier_lookup.identifier 1 alias_node sc
        identifier_resolve_context.allow_to_check_join_tree)
      match resolved_identifier with
      | some resolved_identifier =>
        pure { resolved_identifier := some resolved_identifier, resolve_place := .ALIASES }
      | none => pure {}
    else
      throw { code := .UNKNOWN_IDENTIFIER, args := [identifier_lookup.identifier.getFullName] }
  else
    pure { resolved_identifier := some alias_node, resolve_place := .ALIASES }

/-- Embedding of `QueryAnalyzer::tryResolveIdentifierFromAliases`. -/
def tryResolveIdentifierFromAliases (E : Collaborators) (R : Resolver)
    (identifier_lookup : IdentifierLookup) (scope : Nat)
    (identifier_resolve_context : IdentifierResolveContext) : RM IdentifierResolveResult := do
  let identifier_bind_part := identifier_lookup.identifier.front
  let sc ← getScope scope
  match sc.aliases.find identifier_lookup .FIRST_NAME with
  | none => pure {}
  | some alias_node =>
    let scope_to_resolve_alias_expression :=
      identifier_resolve_context.scope_to_resolve_alias_expression.getD scope
    let node_type := alias_node.getNodeType
    let alias_node ←
      if !identifier_lookup.isTableExpressionLookup then do
        let alias_node ← RM.clone alias_node
        RM.modifyScope scope_to_resolve_alias_expression (fun sc => { sc with
          aliases := { sc.aliases with
            node_to_remove_aliases := sc.aliases.node_to_remove_aliases ++ [alias_node.addr] } })
        pure alias_node
      else pure alias_node
    let sc ← getScope scope
    if (sc.expressions_in_resolve_process_stack.getExpressionWithAlias
        identifier_bind_part).isSome then
      pure {}
    else
      match alias_node with
      | .IDENTIFIER _ _ alias_identifier_node => do
        pushExpressionNode E scope_to_resolve_alias_expression alias_node
        let lookup_result ← R.tryResolveIdentifier
          { identifier := alias_identifier_node.identifier
            lookup_context := identifier_lookup.lookup_context }
          scope_to_resolve_alias_expression identifier_resolve_context
        popExpressionNode E scope_to_resolve_alias_expression
        match lookup_result.resolved_identifier with
        | none => pure {}
        | some resolved_identifier =>
          finishResolveFromAliases E identifier_lookup scope scope_to_resolve_alias_expression
            identifier_resolve_context resolved_identifier
      | _ =>
        if node_type == .FUNCTION then do
          let r ← R.resolveExpressionNode alias_node scope_to_resolve_alias_expression
            false false false
          finishResolveFromAliases E identifier_lookup scope scope_to_resolve_alias_expression
            identifier_resolve_context r.1
        else if (node_type == .QUERY || node_type == .UNION)
            && identifier_resolve_context.allow_to_resolve_subquery_during_identifier_resolution then do
          let r ← R.resolveExpressionNode alias_node scope_to_resolve_alias_expression
            false identifier_lookup.isTableExpressionLookup false
          finishResolveFromAliases E identifier_lookup scope scope_to_resolve_alias_expression
            identifier_resolve_context r.1
        else
          finishResolveFromAliases E identifier_lookup scope scope_to_resolve_alias_expression
            identifier_resolve_context alias_node

/-- The node is a query or a union marked as CTE. -/
def isCTENode : QueryTreeNode → Bool
  | .QUERY _ _ q => q.is_cte
  | .UNION _ _ u => u.is_cte
  | _ => false

/-- Embedding of `QueryAnalyzer::tryResolveIdentifierInParentScopes`. -/
def tryResolveIdentifierInParentScopes (E : Collaborators) (R : Resolver)
    (identifier_lookup : IdentifierLookup) (scope : Nat)
    (identifier_resolve_context : IdentifierResolveContext) : RM IdentifierResolveResult := do
  let sc ← getScope scope
  match sc.parent_scope with
  | none => pure {}
  | some parent_scope =>
    let initial_scope_is_query := sc.scope_node.getNodeType == .QUERY
    let identifier_resolve_context := identifier_resolve_context.resolveAliasesAt scope
    let identifier_resolve_context :=
      if initial_scope_is_query then
        let c :=
          if identifier_lookup.isTableExpressionLookup then
            { identifier_resolve_context with
              allow_to_check_join_tree := false, allow_to_check_aliases := false }
          else identifier_resolve_context
        if !sc.context.settings.enable_global_with_statement then
          { c with allow_to_check_aliases := false, allow_to_check_cte := false }
        else c
      else identifier_resolve_context
    let identifier_resolve_context :=
      { identifier_resolve_context with allow_to_check_database_catalog := false }
    let resolve_result ← R.tryResolveIdentifier identifier_lookup parent_scope
      identifier_resolve_context
    match resolve_result.resolved_identifier with
    | none => pure {}
    | some resolved_identifier =>
      if identifier_lookup.isTableExpressionLookup then
        let is_cte := isCTENode resolved_identifier
        let is_table_from_expression_arguments :=
          resolve_result.isResolvedFromExpressionArguments
            && resolved_identifier.getNodeType == .TABLE
        let is_from_join_tree_or_aliases :=
          !initial_scope_is_query
            && (resolve_result.isResolvedFromJoinTree || resolve_result.isResolvedFromAliases)
        let is_valid_table_expression :=
          is_cte || is_table_from_expression_arguments || is_from_join_tree_or_aliases
        if !is_valid_table_expression then pure {} else pure resolve_result
      else if identifier_lookup.isFunctionLookup then pure resolve_result
      else do
        let s ← get
        if E.hasCorrelatedColumns resolved_identifier
            identifier_resolve_context.scope_to_resolve_alias_expression s.node_to_scope_map
            && !sc.context.settings.allow_experimental_correlated_subqueries then
          throw { code := .UNSUPPORTED_METHOD, args := [identifier_lookup.identifier.getFullName] }
        else pure resolve_result

/-- The override of `prefer_column_name_to_alias` for aliases from `ARRAY JOIN` in
`tryResolveIdentifier`. -/
def preferColumnNameToAlias (sc : IdentifierResolveScope) (identifier_lookup : IdentifierLookup) :
    Bool :=
  if identifier_lookup.isExpressionLookup then
    match sc.aliases.find identifier_lookup .FULL_NAME with
    | some (.COLUMN _ _ column_node) =>
      if column_node.column_source_type == .ARRAY_JOIN then true
      else sc.context.settings.prefer_column_name_to_alias
    | _ => sc.context.settings.prefer_column_name_to_alias
  else sc.context.settings.prefer_column_name_to_alias

/-- The block of `tryResolveIdentifier` run when the join tree resolved the identifier:
the defining expression of a column node is resolved and its type corrected. -/
def resolveJoinTreeColumnExpression (E : Collaborators) (R : Resolver) (scope : Nat)
    (resolve_result : IdentifierResolveResult) : RM IdentifierResolveResult :=
  if resolve_result.resolve_place == .JOIN_TREE then
    match resolve_result.resolved_identifier with
    | some (.COLUMN a al column_node) =>
      match column_node.expression with
      | some expression => do
        let r ← R.resolveExpressionNode expression scope false false false
        let sc ← getScope scope
        let column ← correctColumnExpressionType E
          (.COLUMN a al { column_node with expression := some r.1 }) sc.context
        RM.publish column
        pure { resolve_result with resolved_identifier := some column }
      | none => pure resolve_result
    | _ => pure resolve_result
  else pure resolve_result

/-- Embedding of `QueryAnalyzer::tryResolveIdentifier`. -/
def tryResolveIdentifier (E : Collaborators) (R : Resolver)
    (identifier_lookup : IdentifierLookup) (scope : Nat)
    (identifier_resolve_settings : IdentifierResolveContext) : RM IdentifierResolveResult := do
  let sc ← getScope scope
  let registered := registerLookup sc.identifier_in_lookup_process identifier_lookup
  let already_in_resolve_process := registered.2
  RM.modifyScope scope (fun sc => { sc with identifier_in_lookup_process := registered.1 })
  let sc ← getScope scope
  let resolve_result ←
    lift (E.tryResolveIdentifierFromExpressionArguments identifier_lookup sc)
  let resolve_result ←
    if resolve_result.resolved_identifier.isNone then do
      let prefer_column_name_to_alias := preferColumnNameToAlias sc identifier_lookup
      let resolve_result ←
        if prefer_column_name_to_alias then do
          let resolve_result ←
            if identifier_resolve_settings.allow_to_check_join_tree then
              lift (E.tryResolveIdentifierFromJoinTree identifier_lookup sc)
            else pure resolve_result
          if identifier_resolve_settings.allow_to_check_aliases
              && resolve_result.resolved_identifier.isNone
              && !already_in_resolve_process then
            R.tryResolveIdentifierFromAliases identifier_lookup scope identifier_resolve_settings
          else pure resolve_result
        else do
          let resolve_result ←
            if identifier_resolve_settings.allow_to_check_aliases
                && !already_in_resolve_process then
              R.tryResolveIdentifierFromAliases identifier_lookup scope
                identifier_resolve_settings
            else pure resolve_result
          if resolve_result.resolved_identifier.isNone
              && identifier_resolve_settings.allow_to_check_join_tree then do
            let sc ← getScope scope
            lift (E.tryResolveIdentifierFromJoinTree identifier_lookup sc)
          else pure resolve_result
      resolveJoinTreeColumnExpression E R scope resolve_result
    else pure resolve_result
  let sc ← getScope scope
  let s ← get
  let resolve_result :=
    if resolve_result.resolved_identifier.isNone
        && identifier_resolve_settings.allow_to_check_cte
        && identifier_lookup.isTableExpressionLookup then
      match sc.cte_name_to_query_node.lookup identifier_lookup.identifier.getFullName with
      | some cte_query_node =>
        if !s.ctes_in_resolve_process.contains cte_query_node.addr then
          { resolved_identifier := some cte_query_node, resolve_place := .CTE }
        else resolve_result
      | none => resolve_result
    else resolve_result
  let resolve_result ←
    if resolve_result.resolved_identifier.isNone then
      R.tryResolveIdentifierInParentScopes identifier_lookup scope identifier_resolve_settings
    else pure resolve_result
  let resolve_result ←
    if resolve_result.resolved_identifier.isNone
        && identifier_resolve_settings.allow_to_check_database_catalog
        && identifier_lookup.isTableExpressionLookup then do
      let sc ← getScope scope
      lift (E.tryResolveTableIdentifierFromDatabaseCatalog identifier_lookup.identifier sc.context)
    else pure resolve_result
  RM.modifyScope scope (fun sc => { sc with
    identifier_in_lookup_process :=
      unregisterLookup sc.identifier_in_lookup_process identifier_lookup })
  pure resolve_result

end QueryAnalyzer

end DB

namespace DB

/-! ## Expressions (`resolveExpressionNode`, `resolveExpressionNodeList`) -/

/-- The constant `PROJECTION_NAME_PLACEHOLDER`. -/
def PROJECTION_NAME_PLACEHOLDER : String := "__projection_name_placeholder"

/-- Modelled from the spec: the constructor of `IdentifierResolveScope` (not among the
sources): a scope for `scope_node` "linked to a parent scope", which starts with the
subquery depth, the context and the flags of its parent and with empty tables. -/
def IdentifierResolveScope.create (scope_node : QueryTreeNode)
    (parent_scope : Option (Nat × IdentifierResolveScope)) : IdentifierResolveScope :=
  match parent_scope with
  | some (id, parent) =>
    { scope_node := scope_node, parent_scope := some id, context := parent.context,
      subquery_depth := parent.subquery_depth, join_use_nulls := parent.join_use_nulls,
      global_with_aliases := parent.global_with_aliases }
  | none => { scope_node := scope_node }

namespace QueryAnalyzer

open RM

/-- Embedding of `QueryAnalyzer::createIdentifierResolveScope`: the index of the scope
of the node, which is created unless the node has a scope already. -/
def createIdentifierResolveScope (scope_node : QueryTreeNode) (parent_scope : Option Nat) :
    RM Nat := fun s =>
  match s.node_to_scope_map.lookup scope_node.addr with
  | some id => (.ok id, s)
  | none =>
    let id := s.next_scope
    (.ok id, { s with
      next_scope := id + 1
      node_to_scope_map := (scope_node.addr, id) :: s.node_to_scope_map
      scopes := Function.update s.scopes id
        (IdentifierResolveScope.create scope_node (parent_scope.map (fun p => (p, s.scopes p)))) })

/-- The scopes from the given one up to the nearest scope of a query node, as the loops
`for (scope_ptr = &scope; scope_ptr; scope_ptr = scope_ptr->parent_scope)` with
`break` at a query scope visit them.  The first argument bounds the length of the chain
by the number of scopes. -/
def scopesUpToQuery (self : QueryAnalyzer) : Nat → Nat → List IdentifierResolveScope
  | 0, _ => []
  | fuel + 1, id =>
    let sc := self.scopes id
    if sc.scope_node.getNodeType == .QUERY then [sc]
    else
      match sc.parent_scope with
      | none => [sc]
      | some parent => sc :: scopesUpToQuery self fuel parent

/-- The first key of `nullable_group_by_keys` equal to the node in the scopes up to the
nearest query scope. -/
def findNullableGroupByKey (E : Collaborators) (node : QueryTreeNode) :
    List IdentifierResolveScope → Option QueryTreeNode
  | [] => none
  | sc :: rest =>
    match sc.nullable_group_by_keys.find? (fun key => E.isEqualToGroupByKey node key) with
    | some key => some key
    | none => findNullableGroupByKey E node rest

/-- The end of `resolveExpressionNode`, from `validateTreeSize` on. -/
def finishResolveExpressionNode (E : Collaborators) (node : QueryTreeNode) (scope : Nat)
    (result_projection_names : ProjectionNames) : RM (QueryTreeNode × ProjectionNames) := do
  let sc ← getScope scope
  lift (E.validateTreeSize node sc.context.settings.max_expanded_ast_elements)
  let s ← get
  let chain := s.scopesUpToQuery (s.next_scope + 1) scope
  let in_aggregate_function_scope :=
    chain.any (fun sc => sc.expressions_in_resolve_process_stack.hasAggregateFunction)
  let node ←
    if !in_aggregate_function_scope then
      match findNullableGroupByKey E node chain with
      | some key => do
        let key ← RM.clone key
        pure (E.convertToNullable key)
      | none => pure node
    else pure node
  modify (fun s => { s with
    resolved_expressions :=
      match s.resolved_expressions.lookup node.addr with
      | some _ => s.resolved_expressions
      | none => s.resolved_expressions ++ [(node.addr, result_projection_names)] })
  popExpressionNode E scope
  pure (node, result_projection_names)

/-- The node without the CTE mark, `setIsCTE(false)`. -/
def clearIsCTE : QueryTreeNode → QueryTreeNode
  | .QUERY a al q => .QUERY a al { q with is_cte := false }
  | .UNION a al u => .UNION a al { u with is_cte := false }
  | n => n

/-- The test `isCorrelated()` of a query or union node. -/
def isCorrelated : QueryTreeNode → Bool
  | .QUERY _ _ q => q.is_correlated
  | .UNION _ _ u => u.is_correlated
  | _ => false

/-- The case `IDENTIFIER` of `resolveExpressionNode`, up to the `break`: the node of the
slot and the projection names. -/
def resolveIdentifierNode (R : Resolver) (identifier_node : IdentifierNode)
    (scope : Nat) (allow_lambda_expression allow_table_expression : Bool)
    (result_projection_names : ProjectionNames) : RM (QueryTreeNode × ProjectionNames) := do
  let unresolved_identifier := identifier_node.identifier
  let resolve_identifier_expression_result ← R.tryResolveIdentifier
    { identifier := unresolved_identifier, lookup_context := .EXPRESSION } scope {}
  let resolved_identifier_node := resolve_identifier_expression_result.resolved_identifier
  let s ← get
  let result_projection_names :=
    match resolved_identifier_node with
    | some resolved =>
      if result_projection_names.isEmpty
          && (resolve_identifier_expression_result.isResolvedFromJoinTree
              || resolve_identifier_expression_result.isResolvedFromExpressionArguments) then
        match s.node_to_projection_name.lookup resolved.addr with
        | some name => result_projection_names ++ [name]
        | none => result_projection_names
      else result_projection_names
    | none => result_projection_names
  let resolved_identifier_node ←
    if resolved_identifier_node.isNone && allow_lambda_expression then do
      let r ← R.tryResolveIdentifier
        { identifier := unresolved_identifier, lookup_context := .FUNCTION } scope {}
      pure r.resolved_identifier
    else pure resolved_identifier_node
  let resolved_identifier_node ←
    if resolved_identifier_node.isNone && allow_table_expression then do
      let r ← R.tryResolveIdentifier
        { identifier := unresolved_identifier, lookup_context := .TABLE_EXPRESSION } scope {}
      match r.resolved_identifier with
      | some original_cte_node =>
        if isCTENode original_cte_node then do
          let resolved ← RM.clone original_cte_node
          let resolved := clearIsCTE resolved
          let subquery_scope ← createIdentifierResolveScope resolved (some scope)
          let sc ← getScope scope
          RM.modifyScope subquery_scope (fun sub => { sub with
            subquery_depth := sc.subquery_depth + 1 })
          modify (fun s => { s with
            ctes_in_resolve_process := original_cte_node.addr :: s.ctes_in_resolve_process })
          let resolved ←
            match resolved with
            | .QUERY .. => R.resolveQuery resolved subquery_scope
            | _ => R.resolveUnion resolved subquery_scope
          modify (fun s => { s with
            ctes_in_resolve_process :=
              s.ctes_in_resolve_process.filter (fun a => a != original_cte_node.addr) })
          pure (some resolved)
        else pure (some original_cte_node)
      | none => pure none
    else pure resolved_identifier_node
  match resolved_identifier_node with
  | none => throw { code := .UNKNOWN_IDENTIFIER, args := [unresolved_identifier.getFullName] }
  | some node =>
    if node.getNodeType == .LIST then do
      let s ← get
      match s.resolved_expressions.lookup node.addr with
      | some names => pure (node, names)
      | none => throw { code := .LOGICAL_ERROR, args := [unresolved_identifier.getFullName] }
    else if result_projection_names.isEmpty then
      pure (node, result_projection_names ++ [unresolved_identifier.getFullName])
    else pure (node, result_projection_names)

/-- The `switch` of `resolveExpressionNode` over the kind of the node, up to the
`break`; `early` tells that the case returned from the function itself. -/
def resolveExpressionNodeSwitch (E : Collaborators) (R : Resolver) (node : QueryTreeNode)
    (scope : Nat) (allow_lambda_expression allow_table_expression : Bool)
    (result_projection_names : ProjectionNames) :
    RM ((QueryTreeNode × ProjectionNames) × Bool) :=
  match node with
  | .IDENTIFIER _ _ identifier_node => do
    let r ← resolveIdentifierNode R identifier_node scope allow_lambda_expression
      allow_table_expression result_projection_names
    pure (r, r.1.getNodeType == .LIST)
  | .MATCHER .. => do
    let r ← R.resolveMatcher node scope
    pure (r, false)
  | .LIST a al list_node => do
    let r ← R.resolveExpressionNodeList list_node.nodes scope allow_lambda_expression
      allow_lambda_expression
    pure ((.LIST a al { nodes := r.1 }, r.2), false)
  | .CONSTANT _ _ constant_node =>
    if result_projection_names.isEmpty then
      pure ((node, result_projection_names ++ [E.getValueStringRepresentation constant_node]),
        false)
    else pure ((node, result_projection_names), false)
  | .COLUMN a al column_node => do
    let node ←
      match column_node.expression with
      | some expression => do
        let r ← R.resolveExpressionNode expression scope false false false
        let sc ← getScope scope
        let column ← correctColumnExpressionType E
          (.COLUMN a al { column_node with expression := some r.1 }) sc.context
        RM.publish column
        pure column
      | none => pure node
    if result_projection_names.isEmpty then
      pure ((node, result_projection_names ++ [column_node.column_name]), false)
    else pure ((node, result_projection_names), false)
  | .FUNCTION .. => do
    let r ← R.resolveFunction node scope
    if result_projection_names.isEmpty || r.1.getNodeType == .LIST then pure (r, false)
    else pure ((r.1, result_projection_names), false)
  | .LAMBDA .. =>
    if !allow_lambda_expression then throw { code := .BAD_ARGUMENTS }
    else if result_projection_names.isEmpty then
      pure ((node, result_projection_names ++ [PROJECTION_NAME_PLACEHOLDER]), false)
    else pure ((node, result_projection_names), false)
  | .TABLE _ _ table_node =>
    if !allow_table_expression then throw { code := .BAD_ARGUMENTS }
    else if result_projection_names.isEmpty then
      pure ((node, result_projection_names ++ [table_node.storage_id]), false)
    else pure ((node, result_projection_names), false)
  | .QUERY .. | .UNION .. => do
    let subquery_scope ← createIdentifierResolveScope node (some scope)
    let sc ← getScope scope
    RM.modifyScope subquery_scope (fun sub => { sub with subquery_depth := sc.subquery_depth + 1 })
    let s ← get
    let projection_name := "_subquery_" ++ toString s.subquery_counter
    modify (fun s => { s with subquery_counter := s.subquery_counter + 1 })
    let node ←
      match node with
      | .QUERY .. => R.resolveQuery node subquery_scope
      | _ => R.resolveUnion node subquery_scope
    let is_correlated_subquery := isCorrelated node
    let node ←
      if !allow_table_expression && !is_correlated_subquery then
        R.evaluateScalarSubqueryIfNeeded node subquery_scope
      else pure node
    if result_projection_names.isEmpty then
      pure ((node, result_projection_names ++ [projection_name]), false)
    else pure ((node, result_projection_names), false)
  | _ => throw { code := .LOGICAL_ERROR }

/-- Embedding of `QueryAnalyzer::resolveExpressionNode`: the new content of the slot
`node` and the projection names. -/
def resolveExpressionNode (E : Collaborators) (R : Resolver) (node : QueryTreeNode)
    (scope : Nat) (allow_lambda_expression allow_table_expression ignore_alias : Bool) :
    RM (QueryTreeNode × ProjectionNames) := do
  let s ← get
  match s.resolved_expressions.lookup node.addr with
  | some names =>
    let node_type := node.getNodeType
    if !allow_table_expression && (node_type == .QUERY || node_type == .UNION) then do
      let subquery_scope ← createIdentifierResolveScope node (some scope)
      let sc ← getScope scope
      RM.modifyScope subquery_scope (fun sub => { sub with
        subquery_depth := sc.subquery_depth + 1 })
      let node ← R.evaluateScalarSubqueryIfNeeded node subquery_scope
      pure (node, names)
    else pure (node, names)
  | none =>
    let node_alias := node.getAlias
    let result_projection_names : ProjectionNames :=
      if node_alias.isEmpty then
        match s.node_to_projection_name.lookup node.addr with
        | some name => [name]
        | none => []
      else [node_alias]
    if !node_alias.isEmpty && !ignore_alias then
      RM.modifyScope scope (fun sc => { sc with
        aliases := { sc.aliases with
          node_to_remove_aliases := sc.aliases.node_to_remove_aliases ++ [node.addr] } })
    else pure ()
    pushExpressionNode E scope node
    let r ← resolveExpressionNodeSwitch E R node scope allow_lambda_expression
      allow_table_expression result_projection_names
    if r.2 then pure r.1
    else finishResolveExpressionNode E r.1.1 scope r.1.2

/-- The loop of `resolveExpressionNodeList`: the flattened nodes and the names so far. -/
def resolveExpressionNodeListLoop (R : Resolver) (scope : Nat)
    (allow_lambda_expression allow_table_expression : Bool) :
    QueryTreeNodes → QueryTreeNodes → ProjectionNames → RM (QueryTreeNodes × ProjectionNames)
  | [], result_nodes, result_projection_names => pure (result_nodes, result_projection_names)
  | node :: rest, result_nodes, result_projection_names => do
    let r ← R.resolveExpressionNode node scope allow_lambda_expression allow_table_expression
      false
    let node_to_resolve := r.1
    let expression_node_projection_names := r.2
    let expected_and_nodes : Nat × QueryTreeNodes :=
      match node_to_resolve with
      | .LIST _ _ expression_list =>
        (expression_list.nodes.length, result_nodes ++ expression_list.nodes)
      | _ => (1, result_nodes ++ [node_to_resolve])
    if expression_node_projection_names.length != expected_and_nodes.1 then
      throw { code := .LOGICAL_ERROR,
              args := [toString expected_and_nodes.1,
                       toString expression_node_projection_names.length] }
    else
      resolveExpressionNodeListLoop R scope allow_lambda_expression allow_table_expression rest
        expected_and_nodes.2 (result_projection_names ++ expression_node_projection_names)

/-- Embedding of `QueryAnalyzer::resolveExpressionNodeList` on the nodes of the list:
the nodes of the list afterwards and the projection names. -/
def resolveExpressionNodeList (R : Resolver) (node_list : QueryTreeNodes) (scope : Nat)
    (allow_lambda_expression allow_table_expression : Bool) :
    RM (QueryTreeNodes × ProjectionNames) :=
  resolveExpressionNodeListLoop R scope allow_lambda_expression allow_table_expression
    node_list [] []

end QueryAnalyzer

end DB

namespace DB

/-! ## Functions (`resolveFunction`) -/

/-- Modelled from the spec: `MatcherNode::isUnqualified` (the header is not among the
sources), the matcher has no qualifying identifier (`*` as against `t.*`). -/
def MatcherNode.isUnqualified {N : Type} (m : MatcherNode N) : Bool :=
  m.qualified_identifier.parts.isEmpty

/-- The local variables of `resolveFunction`.  The slot `node` and `function_node_ptr`
name the same object, which has the address `addr` and the alias `node_alias`. -/
structure FunctionFrame where
  addr : Nat
  node_alias : String
  function_node : FunctionNode QueryTreeNode
  function_name : String
  parameters_projection_names : ProjectionNames := []
  parameters : List Field := []
  lambda_expression_untyped : Option QueryTreeNode := none
  is_special_function_in : Bool := false
  is_special_function_dict_get : Bool := false
  is_special_function_join_get : Bool := false
  is_special_function_exists : Bool := false
  is_special_function_if : Bool := false
  arguments_projection_names : ProjectionNames := []
  argument_columns : List ColumnWithTypeAndName := []
  argument_types : List DataType := []
  all_arguments_constants : Bool := true
  function_lambda_arguments_indexes : List Nat := []
  result_projection_names : ProjectionNames := []

/-- The node in the slot `node`. -/
def FunctionFrame.node (frame : FunctionFrame) : QueryTreeNode :=
  .FUNCTION frame.addr frame.node_alias frame.function_node

/-- How a block of `resolveFunction` ends: the function goes on with the local
variables, or it has returned. -/
inductive FunctionStep where
  | next (frame : FunctionFrame)
  | done (node : QueryTreeNode) (result_projection_names : ProjectionNames)

/-- The parts of `QueryAnalyzer.cpp` that this development does not embed.  Each one is
given the member functions it may call. -/
structure Unmodelled where
  /-- The function `resolveQuery` after the check of the resolved marker. -/
  resolveQuerySections : Resolver → QueryTreeNode → Nat → RM QueryTreeNode
  /-- The function `resolveUnion` after the check of the resolved marker. -/
  resolveUnionQueries : Resolver → QueryTreeNode → Nat → RM QueryTreeNode
  /-- The function `resolveMatcher`. -/
  resolveMatcher : Resolver → QueryTreeNode → Nat → RM (QueryTreeNode × ProjectionNames)
  /-- The function `resolveLambda`. -/
  resolveLambda : Resolver → QueryTreeNode → QueryTreeNode → QueryTreeNodes → Nat →
    RM (QueryTreeNode × ProjectionNames)
  /-- The function `resolveWindow`. -/
  resolveWindow : Resolver → QueryTreeNode → Nat → RM (QueryTreeNode × String)
  /-- The function `rewriteAggregateFunctionNameIfNeeded`. -/
  rewriteAggregateFunctionNameIfNeeded : String → NullsAction → Context → String
  /-- The block of `resolveFunction` for `dictGet` and `joinGet` whose first argument is an
  identifier. -/
  resolveDictGetFirstArgument : Resolver → FunctionFrame → Nat → RM FunctionFrame
  /-- The block of `resolveFunction` for `if` with arguments. -/
  resolveConstantIf : Resolver → FunctionFrame → Nat → RM FunctionStep
  /-- The block of `resolveFunction` for `exists`. -/
  rewriteExists : Resolver → FunctionFrame → Nat → RM FunctionStep
  /-- The block of `resolveFunction` that masks secret arguments, given their start and
  count. -/
  maskSecretArguments : FunctionFrame → Nat × Nat → Nat → RM FunctionFrame
  /-- The block of `resolveFunction` that replaces the arguments of the `IN` functions. -/
  replaceInArguments : Resolver → FunctionFrame → Nat → RM FunctionFrame
  /-- The block of `resolveFunction` for a window function. -/
  resolveWindowFunction : Resolver → FunctionFrame → Nat → RM (QueryTreeNode × ProjectionNames)
  /-- The block of `resolveFunction` that resolves lambda arguments. -/
  resolveLambdaArguments :
    Resolver → FunctionOverloadResolver → FunctionFrame → Nat → RM FunctionFrame
  /-- The block of `resolveFunction` that creates the set column of the `IN` functions. -/
  createSetForIn : FunctionFrame → Nat → RM FunctionFrame

/-- Embedding of `checkFunctionNodeHasEmptyNullsAction`. -/
def checkFunctionNodeHasEmptyNullsAction (node : FunctionNode QueryTreeNode) :
    Except Exception Unit :=
  if node.nulls_action != .EMPTY then
    .error { code := .SYNTAX_ERROR, args := [node.function_name] }
  else .ok ()

/-- The function node resolved as an ordinary function, `resolveAsFunction`. -/
def FunctionNode.resolveAsFunction (f : FunctionNode QueryTreeNode) (function_base : FunctionBase) :
    FunctionNode QueryTreeNode :=
  { f with kind := .ORDINARY, result_type := some function_base.result_type }

/-- The function node resolved as an aggregate function, `resolveAsAggregateFunction`. -/
def FunctionNode.resolveAsAggregateFunction (f : FunctionNode QueryTreeNode)
    (result_type : DataType) : FunctionNode QueryTreeNode :=
  { f with kind := .AGGREGATE, result_type := some result_type }

namespace QueryAnalyzer

open RM

/-- The loops of `calculateFunctionProjectionName` that write names to the buffer, with
`", "` after every name but the last. -/
def writeProjectionNames : ProjectionNames → String → String
  | [], buffer => buffer
  | [name], buffer => buffer ++ name
  | name :: rest, buffer => writeProjectionNames rest (buffer ++ name ++ ", ")

/-- Embedding of `QueryAnalyzer::calculateFunctionProjectionName`. -/
def calculateFunctionProjectionName (function_node : FunctionNode QueryTreeNode)
    (parameters_projection_names arguments_projection_names : ProjectionNames) : String :=
  let function_node_name := function_node.function_name
  let is_array_function := function_node_name == "array"
  let is_tuple_function := function_node_name == "tuple"
  let buffer := ""
  let buffer := if !is_array_function && !is_tuple_function then buffer ++ function_node_name
    else buffer
  let buffer :=
    if !parameters_projection_names.isEmpty then
      writeProjectionNames parameters_projection_names (buffer ++ "(") ++ ")"
    else buffer
  let open_bracket := if is_array_function then "[" else "("
  let close_bracket := if is_array_function then "]" else ")"
  let buffer := buffer ++ open_bracket
  let buffer := writeProjectionNames arguments_projection_names buffer
  buffer ++ close_bracket

/-- The loop of `resolveFunction` that turns the parameters into constants. -/
def constantParameters (function_name : String) : QueryTreeNodes → Except Exception (List Field)
  | [] => .ok []
  | .CONSTANT _ _ constant_node :: rest =>
    match constantParameters function_name rest with
    | .ok parameters => .ok (constant_node.value :: parameters)
    | .error e => .error e
  | _ :: _ => .error { code := .BAD_ARGUMENTS, args := [function_name] }

/-- The start of `resolveFunction`: the parameters are resolved and the name of the
function is looked up as a lambda, unless the function has a window. -/
def resolveFunctionHead (R : Resolver) (addr : Nat) (node_alias : String)
    (function_node : FunctionNode QueryTreeNode) (scope : Nat) : RM FunctionFrame := do
  let function_name := function_node.function_name
  let r ← R.resolveExpressionNodeList function_node.parameters scope false false
  let function_node := { function_node with parameters := r.1 }
  RM.publish (.FUNCTION addr node_alias function_node)
  let parameters ← lift (constantParameters function_name function_node.parameters)
  let lambda_expression_untyped ←
    if !function_node.isWindowFunction then do
      let function_lookup_result ← R.tryResolveIdentifier
        { identifier := Identifier.ofString function_name, lookup_context := .FUNCTION } scope {}
      pure function_lookup_result.resolved_identifier
    else pure none
  pure { addr := addr, node_alias := node_alias, function_node := function_node,
         function_name := function_name, parameters_projection_names := r.2,
         parameters := parameters, lambda_expression_untyped := lambda_expression_untyped }

/-- The special handling of `count` and `countState`: a single argument that is an
unqualified matcher is removed. -/
def clearCountArguments (function_name : String) (function_node : FunctionNode QueryTreeNode) :
    FunctionNode QueryTreeNode :=
  let function_name_lowercase := toLower function_name
  if function_node.arguments.length == 1
      && (function_name_lowercase == "count" || function_name_lowercase == "countstate") then
    match function_node.arguments.head? with
    | some (.MATCHER _ _ matcher_node) =>
      if matcher_node.isUnqualified then { function_node with arguments := [] }
      else function_node
    | _ => function_node
  else function_node

/-- The block `if (!lambda_expression_untyped)` of `resolveFunction`: the flags of the
special functions and the special handling of `count`. -/
def specialFunctions (E : Collaborators) (frame : FunctionFrame) : FunctionFrame :=
  if frame.lambda_expression_untyped.isNone then
    { frame with
      is_special_function_in := E.isNameOfInFunction frame.function_name
      is_special_function_dict_get := E.functionIsDictGet frame.function_name
      is_special_function_join_get := E.functionIsJoinGet frame.function_name
      is_special_function_exists := frame.function_name == "exists"
      is_special_function_if := frame.function_name == "if"
      function_node := clearCountArguments frame.function_name frame.function_node }
  else frame

/-- The blocks of `resolveFunction` for `dictGet`/`joinGet`, `if` and `exists`. -/
def resolveSpecialForms (X : Unmodelled) (R : Resolver) (frame : FunctionFrame) (scope : Nat) :
    RM FunctionStep := do
  let frame ←
    if (frame.is_special_function_dict_get || frame.is_special_function_join_get)
        && !frame.function_node.arguments.isEmpty
        && (frame.function_node.arguments.head?.map QueryTreeNode.getNodeType)
            == some .IDENTIFIER then
      X.resolveDictGetFirstArgument R frame scope
    else pure frame
  let step ←
    if frame.is_special_function_if && !frame.function_node.arguments.isEmpty then
      X.resolveConstantIf R frame scope
    else pure (.next frame)
  match step with
  | .done node names => pure (.done node names)
  | .next frame =>
    if frame.is_special_function_exists then X.rewriteExists R frame scope
    else pure (.next frame)

/-- The blocks "Resolve function arguments", "Mask arguments if needed" and the
replacement of the arguments of `IN`. -/
def resolveFunctionArguments (E : Collaborators) (X : Unmodelled) (R : Resolver)
    (frame : FunctionFrame) (scope : Nat) : RM FunctionFrame := do
  let allow_table_expressions :=
    frame.is_special_function_in || frame.is_special_function_exists
  let r ← R.resolveExpressionNodeList frame.function_node.arguments scope true
    allow_table_expressions
  let frame := { frame with
    function_node := { frame.function_node with arguments := r.1 }
    arguments_projection_names := r.2 }
  RM.publish frame.node
  let sc ← getScope scope
  let frame ←
    if !sc.context.settings.format_display_secrets_in_show_and_select then
      let secret_arguments := E.findSecretArguments frame.function_node
      if secret_arguments.2 != 0 then X.maskSecretArguments frame secret_arguments scope
      else pure frame
    else pure frame
  if frame.is_special_function_in then X.replaceInArguments R frame scope
  else pure frame

/-- Body of the loop "Initialize function argument columns" for the argument with the
given index: the column, whether it is constant and whether it is a lambda. -/
def argumentColumn (E : Collaborators) (frame : FunctionFrame) (scope : Nat)
    (function_argument_index : Nat) (function_argument : QueryTreeNode) :
    RM (ColumnWithTypeAndName × Bool × Bool) := do
  let name := frame.arguments_projection_names.getD function_argument_index ""
  let type_and_lambda : Option DataType × Bool ←
    match function_argument with
    | .LAMBDA _ _ lambda_node =>
      pure (some (.Function (lambda_node.argument_names.map (fun _ => DataType.NullPtr)) none),
        true)
    | _ =>
      if frame.is_special_function_in && function_argument_index == 1 then
        pure (some DataType.Set, false)
      else do
        let t ← lift (function_argument.getResultType E)
        pure (t, false)
  match type_and_lambda.1 with
  | none => throw { code := .LOGICAL_ERROR, args := [frame.function_name] }
  | some type =>
    match function_argument with
    | .CONSTANT _ _ constant_node =>
      pure ({ name := name, type := constant_node.result_type,
              column := some constant_node.value }, true, type_and_lambda.2)
    | .FUNCTION _ _ get_scalar_function_node =>
      if get_scalar_function_node.function_name == "__getScalar" then
        match get_scalar_function_node.arguments.head? with
        | none => throw { code := .LOGICAL_ERROR }
        | some (.CONSTANT _ _ get_scalar_const_arg) => do
          let sc ← getScope scope
          let s ← get
          if sc.context.has_query_context then
            match s.query_context_scalars.lookup (E.fieldToString get_scalar_const_arg.value) with
            | some scalar =>
              match get_scalar_function_node.result_type with
              | some result_type =>
                pure ({ name := name, type := result_type,
                        column := (scalar.columns.head?.map (fun c => c.2.2)) },
                  true, type_and_lambda.2)
              | none => throw { code := .LOGICAL_ERROR }
            | none => pure ({ name := name, type := type, column := none }, false,
                type_and_lambda.2)
          else pure ({ name := name, type := type, column := none }, false, type_and_lambda.2)
        | some _ => pure ({ name := name, type := type, column := none }, false,
            type_and_lambda.2)
      else pure ({ name := name, type := type, column := none }, false, type_and_lambda.2)
    | _ => pure ({ name := name, type := type, column := none }, false, type_and_lambda.2)

/-- The loop "Initialize function argument columns". -/
def argumentColumnsLoop (E : Collaborators) (scope : Nat) :
    QueryTreeNodes → Nat → FunctionFrame → RM FunctionFrame
  | [], _, frame => pure frame
  | function_argument :: rest, function_argument_index, frame => do
    let r ← argumentColumn E frame scope function_argument_index function_argument
    let frame := { frame with
      function_lambda_arguments_indexes :=
        if r.2.2 then frame.function_lambda_arguments_indexes ++ [function_argument_index]
        else frame.function_lambda_arguments_indexes
      all_arguments_constants := frame.all_arguments_constants && r.2.1
      argument_types := frame.argument_types ++ [r.1.type]
      argument_columns := frame.argument_columns ++ [r.1] }
    argumentColumnsLoop E scope rest (function_argument_index + 1) frame

/-- Embedding of `QueryAnalyzer::tryGetLambdaFromSQLUserDefinedFunctions`. -/
def tryGetLambdaFromSQLUserDefinedFunctions (E : Collaborators) (function_name : String)
    (context : Context) : RM (Option QueryTreeNode) := do
  let s ← get
  match E.buildUserDefinedSQLFunction function_name context s.next_addr with
  | none => pure none
  | some built =>
    match s.function_name_to_user_defined_lambda.lookup function_name with
    | some lambda => pure (some lambda)
    | none =>
      if built.1.getNodeType != .LAMBDA then
        throw { code := .LOGICAL_ERROR, args := [function_name] }
      else do
        modify (fun s => { s with
          next_addr := built.2
          function_name_to_user_defined_lambda :=
            s.function_name_to_user_defined_lambda ++ [(function_name, built.1)] })
        pure (some built.1)

/-- The block of `resolveFunction` for a function resolved as a lambda. -/
def resolveFunctionAsLambda (R : Resolver) (frame : FunctionFrame) (scope : Nat)
    (lambda_expression_untyped : QueryTreeNode) : RM (QueryTreeNode × ProjectionNames) :=
  match lambda_expression_untyped with
  | .LAMBDA .. => do
    lift (checkFunctionNodeHasEmptyNullsAction frame.function_node)
    if !frame.parameters.isEmpty then
      throw { code := .FUNCTION_CANNOT_HAVE_PARAMETERS, args := [frame.function_name] }
    else do
      let lambda_expression_clone ← RM.clone lambda_expression_untyped
      let lambda_scope ← createIdentifierResolveScope lambda_expression_clone (some scope)
      let r ← R.resolveLambda lambda_expression_untyped lambda_expression_clone
        frame.function_node.arguments lambda_scope
      match r.1 with
      | .LAMBDA _ _ resolved_lambda =>
        let node := resolved_lambda.expression
        if node.getNodeType == .LIST then pure (node, r.2)
        else pure (node, frame.result_projection_names)
      | _ => throw { code := .LOGICAL_ERROR }
  | _ => throw { code := .LOGICAL_ERROR, args := [frame.function_node.function_name] }

/-- The loop of the `untuple` block that builds and resolves one `tupleElement` call
for each element name. -/
def untupleElements (R : Resolver) (scope : Nat) (untuple_argument : QueryTreeNode) :
    List String → RM QueryTreeNodes
  | [] => pure []
  | element_name :: rest => do
    let function_addr ← allocate
    let constant_addr ← allocate
    let tuple_element_function : QueryTreeNode :=
      .FUNCTION function_addr ""
        { function_name := "tupleElement", parameters := [],
          arguments := [untuple_argument,
            .CONSTANT constant_addr ""
              { value := .String element_name, result_type := .String,
                source_expression := none }],
          window := none, kind := .UNKNOWN, result_type := none }
    let r ← R.resolveFunction tuple_element_function scope
    let nodes ← untupleElements R scope untuple_argument rest
    pure (r.1 :: nodes)

/-- The block of `resolveFunction` for `untuple`. -/
def resolveUntuple (E : Collaborators) (R : Resolver) (frame : FunctionFrame) (scope : Nat) :
    RM (QueryTreeNode × ProjectionNames) :=
  match frame.function_node.arguments with
  | [untuple_argument] => do
    lift (checkFunctionNodeHasEmptyNullsAction frame.function_node)
    if untuple_argument.getNodeType == .LAMBDA then
      throw { code := .ILLEGAL_TYPE_OF_ARGUMENT }
    else do
      let result_type ← lift (untuple_argument.getResultType E)
      match result_type with
      | some (.Tuple _ element_names) => do
        let nodes ← untupleElements R scope untuple_argument element_names
        let list_addr ← allocate
        let untuple_argument_projection_name := frame.arguments_projection_names.getD 0 ""
        let result_projection_names := element_names.map (fun element_name =>
          if frame.node.hasAlias then frame.node.getAlias ++ "." ++ element_name
          else "tupleElement(" ++ untuple_argument_projection_name ++ ", '" ++ element_name
            ++ "')")
        pure (.LIST list_addr "" { nodes := nodes }, result_projection_names)
      | _ => throw { code := .UNSUPPORTED_METHOD }
  | _ => throw { code := .UNSUPPORTED_METHOD }

/-- The block of `resolveFunction` for `grouping`. -/
def resolveGrouping (E : Collaborators) (frame : FunctionFrame) (scope : Nat) :
    RM (QueryTreeNode × ProjectionNames) := do
  let function_arguments_size := frame.function_node.arguments.length
  if function_arguments_size == 0 then throw { code := .TOO_FEW_ARGUMENTS_FOR_FUNCTION }
  else if function_arguments_size > 64 then
    throw { code := .TOO_MANY_ARGUMENTS_FOR_FUNCTION, args := [toString function_arguments_size] }
  else do
    lift (checkFunctionNodeHasEmptyNullsAction frame.function_node)
    let sc ← getScope scope
    let function_base ← lift (E.buildGroupingFunction
      sc.context.settings.force_grouping_standard_compatibility frame.argument_columns)
    let frame := { frame with
      function_node := frame.function_node.resolveAsFunction function_base }
    RM.publish frame.node
    pure (frame.node, frame.result_projection_names)

/-- The blocks of `resolveFunction` tried while the function is not a window function:
a lambda of the scope or of a SQL user defined function, `untuple`, `grouping`. -/
def resolveAsLambdaUntupleOrGrouping (E : Collaborators) (R : Resolver)
    (frame : FunctionFrame) (scope : Nat) : RM FunctionStep := do
  let sc ← getScope scope
  let lambda_expression_untyped ←
    match frame.lambda_expression_untyped with
    | some lambda => pure (some lambda)
    | none =>
      tryGetLambdaFromSQLUserDefinedFunctions E frame.function_node.function_name sc.context
  let frame := { frame with lambda_expression_untyped := lambda_expression_untyped }
  match lambda_expression_untyped with
  | some lambda => do
    let r ← resolveFunctionAsLambda R frame scope lambda
    pure (.done r.1 r.2)
  | none =>
    if frame.function_name == "untuple" then do
      let r ← resolveUntuple E R frame scope
      pure (.done r.1 r.2)
    else if frame.function_name == "grouping" then do
      let r ← resolveGrouping E frame scope
      pure (.done r.1 r.2)
    else pure (.next frame)

/-- The block of `resolveFunction` for a name that no function factory knows: the
function is resolved as an aggregate function. -/
def resolveAsAggregateFunction (E : Collaborators) (X : Unmodelled) (frame : FunctionFrame)
    (scope : Nat) : RM (QueryTreeNode × ProjectionNames) :=
  if !E.isAggregateFunctionName frame.function_name then
    throw { code := .UNKNOWN_FUNCTION, args := [frame.function_name] }
  else if !frame.function_lambda_arguments_indexes.isEmpty then
    throw { code := .UNSUPPORTED_METHOD, args := [frame.function_name] }
  else do
    let sc ← getScope scope
    let action := frame.function_node.nulls_action
    let aggregate_function_name :=
      X.rewriteAggregateFunctionNameIfNeeded frame.function_name action sc.context
    let result_type ← lift (E.getAggregateFunction aggregate_function_name action
      frame.argument_types frame.parameters sc.context)
    let frame := { frame with
      function_node := frame.function_node.resolveAsAggregateFunction result_type }
    RM.publish frame.node
    pure (frame.node, frame.result_projection_names)

/-- The size above which a constant is not folded, `1_MiB`. -/
def ONE_MiB : Nat := 1048576

/-- The block of `resolveFunction` inside `try`: the function is built and, when it is
suitable for constant folding, executed; the result is the resolved function node and
the constant that replaces it, if any. -/
def buildAndFoldFunction (E : Collaborators) (function : FunctionOverloadResolver)
    (function_cache : Option (Nat × ResolvedFunctionsCache)) (frame : FunctionFrame)
    (scope : Nat) : RM (FunctionFrame × Option (ConstantNode QueryTreeNode)) := do
  let function_base ←
    match function_cache with
    | some (hash, cache) =>
      match cache.function_base with
      | some cached_function => pure cached_function
      | none => do
        let built ← lift (function.build frame.argument_columns)
        RM.modifyScope scope (fun sc => { sc with
          functions_cache := (hash, { cache with function_base := some built }) ::
            sc.functions_cache.filter (fun e => e.1 != hash) })
        pure built
    | none => lift (function.build frame.argument_columns)
  let column ←
    if function_base.is_suitable_for_constant_folding then do
      let column ←
        if frame.all_arguments_constants then lift (function_base.execute frame.argument_columns)
        else lift (function_base.getConstantResultForNonConstArguments frame.argument_columns)
      match column with
      | some c =>
        if !c.data_type_matches then throw { code := .LOGICAL_ERROR }
        else pure (some c)
      | none => pure none
    else pure none
  let resolved := { frame with
    function_node := frame.function_node.resolveAsFunction function_base }
  let constant_node : Option (ConstantNode QueryTreeNode) :=
    match column with
    | some c =>
      if c.is_const && !c.is_dummy && !E.hasAggregateFunctionNodes frame.node
          && !E.hasFunctionNode frame.node "arrayJoin" && c.byte_size < ONE_MiB then
        some { value := c.value, result_type := function_base.result_type,
               source_expression := some resolved.node }
      else none
    | none => none
  RM.publish resolved.node
  pure (resolved, constant_node)

/-- The end of `resolveFunction`, from the lookup of an executable user defined
function on: an ordinary or an aggregate function is built, and folded if it can be. -/
def resolveAsOrdinaryOrAggregate (E : Collaborators) (X : Unmodelled) (R : Resolver)
    (frame : FunctionFrame) (scope : Nat) : RM (QueryTreeNode × ProjectionNames) := do
  let sc ← getScope scope
  let executable ← lift (E.tryGetUserDefinedExecutableFunction frame.function_name sc.context
    frame.parameters)
  let function_and_cache :
      Option FunctionOverloadResolver × Option (Nat × ResolvedFunctionsCache) × Bool ←
    match executable with
    | some function => pure (some function, none, true)
    | none => do
      let hash := E.getTreeHash frame.node
      let cache : ResolvedFunctionsCache := (sc.functions_cache.lookup hash).getD {}
      let cache : ResolvedFunctionsCache :=
        match cache.resolver with
        | some _ => cache
        | none => { cache with resolver := E.tryGetFunction frame.function_name sc.context }
      RM.modifyScope scope (fun sc => { sc with
        functions_cache := (hash, cache) :: sc.functions_cache.filter (fun e => e.1 != hash) })
      pure (cache.resolver, some (hash, cache), false)
  match function_and_cache.1 with
  | none => resolveAsAggregateFunction E X frame scope
  | some function => do
    lift (checkFunctionNodeHasEmptyNullsAction frame.function_node)
    let is_executable_udf := function_and_cache.2.2
    if !frame.parameters.isEmpty && !is_executable_udf then
      throw { code := .FUNCTION_CANNOT_HAVE_PARAMETERS, args := [frame.function_name] }
    else do
      let frame ←
        if !frame.function_lambda_arguments_indexes.isEmpty then do
          let frame ← X.resolveLambdaArguments R function frame scope
          pure { frame with
            result_projection_names :=
              [calculateFunctionProjectionName frame.function_node
                frame.parameters_projection_names frame.arguments_projection_names] }
        else pure frame
      let frame ←
        if frame.is_special_function_in then X.createSetForIn frame scope else pure frame
      let r ← buildAndFoldFunction E function function_and_cache.2.1 frame scope
      match r.2 with
      | some constant_node => do
        let constant_addr ← allocate
        pure (.CONSTANT constant_addr "" constant_node, r.1.result_projection_names)
      | none => pure (r.1.node, r.1.result_projection_names)

/-- The function `resolveFunction` from the block of the special functions on, that is
after the parameters are resolved and the name is looked up as a lambda. -/
def resolveFunctionBody (E : Collaborators) (X : Unmodelled) (R : Resolver)
    (frame : FunctionFrame) (scope : Nat) : RM (QueryTreeNode × ProjectionNames) := do
  let frame := specialFunctions E frame
  RM.publish frame.node
  let step ← resolveSpecialForms X R frame scope
  match step with
  | .done node names => pure (node, names)
  | .next frame => do
    let frame ← resolveFunctionArguments E X R frame scope
    let frame ← argumentColumnsLoop E scope frame.function_node.arguments 0 frame
    let frame := { frame with
      result_projection_names :=
        [calculateFunctionProjectionName frame.function_node
          frame.parameters_projection_names frame.arguments_projection_names] }
    if frame.function_node.isWindowFunction then
      X.resolveWindowFunction R frame scope
    else do
      let step ← resolveAsLambdaUntupleOrGrouping E R frame scope
      match step with
      | .done node names => pure (node, names)
      | .next frame => resolveAsOrdinaryOrAggregate E X R frame scope

/-- Embedding of `QueryAnalyzer::resolveFunction`: the new content of the slot `node` and
the projection names. -/
def resolveFunction (E : Collaborators) (X : Unmodelled) (R : Resolver) (node : QueryTreeNode)
    (scope : Nat) : RM (QueryTreeNode × ProjectionNames) :=
  match node with
  | .FUNCTION addr node_alias function_node => do
    let frame ← resolveFunctionHead R addr node_alias function_node scope
    resolveFunctionBody E X R frame scope
  | _ => throw { code := .LOGICAL_ERROR }

end QueryAnalyzer

end DB

namespace DB

/-! ## Queries, unions and scalar subqueries -/

/-- Modelled from the spec: `QueryNode::isResolved` (the header is not among the
sources), the "resolved-marker" of a query node: its projection columns have been set,
which is the last step of `resolveQuery`. -/
def QueryNode.isResolved {N : Type} (q : QueryNode N) : Bool := !q.projection_columns.isEmpty

/-- Modelled from the spec: `UnionNode::isResolved` (the header is not among the
sources), the "resolved-marker" of a union node. -/
def UnionNode.isResolved {N : Type} (u : UnionNode N) : Bool := u.is_resolved

mutual
/-- Some table node of the subtree satisfies the test; the subtree is walked through the
children of each node, as `node->getChildren()` lists them. -/
def QueryTreeNode.anyTableNode (p : TableNode → Bool) : QueryTreeNode → Bool
  | .IDENTIFIER .. => false
  | .MATCHER _ _ n => QueryTreeNode.anyTableNodeList p n.column_transformers
  | .TRANSFORMER _ _ n => QueryTreeNode.anyTableNodeList p n.expressions
  | .LIST _ _ n => QueryTreeNode.anyTableNodeList p n.nodes
  | .CONSTANT .. => false
  | .FUNCTION _ _ n =>
    QueryTreeNode.anyTableNodeList p n.parameters || QueryTreeNode.anyTableNodeList p n.arguments
      || QueryTreeNode.anyTableNodeOpt p n.window
  | .COLUMN _ _ n => QueryTreeNode.anyTableNodeOpt p n.expression
  | .LAMBDA _ _ n => QueryTreeNode.anyTableNode p n.expression
  | .SORT _ _ n =>
    QueryTreeNode.anyTableNode p n.expression || QueryTreeNode.anyTableNodeOpt p n.fill_from
      || QueryTreeNode.anyTableNodeOpt p n.fill_to || QueryTreeNode.anyTableNodeOpt p n.fill_step
  | .INTERPOLATE _ _ n =>
    QueryTreeNode.anyTableNode p n.expression
      || QueryTreeNode.anyTableNode p n.interpolate_expression
  | .WINDOW _ _ n =>
    QueryTreeNode.anyTableNodeList p n.partition_by || QueryTreeNode.anyTableNodeList p n.order_by
  | .TABLE _ _ n => p n
  | .TABLE_FUNCTION _ _ n => QueryTreeNode.anyTableNodeList p n.arguments
  | .QUERY _ _ n =>
    QueryTreeNode.anyTableNodeList p n.with_nodes || QueryTreeNode.anyTableNodeList p n.projection
      || QueryTreeNode.anyTableNodeOpt p n.join_tree || QueryTreeNode.anyTableNodeOpt p n.prewhere
      || QueryTreeNode.anyTableNodeOpt p n.where_ || QueryTreeNode.anyTableNodeList p n.group_by
      || QueryTreeNode.anyTableNodeOpt p n.having || QueryTreeNode.anyTableNodeList p n.window
      || QueryTreeNode.anyTableNodeOpt p n.qualify || QueryTreeNode.anyTableNodeList p n.order_by
      || QueryTreeNode.anyTableNodeOpt p n.interpolate
      || QueryTreeNode.anyTableNodeOpt p n.limit_by_limit
      || QueryTreeNode.anyTableNodeOpt p n.limit_by_offset
      || QueryTreeNode.anyTableNodeList p n.limit_by || QueryTreeNode.anyTableNodeOpt p n.limit
      || QueryTreeNode.anyTableNodeOpt p n.offset
  | .ARRAY_JOIN _ _ n =>
    QueryTreeNode.anyTableNode p n.table_expression
      || QueryTreeNode.anyTableNodeList p n.join_expressions
  | .CROSS_JOIN _ _ n => QueryTreeNode.anyTableNodeList p n.table_expressions
  | .JOIN _ _ n =>
    QueryTreeNode.anyTableNode p n.left_table_expression
      || QueryTreeNode.anyTableNode p n.right_table_expression
      || QueryTreeNode.anyTableNodeOpt p n.join_expression
  | .UNION _ _ n => QueryTreeNode.anyTableNodeList p n.queries
/-- Some table node below one of the nodes satisfies the test. -/
def QueryTreeNode.anyTableNodeList (p : TableNode → Bool) : List QueryTreeNode → Bool
  | [] => false
  | x :: xs => QueryTreeNode.anyTableNode p x || QueryTreeNode.anyTableNodeList p xs
/-- Some table node below the optional child satisfies the test. -/
def QueryTreeNode.anyTableNodeOpt (p : TableNode → Bool) : Option QueryTreeNode → Bool
  | none => false
  | some x => QueryTreeNode.anyTableNode p x
end

/-- Embedding of `subtreeHasViewSource(node, context)` for a context with the view
source `view_source`. -/
def subtreeHasViewSource (node : QueryTreeNode) (view_source : String) : Bool :=
  node.anyTableNode (fun table_node => table_node.storage_id == view_source)

/-- A block pulled from the pipeline of a scalar subquery: the number of its rows and,
for each column, its name, its type and its value in the first row. -/
structure PulledBlock where
  rows : Nat
  columns : List (String × DataType × Field)

/-- What the interpreter of a scalar subquery gives: the columns of its sample block and
the blocks its pipeline yields. -/
structure ScalarSubqueryExecution where
  sample_block : List (String × DataType)
  blocks : List PulledBlock

/-- The collaborators of `evaluateScalarSubqueryIfNeeded`: the interpreter and helpers
of data types and blocks. -/
structure ScalarCollaborators where
  /-- The interpreter `InterpreterSelectQueryAnalyzer` built for the query tree (after
  the query tree passes) in the subquery context, and its execution unless the query is
  only analyzed. -/
  interpret : QueryTreeNode → Context → Nat → Bool → Except Exception ScalarSubqueryExecution
  /-- The method `IDataType::canBeInsideNullable`. -/
  canBeInsideNullable : DataType → Bool
  /-- The names after `makeUniqueColumnNamesInBlock`. -/
  makeUniqueColumnNames : List String → List String
  /-- The default value that `insertDefault` puts into a column of the type. -/
  defaultValue : DataType → Field
  /-- The family name of a type, `IDataType::getFamilyName`. -/
  getFamilyName : DataType → String

end DB

namespace DB

namespace QueryAnalyzer

open RM

/-- The lambda `wrap_with_nullable_or_tuple` of `evaluateScalarSubqueryIfNeeded`. -/
def wrapWithNullableOrTuple (S : ScalarCollaborators) (block : Block) : Block :=
  match block.columns with
  | [(name, type, value)] =>
    if !type.isNullable && S.canBeInsideNullable type then
      { columns := [(name, .Nullable type, value)] }
    else block
  | columns =>
    { columns := [("tuple",
        .Tuple (columns.map (fun c => c.2.1)) (S.makeUniqueColumnNames (columns.map (fun c => c.1))),
        .Tuple (columns.map (fun c => c.2.2)))] }

/-- The loop `while (block.rows() == 0 && executor.pull(block))`: the first block with
rows, if any, and the blocks not pulled yet. -/
def pullNonEmpty : List PulledBlock → Option PulledBlock × List PulledBlock
  | [] => (none, [])
  | block :: rest => if block.rows == 0 then pullNonEmpty rest else (some block, rest)

/-- The scalar block of a subquery that has been executed: a typed `NULL` when there is
no row, the row when there is exactly one, an exception otherwise. -/
def scalarBlockOfExecution (S : ScalarCollaborators) (execution : ScalarSubqueryExecution) :
    Except Exception Block :=
  match pullNonEmpty execution.blocks with
  | (none, _) =>
    let types := execution.sample_block.map (fun c => c.2)
    let type : DataType :=
      match types with
      | [type] => type
      | _ => .Tuple types ((List.range types.length).map (fun i => toString (i + 1)))
    if !type.isNullable then
      if !S.canBeInsideNullable type then
        .error { code := .INCORRECT_RESULT_OF_SCALAR_SUBQUERY }
      else .ok { columns := [("null", .Nullable type, .Null)] }
    else .ok { columns := [("null", type, .Null)] }
  | (some block, rest) =>
    if block.rows != 1 then .error { code := .INCORRECT_RESULT_OF_SCALAR_SUBQUERY }
    else
      match pullNonEmpty rest with
      | (some _, _) => .error { code := .INCORRECT_RESULT_OF_SCALAR_SUBQUERY }
      | (none, _) => .ok (wrapWithNullableOrTuple S { columns := block.columns })

/-- The scalar block of a subquery that is only analyzed: the sample block with a
default value in each column. -/
def scalarBlockOfSample (S : ScalarCollaborators) (execution : ScalarSubqueryExecution) : Block :=
  wrapWithNullableOrTuple S
    { columns := execution.sample_block.map (fun c => (c.1, c.2, S.defaultValue c.2)) }

/-- The test `can_use_global_scalars` of `evaluateScalarSubqueryIfNeeded`. -/
def canUseGlobalScalars (only_analyze : Bool) (context : Context)
    (node_without_alias : QueryTreeNode) : Bool :=
  !only_analyze &&
    !(match context.view_source with
      | some view_source => subtreeHasViewSource node_without_alias view_source
      | none => false)

/-- The index of the nearest scope of a query node, `getNearestQueryScope`; the first
argument bounds the length of the chain of scopes. -/
def nearestQueryScope (self : QueryAnalyzer) : Nat → Nat → Option Nat
  | 0, _ => none
  | fuel + 1, id =>
    let sc := self.scopes id
    if sc.scope_node.getNodeType == .QUERY then some id
    else
      match sc.parent_scope with
      | none => none
      | some parent => nearestQueryScope self fuel parent

/-- The types for which a scalar is not turned into a literal, `useless_literal_types`. -/
def useless_literal_types : List String :=
  ["Array", "Tuple", "AggregateFunction", "Function", "Set", "LowCardinality"]

/-- The branch of `evaluateScalarSubqueryIfNeeded` taken when neither the cache of the
analyzer nor the query context has the scalar: an interpreter is built and, unless the
query is only analyzed, executed; the scalar is stored in the cache. -/
def computeScalarSubquery (S : ScalarCollaborators) (node : QueryTreeNode) (scope : Nat)
    (hash : Nat) (can_use_global_scalars : Bool) : RM Block := do
  modify (fun s => { s with
    events := { s.events with ScalarSubqueriesCacheMiss := s.events.ScalarSubqueriesCacheMiss + 1 } })
  let sc ← getScope scope
  let subquery_context : Context := { sc.context with
    settings := { sc.context.settings with
      max_result_rows := 1, extremes := false, implicit_table_at_top_level := "",
      use_structure_from_insertion_table_in_table_functions := 0 } }
  let query_tree ← RM.clone node
  let s ← get
  modify (fun s => { s with
    events := { s.events with interpreters_built := s.events.interpreters_built + 1 } })
  let execution ← lift (S.interpret query_tree subquery_context sc.subquery_depth s.only_analyze)
  let scalar_block ←
    if s.only_analyze then pure (scalarBlockOfSample S execution)
    else lift (scalarBlockOfExecution S execution)
  modify (fun s =>
    if can_use_global_scalars then
      match s.scalar_subquery_to_scalar_value_global.lookup hash with
      | some _ => s
      | none => { s with
          scalar_subquery_to_scalar_value_global :=
            s.scalar_subquery_to_scalar_value_global ++ [(hash, scalar_block)] }
    else
      match s.scalar_subquery_to_scalar_value_local.lookup hash with
      | some _ => s
      | none => { s with
          scalar_subquery_to_scalar_value_local :=
            s.scalar_subquery_to_scalar_value_local ++ [(hash, scalar_block)] })
  if can_use_global_scalars && sc.context.has_query_context then
    modify (fun s => { s with
      query_context_scalars :=
        (toString hash, scalar_block) ::
          s.query_context_scalars.filter (fun e => e.1 != toString hash) })
  else pure ()
  pure scalar_block

/-- The first part of `evaluateScalarSubqueryIfNeeded`: the scalar block of the
subquery, from a cache or computed, and the hash of the subquery without its alias. -/
def scalarBlockOfSubquery (E : Collaborators) (S : ScalarCollaborators) (node : QueryTreeNode)
    (scope : Nat) : RM (Block × Nat) := do
  let node_without_alias ← RM.clone node
  let node_without_alias := node_without_alias.removeAlias
  let hash := E.getTreeHash node_without_alias
  let str_hash := toString hash
  let sc ← getScope scope
  let s ← get
  let can_use_global_scalars := canUseGlobalScalars s.only_analyze sc.context node_without_alias
  let scalars_cache :=
    if can_use_global_scalars then s.scalar_subquery_to_scalar_value_global
    else s.scalar_subquery_to_scalar_value_local
  match scalars_cache.lookup hash with
  | some scalar_block => do
    modify (fun s => { s with
      events :=
        if can_use_global_scalars then { s.events with
          ScalarSubqueriesGlobalCacheHit := s.events.ScalarSubqueriesGlobalCacheHit + 1 }
        else { s.events with
          ScalarSubqueriesLocalCacheHit := s.events.ScalarSubqueriesLocalCacheHit + 1 } })
    pure (scalar_block, hash)
  | none =>
    match (if sc.context.has_query_context && can_use_global_scalars then
        s.query_context_scalars.lookup str_hash else none) with
    | some scalar_block => do
      modify (fun s => { s with
        scalar_subquery_to_scalar_value_global :=
          match s.scalar_subquery_to_scalar_value_global.lookup hash with
          | some _ => s.scalar_subquery_to_scalar_value_global
          | none => s.scalar_subquery_to_scalar_value_global ++ [(hash, scalar_block)]
        events := { s.events with
          ScalarSubqueriesGlobalCacheHit := s.events.ScalarSubqueriesGlobalCacheHit + 1 } })
      pure (scalar_block, hash)
    | none => do
      let scalar_block ← computeScalarSubquery S node scope hash can_use_global_scalars
      pure (scalar_block, hash)

/-- The second part of `evaluateScalarSubqueryIfNeeded`: the node that replaces the
subquery, a constant or a call of `__getScalar`. -/
def replaceSubqueryByScalar (E : Collaborators) (S : ScalarCollaborators)
    (node : QueryTreeNode) (scope : Nat) (scalar_block : Block) (hash : Nat) :
    RM QueryTreeNode := do
  match scalar_block.columns.head? with
  | none => throw { code := .LOGICAL_ERROR }
  | some (_, scalar_type, scalar_value) =>
    let sc ← getScope scope
    let s ← get
    let nearest_query_scope := s.nearestQueryScope (s.next_scope + 1) scope
    let scalar_type_name := S.getFamilyName scalar_type
    if !sc.context.settings.enable_scalar_subquery_optimization
        || !useless_literal_types.contains scalar_type_name
        || !sc.context.has_query_context || nearest_query_scope.isNone then do
      let constant_addr ← allocate
      let constant_node : QueryTreeNode :=
        .CONSTANT constant_addr ""
          { value := scalar_value, result_type := scalar_type, source_expression := some node }
      match scalar_value with
      | .Null => do
        let s ← get
        let cast := E.buildCastFunction constant_node scalar_type sc.context s.next_addr
        modify (fun s => { s with next_addr := cast.2 })
        let constant_addr ← allocate
        pure (.CONSTANT constant_addr ""
          { value := scalar_value, result_type := scalar_type, source_expression := some cast.1 })
      | _ => pure constant_node
    else do
      let scalar_query_hash_string :=
        toString hash ++ (if s.only_analyze then "_analyze" else "")
      let mutable_context_scope := nearest_query_scope.getD scope
      let mutable_context := (s.scopes mutable_context_scope).context
      if mutable_context.has_query_context then
        modify (fun s => { s with
          query_context_scalars :=
            (scalar_query_hash_string, scalar_block) ::
              s.query_context_scalars.filter (fun e => e.1 != scalar_query_hash_string) })
      else pure ()
      modify (fun s => { s with
        context_scalars :=
          (mutable_context_scope, scalar_query_hash_string, scalar_block) :: s.context_scalars })
      let constant_addr ← allocate
      let function_addr ← allocate
      let scalar_query_hash_constant_node : QueryTreeNode :=
        .CONSTANT constant_addr ""
          { value := .String scalar_query_hash_string, result_type := .String,
            source_expression := none }
      let get_scalar_function_node : FunctionNode QueryTreeNode :=
        { function_name := "__getScalar", parameters := [],
          arguments := [scalar_query_hash_constant_node], window := none, kind := .UNKNOWN,
          result_type := none }
      match E.tryGetFunction "__getScalar" mutable_context with
      | none => throw { code := .UNKNOWN_FUNCTION, args := ["__getScalar"] }
      | some get_scalar_function => do
        let function_base ← lift (get_scalar_function.build
          [{ name := "", type := .String, column := some (.String scalar_query_hash_string) }])
        pure (.FUNCTION function_addr "" (get_scalar_function_node.resolveAsFunction function_base))

/-- Embedding of `QueryAnalyzer::evaluateScalarSubqueryIfNeeded`: the new content of the
slot `node`. -/
def evaluateScalarSubqueryIfNeeded (E : Collaborators) (S : ScalarCollaborators)
    (node : QueryTreeNode) (scope : Nat) : RM QueryTreeNode :=
  if node.getNodeType != .QUERY && node.getNodeType != .UNION then
    throw { code := .LOGICAL_ERROR }
  else if isCorrelated node then throw { code := .BAD_ARGUMENTS }
  else do
    let r ← scalarBlockOfSubquery E S node scope
    replaceSubqueryByScalar E S node scope r.1 r.2

/-- Embedding of `QueryAnalyzer::resolveQuery`: the query node afterwards.  The steps
after the check of the resolved marker are `X.resolveQuerySections`. -/
def resolveQuery (X : Unmodelled) (R : Resolver) (query_node : QueryTreeNode) (scope : Nat) :
    RM QueryTreeNode := do
  let sc ← getScope scope
  let max_subquery_depth := sc.context.settings.max_subquery_depth
  if max_subquery_depth != 0 && sc.subquery_depth > max_subquery_depth then
    throw { code := .TOO_DEEP_SUBQUERIES, args := [toString max_subquery_depth] }
  else
    match query_node with
    | .QUERY _ _ query_node_typed =>
      if query_node_typed.isResolved then pure query_node
      else X.resolveQuerySections R query_node scope
    | _ => throw { code := .LOGICAL_ERROR }

/-- Embedding of `QueryAnalyzer::resolveUnion`: the union node afterwards.  The steps
after the check of the resolved marker are `X.resolveUnionQueries`. -/
def resolveUnion (X : Unmodelled) (R : Resolver) (union_node : QueryTreeNode) (scope : Nat) :
    RM QueryTreeNode :=
  match union_node with
  | .UNION _ _ union_node_typed =>
    if union_node_typed.isResolved then pure union_node
    else X.resolveUnionQueries R union_node scope
  | _ => throw { code := .LOGICAL_ERROR }

/-- The member functions when the call stack has no room left: each call ends with the
exception of `checkStackSize`. -/
def stackExhausted : Resolver where
  resolveExpressionNode := fun _ _ _ _ _ => throw { code := .TOO_DEEP_RECURSION }
  resolveExpressionNodeList := fun _ _ _ _ => throw { code := .TOO_DEEP_RECURSION }
  resolveFunction := fun _ _ => throw { code := .TOO_DEEP_RECURSION }
  tryResolveIdentifier := fun _ _ _ => throw { code := .TOO_DEEP_RECURSION }
  tryResolveIdentifierFromAliases := fun _ _ _ => throw { code := .TOO_DEEP_RECURSION }
  tryResolveIdentifierInParentScopes := fun _ _ _ => throw { code := .TOO_DEEP_RECURSION }
  resolveQuery := fun _ _ => throw { code := .TOO_DEEP_RECURSION }
  resolveUnion := fun _ _ => throw { code := .TOO_DEEP_RECURSION }
  evaluateScalarSubqueryIfNeeded := fun _ _ => throw { code := .TOO_DEEP_RECURSION }
  resolveMatcher := fun _ _ => throw { code := .TOO_DEEP_RECURSION }
  resolveLambda := fun _ _ _ _ => throw { code := .TOO_DEEP_RECURSION }
  resolveWindow := fun _ _ => throw { code := .TOO_DEEP_RECURSION }

/-- The member functions of the analyzer with room for `stack` nested calls: a call runs
the body of the function, and the calls it makes have room for one call less. -/
def resolver (E : Collaborators) (S : ScalarCollaborators) (X : Unmodelled) : Nat → Resolver
  | 0 => stackExhausted
  | stack + 1 =>
    { resolveExpressionNode := resolveExpressionNode E (resolver E S X stack)
      resolveExpressionNodeList := resolveExpressionNodeList (resolver E S X stack)
      resolveFunction := resolveFunction E X (resolver E S X stack)
      tryResolveIdentifier := tryResolveIdentifier E (resolver E S X stack)
      tryResolveIdentifierFromAliases := tryResolveIdentifierFromAliases E (resolver E S X stack)
      tryResolveIdentifierInParentScopes :=
        tryResolveIdentifierInParentScopes E (resolver E S X stack)
      resolveQuery := resolveQuery X (resolver E S X stack)
      resolveUnion := resolveUnion X (resolver E S X stack)
      evaluateScalarSubqueryIfNeeded := evaluateScalarSubqueryIfNeeded E S
      resolveMatcher := X.resolveMatcher (resolver E S X stack)
      resolveLambda := X.resolveLambda (resolver E S X stack)
      resolveWindow := X.resolveWindow (resolver E S X stack) }

end QueryAnalyzer

end DB

namespace DB

namespace Example

open QueryAnalyzer

/-- The parts of the analyzer outside the embedding, answering with `NOT_IMPLEMENTED`
(and leaving a function name as it is). -/
def unmodelled : Unmodelled where
  resolveQuerySections := fun _ _ _ => RM.throw { code := .NOT_IMPLEMENTED }
  resolveUnionQueries := fun _ _ _ => RM.throw { code := .NOT_IMPLEMENTED }
  resolveMatcher := fun _ _ _ => RM.throw { code := .NOT_IMPLEMENTED }
  resolveLambda := fun _ _ _ _ _ => RM.throw { code := .NOT_IMPLEMENTED }
  resolveWindow := fun _ _ _ => RM.throw { code := .NOT_IMPLEMENTED }
  rewriteAggregateFunctionNameIfNeeded := fun name _ _ => name
  resolveDictGetFirstArgument := fun _ _ _ => RM.throw { code := .NOT_IMPLEMENTED }
  resolveConstantIf := fun _ _ _ => RM.throw { code := .NOT_IMPLEMENTED }
  rewriteExists := fun _ _ _ => RM.throw { code := .NOT_IMPLEMENTED }
  maskSecretArguments := fun _ _ _ => RM.throw { code := .NOT_IMPLEMENTED }
  replaceInArguments := fun _ _ _ => RM.throw { code := .NOT_IMPLEMENTED }
  resolveWindowFunction := fun _ _ _ => RM.throw { code := .NOT_IMPLEMENTED }
  resolveLambdaArguments := fun _ _ _ _ => RM.throw { code := .NOT_IMPLEMENTED }
  createSetForIn := fun _ _ => RM.throw { code := .NOT_IMPLEMENTED }

/-- The members of the resolved query `SELECT 1`: its projection columns are set. -/
def resolvedSelect1Query : QueryNode QueryTreeNode :=
  { (query [literal 1 1] false) with projection_columns := [{ name := "1", type := .UInt8 }] }

/-- The resolved query `SELECT 1`. -/
def resolvedSelect1 : QueryTreeNode := .QUERY 10 "" resolvedSelect1Query

/-- The members of a resolved union of the resolved query `SELECT 1` with itself. -/
def resolvedUnionQueries : UnionNode QueryTreeNode :=
  { is_subquery := false, is_cte := false, is_recursive_cte := false, cte_name := "",
    is_correlated := false, is_resolved := true, queries := [resolvedSelect1, resolvedSelect1] }

/-- A resolved union of the resolved query `SELECT 1` with itself. -/
def resolvedUnion : QueryTreeNode := .UNION 10 "" resolvedUnionQueries

/-- An analyzer whose scope 0 belongs to `resolvedSelect1` and lies at the given depth
of subqueries. -/
def analyzerAtDepth (subquery_depth : Nat) : QueryAnalyzer :=
  { next_addr := 100
    scopes := fun _ => { initialScope resolvedSelect1 with subquery_depth := subquery_depth } }

end Example

end DB

namespace DB

namespace Example

open QueryAnalyzer

/-- A hash of a string. -/
def stringHash (s : String) : Nat :=
  s.data.foldl (fun h c => (h * 31 + c.toNat) % 2 ^ 32) 7

/-- A hash of a field. -/
def fieldHash : Field → Nat
  | .UInt64 n => 2 * n + 1
  | .String s => stringHash s
  | _ => 0

mutual
/-- A structural hash of a subtree: it reads the kind of each node, the names of
functions, columns and identifiers, the values of constants and the children, and
neither aliases nor addresses. -/
def treeHash : QueryTreeNode → Nat
  | .IDENTIFIER _ _ n => (3 + 31 * stringHash n.identifier.getFullName) % 2 ^ 32
  | .CONSTANT _ _ n => (5 + 31 * fieldHash n.value) % 2 ^ 32
  | .FUNCTION _ _ n => (7 + 31 * (stringHash n.function_name + 31 * treeHashList n.arguments)) % 2 ^ 32
  | .COLUMN _ _ n => (11 + 31 * stringHash n.column_name) % 2 ^ 32
  | .LIST _ _ n => (13 + 31 * treeHashList n.nodes) % 2 ^ 32
  | .TABLE _ _ n => (17 + 31 * stringHash n.storage_id) % 2 ^ 32
  | .QUERY _ _ n => (19 + 31 * (treeHashList n.projection + 31 * treeHashOpt n.join_tree)) % 2 ^ 32
  | .UNION _ _ n => (23 + 31 * treeHashList n.queries) % 2 ^ 32
  | .MATCHER .. => 29
  | .TRANSFORMER .. => 31
  | .LAMBDA _ _ n => (37 + 31 * treeHash n.expression) % 2 ^ 32
  | .SORT _ _ n => (41 + 31 * treeHash n.expression) % 2 ^ 32
  | .INTERPOLATE .. => 43
  | .WINDOW .. => 47
  | .TABLE_FUNCTION .. => 53
  | .ARRAY_JOIN .. => 59
  | .CROSS_JOIN .. => 61
  | .JOIN .. => 67
/-- The hash of a list of subtrees. -/
def treeHashList : List QueryTreeNode → Nat
  | [] => 1
  | x :: xs => (treeHash x + 31 * treeHashList xs) % 2 ^ 32
/-- The hash of an optional subtree. -/
def treeHashOpt : Option QueryTreeNode → Nat
  | none => 0
  | some x => treeHash x
end

/-- The text of a value in a projection name. -/
def valueString : Field → String
  | .UInt64 n => toString n
  | .Int64 i => toString i
  | .String s => "'" ++ s ++ "'"
  | .Null => "NULL"
  | _ => "_"

/-- The values of constant arguments, if all arguments are constant. -/
def constantArguments : List ColumnWithTypeAndName → Option (List Field)
  | [] => some []
  | c :: rest =>
    match c.column, constantArguments rest with
    | some v, some vs => some (v :: vs)
    | _, _ => none

/-- The function `plus` on unsigned integers. -/
def plus : FunctionOverloadResolver where
  build := fun arguments =>
    if arguments.length != 2 then .error { code := .NUMBER_OF_ARGUMENTS_DOESNT_MATCH }
    else .ok
      { result_type := .UInt64
        is_suitable_for_constant_folding := true
        execute := fun arguments =>
          match constantArguments arguments with
          | some [.UInt64 x, .UInt64 y] => .ok (some { value := .UInt64 ((x + y) % 2 ^ 64) })
          | _ => .ok none
        getConstantResultForNonConstArguments := fun _ => .ok none }

/-- The function `tuple`: the elements of its result are named `1`, `2` and so on. -/
def tuple : FunctionOverloadResolver where
  build := fun arguments =>
    .ok
      { result_type := .Tuple (arguments.map (fun c => c.type))
          ((List.range arguments.length).map (fun i => toString (i + 1)))
        is_suitable_for_constant_folding := true
        execute := fun arguments =>
          match constantArguments arguments with
          | some values => .ok (some { value := .Tuple values })
          | none => .ok none
        getConstantResultForNonConstArguments := fun _ => .ok none }

/-- The position of an element name among the element names of a tuple type. -/
def elementIndex (names : List String) (name : String) : Option Nat :=
  let i := names.indexOf name
  if i < names.length then some i else none

/-- The function `tupleElement` with the name of an element as second argument. -/
def tupleElement : FunctionOverloadResolver where
  build := fun arguments =>
    match arguments with
    | [{ type := .Tuple elements names, .. }, { column := some (.String name), .. }] =>
      match elementIndex names name with
      | some i =>
        .ok
          { result_type := elements.getD i .Nothing
            is_suitable_for_constant_folding := true
            execute := fun arguments =>
              match constantArguments arguments with
              | some [.Tuple values, _] => .ok (some { value := values.getD i .Null })
              | _ => .ok none
            getConstantResultForNonConstArguments := fun _ => .ok none }
      | none => .error { code := .BAD_ARGUMENTS, args := [name] }
    | _ => .error { code := .NUMBER_OF_ARGUMENTS_DOESNT_MATCH }

/-- The function `__getScalar`. -/
def getScalar : FunctionOverloadResolver where
  build := fun _ =>
    .ok
      { result_type := .Tuple [] []
        is_suitable_for_constant_folding := false
        execute := fun _ => .ok none
        getConstantResultForNonConstArguments := fun _ => .ok none }

/-- The first column with the given name in the columns of the table expressions of a
scope. -/
def findColumn (name : String) :
    List (Nat × AnalysisTableExpressionData) → Option QueryTreeNode
  | [] => none
  | (_, data) :: rest =>
    match data.column_name_to_column_node.lookup name with
    | some column => some column
    | none => findColumn name rest

/-- Collaborators for the examples: identifiers bind to the arguments of the scope and
to the columns of its table expressions by their full name; the function factory knows
`plus`, `tuple`, `tupleElement` and `__getScalar`; `count` and `sum` are the aggregate
functions; there are no user defined functions, no secrets and no catalog. -/
def collaborators : Collaborators where
  tryResolveIdentifierFromExpressionArguments := fun lookup sc =>
    match sc.expression_argument_name_to_node.lookup lookup.identifier.getFullName with
    | some node =>
      .ok { resolved_identifier := some node, resolve_place := .EXPRESSION_ARGUMENTS }
    | none => .ok {}
  tryResolveIdentifierFromJoinTree := fun lookup sc =>
    if lookup.isExpressionLookup then
      match findColumn lookup.identifier.getFullName sc.table_expression_node_to_data with
      | some column => .ok { resolved_identifier := some column, resolve_place := .JOIN_TREE }
      | none => .ok {}
    else .ok {}
  tryResolveIdentifierFromCompoundExpression := fun _ _ _ _ _ => .ok none
  tryResolveTableIdentifierFromDatabaseCatalog := fun _ _ => .ok {}
  hasCorrelatedColumns := fun _ _ _ => false
  buildCastFunction := fun expression type _ a =>
    (.FUNCTION a ""
      { function_name := "_CAST", parameters := [], arguments := [expression], window := none,
        kind := .ORDINARY, result_type := some type }, a + 1)
  validateTreeSize := fun _ _ => .ok ()
  convertToNullable := fun node => node
  isEqualToGroupByKey := fun _ _ => false
  getValueStringRepresentation := fun constant_node => valueString constant_node.value
  getTreeHash := treeHash
  isNameOfInFunction := fun name => ["in", "notIn", "globalIn", "globalNotIn"].contains name
  functionIsDictGet := fun _ => false
  functionIsJoinGet := fun _ => false
  buildUserDefinedSQLFunction := fun _ _ _ => none
  tryGetUserDefinedExecutableFunction := fun _ _ _ => .ok none
  tryGetFunction := fun name _ =>
    if name == "plus" then some plus
    else if name == "tuple" then some tuple
    else if name == "tupleElement" then some tupleElement
    else if name == "__getScalar" then some getScalar
    else none
  isAggregateFunctionName := fun name => ["count", "sum"].contains name
  getAggregateFunction := fun _ _ _ _ _ => .ok .UInt64
  findSecretArguments := fun _ => (0, 0)
  getResultTypeOfOther := fun _ => .ok none
  hasAggregateFunctionNodes := fun _ => false
  hasFunctionNode := fun _ _ => false
  fieldToString := valueString
  buildGroupingFunction := fun _ _ => .error { code := .NOT_IMPLEMENTED }

/-- The interpreter for the examples: every subquery yields one block with the one row
`1` in one column of type `UInt8`. -/
def scalarCollaborators : ScalarCollaborators where
  interpret := fun _ _ _ _ =>
    .ok { sample_block := [("1", .UInt8)]
          blocks := [{ rows := 1, columns := [("1", .UInt8, .UInt64 1)] }] }
  canBeInsideNullable := fun type =>
    match type with
    | .Tuple .. | .Array .. | .Map .. | .Function .. | .Set => false
    | _ => true
  makeUniqueColumnNames := fun names => names
  defaultValue := fun _ => .UInt64 0
  getFamilyName := fun type =>
    match type with
    | .Tuple .. => "Tuple"
    | .Array .. => "Array"
    | .Nullable .. => "Nullable"
    | .UInt8 => "UInt8"
    | .UInt64 => "UInt64"
    | .String => "String"
    | _ => "Other"

/-- The identifier `name` with the alias `node_alias` at address `a`. -/
def identifier (a : Nat) (name node_alias : String) : QueryTreeNode :=
  .IDENTIFIER a node_alias { identifier := ⟨[name]⟩ }

/-- The unresolved call `name(arguments)` with the alias `node_alias` at address `a`. -/
def unresolvedCall (a : Nat) (name node_alias : String) (arguments : QueryTreeNodes) :
    QueryTreeNode :=
  .FUNCTION a node_alias
    { function_name := name, parameters := [], arguments := arguments, window := none,
      kind := .UNKNOWN, result_type := none }

/-- The table node of `t` at address 50. -/
def tableT (columns : List NameAndTypePair) : QueryTreeNode :=
  .TABLE 50 "" { storage_id := "default.t", temporary_table_name := "", columns := columns }

/-- The scope of a query over the table `t` with the given columns, whose aliases have
been collected: the alias table maps each alias of the projection to its expression. -/
def scopeOverT (projection : QueryTreeNodes) (columns : List (String × QueryTreeNode)) :
    IdentifierResolveScope :=
  { scope_node := .QUERY 60 ""
      { (query projection false) with
        join_tree := some (tableT (columns.map (fun c => { name := c.1, type := .UInt64 }))) }
    aliases :=
      { alias_name_to_expression_node :=
          (projection.filter (fun node => node.hasAlias)).map (fun node => (node.getAlias, node)) }
    table_expression_node_to_data := [(50, { column_name_to_column_node := columns })] }

/-- An analyzer whose scope 0 is the given scope and whose next free address is 100. -/
def analyzerOver (sc : IdentifierResolveScope) : QueryAnalyzer :=
  { next_addr := 100, next_scope := 1, node_to_scope_map := [(sc.scope_node.addr, 0)],
    scopes := fun _ => sc }

/-- Projection of `SELECT a AS a FROM t`. -/
def selectAAsA : QueryTreeNodes := [identifier 1 "a" "a"]

/-- The column `a` of `t`. -/
def columnA : QueryTreeNode := column 51 "a" 50

/-- Projection of `SELECT (id + b) AS id, id AS b FROM t`. -/
def selectCyclic : QueryTreeNodes :=
  [unresolvedCall 1 "plus" "id" [identifier 2 "id" "", identifier 3 "b" ""],
   identifier 4 "id" "b"]

/-- The column `id` of `t`. -/
def columnId : QueryTreeNode := column 51 "id" 50

/-- Projection of `SELECT untuple(tuple(1, 2))`. -/
def selectUntuple : QueryTreeNodes :=
  [unresolvedCall 1 "untuple" ""
    [unresolvedCall 2 "tuple" "" [literal 3 1, literal 4 2]]]

end Example

end DB

namespace DB

namespace Example

open QueryAnalyzer

mutual
/-- A description of a subtree: the kind of each node, then the name of an identifier, a
column or a function, the value of a constant, the arguments of a function or the
nodes of a list, and the alias, if any. -/
def describe : QueryTreeNode → String
  | .IDENTIFIER _ al n => "Identifier " ++ n.identifier.getFullName ++ describeAlias al
  | .CONSTANT _ al n => "Constant " ++ valueString n.value ++ describeAlias al
  | .FUNCTION _ al n =>
    "Function " ++ n.function_name ++ "(" ++ ", ".intercalate (describeList n.arguments) ++ ")"
      ++ describeAlias al
  | .COLUMN _ al n => "Column " ++ n.column_name ++ describeAlias al
  | .LIST _ al n => "List [" ++ ", ".intercalate (describeList n.nodes) ++ "]" ++ describeAlias al
  | .MATCHER _ al _ => "Matcher" ++ describeAlias al
  | .TRANSFORMER _ al _ => "Transformer" ++ describeAlias al
  | .LAMBDA _ al _ => "Lambda" ++ describeAlias al
  | .SORT _ al _ => "Sort" ++ describeAlias al
  | .INTERPOLATE _ al _ => "Interpolate" ++ describeAlias al
  | .WINDOW _ al _ => "Window" ++ describeAlias al
  | .TABLE _ al n => "Table " ++ n.storage_id ++ describeAlias al
  | .TABLE_FUNCTION _ al _ => "TableFunction" ++ describeAlias al
  | .QUERY _ al n =>
    "Query (SELECT " ++ ", ".intercalate (describeList n.projection) ++ ")" ++ describeAlias al
  | .ARRAY_JOIN _ al _ => "ArrayJoin" ++ describeAlias al
  | .CROSS_JOIN _ al _ => "CrossJoin" ++ describeAlias al
  | .JOIN _ al _ => "Join" ++ describeAlias al
  | .UNION _ al _ => "Union" ++ describeAlias al
/-- The descriptions of the subtrees of a list. -/
def describeList : List QueryTreeNode → List String
  | [] => []
  | x :: xs => describe x :: describeList xs
/-- The description of an alias. -/
def describeAlias (node_alias : String) : String :=
  if node_alias.isEmpty then "" else " AS " ++ node_alias
end

/-- What the examples observe of a call: the descriptions of the nodes and the
projection names it returned, or the exception it threw. -/
inductive Outcome where
  | returned (nodes : List String) (projection_names : ProjectionNames)
  | threw (exception : Exception)
deriving DecidableEq, Repr

/-- The outcome of a call that returns nodes and projection names. -/
def outcomeOfList (r : Res (QueryTreeNodes × ProjectionNames)) : Outcome :=
  match r.1 with
  | .ok v => .returned (describeList v.1) v.2
  | .error e => .threw e

/-- The outcome of a call that returns a node and projection names. -/
def outcomeOfNode (r : Res (QueryTreeNode × ProjectionNames)) : Outcome :=
  match r.1 with
  | .ok v => .returned [describe v.1] v.2
  | .error e => .threw e

/-- The unqualified asterisk `*` at address `a`. -/
def asterisk (a : Nat) : QueryTreeNode :=
  .MATCHER a "" { matcher_type := .ASTERISK, qualified_identifier := ⟨[]⟩,
                  columns_identifiers := [], column_transformers := [] }

/-- The call `count(*)`. -/
def countAsterisk : FunctionNode QueryTreeNode :=
  { function_name := "count", parameters := [], arguments := [asterisk 2], window := none,
    kind := .UNKNOWN, result_type := none }

end Example

end DB

namespace DB

/-- The second scope has the binding tables of the first: the scope node with its join
tree, the data of the table expressions and the expression arguments. -/
def IdentifierResolveScope.sameBindings (sc sc1 : IdentifierResolveScope) : Prop :=
  sc1.scope_node = sc.scope_node
    ∧ sc1.table_expression_node_to_data = sc.table_expression_node_to_data
    ∧ sc1.expression_argument_name_to_node = sc.expression_argument_name_to_node

namespace Example

/-- The analyzer at the start of the resolution of the projection of
`SELECT a AS a FROM t`, where `t` has the column `a`. -/
def analyzerSelectAAsA : QueryAnalyzer :=
  analyzerOver (scopeOverT selectAAsA [("a", columnA)])

/-- The analyzer while the projection entry `a AS a` is being resolved: the entry is on
the stack of the scope. -/
def analyzerResolvingAAsA : QueryAnalyzer :=
  analyzerOver
    { scopeOverT selectAAsA [("a", columnA)] with
      expressions_in_resolve_process_stack := { expressions := selectAAsA } }

end Example

end DB

namespace DB

/-- The second state has the scalar caches, the counters and the mode of the first. -/
def QueryAnalyzer.sameScalars (s s1 : QueryAnalyzer) : Prop :=
  s1.only_analyze = s.only_analyze
    ∧ s1.scalar_subquery_to_scalar_value_global = s.scalar_subquery_to_scalar_value_global
    ∧ s1.scalar_subquery_to_scalar_value_local = s.scalar_subquery_to_scalar_value_local
    ∧ s1.events = s.events

/-- A computation that leaves the scalar caches, the counters and the mode as they are. -/
@[reducible] def RM.KeepsScalars {α : Type} (x : RM α) : Prop :=
  ∀ s : QueryAnalyzer, s.sameScalars (x s).2

/-- What holds of the result and the state whenever the computation, run in the state
`s`, returns normally. -/
def RM.Post {α : Type} (x : RM α) (s : QueryAnalyzer) (Q : α → QueryAnalyzer → Prop) : Prop :=
  ∀ a s1, x s = (.ok a, s1) → Q a s1

namespace Example

open QueryAnalyzer

/-- The subquery `(SELECT 1)` with the given alias at address `a`. -/
def scalarSelect1 (a : Nat) (node_alias : String) : QueryTreeNode :=
  .QUERY a node_alias { (query [literal (a + 1) 1] false) with is_subquery := true }

/-- The subquery `(SELECT 1 FROM t)` with the given alias at address `a`. -/
def scalarSelect1FromT (a : Nat) (node_alias : String) : QueryTreeNode :=
  .QUERY a node_alias
    { (query [literal (a + 1) 1] false) with is_subquery := true, join_tree := some (tableT []) }

/-- An analyzer whose scope 2 has a context with the view source `default.t`, and whose
other scopes have a context without a view source. -/
def analyzerWithViewSource : QueryAnalyzer :=
  { next_addr := 100, next_scope := 3
    scopes := fun i =>
      if i = 2 then
        { initialScope (scalarSelect1FromT 10 "") with
          context := { view_source := some "default.t" } }
      else initialScope (scalarSelect1FromT 10 "") }

/-- An analyzer with one scope of a query without tables. -/
def analyzerNoTables : QueryAnalyzer := analyzerOver (scopeOverT [] [])

/-- The analyzer after `(SELECT 1) AS x` has been evaluated in `analyzerNoTables`. -/
def analyzerAfterScalar : QueryAnalyzer :=
  (evaluateScalarSubqueryIfNeeded collaborators scalarCollaborators (scalarSelect1 10 "x") 0
    analyzerNoTables).2

end Example

end DB

namespace DB

/-! ## Unqualified matchers (`resolveUnqualifiedMatcher`) and `JOIN ... USING` -/

/-- The kinds of columns that `buildGetColumnsOptions` combines with `|=`. -/
inductive GetColumnsOptionsKind where
  | AllPhysicalAndAliases | Ordinary | Aliases | Materialized
deriving DecidableEq, Repr

/-- Modelled from the spec: `MatcherNode::isAsteriskMatcher` (the header is not among the
sources), the matcher is `*` or `t.*`. -/
def MatcherNode.isAsteriskMatcher {N : Type} (m : MatcherNode N) : Bool :=
  m.matcher_type == .ASTERISK

/-- Modelled from the spec: `JoinNode::isUsingJoinExpression` (the header is not among the
sources), the join expression is the list of a `USING` clause. -/
def JoinNode.isUsingJoinExpression (j : JoinNode QueryTreeNode) : Bool :=
  match j.join_expression with
  | some (.LIST ..) => true
  | _ => false

/-- The collaborators of the resolution of matchers and of `JOIN ... USING` whose code
is not in `QueryAnalyzer.cpp`. -/
structure MatcherCollaborators where
  /-- The function `buildTableExpressionsStack` of `Analyzer/Utils`. -/
  buildTableExpressionsStack : QueryTreeNode → QueryTreeNodes
  /-- The method `MatcherNode::isMatchingColumn`. -/
  isMatchingColumn : MatcherNode QueryTreeNode → String → Bool
  /-- The function `IdentifierResolver::tryResolveExpressionFromArrayJoinExpressions`. -/
  tryResolveExpressionFromArrayJoinExpressions :
    QueryTreeNode → QueryTreeNode → IdentifierResolveScope → Except Exception (Option QueryTreeNode)
  /-- The columns `storage_snapshot->getColumns(options)` of a table or table function. -/
  getStorageColumns : QueryTreeNode → List GetColumnsOptionsKind → List NameAndTypePair
  /-- The method `UnionNode::computeProjectionColumns`. -/
  computeProjectionColumns : UnionNode QueryTreeNode → List NameAndTypePair
  /-- The method `IQueryTreeNode::isEqual`. -/
  isEqual : QueryTreeNode → QueryTreeNode → Bool
  /-- The function `tryGetLeastSupertype`. -/
  tryGetLeastSupertype : List DataType → Option DataType
  /-- The database name and the table name of the storage id of a table node. -/
  getDatabaseAndTableName : TableNode → String × String
  /-- The function `IdentifierResolver::tryBindIdentifierToTableExpressions`. -/
  tryBindIdentifierToTableExpressions :
    IdentifierLookup → QueryTreeNode → IdentifierResolveScope → Bool
  /-- The function `IdentifierResolver::tryBindIdentifierToAliases`. -/
  tryBindIdentifierToAliases : IdentifierLookup → IdentifierResolveScope → Bool
  /-- The function `IdentifierResolver::tryBindIdentifierToArrayJoinExpressions`. -/
  tryBindIdentifierToArrayJoinExpressions : IdentifierLookup → IdentifierResolveScope → Bool

namespace QueryAnalyzer

open RM

/-- Embedding of `QueryAnalyzer::buildGetColumnsOptions`. -/
def buildGetColumnsOptions (matcher_node : MatcherNode QueryTreeNode) (context : Context) :
    List GetColumnsOptionsKind :=
  if matcher_node.isAsteriskMatcher then
    [GetColumnsOptionsKind.Ordinary]
      ++ (if context.settings.asterisk_include_alias_columns then [.Aliases] else [])
      ++ (if context.settings.asterisk_include_materialized_columns then [.Materialized] else [])
  else [.AllPhysicalAndAliases]

/-- The call `scope.getTableExpressionDataOrThrow(table_expression_node)`. -/
def getTableExpressionDataOrThrow (sc : IdentifierResolveScope)
    (table_expression_node : QueryTreeNode) : Except Exception AnalysisTableExpressionData :=
  match sc.table_expression_node_to_data.lookup table_expression_node.addr with
  | some data => .ok data
  | none => .error { code := .LOGICAL_ERROR }

/-- The cast `node->as<ColumnNode &>()`. -/
def asColumnNode : QueryTreeNode → Except Exception (ColumnNode QueryTreeNode)
  | .COLUMN _ _ c => .ok c
  | _ => .error { code := .LOGICAL_ERROR }

/-- The element `nodes.at(i)`. -/
def nodeAt (nodes : QueryTreeNodes) (i : Nat) : Except Exception QueryTreeNode :=
  match nodes[i]? with
  | some node => .ok node
  | none => .error { code := .LOGICAL_ERROR }

/-- The nodes of the list `column.getExpressionOrThrow()->as<ListNode &>()` of a column
of a `USING` clause. -/
def joinUsingColumnNodes (join_using_column_node : ColumnNode QueryTreeNode) :
    Except Exception QueryTreeNodes :=
  match join_using_column_node.expression with
  | some (.LIST _ _ l) => .ok l.nodes
  | _ => .error { code := .LOGICAL_ERROR }

/-- The qualification parts of a table expression in
`qualifyColumnNodesWithProjectionNames`. -/
def additionalColumnQualificationParts (M : MatcherCollaborators)
    (table_expression_node : QueryTreeNode) : List String :=
  if table_expression_node.hasAlias then [table_expression_node.getAlias]
  else
    match table_expression_node with
    | .TABLE _ _ table_node =>
      if !table_node.temporary_table_name.isEmpty then [table_node.temporary_table_name]
      else [(M.getDatabaseAndTableName table_node).1, (M.getDatabaseAndTableName table_node).2]
    | .QUERY _ _ query_node => if query_node.is_cte then [query_node.cte_name] else []
    | .UNION _ _ union_node => if union_node.is_cte then [union_node.cte_name] else []
    | _ => []

/-- The inner loop of `qualifyColumnNodesWithProjectionNames` from the index `i` on: the
parts of the qualified identifier. -/
def qualifyColumnParts (M : MatcherCollaborators) (table_expression_node : QueryTreeNode)
    (sc : IdentifierResolveScope) (data : AnalysisTableExpressionData)
    (additional_column_qualification_parts : List String) :
    Nat → Nat → List String → List String
  | 0, _, column_qualified_identifier_parts => column_qualified_identifier_parts
  | remaining + 1, i, column_qualified_identifier_parts =>
    let identifier_lookup : IdentifierLookup :=
      { identifier := ⟨column_qualified_identifier_parts⟩, lookup_context := .EXPRESSION }
    let need_to_qualify :=
      if data.should_qualify_columns then
        M.tryBindIdentifierToTableExpressions identifier_lookup table_expression_node sc
      else false
    let need_to_qualify :=
      if M.tryBindIdentifierToAliases identifier_lookup sc
          || M.tryBindIdentifierToArrayJoinExpressions identifier_lookup sc then true
      else need_to_qualify
    if need_to_qualify then
      let part_index_to_use_for_qualification :=
        additional_column_qualification_parts.length - i - 1
      let part_to_use :=
        additional_column_qualification_parts.getD part_index_to_use_for_qualification ""
      qualifyColumnParts M table_expression_node sc data additional_column_qualification_parts
        remaining (i + 1) (part_to_use :: column_qualified_identifier_parts)
    else column_qualified_identifier_parts

/-- The loop of `qualifyColumnNodesWithProjectionNames` over the column nodes. -/
def qualifyColumnNodesLoop (M : MatcherCollaborators) (table_expression_node : QueryTreeNode)
    (sc : IdentifierResolveScope) (data : AnalysisTableExpressionData)
    (additional_column_qualification_parts : List String) : QueryTreeNodes → RM Unit
  | [] => pure ()
  | column_node :: rest => do
    let column ← lift (asColumnNode column_node)
    let column_qualified_identifier_parts :=
      qualifyColumnParts M table_expression_node sc data additional_column_qualification_parts
        additional_column_qualification_parts.length 0
        (Identifier.ofString column.column_name).parts
    let qualified_node_name := (Identifier.mk column_qualified_identifier_parts).getFullName
    modify (fun s => { s with
      node_to_projection_name :=
        match s.node_to_projection_name.lookup column_node.addr with
        | some _ => s.node_to_projection_name
        | none => s.node_to_projection_name ++ [(column_node.addr, qualified_node_name)] })
    qualifyColumnNodesLoop M table_expression_node sc data additional_column_qualification_parts
      rest

/-- Embedding of `QueryAnalyzer::qualifyColumnNodesWithProjectionNames`. -/
def qualifyColumnNodesWithProjectionNames (M : MatcherCollaborators)
    (column_nodes : QueryTreeNodes) (table_expression_node : QueryTreeNode) (scope : Nat) :
    RM Unit := do
  let additional_column_qualification_parts :=
    additionalColumnQualificationParts M table_expression_node
  let sc ← getScope scope
  let table_expression_data ← lift (getTableExpressionDataOrThrow sc table_expression_node)
  qualifyColumnNodesLoop M table_expression_node sc table_expression_data
    additional_column_qualification_parts column_nodes

/-- The first loop of `getMatchedColumnNodesWithNames`: the column nodes of the matched
columns, taken from the data of the table expression or created. -/
def matchedColumnNodes (M : MatcherCollaborators) (matcher_node : MatcherNode QueryTreeNode)
    (table_expression_node : QueryTreeNode)
    (table_expression_data : Option AnalysisTableExpressionData) :
    List NameAndTypePair → RM QueryTreeNodes
  | [] => pure []
  | column :: rest =>
    if !M.isMatchingColumn matcher_node column.name then
      matchedColumnNodes M matcher_node table_expression_node table_expression_data rest
    else
      match table_expression_data.bind
          (fun data => data.column_name_to_column_node.lookup column.name) with
      | some column_node => do
        let nodes ← matchedColumnNodes M matcher_node table_expression_node
          table_expression_data rest
        pure (column_node :: nodes)
      | none => do
        let column_addr ← allocate
        let nodes ← matchedColumnNodes M matcher_node table_expression_node
          table_expression_data rest
        pure (.COLUMN column_addr ""
          { column_name := column.name, column_type := column.type,
            column_source := table_expression_node.addr, expression := none,
            column_source_type := table_expression_node.getNodeType } :: nodes)

/-- The last loop of `getMatchedColumnNodesWithNames`: each node with its column name. -/
def withColumnNames : QueryTreeNodes → Except Exception (List (QueryTreeNode × String))
  | [] => .ok []
  | matched_column_node :: rest =>
    match asColumnNode matched_column_node, withColumnNames rest with
    | .ok column, .ok pairs => .ok ((matched_column_node, column.column_name) :: pairs)
    | .error e, _ => .error e
    | _, .error e => .error e

/-- Embedding of `QueryAnalyzer::getMatchedColumnNodesWithNames`. -/
def getMatchedColumnNodesWithNames (M : MatcherCollaborators)
    (matcher_node : MatcherNode QueryTreeNode) (table_expression_node : QueryTreeNode)
    (matched_columns : List NameAndTypePair) (scope : Nat) :
    RM (List (QueryTreeNode × String)) := do
  let s ← get
  let nearest_query_scope := s.nearestQueryScope (s.next_scope + 1) scope
  let table_expression_data ←
    match nearest_query_scope with
    | some nearest => do
      let data ← lift (getTableExpressionDataOrThrow (s.scopes nearest) table_expression_node)
      pure (some data)
    | none => pure none
  let matched_column_nodes ←
    matchedColumnNodes M matcher_node table_expression_node table_expression_data matched_columns
  qualifyColumnNodesWithProjectionNames M matched_column_nodes table_expression_node
    (nearest_query_scope.getD scope)
  lift (withColumnNames matched_column_nodes)

mutual
/-- Embedding of `hasTableExpressionInJoinTree`: the table expression (an object, known
by its address) is the node or lies below it through joins, cross joins and array
joins. -/
def hasTableExpressionInJoinTree (table_expression : Nat) : QueryTreeNode → Bool
  | .JOIN a _ n =>
    a == table_expression
      || hasTableExpressionInJoinTree table_expression n.left_table_expression
      || hasTableExpressionInJoinTree table_expression n.right_table_expression
  | .CROSS_JOIN a _ n =>
    a == table_expression || hasTableExpressionInJoinTrees table_expression n.table_expressions
  | .ARRAY_JOIN a _ n =>
    a == table_expression || hasTableExpressionInJoinTree table_expression n.table_expression
  | .IDENTIFIER a _ _ | .MATCHER a _ _ | .TRANSFORMER a _ _ | .LIST a _ _ | .CONSTANT a _ _
  | .FUNCTION a _ _ | .COLUMN a _ _ | .LAMBDA a _ _ | .SORT a _ _ | .INTERPOLATE a _ _
  | .WINDOW a _ _ | .TABLE a _ _ | .TABLE_FUNCTION a _ _ | .QUERY a _ _ | .UNION a _ _ =>
    a == table_expression
/-- The table expression is one of the nodes or lies below one of them. -/
def hasTableExpressionInJoinTrees (table_expression : Nat) : List QueryTreeNode → Bool
  | [] => false
  | x :: xs =>
    hasTableExpressionInJoinTree table_expression x
      || hasTableExpressionInJoinTrees table_expression xs
end

/-- The column node with another type, `setColumnType`. -/
def setColumnType (type : DataType) : QueryTreeNode → QueryTreeNode
  | .COLUMN a al c => .COLUMN a al { c with column_type := type }
  | n => n

/-- The statements shared by `updateMatchedColumnsFromJoinUsing` and the `JOIN` block of
`resolveUnqualifiedMatcher`: the column is given the type of the column of the `USING`
clause, its defining expression is corrected and, when it differs from the left column,
it is recorded in `join_columns_with_changed_types`. -/
def adoptJoinUsingType (E : Collaborators) (M : MatcherCollaborators)
    (matched_column_node : QueryTreeNode) (join_using_column_node : ColumnNode QueryTreeNode)
    (left_column : QueryTreeNode) (scope : Nat) : RM QueryTreeNode := do
  let matched_column_node := setColumnType join_using_column_node.column_type matched_column_node
  let sc ← getScope scope
  let matched_column_node ← correctColumnExpressionType E matched_column_node sc.context
  if !M.isEqual matched_column_node left_column then
    RM.modifyScope scope (fun sc => { sc with
      join_columns_with_changed_types :=
        (matched_column_node, left_column) ::
          sc.join_columns_with_changed_types.filter
            (fun e => e.1.addr != matched_column_node.addr) })
  else pure ()
  pure matched_column_node

/-- The inner loop of `updateMatchedColumnsFromJoinUsing` over the columns of the `USING`
clause, for one matched column with the name `matched_column_name`. -/
def updateMatchedColumnFromJoinUsing (E : Collaborators) (M : MatcherCollaborators)
    (join_node : JoinNode QueryTreeNode) (source_table_expression : QueryTreeNode)
    (scope : Nat) (matched_column_name : String) :
    QueryTreeNodes → QueryTreeNode → RM QueryTreeNode
  | [], matched_column_node => pure matched_column_node
  | join_using_node :: rest, matched_column_node => do
    let join_using_column_node ← lift (asColumnNode join_using_node)
    if matched_column_name != join_using_column_node.column_name then
      updateMatchedColumnFromJoinUsing E M join_node source_table_expression scope
        matched_column_name rest matched_column_node
    else do
      let join_using_column_nodes ← lift (joinUsingColumnNodes join_using_column_node)
      let s ← get
      let projection_name := s.node_to_projection_name.lookup matched_column_node.addr
      let from_join ←
        if hasTableExpressionInJoinTree source_table_expression.addr
            join_node.left_table_expression then
          lift (nodeAt join_using_column_nodes 0)
        else if hasTableExpressionInJoinTree source_table_expression.addr
            join_node.right_table_expression then
          lift (nodeAt join_using_column_nodes 1)
        else throw { code := .LOGICAL_ERROR }
      let cloned ← RM.clone from_join
      match projection_name with
      | some name =>
        modify (fun s => { s with
          node_to_projection_name :=
            match s.node_to_projection_name.lookup cloned.addr with
            | some _ => s.node_to_projection_name
            | none => s.node_to_projection_name ++ [(cloned.addr, name)] })
      | none => pure ()
      let _ ← lift (asColumnNode cloned)
      let left_column ← lift (nodeAt join_using_column_nodes 0)
      let adopted ← adoptJoinUsingType E M cloned join_using_column_node left_column scope
      updateMatchedColumnFromJoinUsing E M join_node source_table_expression scope
        matched_column_name rest adopted

/-- The outer loop of `updateMatchedColumnsFromJoinUsing` over the matched columns. -/
def updateMatchedColumnsLoop (E : Collaborators) (M : MatcherCollaborators)
    (join_node : JoinNode QueryTreeNode) (join_using_nodes : QueryTreeNodes)
    (source_table_expression : QueryTreeNode) (scope : Nat) :
    List (QueryTreeNode × String) → RM (List (QueryTreeNode × String))
  | [] => pure []
  | (matched_column_node, name) :: rest => do
    let matched_column_node_typed ← lift (asColumnNode matched_column_node)
    let updated ← updateMatchedColumnFromJoinUsing E M join_node source_table_expression scope
      matched_column_node_typed.column_name join_using_nodes matched_column_node
    let others ← updateMatchedColumnsLoop E M join_node join_using_nodes source_table_expression
      scope rest
    pure ((updated, name) :: others)

/-- The join tree of the query node of the nearest query scope, if there is one. -/
def nearestJoinTree (self : QueryAnalyzer) (scope : Nat) : Option (Nat × QueryTreeNode) :=
  match self.nearestQueryScope (self.next_scope + 1) scope with
  | some nearest =>
    match (self.scopes nearest).scope_node with
    | .QUERY _ _ query_node => query_node.join_tree.map (fun join_tree => (nearest, join_tree))
    | _ => none
  | none => none

/-- Embedding of `QueryAnalyzer::updateMatchedColumnsFromJoinUsing`: the matched columns
afterwards. -/
def updateMatchedColumnsFromJoinUsing (E : Collaborators) (M : MatcherCollaborators)
    (result_matched_column_nodes_with_names : List (QueryTreeNode × String))
    (source_table_expression : QueryTreeNode) (scope : Nat) :
    RM (List (QueryTreeNode × String)) := do
  let s ← get
  match s.nearestJoinTree scope with
  | none => throw { code := .UNSUPPORTED_METHOD }
  | some (_, join_tree) =>
    match join_tree with
    | .JOIN join_addr _ join_node => do
      let sc ← getScope scope
      let join_node_in_resolve_process :=
        sc.table_expressions_in_resolve_process.contains join_addr
      if !join_node_in_resolve_process && join_node.isUsingJoinExpression then
        match join_node.join_expression with
        | some (.LIST _ _ join_using_list) =>
          updateMatchedColumnsLoop E M join_node join_using_list.nodes source_table_expression
            scope result_matched_column_nodes_with_names
        | _ => throw { code := .LOGICAL_ERROR }
      else pure result_matched_column_nodes_with_names
    | _ => pure result_matched_column_nodes_with_names

/-- The lambda `is_column_from_parent_scope` of `resolveUnqualifiedMatcher`. -/
def isColumnFromParentScope (sc : IdentifierResolveScope) (using_node_from_table : QueryTreeNode) :
    Except Exception Bool :=
  match asColumnNode using_node_from_table with
  | .error e => .error e
  | .ok using_column_from_table =>
    match sc.table_expression_node_to_data.lookup using_column_from_table.column_source with
    | some table_expression_data =>
      .ok (!(table_expression_data.column_name_to_column_node.lookup
        using_column_from_table.column_name).isSome)
    | none => .ok false

/-- The loop of the `JOIN` block of `resolveUnqualifiedMatcher` over the columns of the
`USING` clause: the matched columns of the clause and the names to skip. -/
def matchJoinUsingColumns (E : Collaborators) (M : MatcherCollaborators)
    (matcher_node : MatcherNode QueryTreeNode) (join_node : JoinNode QueryTreeNode)
    (scope : Nat) :
    QueryTreeNodes → RM (List (QueryTreeNode × String) × List String)
  | [] => pure ([], [])
  | join_using_node :: rest => do
    let join_using_column_node ← lift (asColumnNode join_using_node)
    let join_using_column_name := join_using_column_node.column_name
    if !M.isMatchingColumn matcher_node join_using_column_name then
      matchJoinUsingColumns E M matcher_node join_node scope rest
    else do
      let join_using_column_nodes ← lift (joinUsingColumnNodes join_using_column_node)
      let sc ← getScope scope
      let left_column ← lift (nodeAt join_using_column_nodes 0)
      let left_from_parent ← lift (isColumnFromParentScope sc left_column)
      let from_parent ←
        if left_from_parent then pure true
        else do
          let right_column ← lift (nodeAt join_using_column_nodes 1)
          lift (isColumnFromParentScope sc right_column)
      if from_parent then matchJoinUsingColumns E M matcher_node join_node scope rest
      else do
        let matched_column_node ←
          if isRight join_node.kind then lift (nodeAt join_using_column_nodes 1)
          else lift (nodeAt join_using_column_nodes 0)
        let matched_column_node ← RM.clone matched_column_node
        let _ ← lift (asColumnNode matched_column_node)
        let matched_column_node ← adoptJoinUsingType E M matched_column_node
          join_using_column_node left_column scope
        let others ← matchJoinUsingColumns E M matcher_node join_node scope rest
        pure ((matched_column_node, join_using_column_name) :: others.1,
          join_using_column_name :: others.2)

/-- The `JOIN` block of `resolveUnqualifiedMatcher` once the columns of the right and of
the left table expression are popped from the stack: the columns of the join, that is the
matched columns of the `USING` clause, then the columns of the left and of the right
table expression whose names are not skipped. -/
def joinTableExpressionColumns (E : Collaborators) (M : MatcherCollaborators)
    (matcher_node : MatcherNode QueryTreeNode) (join_node : JoinNode QueryTreeNode)
    (scope : Nat) (table_expression_in_resolve_process : Bool)
    (left_table_expression_columns right_table_expression_columns :
      List (QueryTreeNode × String)) : RM (List (QueryTreeNode × String)) := do
  let matched ←
    if !table_expression_in_resolve_process && join_node.isUsingJoinExpression then
      match join_node.join_expression with
      | some (.LIST _ _ join_using_list) =>
        matchJoinUsingColumns E M matcher_node join_node scope join_using_list.nodes
      | _ => throw { code := .LOGICAL_ERROR }
    else pure ([], [])
  let table_expression_column_names_to_skip := matched.2
  pure (matched.1
    ++ left_table_expression_columns.filter
        (fun column => !table_expression_column_names_to_skip.contains column.2)
    ++ right_table_expression_columns.filter
        (fun column => !table_expression_column_names_to_skip.contains column.2))

/-- The loop of the `ARRAY JOIN` block over the columns on top of the stack. -/
def arrayJoinColumns (M : MatcherCollaborators) (table_expression : QueryTreeNode)
    (sc : IdentifierResolveScope) :
    List (QueryTreeNode × String) → Except Exception (List (QueryTreeNode × String))
  | [] => .ok []
  | (table_expression_column_node, name) :: rest =>
    match M.tryResolveExpressionFromArrayJoinExpressions table_expression_column_node
        table_expression sc, arrayJoinColumns M table_expression sc rest with
    | .ok (some array_join_resolved_expression), .ok others =>
      .ok ((array_join_resolved_expression, name) :: others)
    | .ok none, .ok others => .ok ((table_expression_column_node, name) :: others)
    | .error e, _ => .error e
    | _, .error e => .error e

/-- The columns of a table expression that is a table, a table function, a query or a
union, in the loop of `resolveUnqualifiedMatcher`. -/
def tableExpressionColumns (M : MatcherCollaborators) (matcher_node : MatcherNode QueryTreeNode)
    (table_expression : QueryTreeNode) (context : Context) :
    Except Exception (List NameAndTypePair) :=
  match table_expression with
  | .QUERY _ _ query_node => .ok query_node.projection_columns
  | .UNION _ _ union_node => .ok (M.computeProjectionColumns union_node)
  | .TABLE .. | .TABLE_FUNCTION .. =>
    .ok (M.getStorageColumns table_expression (buildGetColumnsOptions matcher_node context))
  | _ => .error { code := .LOGICAL_ERROR }

/-- The loop of `resolveUnqualifiedMatcher` over the stack of table expressions; the
second list is `table_expressions_column_nodes_with_names_stack`, its top first. -/
def resolveUnqualifiedMatcherLoop (E : Collaborators) (M : MatcherCollaborators)
    (matcher_node : MatcherNode QueryTreeNode) (scope nearest_query_scope : Nat) :
    QueryTreeNodes → List (List (QueryTreeNode × String)) →
      RM (List (List (QueryTreeNode × String)))
  | [], stack => pure stack
  | table_expression :: rest, stack => do
    let nearest ← getScope nearest_query_scope
    let table_expression_in_resolve_process :=
      nearest.table_expressions_in_resolve_process.contains table_expression.addr
    match table_expression with
    | .ARRAY_JOIN .. =>
      match stack with
      | [] => throw { code := .LOGICAL_ERROR }
      | top :: below =>
        if table_expression_in_resolve_process then
          resolveUnqualifiedMatcherLoop E M matcher_node scope nearest_query_scope rest stack
        else do
          let sc ← getScope scope
          let top ← lift (arrayJoinColumns M table_expression sc top)
          resolveUnqualifiedMatcherLoop E M matcher_node scope nearest_query_scope rest
            (top :: below)
    | .CROSS_JOIN _ _ cross_join_node =>
      let stack_size := stack.length
      let num_tables := cross_join_node.table_expressions.length
      if stack_size < num_tables then
        throw { code := .LOGICAL_ERROR, args := [toString num_tables, toString stack_size] }
      else
        resolveUnqualifiedMatcherLoop E M matcher_node scope nearest_query_scope rest
          ((stack.take num_tables).reverse.flatten :: stack.drop num_tables)
    | .JOIN _ _ join_node =>
      match stack with
      | right_table_expression_columns :: left_table_expression_columns :: below => do
        let columns ← joinTableExpressionColumns E M matcher_node join_node scope
          table_expression_in_resolve_process left_table_expression_columns
          right_table_expression_columns
        resolveUnqualifiedMatcherLoop E M matcher_node scope nearest_query_scope rest
          (columns :: below)
      | _ => throw { code := .LOGICAL_ERROR, args := [toString stack.length] }
    | _ =>
      if table_expression_in_resolve_process then
        resolveUnqualifiedMatcherLoop E M matcher_node scope nearest_query_scope rest
          ([] :: stack)
      else do
        let sc ← getScope scope
        let table_expression_columns ←
          lift (tableExpressionColumns M matcher_node table_expression sc.context)
        let matched_column_nodes_with_names ← getMatchedColumnNodesWithNames M matcher_node
          table_expression table_expression_columns scope
        let matched_column_nodes_with_names ← updateMatchedColumnsFromJoinUsing E M
          matched_column_nodes_with_names table_expression scope
        resolveUnqualifiedMatcherLoop E M matcher_node scope nearest_query_scope rest
          (matched_column_nodes_with_names :: stack)

/-- The branch of `resolveUnqualifiedMatcher` for a matcher `COLUMNS(a, b, ...)`. -/
def resolveColumnsListMatcher (R : Resolver) (scope : Nat) :
    List Identifier → RM (List (QueryTreeNode × String))
  | [] => pure []
  | identifier :: rest => do
    let resolve_result ← R.tryResolveIdentifier
      { identifier := identifier, lookup_context := .EXPRESSION } scope {}
    match resolve_result.resolved_identifier with
    | none => throw { code := .UNKNOWN_IDENTIFIER, args := [identifier.getFullName] }
    | some (.COLUMN a al resolved_column) => do
      let others ← resolveColumnsListMatcher R scope rest
      pure ((.COLUMN a al resolved_column, resolved_column.column_name) :: others)
    | some _ => throw { code := .UNKNOWN_IDENTIFIER, args := [identifier.getFullName] }

/-- Embedding of `QueryAnalyzer::resolveUnqualifiedMatcher`: the matched nodes with
their column names.  The statement `result.resize(getColumnsIdentifiers().size())` is left
out: only a matcher `COLUMNS(a, b, ...)`, for which the function has returned before, has
column identifiers. -/
def resolveUnqualifiedMatcher (E : Collaborators) (M : MatcherCollaborators) (R : Resolver)
    (matcher_node : QueryTreeNode) (scope : Nat) : RM (List (QueryTreeNode × String)) :=
  match matcher_node with
  | .MATCHER _ _ matcher_node_typed => do
    let s ← get
    match s.nearestJoinTree scope with
    | none => throw { code := .UNSUPPORTED_METHOD }
    | some (nearest_query_scope, join_tree) =>
      let table_expressions_stack := M.buildTableExpressionsStack join_tree
      if matcher_node_typed.matcher_type == .COLUMNS_LIST then
        resolveColumnsListMatcher R scope matcher_node_typed.columns_identifiers
      else do
        let stack ← resolveUnqualifiedMatcherLoop E M matcher_node_typed scope
          nearest_query_scope table_expressions_stack []
        pure stack.reverse.flatten
  | _ => throw { code := .LOGICAL_ERROR }

/-- The end of the loop of `resolveJoin` over the identifiers of a `USING` clause: the
column of the clause, made of the columns of the left and of the right table expression,
whose type is their least supertype. -/
def makeJoinUsingColumn (E : Collaborators) (M : MatcherCollaborators)
    (result_left_table_expression result_right_table_expression : QueryTreeNode)
    (identifier_full_name : String) (join_node : Nat) : RM QueryTreeNode := do
  let left_type ← lift (result_left_table_expression.getResultType E)
  let right_type ← lift (result_right_table_expression.getResultType E)
  match left_type, right_type with
  | some left_type, some right_type =>
    match M.tryGetLeastSupertype [left_type, right_type] with
    | none => throw { code := .NO_COMMON_TYPE, args := [identifier_full_name] }
    | some common_type => do
      let list_addr ← allocate
      let column_addr ← allocate
      pure (.COLUMN column_addr ""
        { column_name := identifier_full_name, column_type := common_type,
          column_source := join_node,
          expression := some
            (.LIST list_addr ""
              { nodes := [result_left_table_expression, result_right_table_expression] }),
          column_source_type := .JOIN })
  | _, _ => throw { code := .LOGICAL_ERROR }

end QueryAnalyzer

end DB

namespace DB

namespace Example

open QueryAnalyzer

/-- Collaborators for the examples of matchers: the stack of a join is its left table,
its right table and the join; every column matches; tables have the columns of their
node; two columns are equal when they have the same name, type and source; the least
supertype of `UInt8` and `UInt64` is `UInt64`; no name needs qualification. -/
def matcherCollaborators : MatcherCollaborators where
  buildTableExpressionsStack := fun join_tree =>
    match join_tree with
    | .JOIN _ _ n => [n.left_table_expression, n.right_table_expression, join_tree]
    | _ => [join_tree]
  isMatchingColumn := fun _ _ => true
  tryResolveExpressionFromArrayJoinExpressions := fun _ _ _ => .ok none
  getStorageColumns := fun table_expression _ =>
    match table_expression with
    | .TABLE _ _ n => n.columns
    | _ => []
  computeProjectionColumns := fun _ => []
  isEqual := fun a b =>
    match a, b with
    | .COLUMN _ _ x, .COLUMN _ _ y =>
      x.column_name == y.column_name && x.column_type.equals y.column_type
        && x.column_source == y.column_source
    | _, _ => false
  tryGetLeastSupertype := fun types =>
    match types with
    | [.UInt8, .UInt64] | [.UInt64, .UInt8] | [.UInt64, .UInt64] => some .UInt64
    | [.UInt8, .UInt8] => some .UInt8
    | _ => none
  getDatabaseAndTableName := fun _ => ("default", "t")
  tryBindIdentifierToTableExpressions := fun _ _ _ => false
  tryBindIdentifierToAliases := fun _ _ => false
  tryBindIdentifierToArrayJoinExpressions := fun _ _ => false

/-- A column with the given name and type of the table expression at address `source`. -/
def typedColumn (a : Nat) (name : String) (type : DataType) (source : Nat) : QueryTreeNode :=
  .COLUMN a "" { column_name := name, column_type := type, column_source := source,
                 expression := none }

/-- The table `t1 (id UInt8, a UInt64)` at address 50. -/
def tableT1 : QueryTreeNode :=
  .TABLE 50 "" { storage_id := "default.t1", temporary_table_name := "",
                 columns := [{ name := "id", type := .UInt8 }, { name := "a", type := .UInt64 }] }

/-- The table `t2 (id UInt64, b UInt64)` at address 51. -/
def tableT2 : QueryTreeNode :=
  .TABLE 51 "" { storage_id := "default.t2", temporary_table_name := "",
                 columns := [{ name := "id", type := .UInt64 }, { name := "b", type := .UInt64 }] }

/-- The column `t1.id`. -/
def columnT1Id : QueryTreeNode := typedColumn 60 "id" .UInt8 50

/-- The column `t2.id`. -/
def columnT2Id : QueryTreeNode := typedColumn 62 "id" .UInt64 51

/-- The column of `USING (id)` as `resolveJoin` makes it of `t1.id` and `t2.id`, for the
join at address 52. -/
def usingId : QueryTreeNode :=
  match (makeJoinUsingColumn collaborators matcherCollaborators columnT1Id columnT2Id "id" 52
      (analyzerAt 54)).1 with
  | .ok column => column
  | .error _ => columnT1Id

/-- The members of the join `t1 JOIN t2 USING (id)` after `resolveJoin`. -/
def joinUsingIdNode : JoinNode QueryTreeNode :=
  { left_table_expression := tableT1, right_table_expression := tableT2,
    join_expression := some (.LIST 53 "" { nodes := [usingId] }), kind := .Inner }

/-- The join `t1 JOIN t2 USING (id)` at address 52. -/
def joinUsingId : QueryTreeNode := .JOIN 52 "" joinUsingIdNode

/-- The scope of `SELECT * FROM t1 JOIN t2 USING (id)` after the join tree is resolved. -/
def scopeJoinUsingId : IdentifierResolveScope :=
  { scope_node := .QUERY 70 "" { (query [asterisk 71] false) with join_tree := some joinUsingId }
    table_expression_node_to_data :=
      [(50, { column_name_to_column_node :=
                [("id", columnT1Id), ("a", typedColumn 61 "a" .UInt64 50)] }),
       (51, { column_name_to_column_node :=
                [("id", columnT2Id), ("b", typedColumn 63 "b" .UInt64 51)] })] }

/-- The name of a type, for the types of the examples. -/
def typeName : DataType → String
  | .UInt8 => "UInt8"
  | .UInt64 => "UInt64"
  | .String => "String"
  | .Nullable .UInt8 => "Nullable(UInt8)"
  | .Nullable .UInt64 => "Nullable(UInt64)"
  | _ => "_"

/-- What the examples observe of a list of matched columns: the name of each entry, and
the name, the type and the address of the source of its column node. -/
def describeColumns : List (QueryTreeNode × String) → List (String × String × String × Nat)
  | [] => []
  | (node, name) :: rest =>
    (match node with
     | .COLUMN _ _ c => (name, c.column_name, typeName c.column_type, c.column_source)
     | _ => (name, describe node, "", 0)) :: describeColumns rest

end Example

end DB

namespace DB

namespace QueryAnalyzer

/-- The state of the analyzer once `tryResolveIdentifier` has registered the lookup in the
table of the lookups in process of the scope. -/
def withLookupRegistered (self : QueryAnalyzer) (scope : Nat)
    (identifier_lookup : IdentifierLookup) : QueryAnalyzer :=
  self.modifyScope scope (fun sc => { sc with
    identifier_in_lookup_process :=
      (registerLookup (self.scopes scope).identifier_in_lookup_process identifier_lookup).1 })

end QueryAnalyzer

namespace Example

/-- Projection of `SELECT 1 AS a FROM t`. -/
def selectOneAsA : QueryTreeNodes := [(literal 1 1).setAlias "a"]

/-- The analyzer at the lookup of `a` in `SELECT 1 AS a FROM t`, where `t` has the column
`a`, for a value of the setting `prefer_column_name_to_alias`. -/
def analyzerOneAsA (prefer_column_name_to_alias : Bool) : QueryAnalyzer :=
  analyzerOver
    { scopeOverT selectOneAsA [("a", columnA)] with
      context := { settings := { prefer_column_name_to_alias := prefer_column_name_to_alias } } }

/-- The same analyzer when the scope has moreover the expression argument `a`, bound to
the literal `5`. -/
def analyzerArgumentA : QueryAnalyzer :=
  analyzerOver
    { scopeOverT selectOneAsA [("a", columnA)] with
      expression_argument_name_to_node := [("a", literal 7 5)] }

/-- The lookup of `a` as an expression. -/
def lookupA : IdentifierLookup := { identifier := ⟨["a"]⟩, lookup_context := .EXPRESSION }

end Example

end DB

namespace DB

/-- What holds of the exception whenever the computation, run in the state `s`, throws. -/
def RM.Raises {α : Type} (x : RM α) (s : QueryAnalyzer) (P : Exception → Prop) : Prop :=
  ∀ e s1, x s = (.error e, s1) → P e

namespace QueryAnalyzer

/-- The exception is one that a strategy of `tryResolveIdentifier` has thrown for the
lookup: the binding to the expression arguments, to the join tree, to the aliases, the
block that resolves the defining expression of a column of the join tree, the lookup in
the parent scopes or the lookup in the database catalog. -/
def StrategyRaises (E : Collaborators) (R : Resolver) (identifier_lookup : IdentifierLookup)
    (scope : Nat) (identifier_resolve_settings : IdentifierResolveContext) (e : Exception) :
    Prop :=
  (∃ sc, E.tryResolveIdentifierFromExpressionArguments identifier_lookup sc = .error e)
  ∨ (∃ sc, E.tryResolveIdentifierFromJoinTree identifier_lookup sc = .error e)
  ∨ (∃ s1 s2, R.tryResolveIdentifierFromAliases identifier_lookup scope
        identifier_resolve_settings s1 = (.error e, s2))
  ∨ (∃ r s1 s2, resolveJoinTreeColumnExpression E R scope r s1 = (.error e, s2))
  ∨ (∃ s1 s2, R.tryResolveIdentifierInParentScopes identifier_lookup scope
        identifier_resolve_settings s1 = (.error e, s2))
  ∨ (∃ context, E.tryResolveTableIdentifierFromDatabaseCatalog identifier_lookup.identifier
        context = .error e)

/-- The result is one that a strategy of the scope has returned for the lookup: the binding
to the expression arguments, to the join tree, when the options allow the join tree, or to
the aliases, when the options allow the aliases. -/
def BoundInScope (E : Collaborators) (R : Resolver) (identifier_lookup : IdentifierLookup)
    (scope : Nat) (identifier_resolve_settings : IdentifierResolveContext)
    (r : IdentifierResolveResult) : Prop :=
  (∃ sc, E.tryResolveIdentifierFromExpressionArguments identifier_lookup sc = .ok r)
  ∨ (identifier_resolve_settings.allow_to_check_join_tree = true
      ∧ ∃ sc, E.tryResolveIdentifierFromJoinTree identifier_lookup sc = .ok r)
  ∨ (identifier_resolve_settings.allow_to_check_aliases = true
      ∧ ∃ s1 s2, R.tryResolveIdentifierFromAliases identifier_lookup scope
        identifier_resolve_settings s1 = (.ok r, s2))

/-- The result is one that a strategy of `tryResolveIdentifier` has given for the lookup:
a strategy of the scope, followed by the block that resolves the defining expression of a
column of the join tree; the table of the CTEs of the scope, for a CTE that is not being
resolved in the state `s1`; the lookup in the parent scopes, after which `s1` is reached by
the removal of the lookup from the table of the lookups in process; the lookup in the
database catalog. -/
def BoundByStrategy (E : Collaborators) (R : Resolver) (identifier_lookup : IdentifierLookup)
    (scope : Nat) (identifier_resolve_settings : IdentifierResolveContext)
    (r : IdentifierResolveResult) (s1 : QueryAnalyzer) : Prop :=
  BoundInScope E R identifier_lookup scope identifier_resolve_settings r
  ∨ (∃ r1 s2 s3, BoundInScope E R identifier_lookup scope identifier_resolve_settings r1
        ∧ resolveJoinTreeColumnExpression E R scope r1 s2 = (.ok r, s3))
  ∨ (∃ cte_query_node : QueryTreeNode,
        identifier_lookup.isTableExpressionLookup = true
        ∧ identifier_resolve_settings.allow_to_check_cte = true
        ∧ (s1.scopes scope).cte_name_to_query_node.lookup
            identifier_lookup.identifier.getFullName = some cte_query_node
        ∧ s1.ctes_in_resolve_process.contains cte_query_node.addr = false
        ∧ r = { resolved_identifier := some cte_query_node, resolve_place := .CTE })
  ∨ (∃ s2 s3, R.tryResolveIdentifierInParentScopes identifier_lookup scope
        identifier_resolve_settings s2 = (.ok r, s3)
        ∧ s1 = s3.modifyScope scope (fun sc => { sc with
            identifier_in_lookup_process :=
              unregisterLookup sc.identifier_in_lookup_process identifier_lookup }))
  ∨ (∃ context, E.tryResolveTableIdentifierFromDatabaseCatalog identifier_lookup.identifier
        context = .ok r)

end QueryAnalyzer

namespace Example

/-- The analyzer at the lookup of a table in a scope in which `a` is the alias of the table
`t`, as in `FROM t AS a`. -/
def analyzerTableAliasA : QueryAnalyzer :=
  analyzerOver
    { scopeOverT [] [("a", columnA)] with
      aliases := { alias_name_to_table_expression_node := [("a", (tableT []).setAlias "a")] } }

/-- The lookup of the compound identifier `a.b` as a table expression. -/
def lookupTableAB : IdentifierLookup :=
  { identifier := ⟨["a", "b"]⟩, lookup_context := .TABLE_EXPRESSION }

/-- The lookup of the identifier `zzz` as an expression. -/
def lookupZzz : IdentifierLookup := { identifier := ⟨["zzz"]⟩, lookup_context := .EXPRESSION }

/-- What the examples observe of a lookup: the description of the node found and the
place, that nothing was found, or the exception thrown. -/
inductive LookupOutcome where
  | found (node : String) (resolve_place : IdentifierResolvePlace)
  | notFound
  | threw (exception : Exception)
deriving DecidableEq, Repr

/-- The outcome of a lookup. -/
def outcomeOfLookup (r : Res IdentifierResolveResult) : LookupOutcome :=
  match r.1 with
  | .ok result =>
    match result.resolved_identifier with
    | some node => .found (describe node) result.resolve_place
    | none => .notFound
  | .error e => .threw e

end Example

end DB

namespace DB

namespace QueryAnalyzer

open RM

/-- The strategies of the scope in `tryResolveIdentifier`, for a lookup that the expression
arguments have not bound: the join tree and the aliases, in the order that the flag
`prefer_column_name_to_alias` gives, and the block for a column of the join tree. -/
def tryResolveIdentifierInScope (E : Collaborators) (R : Resolver)
    (identifier_lookup : IdentifierLookup) (scope : Nat)
    (identifier_resolve_settings : IdentifierResolveContext) (already_in_resolve_process : Bool)
    (sc : IdentifierResolveScope) (resolve_result : IdentifierResolveResult) :
    RM IdentifierResolveResult := do
  let prefer_column_name_to_alias := preferColumnNameToAlias sc identifier_lookup
  let resolve_result ←
    if prefer_column_name_to_alias then do
      let resolve_result ←
        if identifier_resolve_settings.allow_to_check_join_tree then
          lift (E.tryResolveIdentifierFromJoinTree identifier_lookup sc)
        else pure resolve_result
      if identifier_resolve_settings.allow_to_check_aliases
          && resolve_result.resolved_identifier.isNone
          && !already_in_resolve_process then
        R.tryResolveIdentifierFromAliases identifier_lookup scope identifier_resolve_settings
      else pure resolve_result
    else do
      let resolve_result ←
        if identifier_resolve_settings.allow_to_check_aliases
            && !already_in_resolve_process then
          R.tryResolveIdentifierFromAliases identifier_lookup scope
            identifier_resolve_settings
        else pure resolve_result
      if resolve_result.resolved_identifier.isNone
          && identifier_resolve_settings.allow_to_check_join_tree then do
        let sc ← getScope scope
        lift (E.tryResolveIdentifierFromJoinTree identifier_lookup sc)
      else pure resolve_result
  resolveJoinTreeColumnExpression E R scope resolve_result

/-- The end of `tryResolveIdentifier`, once the strategies of the scope have given
`resolve_result`: the lookup in the table of the CTEs of the scope, in the parent scopes
and in the database catalog, and the removal of the lookup from the table of the lookups
in process. -/
def finishTryResolveIdentifier (E : Collaborators) (R : Resolver)
    (identifier_lookup : IdentifierLookup) (scope : Nat)
    (identifier_resolve_settings : IdentifierResolveContext)
    (resolve_result : IdentifierResolveResult) : RM IdentifierResolveResult := do
  let sc ← getScope scope
  let s ← get
  let resolve_result :=
    if resolve_result.resolved_identifier.isNone
        && identifier_resolve_settings.allow_to_check_cte
        && identifier_lookup.isTableExpressionLookup then
      match sc.cte_name_to_query_node.lookup identifier_lookup.identifier.getFullName with
      | some cte_query_node =>
        if !s.ctes_in_resolve_process.contains cte_query_node.addr then
          { resolved_identifier := some cte_query_node, resolve_place := .CTE }
        else resolve_result
      | none => resolve_result
    else resolve_result
  let resolve_result ←
    if resolve_result.resolved_identifier.isNone then
      R.tryResolveIdentifierInParentScopes identifier_lookup scope identifier_resolve_settings
    else pure resolve_result
  let resolve_result ←
    if resolve_result.resolved_identifier.isNone
        && identifier_resolve_settings.allow_to_check_database_catalog
        && identifier_lookup.isTableExpressionLookup then do
      let sc ← getScope scope
      lift (E.tryResolveTableIdentifierFromDatabaseCatalog identifier_lookup.identifier sc.context)
    else pure resolve_result
  RM.modifyScope scope (fun sc => { sc with
    identifier_in_lookup_process :=
      unregisterLookup sc.identifier_in_lookup_process identifier_lookup })
  pure resolve_result

end QueryAnalyzer

end DB

namespace DB

namespace QueryAnalyzer

open RM

/-- The nodes of a list after the object `node` has been changed in place: the entry with
the address of `node` has its content. -/
def changedInPlace (node : QueryTreeNode) (nodes : QueryTreeNodes) : QueryTreeNodes :=
  nodes.map (fun n => if n.addr == node.addr then node else n)

/-- Embedding of the block of `resolveFunction` for `if` with arguments ("Handle special
case with constant If function, even if some of the arguments are invalid").  The function
`tryExtractConstantFromConditionNode` is defined outside the file and is a parameter.  The
variables `if_function_condition`, `possibly_invalid_argument_node` and
`constant_if_result_node` are copies of pointers of the list of arguments: a call that
replaces the node in the copy leaves the list alone, a change in place of the object is
seen in the list.  The block `try ... catch (...)` is `tryCatch`: the state is the one that
the call has left when it threw. -/
def resolveConstantIf (tryExtractConstantFromConditionNode : QueryTreeNode → Option Bool)
    (R : Resolver) (frame : FunctionFrame) (scope : Nat) : RM FunctionStep := do
  lift (checkFunctionNodeHasEmptyNullsAction frame.function_node)
  let if_function_arguments := frame.function_node.arguments
  let if_function_condition ← lift (nodeAt if_function_arguments 0)
  let r ← R.resolveExpressionNode if_function_condition scope false false false
  let if_function_condition := r.1
  let if_function_arguments := changedInPlace if_function_condition if_function_arguments
  let frame := { frame with
    function_node := { frame.function_node with arguments := if_function_arguments } }
  match tryExtractConstantFromConditionNode if_function_condition with
  | some constant_condition =>
    if if_function_arguments.length == 3 then do
      let possibly_invalid_argument_node ←
        lift (nodeAt if_function_arguments (if constant_condition then 2 else 1))
      let constant_if_result_node ←
        lift (nodeAt if_function_arguments (if constant_condition then 1 else 2))
      let resolved ← tryCatch
        (do
          let r ← R.resolveExpressionNode possibly_invalid_argument_node scope false false false
          pure (some r.1))
        (fun _ => pure none)
      match resolved with
      | none => do
        let r ← R.resolveExpressionNode constant_if_result_node scope false false false
        pure (.done r.1 r.2)
      | some possibly_invalid_argument_node =>
        pure (.next { frame with
          function_node := { frame.function_node with
            arguments := changedInPlace possibly_invalid_argument_node if_function_arguments } })
    else pure (.next frame)
  | none => pure (.next frame)

end QueryAnalyzer

namespace Example

open QueryAnalyzer

/-- The constant of a condition for the examples, as `tryExtractConstantFromConditionNode`
gives it: a constant that is an unsigned number is true unless it is zero. -/
def constantCondition : QueryTreeNode → Option Bool
  | .CONSTANT _ _ c =>
    match c.value with
    | .UInt64 v => some (v != 0)
    | _ => none
  | _ => none

/-- The parts of the file that are not embedded, except the block of `resolveFunction` for
`if`, which is `resolveConstantIf`. -/
def unmodelledButIf : Unmodelled :=
  { unmodelled with resolveConstantIf := resolveConstantIf constantCondition }

/-- Projection of `SELECT if(1, 2, y) AS z, nonexistent + 1 AS y FROM t`. -/
def selectConstantIf : QueryTreeNodes :=
  [unresolvedCall 1 "if" "z" [literal 2 1, literal 3 2, identifier 4 "y" ""],
   unresolvedCall 5 "plus" "y" [identifier 6 "nonexistent" "", literal 7 1]]

/-- The analyzer at the lookup of `z` in
`SELECT if(1, 2, y) AS z, nonexistent + 1 AS y FROM t`, where `t` has the column `a`. -/
def analyzerConstantIf : QueryAnalyzer :=
  analyzerOver (scopeOverT selectConstantIf [("a", columnA)])

/-- The lookup of an identifier with one part as an expression. -/
def lookupOf (name : String) : IdentifierLookup :=
  { identifier := ⟨[name]⟩, lookup_context := .EXPRESSION }

/-- What the examples observe of the table of the lookups in process of a scope: the full
name of each identifier and its count. -/
def lookupsInProcess (s : QueryAnalyzer) (scope : Nat) : List (String × Nat) :=
  (s.scopes scope).identifier_in_lookup_process.map
    (fun e => (e.1.identifier.getFullName, e.2.count))

end Example

end DB

namespace DB

/-- Whenever the computation returns normally, the table of the lookups in process of the
scope is afterwards `g` of what it was before. -/
def RM.MapsLookups {α : Type} (scope : Nat)
    (g : List (IdentifierLookup × IdentifierResolveState) →
      List (IdentifierLookup × IdentifierResolveState)) (x : RM α) : Prop :=
  ∀ s a s1, x s = (.ok a, s1) →
    (s1.scopes scope).identifier_in_lookup_process
      = g (s.scopes scope).identifier_in_lookup_process

end DB

namespace DB

namespace Example

open QueryAnalyzer

/-- The CTE of `WITH test1 AS (SELECT * FROM test1) SELECT * FROM test1`, at address 20. -/
def cteTest1 : QueryTreeNode :=
  .QUERY 20 ""
    { (query [asterisk 21] false) with
      is_cte := true, cte_name := "test1", join_tree := some (identifier 22 "test1" "") }

/-- The table `test1` of the database catalog. -/
def tableTest1 : QueryTreeNode :=
  .TABLE 30 ""
    { storage_id := "default.test1", temporary_table_name := "",
      columns := [{ name := "a", type := .UInt64 }] }

/-- The collaborators of the examples with a database catalog that has the table
`test1`. -/
def collaboratorsWithCatalog : Collaborators :=
  { collaborators with
    tryResolveTableIdentifierFromDatabaseCatalog := fun identifier _ =>
      if identifier.getFullName == "test1" then
        .ok { resolved_identifier := some tableTest1, resolve_place := .DATABASE_CATALOG }
      else .ok {} }

/-- The analyzer on `WITH test1 AS (SELECT * FROM test1) SELECT * FROM test1`, with the
given CTEs in resolve process: scope 0 is the scope of the query, whose table of CTEs has
`test1`; scope 1 is the scope of the copy of the CTE that replaces `test1` in the join tree
of the query, a child of scope 0. -/
def analyzerWithCTE (ctes_in_resolve_process : List Nat) : QueryAnalyzer :=
  { next_addr := 100, next_scope := 2, node_to_scope_map := [(10, 0), (40, 1)],
    ctes_in_resolve_process := ctes_in_resolve_process,
    scopes := fun i =>
      if i = 0 then
        { scope_node := .QUERY 10 ""
            { (query [asterisk 11] false) with
              with_nodes := [cteTest1], join_tree := some (identifier 12 "test1" "") },
          cte_name_to_query_node := [("test1", cteTest1)] }
      else
        { scope_node := .QUERY 40 ""
            { (query [asterisk 41] false) with
              is_subquery := true, cte_name := "test1",
              join_tree := some (identifier 42 "test1" "") },
          parent_scope := some 0, subquery_depth := 1 } }

/-- The lookup of `test1` as a table expression. -/
def lookupTableTest1 : IdentifierLookup :=
  { identifier := ⟨["test1"]⟩, lookup_context := .TABLE_EXPRESSION }

/-- The options of the lookup of an identifier of the join tree, as
`initializeQueryJoinTreeNode` sets them. -/
def joinTreeLookupSettings : IdentifierResolveContext :=
  { allow_to_check_join_tree := false,
    allow_to_resolve_subquery_during_identifier_resolution := false }

end Example

end DB

namespace DB

namespace Example

/-- The analyzer on `SELECT (SELECT 1 FROM a) FROM t AS a`: scope 0 is the scope of the
query, in which `a` is the alias of the table `t`; scope 1 is the scope of the subquery, a
child of scope 0. -/
def analyzerSubqueryOverAlias : QueryAnalyzer :=
  { next_addr := 100, next_scope := 2, node_to_scope_map := [(60, 0), (70, 1)],
    scopes := fun i =>
      if i = 0 then
        { scopeOverT [] [("a", columnA)] with
          aliases :=
            { alias_name_to_table_expression_node := [("a", (tableT []).setAlias "a")] } }
      else
        { scope_node := .QUERY 70 ""
            { (query [literal 71 1] false) with
              is_subquery := true, join_tree := some (identifier 72 "a" "") },
          parent_scope := some 0, subquery_depth := 1 } }

/-- The lookup of `a` as a table expression. -/
def lookupTableA : IdentifierLookup :=
  { identifier := ⟨["a"]⟩, lookup_context := .TABLE_EXPRESSION }

end Example

end DB

namespace DB

/-! ## Matchers with column transformers (`resolveMatcher`) -/

/-- The type of a column transformer, `ColumnTransfomerType`. -/
inductive ColumnTransfomerType where
  | APPLY | EXCEPT | REPLACE
deriving DecidableEq, Repr

/-- The type of an `APPLY` transformer, `ApplyColumnTransformerType`. -/
inductive ApplyColumnTransformerType where
  | LAMBDA | FUNCTION
deriving DecidableEq, Repr

/-- The methods of the column transformer nodes that `resolveMatcher` calls.  They are
declared in `Analyzer/ColumnTransformers.h`, which is not among the sources, and so is the
hash table `std::unordered_map`, whose order of iteration is not specified. -/
structure TransformerCollaborators where
  /-- The class of the transformer node, which the casts `as<...>` test and
  `getTransformerType` returns. -/
  getTransformerType : QueryTreeNode → ColumnTransfomerType
  /-- The method `ApplyColumnTransformerNode::getApplyTransformerType`; `none` stands for a
  value that is neither `LAMBDA` nor `FUNCTION`. -/
  getApplyTransformerType : QueryTreeNode → Option ApplyColumnTransformerType
  /-- The method `ApplyColumnTransformerNode::getExpressionNode`. -/
  getExpressionNode : QueryTreeNode → QueryTreeNode
  /-- The method `isStrict` of an `EXCEPT` or `REPLACE` transformer. -/
  isStrict : QueryTreeNode → Bool
  /-- The method `ExceptColumnTransformerNode::isColumnMatching`. -/
  isColumnMatching : QueryTreeNode → String → Bool
  /-- The method `ExceptColumnTransformerNode::getExceptColumnNames`. -/
  getExceptColumnNames : QueryTreeNode → List String
  /-- The method `ReplaceColumnTransformerNode::findReplacementExpression`. -/
  findReplacementExpression : QueryTreeNode → String → Option QueryTreeNode
  /-- The method `ReplaceColumnTransformerNode::getReplacementsNames`. -/
  getReplacementsNames : QueryTreeNode → List String
  /-- The order in which a loop over the `std::unordered_map` of the strict transformers
  visits its entries, which are given in the order of their insertion. -/
  iterationOrder : List (QueryTreeNode × List String) → List (QueryTreeNode × List String)

/-- The parts of `resolveMatcher` and of the functions it calls that this development
does not embed. -/
structure UnmodelledMatcher where
  /-- The function `resolveQualifiedMatcher`. -/
  resolveQualifiedMatcher : Resolver → QueryTreeNode → Nat → RM (List (QueryTreeNode × String))
  /-- The block `if (scope.join_use_nulls)` of `resolveMatcher`: the matched nodes with
  their names afterwards. -/
  convertJoinedColumnsToNullable :
    List (QueryTreeNode × String) → Nat → RM (List (QueryTreeNode × String))

namespace QueryAnalyzer

open RM

/-- The local variables of the body of the loop of `resolveMatcher` over the matched
nodes, while the transformers are applied to the node of the slot `node`, together with
the two lists of names and the table of the strict transformers, which the loop updates. -/
structure MatcherFrame where
  node : QueryTreeNode
  apply_transformer_was_used : Bool := false
  replace_transformer_was_used : Bool := false
  execute_apply_transformer : Bool := false
  execute_replace_transformer : Bool := false
  result_projection_names : ProjectionNames
  node_projection_names : ProjectionNames
  strict_transformer_to_used_column_names : List (QueryTreeNode × List String)

/-- The statement `strict_transformer_to_used_column_names.emplace(transformer, {})`: a
transformer that has an entry gets no other; the key is the identity of the node. -/
def emplaceStrictTransformer (table : List (QueryTreeNode × List String))
    (transformer : QueryTreeNode) : List (QueryTreeNode × List String) :=
  if table.any (fun entry => entry.1.addr == transformer.addr) then table
  else table ++ [(transformer, [])]

/-- The statement `strict_transformer_to_used_column_names[transformer].insert(column_name)`:
the name joins the set of the transformer unless it is in it; `operator[]` makes an entry
for a transformer that has none. -/
def insertUsedColumnName (table : List (QueryTreeNode × List String))
    (transformer : QueryTreeNode) (column_name : String) : List (QueryTreeNode × List String) :=
  if table.any (fun entry => entry.1.addr == transformer.addr) then
    table.map (fun entry =>
      if entry.1.addr == transformer.addr then
        (entry.1, if entry.2.contains column_name then entry.2 else entry.2 ++ [column_name])
      else entry)
  else table ++ [(transformer, [column_name])]

/-- The first loop of `resolveMatcher` over the transformers: the table of the strict
`EXCEPT` and `REPLACE` transformers, each with an empty set of used column names. -/
def strictTransformers (T : TransformerCollaborators) :
    QueryTreeNodes → List (QueryTreeNode × List String) → List (QueryTreeNode × List String)
  | [], table => table
  | transformer :: rest, table =>
    if T.getTransformerType transformer == .EXCEPT && T.isStrict transformer then
      strictTransformers T rest (emplaceStrictTransformer table transformer)
    else if T.getTransformerType transformer == .REPLACE && T.isStrict transformer then
      strictTransformers T rest (emplaceStrictTransformer table transformer)
    else strictTransformers T rest table

/-- The loop `for (auto & [node, _] : matched_expression_nodes_with_names)` of
`resolveMatcher` that replaces a node equal to a key of `nullable_group_by_keys` by a
nullable copy of the key. -/
def replaceNullableGroupByKeys (E : Collaborators) (keys : QueryTreeNodes) :
    List (QueryTreeNode × String) → RM (List (QueryTreeNode × String))
  | [] => pure []
  | (node, column_name) :: rest => do
    let node ←
      match keys.find? (fun key => E.isEqualToGroupByKey node key) with
      | some key => do
        let key ← RM.clone key
        pure (E.convertToNullable key)
      | none => pure node
    let others ← replaceNullableGroupByKeys E keys rest
    pure ((node, column_name) :: others)

/-- The branch of the loop over the transformers for an `APPLY` transformer, up to
`execute_apply_transformer = true`. -/
def executeApplyTransformer (T : TransformerCollaborators) (R : Resolver) (scope : Nat)
    (transformer : QueryTreeNode) (frame : MatcherFrame) : RM MatcherFrame := do
  let expression_node := T.getExpressionNode transformer
  let frame := { frame with apply_transformer_was_used := true }
  let frame ←
    match T.getApplyTransformerType transformer with
    | some .LAMBDA => do
      let lambda_expression_to_resolve ← RM.clone expression_node
      let lambda_scope ← createIdentifierResolveScope lambda_expression_to_resolve (some scope)
      let r ← R.resolveLambda expression_node lambda_expression_to_resolve [frame.node]
        lambda_scope
      match r.1 with
      | .LAMBDA _ _ lambda_expression_to_resolve_typed =>
        pure { frame with
          node_projection_names := r.2, node := lambda_expression_to_resolve_typed.expression }
      | _ => throw { code := .LOGICAL_ERROR }
    | some .FUNCTION => do
      let function_to_resolve_untyped ← RM.clone expression_node
      match function_to_resolve_untyped with
      | .FUNCTION a al function_to_resolve_typed => do
        let r ← R.resolveFunction
          (.FUNCTION a al { function_to_resolve_typed with
            arguments := function_to_resolve_typed.arguments ++ [frame.node] }) scope
        pure { frame with node_projection_names := r.2, node := r.1 }
      | _ => throw { code := .LOGICAL_ERROR }
    | none => throw { code := .UNSUPPORTED_METHOD }
  pure { frame with execute_apply_transformer := true }

/-- The branch of the loop over the transformers for a `REPLACE` transformer that has a
replacement for the column, from `replace_transformer_was_used = true` on. -/
def executeReplaceTransformer (T : TransformerCollaborators) (R : Resolver) (scope : Nat)
    (column_name : String) (transformer replace_expression : QueryTreeNode)
    (frame : MatcherFrame) : RM MatcherFrame := do
  let frame := { frame with replace_transformer_was_used := true }
  let frame :=
    if T.isStrict transformer then
      { frame with
        strict_transformer_to_used_column_names :=
          insertUsedColumnName frame.strict_transformer_to_used_column_names transformer
            column_name }
    else frame
  let node ← RM.clone replace_expression
  let r ← R.resolveExpressionNode node scope false false false
  let node_projection_names := if r.2.length == 1 then [column_name] else r.2
  pure { frame with
    node := r.1, node_projection_names := node_projection_names,
    execute_replace_transformer := true }

/-- The block `if (execute_apply_transformer || execute_replace_transformer)` that ends the
body of the loop over the transformers: a list of one node is replaced by the node, and the
one projection name of the node becomes the last of the result. -/
def finishColumnTransformer (frame : MatcherFrame) : RM MatcherFrame :=
  if frame.execute_apply_transformer || frame.execute_replace_transformer then do
    let node ←
      match frame.node with
      | .LIST _ _ node_list =>
        match node_list.nodes with
        | [node] => pure node
        | _ =>
          throw { code := .UNSUPPORTED_METHOD,
                  args := [if frame.execute_apply_transformer then "APPLY" else "REPLACE",
                           toString node_list.nodes.length] }
      | node => pure node
    match frame.node_projection_names with
    | [name] => do
      modify (fun s => { s with
        node_to_projection_name :=
          match s.node_to_projection_name.lookup node.addr with
          | some _ => s.node_to_projection_name
          | none => s.node_to_projection_name ++ [(node.addr, name)] })
      pure { frame with
        node := node,
        result_projection_names := frame.result_projection_names.dropLast ++ [name],
        node_projection_names := [] }
    | _ =>
      throw { code := .LOGICAL_ERROR, args := [toString frame.node_projection_names.length] }
  else pure frame

/-- The loop of `resolveMatcher` over the transformers for one matched node with the name
`column_name`: the frame afterwards, and whether the slot `node` still holds a node (an
`EXCEPT` transformer that matches the column empties it and leaves the loop). -/
def applyColumnTransformers (T : TransformerCollaborators) (R : Resolver) (scope : Nat)
    (column_name : String) : QueryTreeNodes → MatcherFrame → RM (Bool × MatcherFrame)
  | [], frame => pure (true, frame)
  | transformer :: rest, frame =>
    match T.getTransformerType transformer with
    | .APPLY => do
      let frame ← executeApplyTransformer T R scope transformer frame
      let frame ← finishColumnTransformer frame
      applyColumnTransformers T R scope column_name rest frame
    | .EXCEPT =>
      if frame.apply_transformer_was_used || frame.replace_transformer_was_used then
        applyColumnTransformers T R scope column_name rest frame
      else if T.isColumnMatching transformer column_name then
        pure (false,
          if T.isStrict transformer then
            { frame with
              strict_transformer_to_used_column_names :=
                insertUsedColumnName frame.strict_transformer_to_used_column_names transformer
                  column_name }
          else frame)
      else do
        let frame ← finishColumnTransformer frame
        applyColumnTransformers T R scope column_name rest frame
    | .REPLACE =>
      if frame.apply_transformer_was_used || frame.replace_transformer_was_used then
        applyColumnTransformers T R scope column_name rest frame
      else
        match T.findReplacementExpression transformer column_name with
        | none => applyColumnTransformers T R scope column_name rest frame
        | some replace_expression => do
          let frame ← executeReplaceTransformer T R scope column_name transformer
            replace_expression frame
          let frame ← finishColumnTransformer frame
          applyColumnTransformers T R scope column_name rest frame

/-- The loop of `resolveMatcher` over the matched nodes: the nodes of the list, the
projection names of the result, the variable `node_projection_names` and the table of the
strict transformers afterwards. -/
def resolveMatchedNodes (T : TransformerCollaborators) (R : Resolver) (scope : Nat)
    (transformers : QueryTreeNodes) :
    List (QueryTreeNode × String) → QueryTreeNodes → ProjectionNames → ProjectionNames →
    List (QueryTreeNode × List String) →
    RM (QueryTreeNodes × ProjectionNames × List (QueryTreeNode × List String))
  | [], list, result_projection_names, _, table => pure (list, result_projection_names, table)
  | (node, column_name) :: rest, list, result_projection_names, node_projection_names,
      table => do
    let s ← get
    let result_projection_names :=
      match s.node_to_projection_name.lookup node.addr with
      | some projection_name => result_projection_names ++ [projection_name]
      | none => result_projection_names ++ [column_name]
    let r ← applyColumnTransformers T R scope column_name transformers
      { node := node, result_projection_names := result_projection_names,
        node_projection_names := node_projection_names,
        strict_transformer_to_used_column_names := table }
    if r.1 then
      resolveMatchedNodes T R scope transformers rest (list ++ [r.2.node])
        r.2.result_projection_names r.2.node_projection_names
        r.2.strict_transformer_to_used_column_names
    else
      resolveMatchedNodes T R scope transformers rest list
        r.2.result_projection_names.dropLast r.2.node_projection_names
        r.2.strict_transformer_to_used_column_names

/-- The names of a strict transformer that are not among the used column names, the list
`non_matched_column_names` of `resolveMatcher`. -/
def nonMatchedColumnNames (strict_transformer_column_names used_column_names : List String) :
    List String :=
  strict_transformer_column_names.filter
    (fun column_name => !used_column_names.contains column_name)

/-- The names of a strict transformer that the last loop of `resolveMatcher` compares with
the used column names: those of `getExceptColumnNames` or of `getReplacementsNames`. -/
def strictTransformerColumnNames (T : TransformerCollaborators) (transformer : QueryTreeNode) :
    List String :=
  match T.getTransformerType transformer with
  | .EXCEPT => T.getExceptColumnNames transformer
  | .REPLACE => T.getReplacementsNames transformer
  | .APPLY => []

/-- The last loop of `resolveMatcher`, over the table of the strict transformers in the
order given: the first transformer whose number of names is not the number of its used
column names throws `BAD_ARGUMENTS` with the names that are not used. -/
def checkStrictTransformers (T : TransformerCollaborators) :
    List (QueryTreeNode × List String) → Except Exception Unit
  | [] => .ok ()
  | (strict_transformer, used_column_names) :: rest =>
    let strict_transformer_column_names : Except Exception (Option (List String)) :=
      match T.getTransformerType strict_transformer with
      | .EXCEPT =>
        let except_names := T.getExceptColumnNames strict_transformer
        if except_names.length != used_column_names.length then .ok (some except_names)
        else .ok none
      | .REPLACE =>
        let replacement_names := T.getReplacementsNames strict_transformer
        if replacement_names.length != used_column_names.length then
          .ok (some replacement_names)
        else .ok none
      | .APPLY => .error { code := .LOGICAL_ERROR }
    match strict_transformer_column_names with
    | .error e => .error e
    | .ok none => checkStrictTransformers T rest
    | .ok (some strict_transformer_column_names) =>
      .error { code := .BAD_ARGUMENTS,
               args := nonMatchedColumnNames strict_transformer_column_names used_column_names }

/-- Embedding of `QueryAnalyzer::resolveMatcher`: the list node that replaces the matcher
and the projection names.  The original AST of the node is not part of the embedding. -/
def resolveMatcher (E : Collaborators) (M : MatcherCollaborators)
    (T : TransformerCollaborators) (U : UnmodelledMatcher) (R : Resolver)
    (matcher_node : QueryTreeNode) (scope : Nat) : RM (QueryTreeNode × ProjectionNames) :=
  match matcher_node with
  | .MATCHER _ _ matcher_node_typed => do
    let matched_expression_nodes_with_names ←
      if !matcher_node_typed.isUnqualified then U.resolveQualifiedMatcher R matcher_node scope
      else resolveUnqualifiedMatcher E M R matcher_node scope
    let sc ← getScope scope
    let matched_expression_nodes_with_names ←
      if sc.join_use_nulls then
        U.convertJoinedColumnsToNullable matched_expression_nodes_with_names scope
      else pure matched_expression_nodes_with_names
    let sc ← getScope scope
    let matched_expression_nodes_with_names ←
      if !sc.expressions_in_resolve_process_stack.hasAggregateFunction then
        replaceNullableGroupByKeys E sc.nullable_group_by_keys
          matched_expression_nodes_with_names
      else pure matched_expression_nodes_with_names
    let strict_transformer_to_used_column_names :=
      strictTransformers T matcher_node_typed.column_transformers []
    let list ← allocate
    let r ← resolveMatchedNodes T R scope matcher_node_typed.column_transformers
      matched_expression_nodes_with_names [] [] [] strict_transformer_to_used_column_names
    lift (checkStrictTransformers T (T.iterationOrder r.2.2))
    pure (.LIST list "" { nodes := r.1 }, r.2.1)
  | _ => throw { code := .LOGICAL_ERROR }

end QueryAnalyzer

namespace Example

/-- The methods of the column transformer nodes for the examples: the name of the
transformer gives its class, an `EXCEPT` transformer with a list of names matches the
columns of the list, and the names and expressions of a `REPLACE` transformer are its
replacements. -/
def transformerCollaborators : TransformerCollaborators where
  getTransformerType := fun transformer =>
    match transformer with
    | .TRANSFORMER _ _ n =>
      if n.transformer_name == "EXCEPT" then .EXCEPT
      else if n.transformer_name == "REPLACE" then .REPLACE
      else .APPLY
    | _ => .APPLY
  getApplyTransformerType := fun transformer =>
    match transformer with
    | .TRANSFORMER _ _ n =>
      match n.expressions with
      | [.LAMBDA ..] => some .LAMBDA
      | [.FUNCTION ..] => some .FUNCTION
      | _ => none
    | _ => none
  getExpressionNode := fun transformer =>
    match transformer with
    | .TRANSFORMER _ _ n => n.expressions.headD transformer
    | _ => transformer
  isStrict := fun transformer =>
    match transformer with
    | .TRANSFORMER _ _ n => n.is_strict
    | _ => false
  isColumnMatching := fun transformer column_name =>
    match transformer with
    | .TRANSFORMER _ _ n => n.names.contains column_name
    | _ => false
  getExceptColumnNames := fun transformer =>
    match transformer with
    | .TRANSFORMER _ _ n => n.names
    | _ => []
  findReplacementExpression := fun transformer column_name =>
    match transformer with
    | .TRANSFORMER _ _ n => (n.names.zip n.expressions).lookup column_name
    | _ => none
  getReplacementsNames := fun transformer =>
    match transformer with
    | .TRANSFORMER _ _ n => n.names
    | _ => []
  iterationOrder := fun table => table

/-- The parts of `resolveMatcher` that are not embedded, for the examples, which have
neither a qualified matcher nor `join_use_nulls`. -/
def unmodelledMatcher : UnmodelledMatcher where
  resolveQualifiedMatcher := fun _ _ _ => RM.throw { code := .NOT_IMPLEMENTED }
  convertJoinedColumnsToNullable := fun _ _ => RM.throw { code := .NOT_IMPLEMENTED }

/-- The transformer `EXCEPT (names)` or `EXCEPT STRICT (names)` at address `a`. -/
def exceptTransformer (a : Nat) (is_strict : Bool) (names : List String) : QueryTreeNode :=
  .TRANSFORMER a ""
    { transformer_name := "EXCEPT", is_strict := is_strict, names := names, expressions := [] }

/-- The matcher `* transformers` at address 70. -/
def asteriskWith (transformers : QueryTreeNodes) : QueryTreeNode :=
  .MATCHER 70 "" { matcher_type := .ASTERISK, qualified_identifier := ⟨[]⟩,
                   columns_identifiers := [], column_transformers := transformers }

/-- The column `value` of `t`. -/
def columnValue : QueryTreeNode := column 52 "value" 50

/-- The analyzer on a query over the table `t (id, value)`. -/
def analyzerOverIdValue : QueryAnalyzer :=
  analyzerOver (scopeOverT [] [("id", columnId), ("value", columnValue)])

/-- What the examples observe of the resolution of a matcher: the descriptions of the
nodes of the list with the projection names, or the exception thrown. -/
inductive MatcherOutcome where
  | expanded (nodes : List String) (projection_names : ProjectionNames)
  | threw (exception : Exception)
deriving DecidableEq, Repr

/-- The outcome of the resolution of a matcher. -/
def outcomeOfMatcher (r : Res (QueryTreeNode × ProjectionNames)) : MatcherOutcome :=
  match r.1 with
  | .ok (.LIST _ _ list, names) => .expanded (list.nodes.map describe) names
  | .ok (node, names) => .expanded [describe node] names
  | .error e => .threw e

end Example

end DB

namespace DB

namespace Example

/-- The parts that are not embedded, for the examples, with the embedding of
`resolveMatcher` in the place of the function `resolveMatcher`. -/
def unmodelledWithMatcher : Unmodelled :=
  { unmodelled with
    resolveMatcher := fun R matcher_node scope =>
      QueryAnalyzer.resolveMatcher collaborators matcherCollaborators transformerCollaborators
        unmodelledMatcher R matcher_node scope }

/-- The transformer `REPLACE (expression AS name)` at address `a`. -/
def replaceTransformer (a : Nat) (name : String) (expression : QueryTreeNode) : QueryTreeNode :=
  .TRANSFORMER a ""
    { transformer_name := "REPLACE", is_strict := false, names := [name],
      expressions := [expression] }

/-- The transformer `APPLY (expression)` at address `a`. -/
def applyTransformer (a : Nat) (expression : QueryTreeNode) : QueryTreeNode :=
  .TRANSFORMER a ""
    { transformer_name := "APPLY", is_strict := false, names := [], expressions := [expression] }

end Example

end DB

namespace DB

/-! ## `ORDER BY ALL` (`expandOrderByAll`) -/

namespace QueryAnalyzer

open RM

/-- The loop of `expandOrderByAll` over the nodes of the projection: the sort nodes of the
new list.  A node that has an entry in `resolved_expressions` must have one projection
name, which must not be `all` in any letter case. -/
def orderByAllSortNodes (all_node : SortNode QueryTreeNode) :
    QueryTreeNodes → QueryTreeNodes → RM QueryTreeNodes
  | [], list_node => pure list_node
  | node :: rest, list_node => do
    let s ← get
    match s.resolved_expressions.lookup node.addr with
    | some projection_names =>
      if projection_names.length != 1 then
        throw { code := .LOGICAL_ERROR, args := [toString projection_names.length] }
      else if iequals (projection_names.headD "") "all" then
        throw { code := .UNEXPECTED_EXPRESSION }
      else pure ()
    | none => pure ()
    let sort_node ← allocate
    orderByAllSortNodes all_node rest
      (list_node ++
        [.SORT sort_node ""
          { expression := node, sort_direction := all_node.sort_direction,
            nulls_sort_direction := all_node.nulls_sort_direction,
            fill_from := none, fill_to := none, fill_step := none }])

/-- Embedding of `QueryAnalyzer::expandOrderByAll`: whether the call returned or threw,
the query node afterwards and the state afterwards.  The code reads the first node of the
`ORDER BY` list without a test that the list has one; the embedding takes an empty list as
it takes a first node that is not a sort node. -/
def expandOrderByAll (query_tree_node_typed : QueryNode QueryTreeNode) (settings : Settings)
    (self : QueryAnalyzer) :
    (Except Exception Unit × QueryNode QueryTreeNode) × QueryAnalyzer :=
  if !settings.enable_order_by_all || !query_tree_node_typed.is_order_by_all then
    ((.ok (), query_tree_node_typed), self)
  else
    match query_tree_node_typed.order_by with
    | .SORT _ _ all_node :: _ =>
      match (allocate.andThen fun _ =>
          orderByAllSortNodes all_node query_tree_node_typed.projection []) self with
      | (.ok list_node, s1) =>
        ((.ok (), { query_tree_node_typed with order_by := list_node, is_order_by_all := false }),
          s1)
      | (.error e, s1) => ((.error e, query_tree_node_typed), s1)
    | _ => ((.error { code := .LOGICAL_ERROR }, query_tree_node_typed), self)

/-- The sort nodes that `ORDER BY ALL` stands for: one for each node of the projection, in
the order of the projection, at the addresses from `a` on, with the directions of the
sort node `ALL`. -/
def sortNodesOver (all_node : SortNode QueryTreeNode) : QueryTreeNodes → Nat → QueryTreeNodes
  | [], _ => []
  | node :: rest, a =>
    .SORT a ""
      { expression := node, sort_direction := all_node.sort_direction,
        nulls_sort_direction := all_node.nulls_sort_direction,
        fill_from := none, fill_to := none, fill_step := none }
      :: sortNodesOver all_node rest (a + 1)

end QueryAnalyzer

namespace Example

/-- The sort node `ALL DESC NULLS FIRST` of `ORDER BY ALL DESC NULLS FIRST`, at address 90. -/
def sortAll : QueryTreeNode :=
  .SORT 90 ""
    { expression := identifier 91 "all" "", sort_direction := .DESCENDING,
      nulls_sort_direction := some .ASCENDING, fill_from := none, fill_to := none,
      fill_step := none }

/-- The query `SELECT id, value AS name FROM t ORDER BY ALL DESC NULLS FIRST` after the
resolution of its projection. -/
def selectOrderByAll (name : String) : QueryNode QueryTreeNode :=
  { (query [columnId, columnValue.setAlias name] false) with
    is_order_by_all := true, order_by := [sortAll] }

/-- The analyzer after the resolution of the projection of `selectOrderByAll name`: the
two nodes of the projection have their projection names in `resolved_expressions`. -/
def analyzerOrderByAll (name : String) : QueryAnalyzer :=
  { next_addr := 100,
    resolved_expressions := [(columnId.addr, ["id"]), (columnValue.addr, [name])] }

end Example

end DB

namespace DB

/-- The number of the rows in all the blocks that the pipeline of a scalar subquery
yields. -/
def ScalarSubqueryExecution.totalRows (execution : ScalarSubqueryExecution) : Nat :=
  (execution.blocks.map (fun block => block.rows)).sum

namespace QueryAnalyzer

/-- The context `subquery_context` for which `evaluateScalarSubqueryIfNeeded` builds the
interpreter of a subquery in a scope with the given context. -/
def scalarSubqueryContext (context : Context) : Context :=
  { context with
    settings := { context.settings with
      max_result_rows := 1, extremes := false, implicit_table_at_top_level := "",
      use_structure_from_insertion_table_in_table_functions := 0 } }

end QueryAnalyzer

namespace Example

/-- The collaborators of the examples with an interpreter that gives the same execution
for every subquery. -/
def scalarCollaboratorsWith (execution : ScalarSubqueryExecution) : ScalarCollaborators :=
  { scalarCollaborators with interpret := fun _ _ _ _ => .ok execution }

/-- A block of `rows` rows of the column `x` of type `UInt8`, whose first row is `1`. -/
def blockOfX (rows : Nat) : PulledBlock :=
  { rows := rows, columns := [("x", .UInt8, .UInt64 1)] }

/-- What the examples observe of the evaluation of a scalar subquery: the description of
the node that replaces the subquery or the exception thrown, and the number of the entries
of the two caches of the analyzer afterwards. -/
def outcomeOfScalar (r : Res QueryTreeNode) : Outcome × Nat × Nat :=
  (match r.1 with
   | .ok node => .returned [describe node] []
   | .error e => .threw e,
   r.2.scalar_subquery_to_scalar_value_global.length,
   r.2.scalar_subquery_to_scalar_value_local.length)

end Example

end DB

namespace DB

/-! ## `JOIN ... USING` (`resolveJoin`) -/

/-- The collaborators of `resolveJoin` whose code is not in `QueryAnalyzer.cpp`. -/
structure JoinCollaborators where
  /-- The function `IdentifierResolver::tryResolveIdentifierFromJoinTreeNode`. -/
  tryResolveIdentifierFromJoinTreeNode :
    IdentifierLookup → QueryTreeNode → IdentifierResolveScope →
      Except Exception IdentifierResolveResult
  /-- The names of the columns `getStorageSnapshot()->getColumns(options)` of a table or a
  table function, for the options `AllPhysical` with subcolumns. -/
  getPhysicalColumnNames : QueryTreeNode → List String

/-- A query node as the constructor `QueryNode(context)` makes it. -/
def QueryNode.new : QueryNode QueryTreeNode :=
  { is_subquery := false, is_cte := false, cte_name := "", is_correlated := false,
    is_group_by_with_totals := false, is_group_by_with_rollup := false,
    is_group_by_with_cube := false, is_group_by_with_grouping_sets := false,
    is_group_by_all := false, is_order_by_all := false, projection_columns := [],
    with_nodes := [], projection := [], join_tree := none, prewhere := none,
    where_ := none, group_by := [], having := none, window := [], qualify := none,
    order_by := [], interpolate := none, limit_by_limit := none, limit_by_offset := none,
    limit_by := [], limit := none, offset := none }

namespace QueryAnalyzer

open RM

/-- Embedding of the static function `getColumnsFromTableExpression`: the names of the
columns of a table expression. -/
def getColumnsFromTableExpression (M : MatcherCollaborators) (J : JoinCollaborators)
    (table_expression : QueryTreeNode) : Except Exception (List String) :=
  match table_expression with
  | .TABLE .. => .ok (J.getPhysicalColumnNames table_expression)
  | .TABLE_FUNCTION .. => .ok (J.getPhysicalColumnNames table_expression)
  | .QUERY _ _ query_node => .ok (query_node.projection_columns.map (fun column => column.name))
  | .UNION _ _ union_node =>
    .ok ((M.computeProjectionColumns union_node).map (fun column => column.name))
  | _ => .error { code := .LOGICAL_ERROR }

/-- The loop `while (existing_columns.contains(name)) name = "_" + name` of `resolveJoin`,
run for at most the given number of rounds. -/
def freshColumnName (existing_columns : List String) : Nat → String → String
  | 0, name => name
  | rounds + 1, name =>
    if existing_columns.contains name then freshColumnName existing_columns rounds ("_" ++ name)
    else name

/-- The lambda `try_resolve_identifier_from_query_projection` of `resolveJoin`, from the
loop over the nodes of the projection on: the first node with the alias
`identifier_full_name` that is resolved to one node, in a new query over the left table
expression, gives a column of that table expression with the node as its expression. -/
def tryResolveIdentifierFromProjectionNodes (E : Collaborators) (M : MatcherCollaborators)
    (J : JoinCollaborators) (R : Resolver) (identifier_full_name : String)
    (left_table_expression : QueryTreeNode) : QueryTreeNodes → RM (Option QueryTreeNode)
  | [] => pure none
  | projection_node :: rest =>
    if projection_node.hasAlias && identifier_full_name == projection_node.getAlias then do
      let left_subquery ← allocate
      let projection ← RM.clone projection_node
      let left_subquery : QueryTreeNode :=
        .QUERY left_subquery ""
          { QueryNode.new with projection := [projection], join_tree := some left_table_expression }
      let left_subquery_scope ← createIdentifierResolveScope left_subquery none
      let left_subquery ← R.resolveQuery left_subquery left_subquery_scope
      let resolved_nodes :=
        match left_subquery with
        | .QUERY _ _ query_node => query_node.projection
        | _ => []
      match resolved_nodes with
      | [resolved_node] => do
        let existing_columns ← lift (getColumnsFromTableExpression M J left_table_expression)
        let type ← lift (resolved_node.getResultType E)
        let name := freshColumnName existing_columns existing_columns.length identifier_full_name
        let column ← allocate
        pure (some (.COLUMN column ""
          { column_name := name, column_type := type.getD .NullPtr,
            column_source := left_table_expression.addr, expression := some resolved_node,
            column_source_type := left_table_expression.getNodeType }))
      | _ =>
        tryResolveIdentifierFromProjectionNodes E M J R identifier_full_name
          left_table_expression rest
    else
      tryResolveIdentifierFromProjectionNodes E M J R identifier_full_name
        left_table_expression rest

/-- The lambda `try_resolve_identifier_from_query_projection` of `resolveJoin`. -/
def tryResolveIdentifierFromQueryProjection (E : Collaborators) (M : MatcherCollaborators)
    (J : JoinCollaborators) (R : Resolver) (identifier_full_name : String)
    (left_table_expression : QueryTreeNode) (scope : Nat) : RM (Option QueryTreeNode) := do
  let sc ← getScope scope
  match sc.scope_node with
  | .QUERY _ _ query_node =>
    tryResolveIdentifierFromProjectionNodes E M J R identifier_full_name left_table_expression
      query_node.projection
  | _ => pure none

/-- The part of the body of the loop of `resolveJoin` over a `USING` clause that gives
`result_left_table_expression`: with
`analyzer_compatibility_join_using_top_level_identifier`, an alias of the projection comes
first; otherwise, and when there is no such alias, the identifier is looked up in the left
table expression. -/
def resolveJoinUsingLeft (E : Collaborators) (M : MatcherCollaborators) (J : JoinCollaborators)
    (R : Resolver) (join_node_typed : JoinNode QueryTreeNode) (scope : Nat)
    (identifier_node : IdentifierNode) : RM (Option QueryTreeNode) := do
  let identifier_full_name := identifier_node.identifier.getFullName
  let sc ← getScope scope
  let settings := sc.context.settings
  let result_left_table_expression ←
    if settings.analyzer_compatibility_join_using_top_level_identifier then
      tryResolveIdentifierFromQueryProjection E M J R identifier_full_name
        join_node_typed.left_table_expression scope
    else pure none
  match result_left_table_expression with
  | some node => pure (some node)
  | none => do
    let sc ← getScope scope
    let result ← lift (J.tryResolveIdentifierFromJoinTreeNode
      { identifier := identifier_node.identifier, lookup_context := .EXPRESSION }
      join_node_typed.left_table_expression sc)
    pure result.resolved_identifier

/-- The body of the loop of `resolveJoin` over the nodes of a `USING` clause, for the
join node at the address `join_node`: the node that replaces `join_using_node` and the set
`join_using_identifiers` afterwards. -/
def resolveJoinUsingNode (E : Collaborators) (M : MatcherCollaborators) (J : JoinCollaborators)
    (R : Resolver) (join_node : Nat) (join_node_typed : JoinNode QueryTreeNode) (scope : Nat)
    (join_using_identifiers : List String) (join_using_node : QueryTreeNode) :
    RM (QueryTreeNode × List String) :=
  match join_using_node with
  | .IDENTIFIER _ _ identifier_node =>
    let identifier_full_name := identifier_node.identifier.getFullName
    if join_using_identifiers.contains identifier_full_name then
      throw { code := .BAD_ARGUMENTS, args := [identifier_full_name] }
    else do
      let join_using_identifiers := join_using_identifiers ++ [identifier_full_name]
      let result_left_table_expression ←
        resolveJoinUsingLeft E M J R join_node_typed scope identifier_node
      match result_left_table_expression with
      | none => throw { code := .UNKNOWN_IDENTIFIER, args := [identifier_full_name] }
      | some result_left_table_expression =>
        if result_left_table_expression.getNodeType != .COLUMN then
          throw { code := .UNSUPPORTED_METHOD, args := [identifier_full_name] }
        else do
          let right_name :=
            if join_using_node.hasAlias then join_using_node.getAlias else identifier_full_name
          let sc ← getScope scope
          let result ← lift (J.tryResolveIdentifierFromJoinTreeNode
            { identifier := Identifier.ofString right_name, lookup_context := .EXPRESSION }
            join_node_typed.right_table_expression sc)
          match result.resolved_identifier with
          | none => throw { code := .UNKNOWN_IDENTIFIER, args := [right_name] }
          | some result_right_table_expression =>
            if result_right_table_expression.getNodeType != .COLUMN then
              throw { code := .UNSUPPORTED_METHOD, args := [right_name] }
            else do
              let join_using_column_node ← makeJoinUsingColumn E M result_left_table_expression
                result_right_table_expression identifier_full_name join_node
              pure (join_using_column_node, join_using_identifiers)
  | _ => throw { code := .BAD_ARGUMENTS }

/-- The loop of `resolveJoin` over the nodes of a `USING` clause: the nodes of the clause
afterwards. -/
def resolveJoinUsingNodes (E : Collaborators) (M : MatcherCollaborators) (J : JoinCollaborators)
    (R : Resolver) (join_node : Nat) (join_node_typed : JoinNode QueryTreeNode) (scope : Nat) :
    QueryTreeNodes → List String → RM QueryTreeNodes
  | [], _ => pure []
  | join_using_node :: rest, join_using_identifiers => do
    let r ← resolveJoinUsingNode E M J R join_node join_node_typed scope join_using_identifiers
      join_using_node
    let others ← resolveJoinUsingNodes E M J R join_node join_node_typed scope rest r.2
    pure (r.1 :: others)

/-- The branch `else if (join_node_typed.isUsingJoinExpression())` of `resolveJoin`, for a
join node whose table expressions are resolved: the join node afterwards. -/
def resolveJoinUsing (E : Collaborators) (M : MatcherCollaborators) (J : JoinCollaborators)
    (R : Resolver) (join_node : QueryTreeNode) (scope : Nat) : RM QueryTreeNode :=
  match join_node with
  | .JOIN a al join_node_typed =>
    match join_node_typed.join_expression with
    | some (.LIST list list_alias join_using_list) => do
      let nodes ← resolveJoinUsingNodes E M J R a join_node_typed scope join_using_list.nodes []
      pure (.JOIN a al { join_node_typed with
        join_expression := some (.LIST list list_alias { nodes := nodes }) })
    | _ => pure join_node
  | _ => throw { code := .LOGICAL_ERROR }

end QueryAnalyzer

namespace Example

open QueryAnalyzer

/-- The lookup of a column in a table expression for the examples: the column with the
name of the identifier in the data that the scope has for the table expression. -/
def joinCollaborators : JoinCollaborators where
  tryResolveIdentifierFromJoinTreeNode := fun identifier_lookup table_expression sc =>
    match sc.table_expression_node_to_data.lookup table_expression.addr with
    | some data =>
      match data.column_name_to_column_node.lookup identifier_lookup.identifier.getFullName with
      | some column => .ok { resolved_identifier := some column, resolve_place := .JOIN_TREE }
      | none => .ok {}
    | none => .ok {}
  getPhysicalColumnNames := fun table_expression =>
    match table_expression with
    | .TABLE _ _ n => n.columns.map (fun column => column.name)
    | _ => []

/-- The join `t1 JOIN t2 USING (names)` at address 52 before `resolveJoin`, with the
identifiers of the clause at the addresses from 80 on. -/
def joinUsing (names : List (String × String)) : QueryTreeNode :=
  .JOIN 52 ""
    { left_table_expression := tableT1, right_table_expression := tableT2,
      join_expression := some (.LIST 53 ""
        { nodes := names.enum.map (fun e => identifier (80 + e.1) e.2.1 e.2.2) }),
      kind := .Inner }

/-- The scope of `SELECT * FROM t1 JOIN t2 USING (...)` with `t1 (id UInt8, a UInt64, s
String)` and `t2 (id UInt64, b UInt64, s UInt64)`, the columns `s` having no common
type. -/
def scopeJoinT1T2 : IdentifierResolveScope :=
  { scope_node := .QUERY 70 "" { (query [asterisk 71] false) with join_tree := some (joinUsing []) }
    table_expression_node_to_data :=
      [(50, { column_name_to_column_node :=
                [("id", columnT1Id), ("a", typedColumn 61 "a" .UInt64 50),
                 ("s", typedColumn 64 "s" .String 50)] }),
       (51, { column_name_to_column_node :=
                [("id", columnT2Id), ("b", typedColumn 63 "b" .UInt64 51),
                 ("s", typedColumn 65 "s" .UInt64 51)] })] }

/-- What the examples observe of a join node: for each node of its `USING` clause, the
name and the type of the column, and the names and the sources of the columns of its
expression. -/
def describeUsing : QueryTreeNode → List (String × String × List (String × Nat))
  | .JOIN _ _ n =>
    match n.join_expression with
    | some (.LIST _ _ list) =>
      list.nodes.map (fun node =>
        match node with
        | .COLUMN _ _ c =>
          (c.column_name, typeName c.column_type,
            match c.expression with
            | some (.LIST _ _ expression) =>
              expression.nodes.map (fun e =>
                match e with
                | .COLUMN _ _ ec => (ec.column_name, ec.column_source)
                | _ => ("", 0))
            | _ => [])
        | _ => ("", "", []))
    | _ => []
  | _ => []

/-- The outcome of `resolveJoinUsing`: what `describeUsing` gives, or the exception. -/
def outcomeOfJoin (r : Res QueryTreeNode) :
    Exception ⊕ List (String × String × List (String × Nat)) :=
  match r.1 with
  | .ok node => .inr (describeUsing node)
  | .error e => .inl e

end Example

end DB

namespace DB

namespace Example

open QueryAnalyzer

/-- A function without arguments whose constant result occupies the given number of
bytes. -/
def constantOfSize (byte_size : Nat) : FunctionOverloadResolver where
  build := fun _ => .ok
    { result_type := .String
      is_suitable_for_constant_folding := true
      execute := fun _ => .ok (some { value := .String "x", byte_size := byte_size })
      getConstantResultForNonConstArguments := fun _ => .ok none }

/-- The collaborators of the examples with two more functions: the constant result of
`small` occupies one byte less than 1 MiB and the one of `large` occupies 1 MiB. -/
def collaboratorsWithSizes : Collaborators :=
  { collaborators with
    tryGetFunction := fun name _ =>
      if name == "small" then some (constantOfSize (ONE_MiB - 1))
      else if name == "large" then some (constantOfSize ONE_MiB)
      else none }

/-- The local variables of `resolveFunction` for the call `name()` at address 1, when
its arguments are resolved. -/
def frameOfCall (name : String) : FunctionFrame :=
  { addr := 1, node_alias := ""
    function_node :=
      { function_name := name, parameters := [], arguments := [], window := none,
        kind := .UNKNOWN, result_type := none }
    function_name := name
    result_projection_names := [name ++ "()"] }

end Example

end DB

namespace DB

namespace QueryAnalyzer

open RM

/-- The call `emplace` of `expression_argument_name_to_node`: a name that has an entry
keeps it. -/
def emplaceExpressionArgument (table : List (String × QueryTreeNode)) (name : String)
    (node : QueryTreeNode) : List (String × QueryTreeNode) :=
  if (table.lookup name).isSome then table else (name, node) :: table

/-- The loop of `resolveLambda` over the arguments of the lambda, each with the argument
of the call at the same index.  The value tree keeps the names of the arguments of a
lambda, for which the constructor of `LambdaNode` makes one identifier node each, so the
branch for an argument that is neither an identifier nor a column is not reached, and the
list of the new argument nodes, which replaces the identifiers, is not kept. -/
def registerLambdaArguments (scope : Nat) : List (String × QueryTreeNode) → RM Unit
  | [] => pure ()
  | (lambda_argument_name, lambda_argument) :: rest => do
    let sc ← getScope scope
    let has_expression_node :=
      (sc.aliases.alias_name_to_expression_node.lookup lambda_argument_name).isSome
    let has_alias_node :=
      (sc.aliases.alias_name_to_lambda_node.lookup lambda_argument_name).isSome
    if has_expression_node || has_alias_node then
      throw { code := .BAD_ARGUMENTS, args := [lambda_argument_name] }
    else do
      RM.modifyScope scope (fun sc => { sc with
        expression_argument_name_to_node :=
          emplaceExpressionArgument sc.expression_argument_name_to_node lambda_argument_name
            lambda_argument })
      registerLambdaArguments scope rest

/-- Embedding of `QueryAnalyzer::resolveLambda`: the lambda to resolve afterwards and the
projection names of its body.  The set `lambdas_in_resolve_process` is declared outside
the file; `key` is what the set compares of a node, the address of the node for a set of
pointers and the hash of its tree for a set of nodes with hash.  The visitor
`QueryExpressionsAliasVisitor`, which is defined outside the file, is the parameter
`visit`: it gives the alias tables of the scope after the visit of the body. -/
def resolveLambda (key : QueryTreeNode → Nat)
    (visit : ScopeAliases → QueryTreeNode → Except Exception ScopeAliases)
    (R : Resolver) (lambda_node lambda_node_to_resolve : QueryTreeNode)
    (lambda_arguments : QueryTreeNodes) (scope : Nat) : RM (QueryTreeNode × ProjectionNames) :=
  match lambda_node_to_resolve with
  | .LAMBDA addr node_alias lambda_to_resolve => do
    let lambda_arguments_nodes_size := lambda_to_resolve.argument_names.length
    let s ← get
    if s.lambdas_in_resolve_process.contains (key lambda_node) then
      throw { code := .UNSUPPORTED_METHOD, args := [lambda_node.getAlias] }
    else do
      modify (fun s => { s with
        lambdas_in_resolve_process := key lambda_node :: s.lambdas_in_resolve_process })
      let arguments_size := lambda_arguments.length
      if lambda_arguments_nodes_size != arguments_size then
        throw { code := .BAD_ARGUMENTS,
                args := [toString lambda_arguments_nodes_size, toString arguments_size] }
      else do
        let sc ← getScope scope
        let aliases ← lift (visit sc.aliases lambda_to_resolve.expression)
        RM.modifyScope scope (fun sc => { sc with aliases := aliases })
        registerLambdaArguments scope (lambda_to_resolve.argument_names.zip lambda_arguments)
        let r ← R.resolveExpressionNode lambda_to_resolve.expression scope false false false
        modify (fun s => { s with
          lambdas_in_resolve_process :=
            s.lambdas_in_resolve_process.filter (fun k => k != key lambda_node) })
        pure (.LAMBDA addr node_alias { lambda_to_resolve with expression := r.1 }, r.2)
  | _ => throw { code := .LOGICAL_ERROR }

end QueryAnalyzer

namespace Example

open QueryAnalyzer

/-- The parts of the file that are not embedded, except the block of `resolveFunction` for
`if` and the function `resolveLambda`, with a visitor that finds no alias in the body of
a lambda. -/
def unmodelledButLambda (key : QueryTreeNode → Nat) : Unmodelled :=
  { unmodelled with
    resolveConstantIf := resolveConstantIf constantCondition
    resolveLambda := resolveLambda key (fun aliases _ => .ok aliases) }

/-- The lambda `name -> expression` with the given alias at address `a`. -/
def lambda (a : Nat) (node_alias name : String) (expression : QueryTreeNode) :
    QueryTreeNode :=
  .LAMBDA a node_alias { argument_names := [name], expression := expression }

/-- The lambda `(x -> tupleElement(x, '1')) AS f`. -/
def lambdaF : QueryTreeNode :=
  lambda 10 "f" "x"
    (unresolvedCall 11 "tupleElement" ""
      [identifier 12 "x" "",
       .CONSTANT 13 "" { value := .String "1", result_type := .String, source_expression := none }])

/-- The lambda `(y -> if(1, y, f(y))) AS g`. -/
def lambdaG : QueryTreeNode :=
  lambda 20 "g" "y"
    (unresolvedCall 21 "if" ""
      [literal 22 1, identifier 23 "y" "", unresolvedCall 24 "f" "" [identifier 25 "y" ""]])

/-- The lambda `(x -> x + lambda_2(x)) AS lambda_1`. -/
def lambda1 : QueryTreeNode :=
  lambda 30 "lambda_1" "x"
    (unresolvedCall 31 "plus" ""
      [identifier 32 "x" "", unresolvedCall 33 "lambda_2" "" [identifier 34 "x" ""]])

/-- The lambda `(x -> x + lambda_1(x)) AS lambda_2`. -/
def lambda2 : QueryTreeNode :=
  lambda 40 "lambda_2" "x"
    (unresolvedCall 41 "plus" ""
      [identifier 42 "x" "", unresolvedCall 43 "lambda_1" "" [identifier 44 "x" ""]])

/-- The scope of a query over the table `t` whose alias table holds the given lambdas
under their aliases. -/
def scopeWithLambdas (lambdas : QueryTreeNodes) : IdentifierResolveScope :=
  { scopeOverT [] [] with
    aliases := { alias_name_to_lambda_node := lambdas.map (fun node => (node.getAlias, node)) } }

/-- The analyzer of
`WITH (x -> tupleElement(x, '1')) AS f, (y -> if(1, y, f(y))) AS g SELECT ...`
and of `WITH (x -> x + lambda_2(x)) AS lambda_1, (x -> x + lambda_1(x)) AS lambda_2
SELECT ...`, before the projection is resolved. -/
def analyzerWithLambdas : QueryAnalyzer :=
  analyzerOver (scopeWithLambdas [lambdaF, lambdaG, lambda1, lambda2])

/-- The call of `resolveLambda` that `resolveFunction` makes for `g(7)`: the lambda `g`
is cloned, the clone gets a scope below the scope 0 and is resolved with the argument
`7`. -/
def resolveLambdaG (key : QueryTreeNode → Nat) : Res (QueryTreeNode × ProjectionNames) :=
  ((RM.clone lambdaG).andThen fun lambda_expression_clone =>
    (createIdentifierResolveScope lambda_expression_clone (some 0)).andThen fun lambda_scope =>
      resolveLambda key (fun aliases _ => .ok aliases)
        (resolver collaborators scalarCollaborators (unmodelledButLambda key) 30)
        lambdaG lambda_expression_clone [literal 2 7] lambda_scope) analyzerWithLambdas

/-- The body of a lambda, described. -/
def describeBody : QueryTreeNode → String
  | .LAMBDA _ _ lambda_node => describe lambda_node.expression
  | _ => ""

/-- The call `tuple(5, 6)`. -/
def tuple56 : QueryTreeNode := unresolvedCall 5 "tuple" "" [literal 6 5, literal 7 6]

end Example

end DB

namespace DB

mutual
/-- The keys that a node contributes to `GROUP BY ALL`, in the words of the
specification: a column contributes itself; a function that is not an aggregate, window
or `grouping` function and has none among its transitive function arguments contributes
itself; a function that mixes both contributes what its arguments contribute, from left
to right; an aggregate, window or `grouping` function and any other node contribute
nothing. -/
def QueryTreeNode.maxOrdinaryExpressions : QueryTreeNode → List QueryTreeNode
  | .COLUMN a al c => [.COLUMN a al c]
  | .FUNCTION a al f =>
    if f.isAggregateOrGrouping then []
    else if QueryTreeNode.anyAggregate f.arguments then
      QueryTreeNode.maxOrdinaryExpressionsOfList f.arguments
    else [.FUNCTION a al f]
  | _ => []
/-- The keys that the nodes of a list contribute, from left to right. -/
def QueryTreeNode.maxOrdinaryExpressionsOfList : List QueryTreeNode → List QueryTreeNode
  | [] => []
  | x :: xs =>
    QueryTreeNode.maxOrdinaryExpressions x ++ QueryTreeNode.maxOrdinaryExpressionsOfList xs
end

namespace Example

/-- The call `substring(arguments)`, resolved as an ordinary function. -/
def substring (a : Nat) (arguments : QueryTreeNodes) : QueryTreeNode :=
  call a "substring" .ORDINARY arguments

/-- The call `substring(substring(a, 1, 2), 1, count(b))`, resolved. -/
def substringWithCount : QueryTreeNode :=
  substring 5
    [substring 6 [column 7 "a" 0, literal 8 1, literal 9 2], literal 10 1,
     call 11 "count" .AGGREGATE [column 12 "b" 0]]

/-- The query
`SELECT substring(a, 4, 2), substring(substring(a, 1, 2), 1, count(b)) FROM t GROUP BY ALL`
after its projection is resolved. -/
def selectSubstrings : QueryNode QueryTreeNode :=
  query [substring 1 [column 2 "a" 0, literal 3 4, literal 4 2], substringWithCount] true

end Example

end DB

namespace DB

/-- The alias registered under the full name of the identifier, in the map of the lookup
context, is a column node whose source is an `ARRAY JOIN`. -/
def IdentifierResolveScope.aliasFromArrayJoin (sc : IdentifierResolveScope)
    (identifier_lookup : IdentifierLookup) : Bool :=
  match sc.aliases.find identifier_lookup .FULL_NAME with
  | some (.COLUMN _ _ column_node) => column_node.column_source_type == .ARRAY_JOIN
  | _ => false

namespace Example

open QueryAnalyzer

/-- The column `id` of `ARRAY JOIN [0] AS id`, whose source is the array join at address
70. -/
def arrayJoinId : QueryTreeNode :=
  .COLUMN 71 "id"
    { column_name := "id", column_type := .UInt8, column_source := 70,
      expression := none, column_source_type := .ARRAY_JOIN }

/-- The analyzer at the lookup of `id` in a query over the table `t`, which has the
column `id`, with `ARRAY JOIN [0] AS id`; the setting `prefer_column_name_to_alias` is
off. -/
def analyzerArrayJoinId : QueryAnalyzer :=
  analyzerOver
    { scopeOverT [] [("id", columnId)] with
      aliases := { alias_name_to_expression_node := [("id", arrayJoinId)] } }

/-- The lookup of `id` as an expression. -/
def lookupId : IdentifierLookup := { identifier := ⟨["id"]⟩, lookup_context := .EXPRESSION }

end Example

end DB

namespace DB

namespace QueryAnalyzer

end QueryAnalyzer

namespace Example

open QueryAnalyzer

end Example

end DB

namespace DB

namespace Example

open QueryAnalyzer

/-- What the examples observe of a run of the block for `if`: the description of the node
and the projection names when the function has returned, the exception, or that the
function goes on. -/
def outcomeOfStep (r : Res FunctionStep) : Outcome ⊕ Unit :=
  match r.1 with
  | .ok (.done node names) => .inl (.returned [describe node] names)
  | .ok (.next _) => .inr ()
  | .error e => .inl (.threw e)

end Example

end DB

namespace DB

namespace QueryAnalyzer

open RM

/-- The constant `1UL` of type `UInt64` that the block for `exists` makes, at the given
address. -/
def constantOne (addr : Nat) : QueryTreeNode :=
  .CONSTANT addr "" { value := .UInt64 1, result_type := .UInt64, source_expression := none }

/-- The subquery `SELECT 1 FROM (exists_subquery_argument) LIMIT 1` that the block for
`exists` makes: the query node at `addr`, its projection constant at `projection_addr` and
its limit at `limit_addr`. -/
def newExistsSubquery (addr projection_addr limit_addr : Nat)
    (exists_subquery_argument : QueryTreeNode) : QueryTreeNode :=
  .QUERY addr ""
    { QueryNode.new with
      is_subquery := true
      projection := [constantOne projection_addr]
      join_tree := some exists_subquery_argument
      limit := some (constantOne limit_addr) }

/-- The block of `resolveFunction` for `exists`.  The function `FunctionExists` is defined
outside the file; `function_exists` is the function base made of it.  The local variable
`new_exists_argument` is a copy of the pointer `new_exists_subquery`: the test
`isCorrelated` sees the object of the subquery, which the resolution changes in place, and
the arguments receive what the resolution has left in the copy.  The copy of the context
that the new query node holds is not kept in the value tree. -/
def rewriteExists (function_exists : FunctionBase) (R : Resolver) (frame : FunctionFrame)
    (scope : Nat) : RM FunctionStep := do
  lift (checkFunctionNodeHasEmptyNullsAction frame.function_node)
  let exists_subquery_argument ← lift (nodeAt frame.function_node.arguments 0)
  let subquery_addr ← allocate
  let projection_addr ← allocate
  let limit_addr ← allocate
  let new_exists_subquery :=
    newExistsSubquery subquery_addr projection_addr limit_addr exists_subquery_argument
  let r ← R.resolveExpressionNode new_exists_subquery scope true true false
  let new_exists_argument := r.1
  let exists_arguments_projection_names := r.2
  let new_exists_subquery :=
    if new_exists_argument.addr == new_exists_subquery.addr then new_exists_argument
    else new_exists_subquery
  if isCorrelated new_exists_subquery then do
    let frame := { frame with
      function_node :=
        FunctionNode.resolveAsFunction
          { frame.function_node with arguments := [new_exists_argument] } function_exists }
    RM.publish frame.node
    pure (.done frame.node
      [calculateFunctionProjectionName frame.function_node frame.parameters_projection_names
        exists_arguments_projection_names])
  else do
    let constant_addr ← allocate
    let function_addr ← allocate
    pure (.next { frame with
      addr := function_addr
      node_alias := ""
      function_node :=
        { function_name := "in", parameters := [],
          arguments := [constantOne constant_addr, new_exists_argument],
          window := none, kind := .UNKNOWN, result_type := none }
      function_name := "in"
      is_special_function_in := true })

end QueryAnalyzer

namespace Example

open QueryAnalyzer

end Example

end DB

namespace DB

/-- The slot of the entry holds the `Int64` constant `v`. -/
def isInt64Constant (node : QueryTreeNode) (v : Int) : Prop :=
  ∃ a al c, nodeToReplace node = .CONSTANT a al c ∧ c.value = .Int64 v

namespace Example

/-- Signed literal `v`: an `Int64` constant of type `Int64` at address `a`. -/
def signedLiteral (a : Nat) (v : Int) : QueryTreeNode :=
  .CONSTANT a "" { value := .Int64 v, result_type := .Int64, source_expression := none }

/-- The list of `ORDER BY -1, -2`. -/
def orderByMinus12 : QueryTreeNodes :=
  [sortBy 3 (signedLiteral 4 (-1)), sortBy 5 (signedLiteral 6 (-2))]

end Example

end DB

namespace DB

/-- The display name of a function in the words of the specification: the function name,
omitted when it is exactly `array` or `tuple`; then, when there is at least one parameter,
the parameter names joined by `", "` inside parentheses; then the argument names joined by
`", "` inside parentheses, or inside square brackets when the function is `array`. -/
def functionDisplayName (function_name : String) (parameter_names argument_names : List String) :
    String :=
  (if function_name = "array" ∨ function_name = "tuple" then "" else function_name)
    ++ (if 1 ≤ parameter_names.length then "(" ++ ", ".intercalate parameter_names ++ ")"
        else "")
    ++ (if function_name = "array" then "[" ++ ", ".intercalate argument_names ++ "]"
        else "(" ++ ", ".intercalate argument_names ++ ")")

namespace Example

/-- The function node of an unresolved call of `name` without arguments. -/
def functionNamed (name : String) : FunctionNode QueryTreeNode :=
  { function_name := name, parameters := [], arguments := [], window := none,
    kind := .UNKNOWN, result_type := none }

end Example

end DB

namespace DB
namespace QueryAnalyzer

open RM

end QueryAnalyzer
end DB

namespace DB
namespace QueryAnalyzer

open RM

/-- The search of the specification, "strategies that are tried in order": a strategy is run
only while the identifier is not bound, on the result of the strategy before it; the first
result that binds the identifier is the result of the search, an exception of a strategy ends
it, and when no strategy binds the identifier the search returns the last result, which is
not found. -/
def tryStrategies :
    List (IdentifierResolveResult → RM IdentifierResolveResult) → IdentifierResolveResult →
      RM IdentifierResolveResult
  | [], resolve_result => pure resolve_result
  | strategy :: rest, resolve_result =>
    if resolve_result.resolved_identifier.isNone then do
      let resolve_result ← strategy resolve_result
      tryStrategies rest resolve_result
    else pure resolve_result

/-- The strategy of `tryResolveIdentifier` for the expression arguments of the scope. -/
def strategyExpressionArguments (E : Collaborators) (identifier_lookup : IdentifierLookup)
    (scope : Nat) (_ : IdentifierResolveResult) : RM IdentifierResolveResult := do
  let sc ← getScope scope
  lift (E.tryResolveIdentifierFromExpressionArguments identifier_lookup sc)

/-- The strategy of `tryResolveIdentifier` for the join tree, run when
`allow_to_check_join_tree` is set, with the block for a column of the join tree that
follows the strategies of the scope. -/
def strategyJoinTree (E : Collaborators) (R : Resolver) (identifier_lookup : IdentifierLookup)
    (scope : Nat) (identifier_resolve_settings : IdentifierResolveContext)
    (resolve_result : IdentifierResolveResult) : RM IdentifierResolveResult := do
  let resolve_result ←
    if identifier_resolve_settings.allow_to_check_join_tree then do
      let sc ← getScope scope
      lift (E.tryResolveIdentifierFromJoinTree identifier_lookup sc)
    else pure resolve_result
  resolveJoinTreeColumnExpression E R scope resolve_result

/-- The strategy of `tryResolveIdentifier` for the aliases, run when
`allow_to_check_aliases` is set and the lookup was not in process already, with the block
for a column of the join tree that follows the strategies of the scope. -/
def strategyAliases (E : Collaborators) (R : Resolver) (identifier_lookup : IdentifierLookup)
    (scope : Nat) (identifier_resolve_settings : IdentifierResolveContext)
    (already_in_resolve_process : Bool) (resolve_result : IdentifierResolveResult) :
    RM IdentifierResolveResult := do
  let resolve_result ←
    if identifier_resolve_settings.allow_to_check_aliases && !already_in_resolve_process then
      R.tryResolveIdentifierFromAliases identifier_lookup scope identifier_resolve_settings
    else pure resolve_result
  resolveJoinTreeColumnExpression E R scope resolve_result

/-- The strategy of `tryResolveIdentifier` for the table of the CTEs of the scope, looked
at when `allow_to_check_cte` is set and the lookup is one of a table expression: a CTE
that is in resolve process is not taken. -/
def strategyCTE (identifier_lookup : IdentifierLookup) (scope : Nat)
    (identifier_resolve_settings : IdentifierResolveContext)
    (resolve_result : IdentifierResolveResult) : RM IdentifierResolveResult := do
  let sc ← getScope scope
  let s ← get
  pure
    (if identifier_resolve_settings.allow_to_check_cte
        && identifier_lookup.isTableExpressionLookup then
      match sc.cte_name_to_query_node.lookup identifier_lookup.identifier.getFullName with
      | some cte_query_node =>
        if !s.ctes_in_resolve_process.contains cte_query_node.addr then
          { resolved_identifier := some cte_query_node, resolve_place := .CTE }
        else resolve_result
      | none => resolve_result
    else resolve_result)

/-- The strategy of `tryResolveIdentifier` for the parent scopes. -/
def strategyParentScopes (R : Resolver) (identifier_lookup : IdentifierLookup) (scope : Nat)
    (identifier_resolve_settings : IdentifierResolveContext) (_ : IdentifierResolveResult) :
    RM IdentifierResolveResult :=
  R.tryResolveIdentifierInParentScopes identifier_lookup scope identifier_resolve_settings

/-- The strategy of `tryResolveIdentifier` for the database catalog, run when
`allow_to_check_database_catalog` is set and the lookup is one of a table expression. -/
def strategyDatabaseCatalog (E : Collaborators) (identifier_lookup : IdentifierLookup)
    (scope : Nat) (identifier_resolve_settings : IdentifierResolveContext)
    (resolve_result : IdentifierResolveResult) : RM IdentifierResolveResult :=
  if identifier_resolve_settings.allow_to_check_database_catalog
      && identifier_lookup.isTableExpressionLookup then do
    let sc ← getScope scope
    lift (E.tryResolveTableIdentifierFromDatabaseCatalog identifier_lookup.identifier sc.context)
  else pure resolve_result

/-- The strategies of `tryResolveIdentifier` in the order of the function: the expression
arguments, the join tree and the aliases in the order that `prefer_column_name_to_alias`
gives, the CTEs of the scope, the parent scopes and the database catalog. -/
def lookupStrategies (E : Collaborators) (R : Resolver) (identifier_lookup : IdentifierLookup)
    (scope : Nat) (identifier_resolve_settings : IdentifierResolveContext)
    (prefer_column_name_to_alias already_in_resolve_process : Bool) :
    List (IdentifierResolveResult → RM IdentifierResolveResult) :=
  strategyExpressionArguments E identifier_lookup scope ::
    ((if prefer_column_name_to_alias then
        [strategyJoinTree E R identifier_lookup scope identifier_resolve_settings,
         strategyAliases E R identifier_lookup scope identifier_resolve_settings
           already_in_resolve_process]
      else
        [strategyAliases E R identifier_lookup scope identifier_resolve_settings
           already_in_resolve_process,
         strategyJoinTree E R identifier_lookup scope identifier_resolve_settings])
      ++ [strategyCTE identifier_lookup scope identifier_resolve_settings,
          strategyParentScopes R identifier_lookup scope identifier_resolve_settings,
          strategyDatabaseCatalog E identifier_lookup scope identifier_resolve_settings])

/-- The strategies of a call of `tryResolveIdentifier` in the state `s`: the order of the
join tree and the aliases is the one of the scope once the lookup is registered, and the
lookup was in process already when the table of the lookups in process held it. -/
def strategiesOfCall (E : Collaborators) (R : Resolver) (identifier_lookup : IdentifierLookup)
    (scope : Nat) (identifier_resolve_settings : IdentifierResolveContext) (s : QueryAnalyzer) :
    List (IdentifierResolveResult → RM IdentifierResolveResult) :=
  lookupStrategies E R identifier_lookup scope identifier_resolve_settings
    (preferColumnNameToAlias ((s.withLookupRegistered scope identifier_lookup).scopes scope)
      identifier_lookup)
    (registerLookup (s.scopes scope).identifier_in_lookup_process identifier_lookup).2

/-- The strategies of the list have been run in order, from the result `resolve_result`
and the state `s`, each in the state that the one before it left: every one of them has
returned without an exception a result that does not bind the identifier, and the last
result is `last` in the state `s1`. -/
def ReturnedUnbound :
    List (IdentifierResolveResult → RM IdentifierResolveResult) → IdentifierResolveResult →
      QueryAnalyzer → IdentifierResolveResult → QueryAnalyzer → Prop
  | [], resolve_result, s, last, s1 => last = resolve_result ∧ s1 = s
  | strategy :: rest, resolve_result, s, last, s1 =>
    ∃ (next : IdentifierResolveResult) (s2 : QueryAnalyzer),
      strategy resolve_result s = (.ok next, s2) ∧ next.resolved_identifier = none ∧
      ReturnedUnbound rest next s2 last s1

/-- The state once the lookup is removed from the table of the lookups in process, the
end of `tryResolveIdentifier`. -/
def withLookupUnregistered (self : QueryAnalyzer) (scope : Nat)
    (identifier_lookup : IdentifierLookup) : QueryAnalyzer :=
  self.modifyScope scope (fun sc => { sc with
    identifier_in_lookup_process :=
      unregisterLookup sc.identifier_in_lookup_process identifier_lookup })

end QueryAnalyzer
end DB

/-! # Theorems -/

namespace DB

namespace QueryAnalyzer

theorem replaceNode_not_integer (self : QueryAnalyzer) (node : QueryTreeNode)
    (projection_nodes : QueryTreeNodes) (h : isIntegerConstant node = false) :
    self.replaceNodeWithPositionalArgument node projection_nodes = .ok (node, self) := by
  unfold replaceNodeWithPositionalArgument
  unfold isIntegerConstant at h
  split
  · rename_i a al c hc
    rw [hc] at h
    cases hv : c.value <;> simp [hv] at h <;> simp [positionalArgumentNumber]
  · rfl

theorem replaceNode_uint64_in_range (self : QueryAnalyzer) (node : QueryTreeNode)
    (projection_nodes : QueryTreeNodes) (k : Nat) (h : isUInt64Constant node k)
    (h1 : 1 ≤ k) (h2 : k ≤ projection_nodes.length) :
    ∃ p self2, projection_nodes[k - 1]? = some p ∧
      self.replaceNodeWithPositionalArgument node projection_nodes =
        .ok (assignNodeToReplace node (p.cloneAt self.next_addr).1, self2) := by
  obtain ⟨a, al, c, hc, hv⟩ := h
  have hlt : k - 1 < projection_nodes.length := by omega
  refine ⟨projection_nodes[k - 1], ?_⟩
  unfold replaceNodeWithPositionalArgument
  simp only [hc, hv, positionalArgumentNumber, checkPositionalArgument]
  have hk : ¬ (k = 0 ∨ k > projection_nodes.length) := by omega
  simp only [hk, if_false, List.getElem?_eq_getElem hlt, clone]
  exact ⟨_, trivial, rfl⟩

theorem replaceNode_uint64_out_of_range (self : QueryAnalyzer) (node : QueryTreeNode)
    (projection_nodes : QueryTreeNodes) (k : Nat) (h : isUInt64Constant node k)
    (h1 : k = 0 ∨ k > projection_nodes.length) :
    self.replaceNodeWithPositionalArgument node projection_nodes =
      .error { code := .BAD_ARGUMENTS, args := [toString k, toString projection_nodes.length] } := by
  obtain ⟨a, al, c, hc, hv⟩ := h
  unfold replaceNodeWithPositionalArgument
  simp only [hc, hv, positionalArgumentNumber, checkPositionalArgument, h1, if_true]

theorem replaceNode_error_code (self : QueryAnalyzer) (node : QueryTreeNode)
    (projection_nodes : QueryTreeNodes) (e : Exception)
    (h : self.replaceNodeWithPositionalArgument node projection_nodes = .error e) :
    e.code = .BAD_ARGUMENTS := by
  unfold replaceNodeWithPositionalArgument at h
  split at h
  · rename_i a al c hc
    split at h
    · cases h
    · rename_i e2 hp
      cases h
      unfold positionalArgumentNumber at hp
      split at hp
      · simp only [checkPositionalArgument, Option.some.injEq] at hp
        split at hp <;> cases hp
        rfl
      · split at hp
        · simp only [checkPositionalArgument, Option.some.injEq] at hp
          split at hp <;> cases hp
          rfl
        · split at hp
          · cases hp; rfl
          · simp only [checkPositionalArgument, Option.some.injEq] at hp
            split at hp <;> cases hp
            rfl
      · cases hp
    · split at h
      · cases h
      · cases h
  · cases h

theorem loop_length (projection_nodes : QueryTreeNodes) (l : QueryTreeNodes)
    (self : QueryAnalyzer) :
    (replaceNodesWithPositionalArgumentsLoop projection_nodes l self).2.1.length = l.length := by
  induction l generalizing self with
  | nil => rfl
  | cons node rest ih =>
    unfold replaceNodesWithPositionalArgumentsLoop
    split
    · rfl
    · simp [ih]

theorem loop_not_integer (projection_nodes : QueryTreeNodes) (l : QueryTreeNodes)
    (self : QueryAnalyzer) (i : Nat) (node : QueryTreeNode) (hi : l[i]? = some node)
    (h : isIntegerConstant node = false) :
    (replaceNodesWithPositionalArgumentsLoop projection_nodes l self).2.1[i]? = some node := by
  induction l generalizing self i with
  | nil => simp at hi
  | cons x rest ih =>
    unfold replaceNodesWithPositionalArgumentsLoop
    split
    · exact hi
    · rename_i x2 self2 hx
      cases i with
      | zero =>
        simp only [List.getElem?_cons_zero, Option.some.injEq] at hi
        subst hi
        rw [replaceNode_not_integer _ _ _ h] at hx
        cases hx
        simp
      | succ j =>
        simp only [List.getElem?_cons_succ] at hi ⊢
        exact ih _ _ hi

theorem loop_uint64_in_range (projection_nodes : QueryTreeNodes) (l : QueryTreeNodes)
    (self : QueryAnalyzer)
    (hok : (replaceNodesWithPositionalArgumentsLoop projection_nodes l self).1 = .ok ())
    (i : Nat) (node : QueryTreeNode) (hi : l[i]? = some node) (k : Nat)
    (h : isUInt64Constant node k) (h1 : 1 ≤ k) (h2 : k ≤ projection_nodes.length) :
    ∃ p a, projection_nodes[k - 1]? = some p ∧
      (replaceNodesWithPositionalArgumentsLoop projection_nodes l self).2.1[i]? =
        some (assignNodeToReplace node (p.cloneAt a).1) := by
  induction l generalizing self i with
  | nil => simp at hi
  | cons x rest ih =>
    unfold replaceNodesWithPositionalArgumentsLoop at hok ⊢
    split
    · rename_i e he
      simp [he] at hok
    · rename_i x2 self2 hx
      simp only [hx] at hok
      cases i with
      | zero =>
        simp only [List.getElem?_cons_zero, Option.some.injEq] at hi
        subst hi
        obtain ⟨p, s2, hp, hr⟩ := replaceNode_uint64_in_range self x projection_nodes k h h1 h2
        rw [hr] at hx
        cases hx
        exact ⟨p, self.next_addr, hp, by simp⟩
      | succ j =>
        simp only [List.getElem?_cons_succ] at hi ⊢
        exact ih self2 hok j hi

theorem loop_ok (projection_nodes : QueryTreeNodes) (l : QueryTreeNodes)
    (self : QueryAnalyzer)
    (h : ∀ node ∈ l, isIntegerConstant node = false ∨
      ∃ k, isUInt64Constant node k ∧ 1 ≤ k ∧ k ≤ projection_nodes.length) :
    (replaceNodesWithPositionalArgumentsLoop projection_nodes l self).1 = .ok () := by
  induction l generalizing self with
  | nil => rfl
  | cons x rest ih =>
    unfold replaceNodesWithPositionalArgumentsLoop
    have hx := h x (List.mem_cons_self _ _)
    have hrest : ∀ node ∈ rest, isIntegerConstant node = false ∨
        ∃ k, isUInt64Constant node k ∧ 1 ≤ k ∧ k ≤ projection_nodes.length :=
      fun n hn => h n (List.mem_cons_of_mem _ hn)
    rcases hx with hx | ⟨k, hk, h1, h2⟩
    · rw [replaceNode_not_integer _ _ _ hx]
      exact ih self hrest
    · obtain ⟨p, s2, _, hr⟩ := replaceNode_uint64_in_range self x projection_nodes k hk h1 h2
      rw [hr]
      exact ih s2 hrest

end QueryAnalyzer

end DB

namespace DB

namespace QueryAnalyzer

theorem loop_uint64_out_of_range (projection_nodes : QueryTreeNodes) (l : QueryTreeNodes)
    (self : QueryAnalyzer) (i : Nat) (node : QueryTreeNode) (hi : l[i]? = some node) (k : Nat)
    (h : isUInt64Constant node k) (hr : k = 0 ∨ k > projection_nodes.length) :
    (∃ e, (replaceNodesWithPositionalArgumentsLoop projection_nodes l self).1 = .error e ∧
        e.code = .BAD_ARGUMENTS) ∧
      (replaceNodesWithPositionalArgumentsLoop projection_nodes l self).2.1[i]? = some node := by
  induction l generalizing self i with
  | nil => simp at hi
  | cons x rest ih =>
    unfold replaceNodesWithPositionalArgumentsLoop
    split
    · rename_i e he
      exact ⟨⟨e, rfl, replaceNode_error_code _ _ _ _ he⟩, hi⟩
    · rename_i x2 self2 hx
      cases i with
      | zero =>
        simp only [List.getElem?_cons_zero, Option.some.injEq] at hi
        subst hi
        rw [replaceNode_uint64_out_of_range self x projection_nodes k h hr] at hx
        cases hx
      | succ j =>
        simp only [List.getElem?_cons_succ] at hi ⊢
        exact ih self2 j hi

/-- C1: with `enable_positional_arguments` on and an initial query,
`replaceNodesWithPositionalArguments` keeps the length of the list, leaves every entry
whose slot (the entry, or the expression of a sort node) is not an integer constant as it
is, and, when it returns normally, has put a clone of the `k`-th projection node
(1-based) into the slot of every entry that was the `UInt64` constant `k` with
`1 ≤ k ≤ n`; it returns normally when every entry is of one of these two kinds. -/
theorem replaceNodesWithPositionalArguments_replaces (self : QueryAnalyzer)
    (node_list projection_nodes : QueryTreeNodes) (scope : IdentifierResolveScope)
    (h_setting : scope.context.settings.enable_positional_arguments = true)
    (h_kind : scope.context.query_kind = .INITIAL_QUERY) :
    (self.replaceNodesWithPositionalArguments node_list projection_nodes scope).2.1.length
        = node_list.length ∧
    (∀ (i : Nat) (node : QueryTreeNode), node_list[i]? = some node →
      isIntegerConstant node = false →
      (self.replaceNodesWithPositionalArguments node_list projection_nodes scope).2.1[i]?
        = some node) ∧
    ((self.replaceNodesWithPositionalArguments node_list projection_nodes scope).1 = .ok () →
      ∀ (i : Nat) (node : QueryTreeNode) (k : Nat), node_list[i]? = some node →
        isUInt64Constant node k → 1 ≤ k →
        k ≤ projection_nodes.length →
        ∃ (p : QueryTreeNode) (a : Nat), projection_nodes[k - 1]? = some p ∧
          (self.replaceNodesWithPositionalArguments node_list projection_nodes scope).2.1[i]?
            = some (assignNodeToReplace node (p.cloneAt a).1)) ∧
    ((∀ node ∈ node_list, isIntegerConstant node = false ∨
        ∃ k, isUInt64Constant node k ∧ 1 ≤ k ∧ k ≤ projection_nodes.length) →
      (self.replaceNodesWithPositionalArguments node_list projection_nodes scope).1 = .ok ()) := by
  have hr : self.replaceNodesWithPositionalArguments node_list projection_nodes scope =
      replaceNodesWithPositionalArgumentsLoop projection_nodes node_list self := by
    simp [replaceNodesWithPositionalArguments, h_setting, h_kind]
  rw [hr]
  refine ⟨loop_length _ _ _, ?_, ?_, loop_ok _ _ _⟩
  · intro i node hi h
    exact loop_not_integer _ _ _ i node hi h
  · intro hok i node k hi hk h1 h2
    exact loop_uint64_in_range _ _ _ hok i node hi k hk h1 h2

/-- C1 at `SELECT 1, 2 ORDER BY 2, 1`: the call returns normally and the list becomes
`ORDER BY <copy of the 2nd projection>, <copy of the 1st projection>`. -/
theorem replaceNodesWithPositionalArguments_replaces_witness :
    ((Example.analyzerAt 7).replaceNodesWithPositionalArguments Example.orderBy21
        Example.select12 (Example.initialScope (Example.literal 0 0))).1 = .ok () ∧
    ((Example.analyzerAt 7).replaceNodesWithPositionalArguments Example.orderBy21
        Example.select12 (Example.initialScope (Example.literal 0 0))).2.1
      = [Example.sortBy 3 (Example.literal 7 2), Example.sortBy 5 (Example.literal 8 1)] ∧
    ((Example.analyzerAt 7).replaceNodesWithPositionalArguments Example.orderBy21
        Example.select12 (Example.initialScope (Example.literal 0 0))).2.1.length
      = Example.orderBy21.length :=
  ⟨rfl, rfl,
    (replaceNodesWithPositionalArguments_replaces (Example.analyzerAt 7) Example.orderBy21
      Example.select12 (Example.initialScope (Example.literal 0 0)) rfl rfl).1⟩

/-- C2: with positional arguments enabled on an initial query and `n` projection nodes,
a `UInt64` constant `k` with `k = 0` or `k > n` in the list makes
`replaceNodesWithPositionalArguments` throw `BAD_ARGUMENTS`, and the entry holding it
is not replaced. -/
theorem replaceNodesWithPositionalArguments_out_of_range (self : QueryAnalyzer)
    (node_list projection_nodes : QueryTreeNodes) (scope : IdentifierResolveScope)
    (h_setting : scope.context.settings.enable_positional_arguments = true)
    (h_kind : scope.context.query_kind = .INITIAL_QUERY)
    (i : Nat) (node : QueryTreeNode) (k : Nat) (hi : node_list[i]? = some node)
    (hk : isUInt64Constant node k) (hr : k = 0 ∨ k > projection_nodes.length) :
    (∃ e, (self.replaceNodesWithPositionalArguments node_list projection_nodes scope).1
        = .error e ∧ e.code = .BAD_ARGUMENTS) ∧
    (self.replaceNodesWithPositionalArguments node_list projection_nodes scope).2.1[i]?
      = some node := by
  have h : self.replaceNodesWithPositionalArguments node_list projection_nodes scope =
      replaceNodesWithPositionalArgumentsLoop projection_nodes node_list self := by
    simp [replaceNodesWithPositionalArguments, h_setting, h_kind]
  rw [h]
  exact loop_uint64_out_of_range _ _ _ i node hi k hk hr

/-- C2 at `SELECT 1, 2 ORDER BY 3`: `BAD_ARGUMENTS`, and the entry still holds `3`. -/
theorem replaceNodesWithPositionalArguments_out_of_range_witness :
    (∃ e, ((Example.analyzerAt 7).replaceNodesWithPositionalArguments Example.orderBy3
        Example.select12 (Example.initialScope (Example.literal 0 0))).1
        = .error e ∧ e.code = .BAD_ARGUMENTS) ∧
    ((Example.analyzerAt 7).replaceNodesWithPositionalArguments Example.orderBy3
        Example.select12 (Example.initialScope (Example.literal 0 0))).2.1[0]?
      = some (Example.sortBy 3 (Example.literal 4 3)) :=
  replaceNodesWithPositionalArguments_out_of_range (Example.analyzerAt 7) Example.orderBy3
    Example.select12 (Example.initialScope (Example.literal 0 0)) rfl rfl 0
    (Example.sortBy 3 (Example.literal 4 3)) 3 rfl ⟨4, "", _, rfl, rfl⟩ (Or.inr (by decide))

end QueryAnalyzer

end DB

namespace DB

namespace QueryAnalyzer

theorem popBack_eq_take (count : Nat) (into : QueryTreeNodes) :
    popBack count into = into.take (into.length - count) := by
  induction count generalizing into with
  | zero => simp [popBack]
  | succ n ih =>
    unfold popBack at ih ⊢
    rw [Function.iterate_succ_apply, ih, List.dropLast_eq_take, List.take_take]
    simp only [List.length_take]
    congr 1
    omega

theorem popBack_append (into new : QueryTreeNodes) :
    popBack new.length (into ++ new) = into := by
  rw [popBack_eq_take]
  simp

theorem collectFromArguments_spec
    (collect : QueryTreeNode → QueryTreeNodes → Except Exception ((Bool × Nat) × QueryTreeNodes))
    (hc : ∀ node into r, collect node into = .ok r → CollectSpec node into r)
    (arguments : QueryTreeNodes) (has_aggregate : Bool) (pushed_children : Nat)
    (into : QueryTreeNodes) (r : (Bool × Nat) × QueryTreeNodes)
    (h : collectFromArguments collect arguments has_aggregate pushed_children into = .ok r) :
    ∃ new, r.2 = into ++ new ∧ pushed_children + new.length = r.1.2 ∧
      (∀ k ∈ new, k.isAggregateOrGrouping = false ∧ k.hasAggregateInArguments = false) ∧
      r.1.1 = (has_aggregate || QueryTreeNode.anyAggregate arguments) := by
  induction arguments generalizing has_aggregate pushed_children into with
  | nil =>
    simp only [collectFromArguments, Except.ok.injEq] at h
    subst h
    exact ⟨[], by simp, by simp, by simp, by simp [QueryTreeNode.anyAggregate]⟩
  | cons child rest ih =>
    unfold collectFromArguments at h
    split at h
    · cases h
    · rename_i cha cpc into2 hchild
      obtain ⟨new1, h1, h2, h3, h4⟩ := hc child into _ hchild
      obtain ⟨new2, g1, g2, g3, g4⟩ := ih _ _ _ h
      simp only at h1 h2 h4
      refine ⟨new1 ++ new2, ?_, ?_, ?_, ?_⟩
      · rw [g1, h1, List.append_assoc]
      · rw [← g2, List.length_append]; omega
      · intro k hk
        rcases List.mem_append.mp hk with hk | hk
        · exact h3 k hk
        · exact g3 k hk
      · rw [g4, h4]
        simp [QueryTreeNode.anyAggregate, Bool.or_assoc]

theorem recursivelyCollectMaxOrdinaryExpressions_spec (stack : Nat) (node : QueryTreeNode)
    (into : QueryTreeNodes) (r : (Bool × Nat) × QueryTreeNodes)
    (h : recursivelyCollectMaxOrdinaryExpressions stack node into = .ok r) :
    CollectSpec node into r := by
  induction stack generalizing node into r with
  | zero => simp [recursivelyCollectMaxOrdinaryExpressions] at h
  | succ stack ih =>
    unfold recursivelyCollectMaxOrdinaryExpressions at h
    split at h
    · rename_i a al c
      simp only [Except.ok.injEq] at h
      subst h
      exact ⟨[.COLUMN a al c], rfl, rfl,
        by simp [QueryTreeNode.isAggregateOrGrouping, QueryTreeNode.hasAggregateInArguments],
        by simp [QueryTreeNode.isAggregateOrGrouping, QueryTreeNode.hasAggregateInArguments]⟩
    · rename_i a al function
      split at h
      · rename_i hagg
        simp only [Except.ok.injEq] at h
        subst h
        exact ⟨[], by simp, rfl, by simp,
          by simp [QueryTreeNode.isAggregateOrGrouping, hagg]⟩
      · rename_i hagg
        split at h
        · cases h
        · rename_i has pushed into2 hargs
          obtain ⟨new, h1, h2, h3, h4⟩ :=
            collectFromArguments_spec _ (fun n i r hr => ih n i r hr) _ _ _ _ _ hargs
          simp only [Bool.false_or, Nat.zero_add] at h1 h2 h4
          split at h
          · rename_i hhas
            simp only [Except.ok.injEq] at h
            subst h
            simp only [Bool.not_eq_true', ] at hhas
            refine ⟨[.FUNCTION a al function], ?_, rfl, ?_, ?_⟩
            · simp only
              rw [h1, ← h2, popBack_append]
            · intro k hk
              simp only [List.mem_singleton] at hk
              subst hk
              refine ⟨by simpa [QueryTreeNode.isAggregateOrGrouping] using hagg, ?_⟩
              simp only [QueryTreeNode.hasAggregateInArguments]
              rw [← h4]; exact hhas
            · simp only [QueryTreeNode.isAggregateOrGrouping,
                QueryTreeNode.hasAggregateInArguments]
              rw [← h4, hhas]
              simpa using hagg
          · rename_i hhas
            simp only [Except.ok.injEq] at h
            subst h
            refine ⟨new, h1, h2, h3, ?_⟩
            simp only [QueryTreeNode.isAggregateOrGrouping,
              QueryTreeNode.hasAggregateInArguments]
            rw [h4]
            simp at hagg
            simp [hagg]
    · rename_i hcol hfun
      simp only [Except.ok.injEq] at h
      subst h
      refine ⟨[], by simp, rfl, by simp, ?_⟩
      cases node <;> simp [QueryTreeNode.isAggregateOrGrouping,
        QueryTreeNode.hasAggregateInArguments]
      · exact absurd rfl (hfun _ _ _)

end QueryAnalyzer

end DB

namespace DB

namespace QueryAnalyzer

theorem collectFromArguments_returns
    (collect : QueryTreeNode → QueryTreeNodes → Except Exception ((Bool × Nat) × QueryTreeNodes))
    (stack : Nat)
    (hc : ∀ node into, node.callDepth ≤ stack → ∃ r, collect node into = .ok r)
    (arguments : QueryTreeNodes) (hd : QueryTreeNode.callDepthList arguments ≤ stack)
    (has_aggregate : Bool) (pushed_children : Nat) (into : QueryTreeNodes) :
    ∃ r, collectFromArguments collect arguments has_aggregate pushed_children into = .ok r := by
  induction arguments generalizing has_aggregate pushed_children into with
  | nil => exact ⟨_, rfl⟩
  | cons child rest ih =>
    simp only [QueryTreeNode.callDepthList, max_le_iff] at hd
    obtain ⟨r, hr⟩ := hc child into hd.1
    unfold collectFromArguments
    rw [hr]
    exact ih hd.2 _ _ _

theorem recursivelyCollectMaxOrdinaryExpressions_returns (stack : Nat) (node : QueryTreeNode)
    (into : QueryTreeNodes) (hd : node.callDepth ≤ stack) :
    ∃ r, recursivelyCollectMaxOrdinaryExpressions stack node into = .ok r := by
  induction stack generalizing node into with
  | zero =>
    cases node <;> simp [QueryTreeNode.callDepth] at hd
  | succ stack ih =>
    unfold recursivelyCollectMaxOrdinaryExpressions
    split
    · exact ⟨_, rfl⟩
    · rename_i a al function
      split
      · exact ⟨_, rfl⟩
      · simp only [QueryTreeNode.callDepth, Nat.add_le_add_iff_right] at hd
        obtain ⟨r, hr⟩ := collectFromArguments_returns
          (recursivelyCollectMaxOrdinaryExpressions stack) stack
          (fun n i hn => ih n i hn) function.arguments hd false 0 into
        rw [hr]
        obtain ⟨⟨has, pushed⟩, into2⟩ := r
        simp only
        split <;> exact ⟨_, rfl⟩
    · exact ⟨_, rfl⟩

theorem collectFromProjection_spec (stack : Nat) (projection group_by_nodes : QueryTreeNodes)
    (r : QueryTreeNodes) (h : collectFromProjection stack projection group_by_nodes = (.ok (), r)) :
    ∃ new, r = group_by_nodes ++ new ∧
      ∀ k ∈ new, k.isAggregateOrGrouping = false ∧ k.hasAggregateInArguments = false := by
  induction projection generalizing group_by_nodes with
  | nil =>
    simp only [collectFromProjection, Prod.mk.injEq, true_and] at h
    exact ⟨[], by simp [h], by simp⟩
  | cons node rest ih =>
    unfold collectFromProjection at h
    split at h
    · simp at h
    · rename_i x into2 hnode
      obtain ⟨new1, h1, _, h3, _⟩ :=
        recursivelyCollectMaxOrdinaryExpressions_spec stack node group_by_nodes _ hnode
      obtain ⟨new2, g1, g2⟩ := ih _ h
      simp only at h1
      refine ⟨new1 ++ new2, by rw [g1, h1, List.append_assoc], ?_⟩
      intro k hk
      rcases List.mem_append.mp hk with hk | hk
      · exact h3 k hk
      · exact g2 k hk

theorem collectFromProjection_returns (stack : Nat) (projection group_by_nodes : QueryTreeNodes)
    (hd : QueryTreeNode.callDepthList projection ≤ stack) :
    (collectFromProjection stack projection group_by_nodes).1 = .ok () := by
  induction projection generalizing group_by_nodes with
  | nil => rfl
  | cons node rest ih =>
    simp only [QueryTreeNode.callDepthList, max_le_iff] at hd
    obtain ⟨r, hr⟩ := recursivelyCollectMaxOrdinaryExpressions_returns stack node group_by_nodes hd.1
    unfold collectFromProjection
    rw [hr]
    exact ih _ hd.2

/-- C7: on a query flagged `GROUP BY ALL`, when `expandGroupByAll` returns, every key it
has appended to the `GROUP BY` list is neither an aggregate function, a window function
or a function named `grouping` (case-insensitive), nor a function with such a function
among its transitive function arguments, and the flag is cleared; it returns whenever the
call stack has room for the nesting depth of the projection. -/
theorem expandGroupByAll_keys (stack : Nat) (query_node : QueryNode QueryTreeNode)
    (h_all : query_node.is_group_by_all = true) :
    (∀ q, expandGroupByAll stack query_node = (.ok (), q) →
      q.is_group_by_all = false ∧
      ∃ new, q.group_by = query_node.group_by ++ new ∧
        ∀ k ∈ new, k.isAggregateOrGrouping = false ∧ k.hasAggregateInArguments = false) ∧
    (QueryTreeNode.callDepthList query_node.projection ≤ stack →
      (expandGroupByAll stack query_node).1 = .ok ()) := by
  constructor
  · intro q hq
    unfold expandGroupByAll at hq
    simp only [h_all, Bool.not_true, Bool.false_eq_true, if_false] at hq
    split at hq
    · simp at hq
    · rename_i g hg
      simp only [Prod.mk.injEq, true_and] at hq
      subst hq
      exact ⟨rfl, collectFromProjection_spec _ _ _ _ hg⟩
  · intro hd
    have h := collectFromProjection_returns stack query_node.projection query_node.group_by hd
    unfold expandGroupByAll
    simp only [h_all, Bool.not_true, Bool.false_eq_true, if_false]
    split
    · rename_i e g hg
      rw [hg] at h
      cases h
    · rfl

/-- C7 at `SELECT a, sum(b) FROM t GROUP BY ALL`: the grouping key list becomes `[a]`. -/
theorem expandGroupByAll_keys_witness :
    (expandGroupByAll 2 Example.selectASumB).1 = .ok () ∧
    (expandGroupByAll 2 Example.selectASumB).2.group_by = [Example.column 1 "a" 0] ∧
    (expandGroupByAll 2 Example.selectASumB).2.is_group_by_all = false :=
  ⟨(expandGroupByAll_keys 2 Example.selectASumB rfl).2 (by decide), rfl,
    ((expandGroupByAll_keys 2 Example.selectASumB rfl).1 _ rfl).1⟩

end QueryAnalyzer

end DB

namespace DB

namespace QueryAnalyzer

/-- C10 (as stated) fails: `resolveQuery` on the resolved query `SELECT 1` in a scope at
subquery depth 101, with `max_subquery_depth` at its default 100, throws
`TOO_DEEP_SUBQUERIES` instead of returning normally: the check of the depth comes before
the check of the resolved marker. -/
theorem resolveQuery_resolved_too_deep :
    (∃ addr node_alias q, Example.resolvedSelect1 = .QUERY addr node_alias q
      ∧ q.isResolved = true) ∧
    ((Example.analyzerAtDepth 101).scopes 0).subquery_depth = 101 ∧
    ((Example.analyzerAtDepth 101).scopes 0).context.settings.max_subquery_depth = 100 ∧
    (resolveQuery Example.unmodelled stackExhausted Example.resolvedSelect1 0
      (Example.analyzerAtDepth 101)).1
      = .error { code := .TOO_DEEP_SUBQUERIES, args := ["100"] } :=
  ⟨⟨_, _, _, rfl, rfl⟩, rfl, rfl, rfl⟩

/-- C10 (amended): on a query node marked resolved, `resolveQuery` changes nothing (the
node, the scopes and the caches of the analyzer stay as they are); it returns normally
when `max_subquery_depth` is zero or the subquery depth of the scope is within it, and
throws `TOO_DEEP_SUBQUERIES` otherwise.  On a union node marked resolved, `resolveUnion`
returns normally and changes nothing, in every scope.  This holds whatever the rest of
`resolveQuery` and `resolveUnion` does. -/
theorem resolveQuery_resolved_noop (X : Unmodelled) (R : Resolver) (addr : Nat)
    (node_alias : String) (q : QueryNode QueryTreeNode) (u : UnionNode QueryTreeNode)
    (scope : Nat) (self : QueryAnalyzer)
    (hq : q.isResolved = true) (hu : u.isResolved = true) :
    resolveQuery X R (.QUERY addr node_alias q) scope self =
      (if (self.scopes scope).context.settings.max_subquery_depth ≠ 0
          ∧ (self.scopes scope).subquery_depth
              > (self.scopes scope).context.settings.max_subquery_depth then
        (.error { code := .TOO_DEEP_SUBQUERIES,
                  args := [toString (self.scopes scope).context.settings.max_subquery_depth] },
          self)
      else (.ok (.QUERY addr node_alias q), self))
    ∧ resolveUnion X R (.UNION addr node_alias u) scope self
        = (.ok (.UNION addr node_alias u), self) := by
  constructor
  · simp only [resolveQuery, bind, RM.andThen, RM.getScope, RM.get, pure, RM.ret,
      QueryAnalyzer.scope, hq, if_true]
    by_cases h1 : (self.scopes scope).context.settings.max_subquery_depth = 0
    · simp [h1, RM.ret]
    · by_cases h2 : (self.scopes scope).subquery_depth
          > (self.scopes scope).context.settings.max_subquery_depth
      · simp [h1, h2, RM.throw]
      · have h3 := Nat.le_of_not_gt h2
        simp [h1, Nat.not_lt.mpr h3, RM.ret]
  · simp only [resolveUnion, hu, if_true, pure, RM.ret]

/-- Instance of `resolveQuery_resolved_noop`: the resolved `SELECT 1` and a resolved
union, in a scope at subquery depth 3. -/
theorem resolveQuery_resolved_noop_witness :
    resolveQuery Example.unmodelled stackExhausted Example.resolvedSelect1 0
        (Example.analyzerAtDepth 3)
      = (.ok Example.resolvedSelect1, Example.analyzerAtDepth 3)
    ∧ resolveUnion Example.unmodelled stackExhausted Example.resolvedUnion 0
        (Example.analyzerAtDepth 3)
      = (.ok Example.resolvedUnion, Example.analyzerAtDepth 3) :=
  resolveQuery_resolved_noop Example.unmodelled stackExhausted 10 ""
    Example.resolvedSelect1Query Example.resolvedUnionQueries 0 (Example.analyzerAtDepth 3)
    rfl rfl

end QueryAnalyzer

end DB

namespace DB
namespace RM

/-- The sequencing of the monad is `andThen`. -/
theorem bind_eq {α β : Type} (x : RM α) (f : α → RM β) : x >>= f = x.andThen f := rfl

/-- The normal return of the monad is `ret`. -/
theorem pure_eq {α : Type} (a : α) : (pure a : RM α) = RM.ret a := rfl

/-- Sequencing after a normal return. -/
theorem andThen_ok {α β : Type} {x : RM α} {f : α → RM β} {s s1 : QueryAnalyzer} {a : α}
    (h : x s = (.ok a, s1)) : x.andThen f s = f a s1 := by
  simp [RM.andThen, h]

/-- Sequencing after an exception. -/
theorem andThen_error {α β : Type} {x : RM α} {f : α → RM β} {s s1 : QueryAnalyzer}
    {e : Exception} (h : x s = (.error e, s1)) : x.andThen f s = (.error e, s1) := by
  simp [RM.andThen, h]

/-- A sequence that returns normally: both parts have returned normally. -/
theorem andThen_eq_ok {α β : Type} {x : RM α} {f : α → RM β} {s s2 : QueryAnalyzer} {b : β}
    (h : x.andThen f s = (.ok b, s2)) :
    ∃ a s1, x s = (.ok a, s1) ∧ f a s1 = (.ok b, s2) := by
  unfold RM.andThen at h
  split at h
  · exact ⟨_, _, by assumption, h⟩
  · simp at h

end RM

namespace QueryAnalyzer

/-- What the start of `resolveFunction` leaves of the function node in its frame: the
name and the arguments. -/
theorem resolveFunctionHead_frame (R : Resolver) (addr : Nat) (node_alias : String)
    (f : FunctionNode QueryTreeNode) (scope : Nat) (s s1 : QueryAnalyzer) (frame : FunctionFrame)
    (h : resolveFunctionHead R addr node_alias f scope s = (.ok frame, s1)) :
    frame.function_name = f.function_name ∧ frame.function_node.arguments = f.arguments := by
  unfold resolveFunctionHead at h
  simp only [RM.bind_eq, RM.pure_eq] at h
  obtain ⟨r, s2, _, h⟩ := RM.andThen_eq_ok h
  obtain ⟨_, s3, _, h⟩ := RM.andThen_eq_ok h
  obtain ⟨parameters, s4, _, h⟩ := RM.andThen_eq_ok h
  split at h
  · obtain ⟨lookup_result, s5, _, h⟩ := RM.andThen_eq_ok h
    obtain ⟨lambda, s6, _, h⟩ := RM.andThen_eq_ok h
    simp only [RM.ret, Prod.mk.injEq, Except.ok.injEq] at h
    obtain ⟨h, _⟩ := h
    subst h
    exact ⟨rfl, rfl⟩
  · obtain ⟨lambda, s5, _, h⟩ := RM.andThen_eq_ok h
    simp only [RM.ret, Prod.mk.injEq, Except.ok.injEq] at h
    obtain ⟨h, _⟩ := h
    subst h
    exact ⟨rfl, rfl⟩

/-- The block of the special functions on a frame without a lambda whose function is
`count` or `countState` with a single unqualified matcher as argument. -/
theorem specialFunctions_count (E : Collaborators) (frame : FunctionFrame)
    (ma : Nat) (mal : String) (m : MatcherNode QueryTreeNode)
    (hname : toLower frame.function_name = "count" ∨ toLower frame.function_name = "countstate")
    (hargs : frame.function_node.arguments = [.MATCHER ma mal m])
    (hunq : m.isUnqualified = true)
    (hlambda : frame.lambda_expression_untyped = none) :
    specialFunctions E frame
      = specialFunctions E
          { frame with function_node := { frame.function_node with arguments := [] } } := by
  simp only [specialFunctions, hlambda, Option.isNone_none, if_true, clearCountArguments, hargs,
    List.length_singleton, List.length_nil, List.head?_cons]
  rcases hname with hname | hname <;> simp [hname, hunq]

/-- The function `resolveFunction` after its start reads its frame through the block of
the special functions only. -/
theorem resolveFunctionBody_congr (E : Collaborators) (X : Unmodelled) (R : Resolver)
    (frame1 frame2 : FunctionFrame) (scope : Nat)
    (h : specialFunctions E frame1 = specialFunctions E frame2) :
    resolveFunctionBody E X R frame1 scope = resolveFunctionBody E X R frame2 scope := by
  unfold resolveFunctionBody
  rw [h]

/-- C5: for a function node named `count` or `countState` (in any case of the letters)
whose single argument is an unqualified matcher, `resolveFunction` goes on, when the name
is not resolved as a lambda, as it does with an empty list of arguments: the arguments are
cleared before they are resolved, so that `count(*)` is resolved with the arguments of
`count()`. -/
theorem resolveFunction_count_asterisk (E : Collaborators) (X : Unmodelled) (R : Resolver)
    (addr : Nat) (node_alias : String) (f : FunctionNode QueryTreeNode) (scope : Nat)
    (s : QueryAnalyzer) (ma : Nat) (mal : String) (m : MatcherNode QueryTreeNode)
    (hname : toLower f.function_name = "count" ∨ toLower f.function_name = "countstate")
    (hargs : f.arguments = [.MATCHER ma mal m])
    (hunq : m.isUnqualified = true) :
    resolveFunction E X R (.FUNCTION addr node_alias f) scope s =
      (match resolveFunctionHead R addr node_alias f scope s with
       | (.ok frame, s1) =>
         if frame.lambda_expression_untyped.isNone then
           resolveFunctionBody E X R
             { frame with function_node := { frame.function_node with arguments := [] } } scope s1
         else resolveFunctionBody E X R frame scope s1
       | (.error e, s1) => (.error e, s1)) := by
  simp only [resolveFunction, RM.bind_eq]
  rcases hhead : resolveFunctionHead R addr node_alias f scope s with ⟨r, s1⟩
  cases r with
  | error e => simp [RM.andThen, hhead]
  | ok frame =>
    simp only [RM.andThen, hhead]
    obtain ⟨h1, h2⟩ := resolveFunctionHead_frame R addr node_alias f scope s s1 frame hhead
    cases hl : frame.lambda_expression_untyped with
    | some l => simp
    | none =>
      simp only [Option.isNone_none, if_true]
      rw [resolveFunctionBody_congr E X R _ _ scope
        (specialFunctions_count E frame ma mal m (h1 ▸ hname) (h2 ▸ hargs) hunq hl)]
      simp only [hl]

open DB.Example in
/-- Instance of `resolveFunction_count_asterisk`: `count(*)` in a query without tables,
which is resolved as the aggregate function `count()`. -/
theorem resolveFunction_count_asterisk_witness :
    resolveFunction collaborators unmodelled (resolver collaborators scalarCollaborators unmodelled 30)
        (.FUNCTION 1 "" countAsterisk) 0 (analyzerOver (scopeOverT [] [])) =
      (match resolveFunctionHead (resolver collaborators scalarCollaborators unmodelled 30) 1 ""
          countAsterisk 0 (analyzerOver (scopeOverT [] [])) with
       | (.ok frame, s1) =>
         if frame.lambda_expression_untyped.isNone then
           resolveFunctionBody collaborators unmodelled
             (resolver collaborators scalarCollaborators unmodelled 30)
             { frame with function_node := { frame.function_node with arguments := [] } } 0 s1
         else resolveFunctionBody collaborators unmodelled
           (resolver collaborators scalarCollaborators unmodelled 30) frame 0 s1
       | (.error e, s1) => (.error e, s1))
    ∧ outcomeOfNode (resolveFunction collaborators unmodelled
        (resolver collaborators scalarCollaborators unmodelled 30)
        (.FUNCTION 1 "" countAsterisk) 0 (analyzerOver (scopeOverT [] [])))
      = .returned ["Function count()"] ["count()"] :=
  ⟨resolveFunction_count_asterisk collaborators unmodelled _ 1 "" countAsterisk 0 _ 2 "" _
      (Or.inl (by decide)) rfl rfl, by decide!⟩

open DB.Example in
/-- C4: the projection of `SELECT (id + b) AS id, id AS b FROM t`, where `t` has the
column `id`, is resolved without an exception: both entries become `plus(id, id)` over
the column, with the projection names `id` and `b`.  When `t` has no column `id`, the
exception is `UNKNOWN_IDENTIFIER`.  No error about cyclic aliases is raised. -/
theorem resolveExpressionNodeList_cyclic_aliases :
    outcomeOfList
        ((resolver collaborators scalarCollaborators unmodelled 30).resolveExpressionNodeList
          selectCyclic 0 false false (analyzerOver (scopeOverT selectCyclic [("id", columnId)])))
      = .returned
          ["Function plus(Column id, Column id) AS id", "Function plus(Column id, Column id) AS id"]
          ["id", "b"]
    ∧ outcomeOfList
        ((resolver collaborators scalarCollaborators unmodelled 30).resolveExpressionNodeList
          selectCyclic 0 false false (analyzerOver (scopeOverT selectCyclic [])))
      = .threw { code := .UNKNOWN_IDENTIFIER, args := ["id"] } := by
  constructor <;> decide!

open DB.Example in
/-- C8 (as stated) fails: the projection names that the resolution of
`untuple(tuple(1, 2))` returns are not `tupleElement(tuple(1, 2), '1')` and
`tupleElement(tuple(1, 2), '2')`: the projection name of the argument is `(1, 2)`, because
`calculateFunctionProjectionName` leaves out the name of the function `tuple`. -/
theorem resolveExpressionNode_untuple_names :
    ∃ nodes names,
      outcomeOfNode
          ((resolver collaborators scalarCollaborators unmodelled 30).resolveExpressionNode
            (unresolvedCall 1 "untuple" "" [unresolvedCall 2 "tuple" "" [literal 3 1, literal 4 2]])
            0 false false false (analyzerOver (scopeOverT selectUntuple [])))
        = .returned nodes names
      ∧ names ≠ ["tupleElement(tuple(1, 2), '1')", "tupleElement(tuple(1, 2), '2')"] :=
  ⟨["List [Constant 1, Constant 2]"], ["tupleElement((1, 2), '1')", "tupleElement((1, 2), '2')"],
    by decide!, by decide⟩

open DB.Example in
/-- C8 (amended): the resolution of `untuple(tuple(1, 2))` without an alias replaces the
call by a list of two nodes, the constants 1 and 2, and returns the projection names
`tupleElement((1, 2), '1')` and `tupleElement((1, 2), '2')`. -/
theorem resolveExpressionNode_untuple :
    outcomeOfNode
        ((resolver collaborators scalarCollaborators unmodelled 30).resolveExpressionNode
          (unresolvedCall 1 "untuple" "" [unresolvedCall 2 "tuple" "" [literal 3 1, literal 4 2]])
          0 false false false (analyzerOver (scopeOverT selectUntuple [])))
      = .returned ["List [Constant 1, Constant 2]"]
          ["tupleElement((1, 2), '1')", "tupleElement((1, 2), '2')"] := by
  decide!

end QueryAnalyzer

end DB

namespace DB

namespace RM

/-- The step `getScope`. -/
theorem getScope_andThen {β : Type} (i : Nat) (f : IdentifierResolveScope → RM β)
    (s : QueryAnalyzer) : (RM.getScope i).andThen f s = f (s.scopes i) s := rfl

/-- The step `modifyScope`. -/
theorem modifyScope_andThen {β : Type} (i : Nat)
    (g : IdentifierResolveScope → IdentifierResolveScope) (f : Unit → RM β)
    (s : QueryAnalyzer) : (RM.modifyScope i g).andThen f s = f () (s.modifyScope i g) := rfl

/-- The step `get`. -/
theorem get_andThen {β : Type} (f : QueryAnalyzer → RM β) (s : QueryAnalyzer) :
    RM.get.andThen f s = f s s := rfl

/-- The step `modify`. -/
theorem modify_andThen {β : Type} (g : QueryAnalyzer → QueryAnalyzer) (f : Unit → RM β)
    (s : QueryAnalyzer) : (RM.modify g).andThen f s = f () (g s) := rfl

/-- The step `ret`. -/
theorem ret_andThen {α β : Type} (a : α) (f : α → RM β) (s : QueryAnalyzer) :
    (RM.ret a).andThen f s = f a s := rfl

/-- The step `lift` of a result. -/
theorem lift_ok_andThen {α β : Type} (a : α) (f : α → RM β) (s : QueryAnalyzer) :
    (RM.lift (.ok a)).andThen f s = f a s := rfl

/-- The step `clone`. -/
theorem clone_andThen {β : Type} (n : QueryTreeNode) (f : QueryTreeNode → RM β)
    (s : QueryAnalyzer) : (RM.clone n).andThen f s = f (s.clone n).1 (s.clone n).2 := rfl

/-- The step `pushExpressionNode`. -/
theorem pushExpressionNode_andThen {β : Type} (E : Collaborators) (i : Nat) (n : QueryTreeNode)
    (f : Unit → RM β) (s : QueryAnalyzer) :
    (RM.pushExpressionNode E i n).andThen f s
      = f () (s.modifyScope i (fun sc => { sc with
          expressions_in_resolve_process_stack :=
            sc.expressions_in_resolve_process_stack.push n (isAggregateFunctionNode E n) })) := rfl

/-- Sequencing after a computation whose outcome is known. -/
theorem andThen_of_fst {α β : Type} {x : RM α} {f : α → RM β} {s : QueryAnalyzer} {a : α}
    (h : (x s).1 = .ok a) : x.andThen f s = f a (x s).2 := by
  unfold RM.andThen
  rcases hx : x s with ⟨r, s1⟩
  rw [hx] at h
  simp only at h
  subst h
  rfl

end RM

namespace QueryAnalyzer

/-- The scope with the given index after a change of that scope. -/
theorem scopes_modifyScope_same (s : QueryAnalyzer) (i : Nat)
    (f : IdentifierResolveScope → IdentifierResolveScope) :
    (s.modifyScope i f).scopes i = f (s.scopes i) := by
  simp [QueryAnalyzer.modifyScope]

/-- The scopes after a change of one scope. -/
theorem scopes_modifyScope (s : QueryAnalyzer) (i j : Nat)
    (f : IdentifierResolveScope → IdentifierResolveScope) :
    (s.modifyScope i f).scopes j = if j = i then f (s.scopes i) else s.scopes j := by
  by_cases h : j = i
  · subst h; simp [QueryAnalyzer.modifyScope]
  · simp [QueryAnalyzer.modifyScope, Function.update, h]

/-- While an expression with the alias is being resolved in the scope, the lookup of the
alias in the alias table returns that nothing is found, and throws nothing; the scopes
differ afterwards at most in `node_to_remove_aliases`. -/
theorem tryResolveIdentifierFromAliases_in_resolve_state (E : Collaborators) (R : Resolver)
    (identifier_lookup : IdentifierLookup) (scope : Nat) (ctx : IdentifierResolveContext)
    (s : QueryAnalyzer)
    (h : ((s.scopes scope).expressions_in_resolve_process_stack.getExpressionWithAlias
      identifier_lookup.identifier.front).isSome = true) :
    ∃ s1, tryResolveIdentifierFromAliases E R identifier_lookup scope ctx s = (.ok {}, s1)
      ∧ ∀ i, ∃ l, s1.scopes i =
          { s.scopes i with
            aliases := { (s.scopes i).aliases with node_to_remove_aliases := l } } := by
  unfold tryResolveIdentifierFromAliases
  cases hfind : (s.scopes scope).aliases.find identifier_lookup .FIRST_NAME with
  | none =>
    simp only [RM.bind_eq, RM.pure_eq, RM.andThen, RM.getScope, QueryAnalyzer.scope, hfind, RM.ret]
    exact ⟨s, rfl, fun i => ⟨_, rfl⟩⟩
  | some alias_node =>
    by_cases htable : identifier_lookup.isTableExpressionLookup = true
    · simp only [RM.bind_eq, RM.pure_eq, RM.andThen, RM.getScope, QueryAnalyzer.scope, hfind,
        htable, Bool.not_true, Bool.false_eq_true, if_false, RM.ret, h, if_true]
      exact ⟨s, rfl, fun i => ⟨_, rfl⟩⟩
    · have hstack : (((s.clone alias_node).2.modifyScope
          (ctx.scope_to_resolve_alias_expression.getD scope) (fun sc => { sc with
            aliases := { sc.aliases with
              node_to_remove_aliases :=
                sc.aliases.node_to_remove_aliases ++ [(s.clone alias_node).1.addr] } })).scopes
                  scope).expressions_in_resolve_process_stack
            = (s.scopes scope).expressions_in_resolve_process_stack := by
        rw [scopes_modifyScope]
        split
        · rename_i heq; rw [← heq]; rfl
        · rfl
      simp only [RM.bind_eq, RM.pure_eq, RM.andThen, RM.getScope, QueryAnalyzer.scope, hfind,
        htable, Bool.not_false, Bool.not_eq_true, if_true, RM.clone, RM.modifyScope, RM.ret,
        hstack, h]
      refine ⟨_, rfl, fun i => ?_⟩
      rw [scopes_modifyScope]
      split
      · rename_i heq; rw [heq]; exact ⟨_, rfl⟩
      · exact ⟨_, rfl⟩

/-- While an expression with the alias is being resolved in the scope, the lookup of the
alias in the alias table returns that nothing is found, and throws nothing. -/
theorem tryResolveIdentifierFromAliases_in_resolve (E : Collaborators) (R : Resolver)
    (identifier_lookup : IdentifierLookup) (scope : Nat) (ctx : IdentifierResolveContext)
    (s : QueryAnalyzer)
    (h : ((s.scopes scope).expressions_in_resolve_process_stack.getExpressionWithAlias
      identifier_lookup.identifier.front).isSome = true) :
    (tryResolveIdentifierFromAliases E R identifier_lookup scope ctx s).1 = .ok {}
      ∧ ∀ i, ∃ l, (tryResolveIdentifierFromAliases E R identifier_lookup scope ctx s).2.scopes i =
          { s.scopes i with
            aliases := { (s.scopes i).aliases with node_to_remove_aliases := l } } := by
  obtain ⟨s1, h1, h2⟩ :=
    tryResolveIdentifierFromAliases_in_resolve_state E R identifier_lookup scope ctx s h
  rw [h1]
  exact ⟨rfl, h2⟩

/-- The column name is not preferred to an alias of an identifier node unless the
setting says so. -/
theorem preferColumnNameToAlias_identifier (sc : IdentifierResolveScope) (a : String)
    (ia : Nat) (ial : String) (idn : IdentifierNode)
    (halias : sc.aliases.alias_name_to_expression_node.lookup a
      = some (.IDENTIFIER ia ial idn))
    (hprefer : sc.context.settings.prefer_column_name_to_alias = false) :
    preferColumnNameToAlias sc ⟨⟨[a]⟩, .EXPRESSION⟩ = false := by
  have hkey : ScopeAliases.getKey ⟨[a]⟩ .FULL_NAME = a := rfl
  simp only [preferColumnNameToAlias, IdentifierLookup.isExpressionLookup, beq_self_eq_true,
    if_true, ScopeAliases.find, ScopeAliases.getAliasMap, hkey, halias, hprefer]

/-- A lookup that is not in the table of lookups is not in process already. -/
theorem registerLookup_not_in_process
    (table : List (IdentifierLookup × IdentifierResolveState)) (l : IdentifierLookup)
    (h : table.lookup l = none) :
    (registerLookup table l).2 = false := by
  simp [registerLookup, h]

/-- The lookup of the identifier `a` while an expression with the alias `a` is being
resolved: the alias table gives nothing and the join tree gives the column. -/
theorem tryResolveIdentifier_alias_in_resolve (E : Collaborators) (R R2 : Resolver)
    (a : String) (scope : Nat) (s : QueryAnalyzer) (sc0 : IdentifierResolveScope)
    (ia : Nat) (ial : String) (idn : IdentifierNode)
    (ca : Nat) (cal : String) (c : ColumnNode QueryTreeNode)
    (hR : R.tryResolveIdentifierFromAliases = tryResolveIdentifierFromAliases E R2)
    (hsame : sc0.sameBindings (s.scopes scope))
    (hstack : ((s.scopes scope).expressions_in_resolve_process_stack.getExpressionWithAlias
      a).isSome = true)
    (hlookup : (s.scopes scope).identifier_in_lookup_process.lookup
      ⟨⟨[a]⟩, .EXPRESSION⟩ = none)
    (halias : (s.scopes scope).aliases.alias_name_to_expression_node.lookup a
      = some (.IDENTIFIER ia ial idn))
    (hprefer : (s.scopes scope).context.settings.prefer_column_name_to_alias = false)
    (hargs : ∀ sc, sc0.sameBindings sc →
      E.tryResolveIdentifierFromExpressionArguments ⟨⟨[a]⟩, .EXPRESSION⟩ sc = .ok {})
    (hjoin : ∀ sc, sc0.sameBindings sc →
      E.tryResolveIdentifierFromJoinTree ⟨⟨[a]⟩, .EXPRESSION⟩ sc
        = .ok { resolved_identifier := some (.COLUMN ca cal c), resolve_place := .JOIN_TREE })
    (hexpr : c.expression = none) :
    ∃ s1, tryResolveIdentifier E R ⟨⟨[a]⟩, .EXPRESSION⟩ scope {} s
        = (.ok { resolved_identifier := some (.COLUMN ca cal c), resolve_place := .JOIN_TREE }, s1)
      ∧ ∀ i, (s1.scopes i).nullable_group_by_keys = (s.scopes i).nullable_group_by_keys := by
  unfold tryResolveIdentifier
  simp only [RM.bind_eq, RM.pure_eq, RM.getScope_andThen, RM.modifyScope_andThen,
    scopes_modifyScope_same, registerLookup_not_in_process _ _ hlookup]
  rw [hargs _ (by exact hsame)]
  simp only [RM.lift_ok_andThen, Option.isNone_none, if_true]
  rw [preferColumnNameToAlias_identifier _ a ia ial idn (by exact halias) (by exact hprefer)]
  simp only [Bool.false_eq_true, if_false, Bool.and_self, Bool.not_false, if_true, hR]
  have hal := tryResolveIdentifierFromAliases_in_resolve E R2 ⟨⟨[a]⟩, .EXPRESSION⟩ scope {}
    (s.modifyScope scope (fun sc => { sc with
      identifier_in_lookup_process :=
        (registerLookup (s.scopes scope).identifier_in_lookup_process
          ⟨⟨[a]⟩, .EXPRESSION⟩).1 }))
    (by rw [scopes_modifyScope_same]; exact hstack)
  rw [RM.andThen_of_fst hal.1]
  have hal2 := hal.2
  generalize (tryResolveIdentifierFromAliases E R2 ⟨⟨[a]⟩, .EXPRESSION⟩ scope {}
    (s.modifyScope scope (fun sc => { sc with
      identifier_in_lookup_process :=
        (registerLookup (s.scopes scope).identifier_in_lookup_process
          ⟨⟨[a]⟩, .EXPRESSION⟩).1 }))).2 = s2 at hal2 ⊢
  have hs2 : sc0.sameBindings (s2.scopes scope) := by
    obtain ⟨l, hl⟩ := hal2 scope
    rw [scopes_modifyScope_same] at hl
    rw [hl]
    exact hsame
  simp only [Option.isNone_none, Bool.and_self, if_true, RM.getScope_andThen]
  rw [hjoin _ hs2]
  simp only [RM.lift_ok_andThen, resolveJoinTreeColumnExpression, beq_self_eq_true, if_true, hexpr,
    RM.pure_eq, RM.ret_andThen, RM.getScope_andThen, RM.get_andThen, Option.isNone_some,
    Bool.false_and, Bool.false_eq_true, if_false, RM.modifyScope_andThen]
  refine ⟨_, rfl, fun i => ?_⟩
  obtain ⟨l, hl⟩ := hal2 i
  by_cases hi : i = scope
  · subst hi
    rw [scopes_modifyScope_same, hl, scopes_modifyScope_same]
  · rw [scopes_modifyScope, if_neg hi, hl, scopes_modifyScope, if_neg hi]


/-- No scope on the way up to the query scope has nullable keys when no scope has. -/
theorem scopesUpToQuery_keys (s : QueryAnalyzer)
    (hkeys : ∀ i, (s.scopes i).nullable_group_by_keys = []) (fuel id : Nat) :
    ∀ sc ∈ s.scopesUpToQuery fuel id, sc.nullable_group_by_keys = [] := by
  induction fuel generalizing id with
  | zero => intro sc h; simp [scopesUpToQuery] at h
  | succ n ih =>
    intro sc h
    simp only [scopesUpToQuery] at h
    split at h
    · simp only [List.mem_singleton] at h
      rw [h]; exact hkeys id
    · split at h
      · simp only [List.mem_singleton] at h
        rw [h]; exact hkeys id
      · simp only [List.mem_cons] at h
        rcases h with h | h
        · rw [h]; exact hkeys id
        · exact ih _ sc h

/-- No nullable key is found in scopes without nullable keys. -/
theorem findNullableGroupByKey_none (E : Collaborators) (node : QueryTreeNode)
    (chain : List IdentifierResolveScope)
    (h : ∀ sc ∈ chain, sc.nullable_group_by_keys = []) :
    findNullableGroupByKey E node chain = none := by
  induction chain with
  | nil => rfl
  | cons sc rest ih =>
    simp only [findNullableGroupByKey, h sc (List.mem_cons_self _ _), List.find?_nil]
    exact ih (fun sc1 h1 => h sc1 (List.mem_cons_of_mem _ h1))

/-- The end of `resolveExpressionNode` returns the node as it is when the tree is not too
large and no scope has nullable keys. -/
theorem finishResolveExpressionNode_ok (E : Collaborators) (node : QueryTreeNode) (scope : Nat)
    (names : ProjectionNames) (s : QueryAnalyzer)
    (hsize : ∀ m, E.validateTreeSize node m = .ok ())
    (hkeys : ∀ i, (s.scopes i).nullable_group_by_keys = []) :
    (finishResolveExpressionNode E node scope names s).1 = .ok (node, names) := by
  unfold finishResolveExpressionNode
  simp only [RM.bind_eq, RM.pure_eq, RM.getScope_andThen, hsize, RM.lift_ok_andThen,
    RM.get_andThen,
    findNullableGroupByKey_none E node _ (scopesUpToQuery_keys s hkeys (s.next_scope + 1) scope)]
  split <;> rfl


/-- The lookup of the identifier `a` in a scope where an expression with the alias `a` is
pushed: the part of `resolveExpressionNode` from the push of the node on. -/
theorem resolveExpressionNode_pushed
    (E : Collaborators) (S : ScalarCollaborators) (X : Unmodelled) (stack : Nat)
    (s : QueryAnalyzer) (sc0 : IdentifierResolveScope) (scope : Nat) (addr : Nat) (a : String)
    (ca : Nat) (cal : String) (c : ColumnNode QueryTreeNode)
    (allow_lambda_expression allow_table_expression : Bool)
    (ha : a ≠ "")
    (hsame : sc0.sameBindings (s.scopes scope))
    (halias : (s.scopes scope).aliases.alias_name_to_expression_node.lookup a
      = some (.IDENTIFIER addr a ⟨⟨[a]⟩⟩))
    (hprefer : (s.scopes scope).context.settings.prefer_column_name_to_alias = false)
    (hlookup : (s.scopes scope).identifier_in_lookup_process.lookup
      ⟨⟨[a]⟩, .EXPRESSION⟩ = none)
    (hargs : ∀ sc, sc0.sameBindings sc →
      E.tryResolveIdentifierFromExpressionArguments ⟨⟨[a]⟩, .EXPRESSION⟩ sc = .ok {})
    (hjoin : ∀ sc, sc0.sameBindings sc →
      E.tryResolveIdentifierFromJoinTree ⟨⟨[a]⟩, .EXPRESSION⟩ sc
        = .ok { resolved_identifier := some (.COLUMN ca cal c), resolve_place := .JOIN_TREE })
    (hexpr : c.expression = none)
    (hsize : ∀ m, E.validateTreeSize (.COLUMN ca cal c) m = .ok ())
    (hkeys : ∀ i, (s.scopes i).nullable_group_by_keys = []) :
    ((RM.pushExpressionNode E scope (.IDENTIFIER addr a ⟨⟨[a]⟩⟩)).andThen (fun _ =>
      (resolveExpressionNodeSwitch E (resolver E S X (stack + 2)) (.IDENTIFIER addr a ⟨⟨[a]⟩⟩)
        scope allow_lambda_expression allow_table_expression [a]).andThen (fun r =>
          if r.2 = true then RM.ret r.1
          else finishResolveExpressionNode E r.1.1 scope r.1.2)) s).1
      = .ok (.COLUMN ca cal c, [a]) := by
  have hne : (a != "") = true := by simpa using ha
  obtain ⟨s2, h2, hk2⟩ := tryResolveIdentifier_alias_in_resolve E (resolver E S X (stack + 1))
    (resolver E S X stack) a scope
    (s.modifyScope scope (fun sc => { sc with
      expressions_in_resolve_process_stack :=
        sc.expressions_in_resolve_process_stack.push (.IDENTIFIER addr a ⟨⟨[a]⟩⟩)
          (isAggregateFunctionNode E (.IDENTIFIER addr a ⟨⟨[a]⟩⟩)) }))
    sc0 addr a ⟨⟨[a]⟩⟩ ca cal c rfl
    (by rw [scopes_modifyScope_same]; exact hsame)
    (by
      rw [scopes_modifyScope_same]
      simp [ExpressionsStack.getExpressionWithAlias, ExpressionsStack.push,
        QueryTreeNode.hasAlias, QueryTreeNode.getAlias, hne])
    (by rw [scopes_modifyScope_same]; exact hlookup)
    (by rw [scopes_modifyScope_same]; exact halias)
    (by rw [scopes_modifyScope_same]; exact hprefer)
    hargs hjoin hexpr
  have hR : (resolver E S X (stack + 2)).tryResolveIdentifier
      = tryResolveIdentifier E (resolver E S X (stack + 1)) := rfl
  simp only [RM.pushExpressionNode_andThen, resolveExpressionNodeSwitch, resolveIdentifierNode,
    RM.bind_eq, RM.pure_eq, hR]
  have hcl : (QueryTreeNodeType.COLUMN == QueryTreeNodeType.LIST) = false := by decide
  simp only [RM.andThen, h2, RM.get, RM.ret, Option.isNone_some, Bool.false_and,
    Bool.false_eq_true, if_false, QueryTreeNode.getNodeType, List.isEmpty_cons, hcl]
  apply finishResolveExpressionNode_ok E _ scope _ s2 hsize
  intro i
  rw [hk2 i, scopes_modifyScope]
  split
  · exact hkeys scope
  · exact hkeys i

/-- C3: the projection entry `a AS a` of a query over a table with the column `a` is
resolved to that column, with the projection name `a`: when the alias table of the scope
maps `a` to the entry, the expression arguments do not bind `a`, the join tree binds `a` to
a column without a defining expression, the column is not preferred to the alias, the
tree is within the size limit and no scope has nullable grouping keys,
`resolveExpressionNode` returns the column.  And whenever an expression with the alias `a`
is on the stack of the scope, `tryResolveIdentifierFromAliases` returns that nothing is
found and throws nothing, so that the lookup goes on in the join tree. -/
theorem resolveExpressionNode_alias_of_column
    (E : Collaborators) (S : ScalarCollaborators) (X : Unmodelled) (stack : Nat)
    (s : QueryAnalyzer) (scope : Nat) (addr : Nat) (a : String)
    (ca : Nat) (cal : String) (c : ColumnNode QueryTreeNode)
    (allow_lambda_expression allow_table_expression ignore_alias : Bool)
    (R : Resolver) (ctx : IdentifierResolveContext) (s1 : QueryAnalyzer)
    (ha : a ≠ "")
    (hresolved : s.resolved_expressions.lookup addr = none)
    (halias : (s.scopes scope).aliases.alias_name_to_expression_node.lookup a
      = some (.IDENTIFIER addr a ⟨⟨[a]⟩⟩))
    (hprefer : (s.scopes scope).context.settings.prefer_column_name_to_alias = false)
    (hlookup : (s.scopes scope).identifier_in_lookup_process.lookup
      ⟨⟨[a]⟩, .EXPRESSION⟩ = none)
    (hargs : ∀ sc, (s.scopes scope).sameBindings sc →
      E.tryResolveIdentifierFromExpressionArguments ⟨⟨[a]⟩, .EXPRESSION⟩ sc = .ok {})
    (hjoin : ∀ sc, (s.scopes scope).sameBindings sc →
      E.tryResolveIdentifierFromJoinTree ⟨⟨[a]⟩, .EXPRESSION⟩ sc
        = .ok { resolved_identifier := some (.COLUMN ca cal c), resolve_place := .JOIN_TREE })
    (hexpr : c.expression = none)
    (hsize : ∀ m, E.validateTreeSize (.COLUMN ca cal c) m = .ok ())
    (hkeys : ∀ i, (s.scopes i).nullable_group_by_keys = [])
    (hstack : ((s1.scopes scope).expressions_in_resolve_process_stack.getExpressionWithAlias
      a).isSome = true) :
    (resolveExpressionNode E (resolver E S X (stack + 2)) (.IDENTIFIER addr a ⟨⟨[a]⟩⟩) scope
        allow_lambda_expression allow_table_expression ignore_alias s).1
      = .ok (.COLUMN ca cal c, [a])
    ∧ (tryResolveIdentifierFromAliases E R ⟨⟨[a]⟩, .EXPRESSION⟩ scope ctx s1).1 = .ok {} := by
  refine ⟨?_, (tryResolveIdentifierFromAliases_in_resolve E R ⟨⟨[a]⟩, .EXPRESSION⟩ scope ctx s1 hstack).1⟩
  have hempty : a.isEmpty = false := by
    cases h : a.isEmpty with
    | false => rfl
    | true => exact absurd ((String.isEmpty_iff a).mp h) ha
  unfold resolveExpressionNode
  simp only [RM.bind_eq, RM.pure_eq, RM.get_andThen, QueryTreeNode.addr, hresolved,
    QueryTreeNode.getAlias, hempty, Bool.not_false, Bool.true_and, Bool.false_eq_true, if_false]
  cases ignore_alias with
  | true =>
    simp only [Bool.not_true, Bool.false_eq_true, if_false, RM.ret_andThen]
    exact resolveExpressionNode_pushed E S X stack s (s.scopes scope) scope addr a ca cal c
      allow_lambda_expression allow_table_expression ha ⟨rfl, rfl, rfl⟩ halias hprefer hlookup
      hargs hjoin hexpr hsize hkeys
  | false =>
    simp only [Bool.not_false, if_true, RM.modifyScope_andThen]
    apply resolveExpressionNode_pushed E S X stack _ (s.scopes scope) scope addr a ca cal c
      allow_lambda_expression allow_table_expression ha _ _ _ _ hargs hjoin hexpr hsize
    · intro i
      rw [scopes_modifyScope]
      split
      · exact hkeys scope
      · exact hkeys i
    · rw [scopes_modifyScope_same]; exact ⟨rfl, rfl, rfl⟩
    · rw [scopes_modifyScope_same]; exact halias
    · rw [scopes_modifyScope_same]; exact hprefer
    · rw [scopes_modifyScope_same]; exact hlookup

open DB.Example in
/-- Instance of `resolveExpressionNode_alias_of_column`: `SELECT a AS a FROM t` with the
collaborators of the examples. -/
theorem resolveExpressionNode_alias_of_column_witness :
    (resolveExpressionNode collaborators (resolver collaborators scalarCollaborators unmodelled 2)
        (identifier 1 "a" "a") 0 false false false analyzerSelectAAsA).1
      = .ok (columnA, ["a"])
    ∧ (tryResolveIdentifierFromAliases collaborators stackExhausted ⟨⟨["a"]⟩, .EXPRESSION⟩ 0 {}
        analyzerResolvingAAsA).1 = .ok {} :=
  resolveExpressionNode_alias_of_column collaborators scalarCollaborators unmodelled 0
    analyzerSelectAAsA 0 1 "a" 51 ""
    { column_name := "a", column_type := .UInt64, column_source := 50, expression := none }
    false false false stackExhausted {} analyzerResolvingAAsA
    (by decide) rfl rfl rfl rfl
    (fun sc h => by
      have h3 : sc.expression_argument_name_to_node = [] := h.2.2
      simp only [collaborators, h3]
      rfl)
    (fun sc h => by
      have h2 : sc.table_expression_node_to_data
          = [(50, { column_name_to_column_node := [("a", columnA)] })] := h.2.1
      simp only [collaborators, h2]
      rfl)
    rfl (fun _ => rfl) (fun _ => rfl) rfl

end QueryAnalyzer

end DB

namespace DB

namespace RM

/-- A normal return keeps the scalar caches. -/
theorem keepsScalars_ret {α : Type} (a : α) : (RM.ret a).KeepsScalars :=
  fun _ => ⟨rfl, rfl, rfl, rfl⟩

/-- A throw keeps the scalar caches. -/
theorem keepsScalars_throw {α : Type} (e : Exception) : (RM.throw e : RM α).KeepsScalars :=
  fun _ => ⟨rfl, rfl, rfl, rfl⟩

/-- The result of a collaborator keeps the scalar caches. -/
theorem keepsScalars_lift {α : Type} (r : Except Exception α) : (RM.lift r).KeepsScalars :=
  fun _ => ⟨rfl, rfl, rfl, rfl⟩

/-- Reading the state keeps the scalar caches. -/
theorem keepsScalars_get : RM.get.KeepsScalars := fun _ => ⟨rfl, rfl, rfl, rfl⟩

/-- Reading a scope keeps the scalar caches. -/
theorem keepsScalars_getScope (i : Nat) : (RM.getScope i).KeepsScalars :=
  fun _ => ⟨rfl, rfl, rfl, rfl⟩

/-- An allocation keeps the scalar caches. -/
theorem keepsScalars_allocate : RM.allocate.KeepsScalars := fun _ => ⟨rfl, rfl, rfl, rfl⟩

/-- A change of the state that keeps the scalar caches. -/
theorem keepsScalars_modify (g : QueryAnalyzer → QueryAnalyzer)
    (h : ∀ s : QueryAnalyzer, s.sameScalars (g s)) :
    (RM.modify g).KeepsScalars := h

/-- A sequence keeps the scalar caches when its parts do. -/
theorem keepsScalars_andThen {α β : Type} (x : RM α) (f : α → RM β) (hx : x.KeepsScalars)
    (hf : ∀ a, (f a).KeepsScalars) : (x.andThen f).KeepsScalars := by
  intro s
  unfold RM.andThen
  have h1 := hx s
  rcases hxs : x s with ⟨r, s1⟩
  rw [hxs] at h1
  cases r with
  | error e => exact h1
  | ok a =>
    have h2 := hf a s1
    exact ⟨h2.1.trans h1.1, h2.2.1.trans h1.2.1, h2.2.2.1.trans h1.2.2.1, h2.2.2.2.trans h1.2.2.2⟩

/-- What holds after a normal return. -/
theorem post_ret {α : Type} (a : α) (s : QueryAnalyzer) (Q : α → QueryAnalyzer → Prop)
    (h : Q a s) : (RM.ret a).Post s Q := by
  intro b s1 hb
  simp only [RM.ret, Prod.mk.injEq, Except.ok.injEq] at hb
  rw [← hb.1, ← hb.2]; exact h

/-- Anything holds after a throw, which does not return. -/
theorem post_throw {α : Type} (e : Exception) (s : QueryAnalyzer)
    (Q : α → QueryAnalyzer → Prop) : (RM.throw e : RM α).Post s Q := by
  intro b s1 hb
  simp [RM.throw] at hb

/-- What holds after the result of a collaborator. -/
theorem post_lift {α : Type} (r : Except Exception α) (s : QueryAnalyzer)
    (Q : α → QueryAnalyzer → Prop) (h : ∀ a, r = .ok a → Q a s) : (RM.lift r).Post s Q := by
  intro b s1 hb
  simp only [RM.lift, Prod.mk.injEq] at hb
  rw [← hb.2]; exact h b hb.1

/-- What holds after a sequence. -/
theorem post_andThen {α β : Type} (x : RM α) (f : α → RM β) (s : QueryAnalyzer)
    (Q : β → QueryAnalyzer → Prop) (h : x.Post s (fun a s1 => (f a).Post s1 Q)) :
    (x.andThen f).Post s Q := by
  intro b s2 hb
  obtain ⟨a, s1, h1, h2⟩ := RM.andThen_eq_ok hb
  exact h a s1 h1 b s2 h2

/-- What holds after a sequence that starts with a change of the state. -/
theorem post_modify_andThen {β : Type} (g : QueryAnalyzer → QueryAnalyzer) (f : Unit → RM β)
    (s : QueryAnalyzer) (Q : β → QueryAnalyzer → Prop) (h : (f ()).Post (g s) Q) :
    ((RM.modify g).andThen f).Post s Q := h

/-- What holds after a sequence that starts with reading the state. -/
theorem post_get_andThen {β : Type} (f : QueryAnalyzer → RM β)
    (s : QueryAnalyzer) (Q : β → QueryAnalyzer → Prop) (h : (f s).Post s Q) :
    (RM.get.andThen f).Post s Q := h

/-- What holds after a sequence that starts with reading a scope. -/
theorem post_getScope_andThen {β : Type} (i : Nat) (f : IdentifierResolveScope → RM β)
    (s : QueryAnalyzer) (Q : β → QueryAnalyzer → Prop) (h : (f (s.scopes i)).Post s Q) :
    ((RM.getScope i).andThen f).Post s Q := h

/-- What holds after a sequence that starts with a clone. -/
theorem post_clone_andThen {β : Type} (n : QueryTreeNode) (f : QueryTreeNode → RM β)
    (s : QueryAnalyzer) (Q : β → QueryAnalyzer → Prop)
    (h : (f (s.clone n).1).Post (s.clone n).2 Q) :
    ((RM.clone n).andThen f).Post s Q := h

/-- What holds after a sequence that starts with a normal return. -/
theorem post_ret_andThen {α β : Type} (a : α) (f : α → RM β)
    (s : QueryAnalyzer) (Q : β → QueryAnalyzer → Prop) (h : (f a).Post s Q) :
    ((RM.ret a).andThen f).Post s Q := h

/-- What holds after a sequence that starts with the result of a collaborator. -/
theorem post_lift_andThen {α β : Type} (r : Except Exception α) (f : α → RM β)
    (s : QueryAnalyzer) (Q : β → QueryAnalyzer → Prop)
    (h : ∀ a, r = .ok a → (f a).Post s Q) :
    ((RM.lift r).andThen f).Post s Q := by
  intro b s2 hb
  obtain ⟨a, s1, h1, h2⟩ := RM.andThen_eq_ok hb
  simp only [RM.lift, Prod.mk.injEq] at h1
  rw [← h1.2] at h2
  exact h a h1.1 b s2 h2

end RM

namespace QueryAnalyzer

/-- The second part of `evaluateScalarSubqueryIfNeeded` keeps the scalar caches. -/
theorem replaceSubqueryByScalar_keepsScalars (E : Collaborators) (S : ScalarCollaborators)
    (node : QueryTreeNode) (scope : Nat) (scalar_block : Block) (hash : Nat) :
    (replaceSubqueryByScalar E S node scope scalar_block hash).KeepsScalars := by
  unfold replaceSubqueryByScalar
  simp only [RM.bind_eq, RM.pure_eq]
  repeat' first
    | exact RM.keepsScalars_ret _
    | exact RM.keepsScalars_throw _
    | exact RM.keepsScalars_lift _
    | exact RM.keepsScalars_get
    | exact RM.keepsScalars_getScope _
    | exact RM.keepsScalars_allocate
    | exact RM.keepsScalars_modify _ (fun _ => ⟨rfl, rfl, rfl, rfl⟩)
    | refine RM.keepsScalars_andThen _ _ ?_ (fun _ => ?_)
    | split

/-- An entry appended to an association list that lacks its key is found. -/
theorem lookup_append_self {α : Type} (l : List (Nat × α)) (k : Nat) (v : α)
    (h : l.lookup k = none) : (l ++ [(k, v)]).lookup k = some v := by
  induction l with
  | nil => simp [List.lookup]
  | cons e rest ih =>
    obtain ⟨k1, v1⟩ := e
    by_cases hk : k = k1
    · subst hk
      simp [List.lookup] at h
    · have hb : (k == k1) = false := by simpa using hk
      simp only [List.cons_append, List.lookup, hb] at h ⊢
      exact ih h

/-- After the subquery has been computed, the selected cache holds its scalar. -/
theorem computeScalarSubquery_cached (S : ScalarCollaborators) (node : QueryTreeNode)
    (scope : Nat) (hash : Nat) (can_use_global_scalars : Bool) (s : QueryAnalyzer)
    (hnone : (if can_use_global_scalars then s.scalar_subquery_to_scalar_value_global
      else s.scalar_subquery_to_scalar_value_local).lookup hash = none) :
    (computeScalarSubquery S node scope hash can_use_global_scalars).Post s (fun block s1 =>
      (if can_use_global_scalars then s1.scalar_subquery_to_scalar_value_global
        else s1.scalar_subquery_to_scalar_value_local).lookup hash = some block
      ∧ s1.only_analyze = s.only_analyze) := by
  unfold computeScalarSubquery
  simp only [RM.bind_eq, RM.pure_eq]
  apply RM.post_modify_andThen
  apply RM.post_getScope_andThen
  apply RM.post_clone_andThen
  apply RM.post_get_andThen
  apply RM.post_modify_andThen
  apply RM.post_lift_andThen
  intro execution _
  have key : ∀ (scalar_block : Block) (s0 : QueryAnalyzer),
      s0.scalar_subquery_to_scalar_value_global = s.scalar_subquery_to_scalar_value_global →
      s0.scalar_subquery_to_scalar_value_local = s.scalar_subquery_to_scalar_value_local →
      s0.only_analyze = s.only_analyze →
      RM.Post
        ((RM.modify (fun s =>
          if can_use_global_scalars then
            match s.scalar_subquery_to_scalar_value_global.lookup hash with
            | some _ => s
            | none => { s with
                scalar_subquery_to_scalar_value_global :=
                  s.scalar_subquery_to_scalar_value_global ++ [(hash, scalar_block)] }
          else
            match s.scalar_subquery_to_scalar_value_local.lookup hash with
            | some _ => s
            | none => { s with
                scalar_subquery_to_scalar_value_local :=
                  s.scalar_subquery_to_scalar_value_local ++ [(hash, scalar_block)] })).andThen
          (fun _ =>
            if (can_use_global_scalars && (s.scopes scope).context.has_query_context) = true then
              (RM.modify (fun s => { s with
                query_context_scalars :=
                  (toString hash, scalar_block) ::
                    s.query_context_scalars.filter (fun e => e.1 != toString hash) })).andThen
                (fun _ => RM.ret scalar_block)
            else (RM.ret ()).andThen (fun _ => RM.ret scalar_block)))
        s0 (fun block s1 =>
          (if can_use_global_scalars then s1.scalar_subquery_to_scalar_value_global
            else s1.scalar_subquery_to_scalar_value_local).lookup hash = some block
          ∧ s1.only_analyze = s.only_analyze) := by
    intro scalar_block s0 hg hl ho
    apply RM.post_modify_andThen
    cases can_use_global_scalars with
    | true =>
      simp only [if_true] at hnone ⊢
      rw [hg, hnone]
      split
      · apply RM.post_modify_andThen
        apply RM.post_ret
        exact ⟨by simp only [hg]; exact lookup_append_self _ _ _ hnone, ho⟩
      · apply RM.post_ret_andThen
        apply RM.post_ret
        exact ⟨by simp only [hg]; exact lookup_append_self _ _ _ hnone, ho⟩
    | false =>
      simp only [Bool.false_eq_true, if_false] at hnone ⊢
      rw [hl, hnone]
      simp only [Bool.false_and, Bool.false_eq_true, if_false]
      apply RM.post_ret_andThen
      apply RM.post_ret
      exact ⟨by simp only [hl]; exact lookup_append_self _ _ _ hnone, ho⟩
  split
  · apply RM.post_ret_andThen
    exact key _ _ rfl rfl rfl
  · apply RM.post_lift_andThen
    intro scalar_block _
    exact key _ _ rfl rfl rfl

/-- A weaker property holds after a computation when a property that implies it does. -/
theorem post_mono {α : Type} (x : RM α) (s : QueryAnalyzer) (Q Q1 : α → QueryAnalyzer → Prop)
    (h : x.Post s Q) (himp : ∀ a s1, Q a s1 → Q1 a s1) : x.Post s Q1 :=
  fun a s1 hx => himp a s1 (h a s1 hx)

/-- After the first part of `evaluateScalarSubqueryIfNeeded` has returned a scalar, the
cache that the call selects holds the scalar under the hash of the subquery without its
alias. -/
theorem scalarBlockOfSubquery_cached (E : Collaborators) (S : ScalarCollaborators)
    (node : QueryTreeNode) (scope : Nat) (s : QueryAnalyzer) :
    (scalarBlockOfSubquery E S node scope).Post s (fun r s1 =>
      r.2 = E.getTreeHash (s.clone node).1.removeAlias
      ∧ (if canUseGlobalScalars s.only_analyze (s.scopes scope).context
            (s.clone node).1.removeAlias
          then s1.scalar_subquery_to_scalar_value_global
          else s1.scalar_subquery_to_scalar_value_local).lookup
            (E.getTreeHash (s.clone node).1.removeAlias) = some r.1
      ∧ s1.only_analyze = s.only_analyze) := by
  unfold scalarBlockOfSubquery
  simp only [RM.bind_eq, RM.pure_eq]
  apply RM.post_clone_andThen
  apply RM.post_getScope_andThen
  apply RM.post_get_andThen
  have hscopes : (s.clone node).2.scopes scope = s.scopes scope := rfl
  have honly : (s.clone node).2.only_analyze = s.only_analyze := rfl
  rw [hscopes, honly]
  split
  · rename_i scalar_block hfound
    apply RM.post_modify_andThen
    apply RM.post_ret
    exact ⟨rfl, hfound, rfl⟩
  · rename_i hnone
    split
    · rename_i scalar_block hfound
      apply RM.post_modify_andThen
      apply RM.post_ret
      have hcan : canUseGlobalScalars s.only_analyze (s.scopes scope).context
          (s.clone node).1.removeAlias = true := by
        split at hfound
        · rename_i hc
          simp only [Bool.and_eq_true] at hc
          exact hc.2
        · simp at hfound
      rw [hcan] at hnone
      simp only [if_true] at hnone
      rw [hcan, hnone]
      exact ⟨rfl, lookup_append_self _ _ _ hnone, rfl⟩
    · apply RM.post_andThen
      exact post_mono _ _ _ _
        (computeScalarSubquery_cached S node scope _ _ (s.clone node).2 hnone)
        (fun block s1 h1 => RM.post_ret _ _ _ ⟨rfl, h1.1, h1.2⟩)

/-- When the cache that the call selects holds a scalar under the hash of the subquery
without its alias, the first part of `evaluateScalarSubqueryIfNeeded` returns that scalar,
builds no interpreter and counts no miss. -/
theorem scalarBlockOfSubquery_hit (E : Collaborators) (S : ScalarCollaborators)
    (node : QueryTreeNode) (scope : Nat) (s : QueryAnalyzer) (block : Block)
    (h : (if canUseGlobalScalars s.only_analyze (s.scopes scope).context
            (s.clone node).1.removeAlias
          then s.scalar_subquery_to_scalar_value_global
          else s.scalar_subquery_to_scalar_value_local).lookup
            (E.getTreeHash (s.clone node).1.removeAlias) = some block) :
    (scalarBlockOfSubquery E S node scope s).1
        = .ok (block, E.getTreeHash (s.clone node).1.removeAlias)
      ∧ (scalarBlockOfSubquery E S node scope s).2.events.interpreters_built
          = s.events.interpreters_built
      ∧ (scalarBlockOfSubquery E S node scope s).2.events.ScalarSubqueriesCacheMiss
          = s.events.ScalarSubqueriesCacheMiss := by
  unfold scalarBlockOfSubquery
  simp only [RM.bind_eq, RM.pure_eq, RM.clone_andThen, RM.getScope_andThen, RM.get_andThen]
  have hscopes : (s.clone node).2.scopes scope = s.scopes scope := rfl
  have honly : (s.clone node).2.only_analyze = s.only_analyze := rfl
  have hg : (s.clone node).2.scalar_subquery_to_scalar_value_global
      = s.scalar_subquery_to_scalar_value_global := rfl
  have hl : (s.clone node).2.scalar_subquery_to_scalar_value_local
      = s.scalar_subquery_to_scalar_value_local := rfl
  rw [hscopes, honly, hg, hl, h]
  simp only [RM.modify_andThen, RM.ret]
  refine ⟨trivial, ?_, ?_⟩ <;> split <;> rfl

/-- The clone of a node without its alias does not depend on the alias of the node. -/
theorem clone_setAlias_removeAlias (s : QueryAnalyzer) (node : QueryTreeNode)
    (node_alias : String) :
    (s.clone (node.setAlias node_alias)).1.removeAlias = (s.clone node).1.removeAlias := by
  cases node <;>
    simp only [QueryAnalyzer.clone, QueryTreeNode.setAlias, QueryTreeNode.cloneAt,
      QueryTreeNode.removeAlias]

/-- C9 (amended): once `evaluateScalarSubqueryIfNeeded` has returned for a subquery, a
later call (in a state of the analyzer that has kept the entries of the caches) on a
subquery with the same hash after its alias is removed, for which the test
`can_use_global_scalars` gives the same answer and so selects the same cache, takes the
scalar of the first call from the cache, builds no interpreter and counts no miss; and the
hash does not depend on the alias of the subquery node. -/
theorem evaluateScalarSubqueryIfNeeded_cache_hit
    (E : Collaborators) (S : ScalarCollaborators) (node1 node2 : QueryTreeNode)
    (scope1 scope2 : Nat) (s s1 s2 : QueryAnalyzer) (r1 : QueryTreeNode) (node_alias : String)
    (hfirst : evaluateScalarSubqueryIfNeeded E S node1 scope1 s = (.ok r1, s1))
    (hglobal : ∀ hash block,
      s1.scalar_subquery_to_scalar_value_global.lookup hash = some block →
        s2.scalar_subquery_to_scalar_value_global.lookup hash = some block)
    (hlocal : ∀ hash block,
      s1.scalar_subquery_to_scalar_value_local.lookup hash = some block →
        s2.scalar_subquery_to_scalar_value_local.lookup hash = some block)
    (hquery : (node2.getNodeType = .QUERY ∨ node2.getNodeType = .UNION)
      ∧ isCorrelated node2 = false)
    (hkey : E.getTreeHash (s2.clone node2).1.removeAlias
      = E.getTreeHash (s.clone node1).1.removeAlias)
    (hcache : canUseGlobalScalars s2.only_analyze (s2.scopes scope2).context
        (s2.clone node2).1.removeAlias
      = canUseGlobalScalars s.only_analyze (s.scopes scope1).context
          (s.clone node1).1.removeAlias) :
    ∃ block,
      (scalarBlockOfSubquery E S node1 scope1 s).1
        = .ok (block, E.getTreeHash (s.clone node1).1.removeAlias)
      ∧ (scalarBlockOfSubquery E S node2 scope2 s2).1
        = .ok (block, E.getTreeHash (s.clone node1).1.removeAlias)
      ∧ (evaluateScalarSubqueryIfNeeded E S node2 scope2 s2).2.events.interpreters_built
        = s2.events.interpreters_built
      ∧ (evaluateScalarSubqueryIfNeeded E S node2 scope2 s2).2.events.ScalarSubqueriesCacheMiss
        = s2.events.ScalarSubqueriesCacheMiss
      ∧ E.getTreeHash (s2.clone (node2.setAlias node_alias)).1.removeAlias
        = E.getTreeHash (s2.clone node2).1.removeAlias := by
  unfold evaluateScalarSubqueryIfNeeded at hfirst
  split at hfirst
  · simp [RM.throw] at hfirst
  split at hfirst
  · simp [RM.throw] at hfirst
  simp only [RM.bind_eq] at hfirst
  obtain ⟨r, s0, hpart1, hpart2⟩ := RM.andThen_eq_ok hfirst
  obtain ⟨hr, hfound, _⟩ := scalarBlockOfSubquery_cached E S node1 scope1 s r s0 hpart1
  have hkeep := replaceSubqueryByScalar_keepsScalars E S node1 scope1 r.1 r.2 s0
  rw [hpart2] at hkeep
  obtain ⟨_, hk2, hk3, _⟩ := hkeep
  have hfound2 : (if canUseGlobalScalars s2.only_analyze (s2.scopes scope2).context
            (s2.clone node2).1.removeAlias
          then s2.scalar_subquery_to_scalar_value_global
          else s2.scalar_subquery_to_scalar_value_local).lookup
            (E.getTreeHash (s2.clone node2).1.removeAlias) = some r.1 := by
    rw [hcache, hkey]
    split
    · rename_i hc
      rw [hc] at hfound
      exact hglobal _ _ (by rw [hk2]; exact hfound)
    · rename_i hc
      simp only [hc] at hfound
      exact hlocal _ _ (by rw [hk3]; exact hfound)
  obtain ⟨h1, h2, h3⟩ := scalarBlockOfSubquery_hit E S node2 scope2 s2 r.1 hfound2
  have hkind : (node2.getNodeType != .QUERY && node2.getNodeType != .UNION) = false := by
    rcases hquery.1 with hq | hq <;> rw [hq] <;> decide
  have hrun : evaluateScalarSubqueryIfNeeded E S node2 scope2 s2
      = replaceSubqueryByScalar E S node2 scope2 r.1
          (E.getTreeHash (s2.clone node2).1.removeAlias)
          (scalarBlockOfSubquery E S node2 scope2 s2).2 := by
    unfold evaluateScalarSubqueryIfNeeded
    simp only [hkind, hquery.2, Bool.false_eq_true, if_false, RM.bind_eq]
    rw [RM.andThen_of_fst h1]
  have hkeep2 := replaceSubqueryByScalar_keepsScalars E S node2 scope2 r.1
    (E.getTreeHash (s2.clone node2).1.removeAlias) (scalarBlockOfSubquery E S node2 scope2 s2).2
  rw [← hrun] at hkeep2
  refine ⟨r.1, ?_, ?_, ?_, ?_, ?_⟩
  · rw [hpart1, ← hr]
  · rw [h1, hkey]
  · rw [hkeep2.2.2.2, h2]
  · rw [hkeep2.2.2.2, h3]
  · rw [clone_setAlias_removeAlias]

open DB.Example in
/-- Instance of `evaluateScalarSubqueryIfNeeded_cache_hit`: `(SELECT 1) AS x` is
evaluated, then `(SELECT 1) AS y`. -/
theorem evaluateScalarSubqueryIfNeeded_cache_hit_witness :
    ∃ block,
      (scalarBlockOfSubquery collaborators scalarCollaborators (scalarSelect1 10 "x") 0
          analyzerNoTables).1
        = .ok (block, collaborators.getTreeHash
            (analyzerNoTables.clone (scalarSelect1 10 "x")).1.removeAlias)
      ∧ (scalarBlockOfSubquery collaborators scalarCollaborators (scalarSelect1 20 "y") 0
          analyzerAfterScalar).1
        = .ok (block, collaborators.getTreeHash
            (analyzerNoTables.clone (scalarSelect1 10 "x")).1.removeAlias)
      ∧ (evaluateScalarSubqueryIfNeeded collaborators scalarCollaborators (scalarSelect1 20 "y")
          0 analyzerAfterScalar).2.events.interpreters_built
        = analyzerAfterScalar.events.interpreters_built
      ∧ (evaluateScalarSubqueryIfNeeded collaborators scalarCollaborators (scalarSelect1 20 "y")
          0 analyzerAfterScalar).2.events.ScalarSubqueriesCacheMiss
        = analyzerAfterScalar.events.ScalarSubqueriesCacheMiss
      ∧ collaborators.getTreeHash
          (analyzerAfterScalar.clone ((scalarSelect1 20 "y").setAlias "z")).1.removeAlias
        = collaborators.getTreeHash
          (analyzerAfterScalar.clone (scalarSelect1 20 "y")).1.removeAlias :=
  evaluateScalarSubqueryIfNeeded_cache_hit collaborators scalarCollaborators
    (scalarSelect1 10 "x") (scalarSelect1 20 "y") 0 0 analyzerNoTables analyzerAfterScalar
    analyzerAfterScalar
    (.CONSTANT 104 ""
      { value := .UInt64 1, result_type := .Nullable .UInt8,
        source_expression := some (scalarSelect1 10 "x") })
    "z" rfl (fun _ _ h => h) (fun _ _ h => h) ⟨Or.inl rfl, rfl⟩ (by decide!) (by decide!)

open DB.Example in
/-- C9 (as stated) fails: after `(SELECT 1 FROM t)` has been evaluated in a scope whose
context has no view source, which builds one interpreter, a call on the same subquery in a
scope whose context has the view source `t` selects the other cache and builds a second
interpreter. -/
theorem evaluateScalarSubqueryIfNeeded_other_cache :
    (evaluateScalarSubqueryIfNeeded collaborators scalarCollaborators (scalarSelect1FromT 10 "")
        1 analyzerWithViewSource).1.isOk = true
    ∧ (evaluateScalarSubqueryIfNeeded collaborators scalarCollaborators (scalarSelect1FromT 10 "")
        1 analyzerWithViewSource).2.events.interpreters_built = 1
    ∧ (evaluateScalarSubqueryIfNeeded collaborators scalarCollaborators (scalarSelect1FromT 10 "")
        2 (evaluateScalarSubqueryIfNeeded collaborators scalarCollaborators
          (scalarSelect1FromT 10 "") 1 analyzerWithViewSource).2).2.events.interpreters_built
      = 2 := by
  refine ⟨?_, ?_, ?_⟩ <;> decide!

end QueryAnalyzer

end DB

namespace DB
namespace RM

/-- Sequencing is associative. -/
theorem andThen_assoc {α β γ : Type} (x : RM α) (f : α → RM β) (g : β → RM γ) :
    (x.andThen f).andThen g = x.andThen (fun a => (f a).andThen g) := by
  funext s
  simp only [RM.andThen]
  rcases x s with ⟨r, s1⟩
  cases r <;> rfl

/-- A normal return followed by a computation. -/
theorem ret_andThen_eq {α β : Type} (a : α) (f : α → RM β) : (RM.ret a).andThen f = f a := rfl

/-- The result of a collaborator followed by a computation. -/
theorem lift_ok_andThen_eq {α β : Type} (a : α) (f : α → RM β) :
    (RM.lift (.ok a)).andThen f = f a := rfl

end RM

namespace QueryAnalyzer

/-- The column of a `USING` clause that `makeJoinUsingColumn` makes of two columns. -/
theorem makeJoinUsingColumn_column (E : Collaborators) (M : MatcherCollaborators)
    (la : Nat) (lal : String) (cl : ColumnNode QueryTreeNode)
    (ra : Nat) (ral : String) (cr : ColumnNode QueryTreeNode)
    (name : String) (join_addr : Nat) (s0 s1 : QueryAnalyzer) (using_node : QueryTreeNode)
    (h : makeJoinUsingColumn E M (.COLUMN la lal cl) (.COLUMN ra ral cr) name join_addr s0
      = (.ok using_node, s1)) :
    ∃ type, M.tryGetLeastSupertype [cl.column_type, cr.column_type] = some type
      ∧ using_node = .COLUMN (s0.next_addr + 1) ""
          { column_name := name, column_type := type, column_source := join_addr,
            expression := some (.LIST s0.next_addr ""
              { nodes := [.COLUMN la lal cl, .COLUMN ra ral cr] }),
            column_source_type := .JOIN } := by
  unfold makeJoinUsingColumn at h
  simp only [RM.bind_eq, RM.pure_eq, QueryTreeNode.getResultType, RM.lift_ok_andThen] at h
  cases hs : M.tryGetLeastSupertype [cl.column_type, cr.column_type] with
  | none =>
    rw [hs] at h
    simp [RM.throw] at h
  | some type =>
    rw [hs] at h
    simp only [RM.andThen, RM.allocate, RM.ret, Prod.mk.injEq, Except.ok.injEq] at h
    exact ⟨type, rfl, h.1.symm⟩

/-- The type adopted from the `USING` clause by a column without a defining
expression. -/
theorem adoptJoinUsingType_fst (E : Collaborators) (M : MatcherCollaborators)
    (a : Nat) (al : String) (c : ColumnNode QueryTreeNode)
    (join_using_column_node : ColumnNode QueryTreeNode) (left_column : QueryTreeNode)
    (scope : Nat) (s : QueryAnalyzer) (hexpr : c.expression = none) :
    (adoptJoinUsingType E M (.COLUMN a al c) join_using_column_node left_column scope s).1
      = .ok (.COLUMN a al { c with column_type := join_using_column_node.column_type }) := by
  unfold adoptJoinUsingType
  simp only [RM.bind_eq, RM.pure_eq, setColumnType, RM.getScope_andThen,
    correctColumnExpressionType, hexpr, RM.ret_andThen]
  split
  · rfl
  · rfl

/-- C6: in the `JOIN` block of the unqualified matcher expansion, for a join whose `USING`
clause is the one column `using_node` that `resolveJoin` makes of a left and of a right
column with the name `name`, both of them columns of their tables: the type of the column
of the clause is the least supertype of the types of the two columns; the merged list is
one column with the name `name` and with that type, followed by the left and then the
right columns whose name is not `name`; so exactly one entry has the name `name`. -/
theorem joinTableExpressionColumns_using
    (E : Collaborators) (M : MatcherCollaborators) (matcher_node : MatcherNode QueryTreeNode)
    (join_node : JoinNode QueryTreeNode) (scope : Nat) (s s0 s1 : QueryAnalyzer)
    (left_columns right_columns : List (QueryTreeNode × String))
    (la : Nat) (lal : String) (cl : ColumnNode QueryTreeNode)
    (ra : Nat) (ral : String) (cr : ColumnNode QueryTreeNode)
    (name : String) (join_addr list_addr : Nat) (list_alias : String)
    (using_node : QueryTreeNode)
    (husing : makeJoinUsingColumn E M (.COLUMN la lal cl) (.COLUMN ra ral cr) name join_addr s0
      = (.ok using_node, s1))
    (hjoin : join_node.join_expression
      = some (.LIST list_addr list_alias { nodes := [using_node] }))
    (hmatch : M.isMatchingColumn matcher_node name = true)
    (hleft : isColumnFromParentScope (s.scopes scope) (.COLUMN la lal cl) = .ok false)
    (hright : isColumnFromParentScope (s.scopes scope) (.COLUMN ra ral cr) = .ok false)
    (hlexpr : cl.expression = none) (hrexpr : cr.expression = none) :
    ∃ type, M.tryGetLeastSupertype [cl.column_type, cr.column_type] = some type
      ∧ using_node.getResultType E = .ok (some type)
      ∧ (joinTableExpressionColumns E M matcher_node join_node scope false left_columns
          right_columns s).1
        = .ok (((if isRight join_node.kind then
                  .COLUMN s.next_addr ral { cr with column_type := type }
                else .COLUMN s.next_addr lal { cl with column_type := type }), name)
              :: (left_columns.filter (fun column => column.2 != name)
                  ++ right_columns.filter (fun column => column.2 != name)))
      ∧ ∀ column ∈ left_columns.filter (fun column => column.2 != name)
            ++ right_columns.filter (fun column => column.2 != name), column.2 ≠ name := by
  obtain ⟨type, htype, hnode⟩ :=
    makeJoinUsingColumn_column E M la lal cl ra ral cr name join_addr s0 s1 using_node husing
  refine ⟨type, htype, ?_, ?_, ?_⟩
  · subst hnode
    rfl
  · subst hnode
    unfold joinTableExpressionColumns
    simp only [RM.bind_eq, RM.pure_eq, JoinNode.isUsingJoinExpression, hjoin, Bool.not_false,
      Bool.and_self, if_true, matchJoinUsingColumns, asColumnNode, RM.lift_ok_andThen, hmatch,
      Bool.not_true, Bool.false_eq_true, if_false, joinUsingColumnNodes, RM.getScope_andThen,
      nodeAt, List.getElem?_cons_zero, List.getElem?_cons_succ, hleft, hright, RM.ret_andThen,
      RM.andThen_assoc, RM.ret_andThen_eq, RM.lift_ok_andThen_eq]
    have hfilter : ∀ columns : List (QueryTreeNode × String),
        columns.filter (fun column => !([name].contains column.2))
          = columns.filter (fun column => column.2 != name) := by
      intro columns
      congr 1
      funext column
      simp only [List.contains, List.elem, bne]
      cases column.2 == name <;> rfl
    have hcl : (s.clone (.COLUMN la lal cl)).1 = .COLUMN s.next_addr lal cl := by
      cases cl
      simp only at hlexpr
      subst hlexpr
      rfl
    have hcr : (s.clone (.COLUMN ra ral cr)).1 = .COLUMN s.next_addr ral cr := by
      cases cr
      simp only at hrexpr
      subst hrexpr
      rfl
    cases hright_kind : isRight join_node.kind with
    | true =>
      simp only [if_true, RM.andThen_assoc, RM.clone_andThen, hcr, RM.lift_ok_andThen_eq]
      rw [RM.andThen_of_fst (adoptJoinUsingType_fst E M s.next_addr ral cr _ _ scope _ hrexpr)]
      simp only [RM.ret_andThen_eq, RM.ret, hfilter, List.singleton_append]
      rfl
    | false =>
      simp only [Bool.false_eq_true, if_false, RM.andThen_assoc, RM.clone_andThen, hcl,
        RM.lift_ok_andThen_eq]
      rw [RM.andThen_of_fst (adoptJoinUsingType_fst E M s.next_addr lal cl _ _ scope _ hlexpr)]
      simp only [RM.ret_andThen_eq, RM.ret, hfilter, List.singleton_append]
      rfl
  · intro column hc
    simp only [List.mem_append, List.mem_filter, bne_iff_ne, ne_eq] at hc
    rcases hc with hc | hc <;> exact hc.2

/-- Witness of `joinTableExpressionColumns_using`: `SELECT * FROM t1 JOIN t2 USING (id)` with
`t1 (id UInt8, a UInt64)` and `t2 (id UInt64, b UInt64)`; the whole expansion of the asterisk
is `id UInt64, a, b`. -/
theorem joinTableExpressionColumns_using_witness :
    (∃ type, Example.matcherCollaborators.tryGetLeastSupertype [.UInt8, .UInt64] = some type
      ∧ Example.usingId.getResultType Example.collaborators = .ok (some type)
      ∧ (joinTableExpressionColumns Example.collaborators Example.matcherCollaborators
            { matcher_type := .ASTERISK, qualified_identifier := ⟨[]⟩,
              columns_identifiers := [], column_transformers := [] }
            Example.joinUsingIdNode 0 false
            [(Example.columnT1Id, "id"), (Example.typedColumn 61 "a" .UInt64 50, "a")]
            [(Example.columnT2Id, "id"), (Example.typedColumn 63 "b" .UInt64 51, "b")]
            (Example.analyzerOver Example.scopeJoinUsingId)).1
          = .ok [(Example.typedColumn 100 "id" type 50, "id"),
                 (Example.typedColumn 61 "a" .UInt64 50, "a"),
                 (Example.typedColumn 63 "b" .UInt64 51, "b")])
    ∧ Example.describeColumns
        (match (resolveUnqualifiedMatcher Example.collaborators Example.matcherCollaborators
            (resolver Example.collaborators Example.scalarCollaborators Example.unmodelled 0)
            (Example.asterisk 71) 0 (Example.analyzerOver Example.scopeJoinUsingId)).1 with
         | .ok columns => columns
         | .error _ => [])
      = [("id", "id", "UInt64", 50), ("a", "a", "UInt64", 50), ("b", "b", "UInt64", 51)] := by
  refine ⟨?_, by decide!⟩
  obtain ⟨type, htype, husing, hcolumns, _⟩ :=
    joinTableExpressionColumns_using Example.collaborators Example.matcherCollaborators
      { matcher_type := .ASTERISK, qualified_identifier := ⟨[]⟩,
        columns_identifiers := [], column_transformers := [] }
      Example.joinUsingIdNode 0 (Example.analyzerOver Example.scopeJoinUsingId)
      (Example.analyzerAt 54)
      (makeJoinUsingColumn Example.collaborators Example.matcherCollaborators
        Example.columnT1Id Example.columnT2Id "id" 52 (Example.analyzerAt 54)).2
      [(Example.columnT1Id, "id"), (Example.typedColumn 61 "a" .UInt64 50, "a")]
      [(Example.columnT2Id, "id"), (Example.typedColumn 63 "b" .UInt64 51, "b")]
      60 "" { column_name := "id", column_type := .UInt8, column_source := 50, expression := none }
      62 "" { column_name := "id", column_type := .UInt64, column_source := 51, expression := none }
      "id" 52 53 "" Example.usingId rfl rfl rfl rfl rfl rfl rfl
  exact ⟨type, htype, husing, hcolumns⟩

end QueryAnalyzer
end DB

namespace DB
namespace QueryAnalyzer

/-- The block of `tryResolveIdentifier` for the join tree returns a resolved result when it
is given one. -/
theorem resolveJoinTreeColumnExpression_resolved (E : Collaborators) (R : Resolver)
    (scope : Nat) (resolve_result : IdentifierResolveResult) (s : QueryAnalyzer)
    (h : resolve_result.resolved_identifier.isSome = true) :
    (resolveJoinTreeColumnExpression E R scope resolve_result).Post s
      (fun r _ => r.resolved_identifier.isSome = true) := by
  unfold resolveJoinTreeColumnExpression
  split
  · split
    · split
      · simp only [RM.bind_eq, RM.pure_eq]
        intro r s1 hr
        obtain ⟨a, s2, _, h2⟩ := RM.andThen_eq_ok hr
        rw [RM.getScope_andThen] at h2
        obtain ⟨b, s3, _, h3⟩ := RM.andThen_eq_ok h2
        obtain ⟨c, s4, _, h4⟩ := RM.andThen_eq_ok h3
        simp only [RM.ret, Prod.mk.injEq, Except.ok.injEq] at h4
        rw [← h4.1]
        rfl
      · exact RM.post_ret _ _ _ h
    · exact RM.post_ret _ _ _ h
  · exact RM.post_ret _ _ _ h

/-- The block of `tryResolveIdentifier` for the join tree leaves a result alone that the
join tree has not given. -/
theorem resolveJoinTreeColumnExpression_other (E : Collaborators) (R : Resolver)
    (scope : Nat) (resolve_result : IdentifierResolveResult)
    (h : resolve_result.resolve_place ≠ .JOIN_TREE) :
    resolveJoinTreeColumnExpression E R scope resolve_result = RM.ret resolve_result := by
  unfold resolveJoinTreeColumnExpression
  rw [if_neg (by simpa using h)]
  rfl


/-- What holds after a sequence whose second part ensures it from every state. -/
theorem post_andThen_all {α β : Type} (x : RM α) (f : α → RM β) (s : QueryAnalyzer)
    (Q : β → QueryAnalyzer → Prop) (h : ∀ a s1, (f a).Post s1 Q) :
    (x.andThen f).Post s Q := by
  intro b s2 hb
  obtain ⟨a, s1, _, h2⟩ := RM.andThen_eq_ok hb
  exact h a s1 b s2 h2

/-- A result that the tail of `tryResolveIdentifierFromAliases` returns as resolved has the
place `ALIASES`. -/
theorem finishResolveFromAliases_place (E : Collaborators) (identifier_lookup : IdentifierLookup)
    (scope scope_to_resolve_alias_expression : Nat) (ctx : IdentifierResolveContext)
    (alias_node : QueryTreeNode) (s : QueryAnalyzer) :
    (finishResolveFromAliases E identifier_lookup scope scope_to_resolve_alias_expression ctx
      alias_node).Post s
      (fun r _ => r.resolved_identifier.isSome = true → r.resolve_place = .ALIASES) := by
  unfold finishResolveFromAliases
  simp only [RM.bind_eq, RM.pure_eq]
  repeat' first
    | exact RM.post_throw _ _ _
    | exact RM.post_ret _ _ _ (by simp)
    | (apply post_andThen_all; intro _ _)
    | split

/-- A result that `tryResolveIdentifierFromAliases` returns as resolved has the place
`ALIASES`. -/
theorem tryResolveIdentifierFromAliases_place (E : Collaborators) (R : Resolver)
    (identifier_lookup : IdentifierLookup) (scope : Nat) (ctx : IdentifierResolveContext)
    (s : QueryAnalyzer) :
    (tryResolveIdentifierFromAliases E R identifier_lookup scope ctx).Post s
      (fun r _ => r.resolved_identifier.isSome = true → r.resolve_place = .ALIASES) := by
  unfold tryResolveIdentifierFromAliases
  simp only [RM.bind_eq, RM.pure_eq]
  repeat' first
    | exact RM.post_throw _ _ _
    | exact finishResolveFromAliases_place _ _ _ _ _ _ _
    | exact RM.post_ret _ _ _ (by simp)
    | (apply post_andThen_all; intro _ _)
    | split

/-- The order of the strategies of `tryResolveIdentifier`: a lookup that the expression arguments bind has their
result, whatever the aliases and the join tree hold.  Otherwise, for a lookup that is not in
process in the scope already: when the flag `prefer_column_name_to_alias` of the function
(the setting, overridden for an alias from `ARRAY JOIN`) is false and lookups in the aliases
are allowed, a lookup that the alias table resolves has the result of the alias table,
whether the join tree would resolve it or not; when the flag is true and lookups in the
join tree are allowed, a lookup that the join tree resolves has the result of the join
tree (after the block that resolves the defining expression of a column of the join tree),
whether the alias table would resolve it or not. -/
theorem tryResolveIdentifier_order (E : Collaborators) (R : Resolver)
    (identifier_lookup : IdentifierLookup) (scope : Nat)
    (identifier_resolve_settings : IdentifierResolveContext) (s : QueryAnalyzer) :
    (∀ r, E.tryResolveIdentifierFromExpressionArguments identifier_lookup
            ((s.withLookupRegistered scope identifier_lookup).scopes scope) = .ok r →
        r.resolved_identifier.isSome = true →
        (tryResolveIdentifier E R identifier_lookup scope identifier_resolve_settings s).1
          = .ok r)
    ∧ (∀ r0 ra s2, E.tryResolveIdentifierFromExpressionArguments identifier_lookup
            ((s.withLookupRegistered scope identifier_lookup).scopes scope) = .ok r0 →
        r0.resolved_identifier = none →
        identifier_resolve_settings.allow_to_check_aliases = true →
        (s.scopes scope).identifier_in_lookup_process.lookup identifier_lookup = none →
        preferColumnNameToAlias ((s.withLookupRegistered scope identifier_lookup).scopes scope)
          identifier_lookup = false →
        R.tryResolveIdentifierFromAliases identifier_lookup scope identifier_resolve_settings
          (s.withLookupRegistered scope identifier_lookup) = (.ok ra, s2) →
        ra.resolved_identifier.isSome = true →
        ra.resolve_place = .ALIASES →
        (tryResolveIdentifier E R identifier_lookup scope identifier_resolve_settings s).1
          = .ok ra)
    ∧ (∀ r0 rj, E.tryResolveIdentifierFromExpressionArguments identifier_lookup
            ((s.withLookupRegistered scope identifier_lookup).scopes scope) = .ok r0 →
        r0.resolved_identifier = none →
        identifier_resolve_settings.allow_to_check_join_tree = true →
        preferColumnNameToAlias ((s.withLookupRegistered scope identifier_lookup).scopes scope)
          identifier_lookup = true →
        E.tryResolveIdentifierFromJoinTree identifier_lookup
            ((s.withLookupRegistered scope identifier_lookup).scopes scope) = .ok rj →
        rj.resolved_identifier.isSome = true →
        (tryResolveIdentifier E R identifier_lookup scope identifier_resolve_settings s).1
          = (resolveJoinTreeColumnExpression E R scope rj
              (s.withLookupRegistered scope identifier_lookup)).1) := by
  refine ⟨?_, ?_, ?_⟩
  · intro r hargs hr
    unfold tryResolveIdentifier
    simp only [RM.bind_eq, RM.pure_eq, RM.getScope_andThen, RM.modifyScope_andThen]
    rw [show s.modifyScope scope (fun sc => { sc with
          identifier_in_lookup_process :=
            (registerLookup (s.scopes scope).identifier_in_lookup_process identifier_lookup).1 })
        = s.withLookupRegistered scope identifier_lookup from rfl]
    rw [hargs]
    cases hri : r.resolved_identifier with
    | none => rw [hri] at hr; simp at hr
    | some node =>
      simp only [RM.lift_ok_andThen, hri, Option.isNone_some, Bool.false_eq_true, if_false,
        RM.ret_andThen, RM.getScope_andThen, RM.get_andThen, Bool.false_and,
        RM.modifyScope_andThen, RM.ret]
  · intro r0 ra s2 hargs hr0 hal hlookup hprefer halias hra hplace
    unfold tryResolveIdentifier
    simp only [RM.bind_eq, RM.pure_eq, RM.getScope_andThen, RM.modifyScope_andThen]
    rw [show s.modifyScope scope (fun sc => { sc with
          identifier_in_lookup_process :=
            (registerLookup (s.scopes scope).identifier_in_lookup_process identifier_lookup).1 })
        = s.withLookupRegistered scope identifier_lookup from rfl]
    rw [hargs]
    cases hri : ra.resolved_identifier with
    | none => rw [hri] at hra; simp at hra
    | some node =>
      simp only [RM.lift_ok_andThen, hr0, Option.isNone_none, if_true, hprefer,
        Bool.false_eq_true, if_false, hal, registerLookup_not_in_process _ _ hlookup,
        Bool.not_false, Bool.and_self, RM.andThen_assoc]
      rw [RM.andThen_ok halias]
      simp only [hri, Option.isNone_some, Bool.false_and, Bool.false_eq_true, if_false,
        RM.ret_andThen_eq,
        resolveJoinTreeColumnExpression_other E R scope ra (by rw [hplace]; decide),
        RM.ret_andThen, RM.getScope_andThen, RM.get_andThen,
        RM.modifyScope_andThen, RM.ret]
  · intro r0 rj hargs hr0 hjt hprefer hjoin hrj
    unfold tryResolveIdentifier
    simp only [RM.bind_eq, RM.pure_eq, RM.getScope_andThen, RM.modifyScope_andThen]
    rw [show s.modifyScope scope (fun sc => { sc with
          identifier_in_lookup_process :=
            (registerLookup (s.scopes scope).identifier_in_lookup_process identifier_lookup).1 })
        = s.withLookupRegistered scope identifier_lookup from rfl]
    rw [hargs]
    cases hri : rj.resolved_identifier with
    | none => rw [hri] at hrj; simp at hrj
    | some node =>
      simp only [RM.lift_ok_andThen, hr0, Option.isNone_none, if_true, hprefer, hjt, hjoin,
        RM.andThen_assoc, RM.lift_ok_andThen_eq, hri, Option.isNone_some, Bool.and_false,
        Bool.false_and, Bool.false_eq_true, if_false, RM.ret_andThen_eq]
      have hpost := resolveJoinTreeColumnExpression_resolved E R scope rj
        (s.withLookupRegistered scope identifier_lookup) hrj
      rcases hres : resolveJoinTreeColumnExpression E R scope rj
        (s.withLookupRegistered scope identifier_lookup) with ⟨res, s3⟩
      cases res with
      | error e => rw [RM.andThen_error hres]
      | ok r =>
        have hr : r.resolved_identifier.isSome = true := hpost r s3 hres
        rw [RM.andThen_ok hres]
        obtain ⟨n2, hrr⟩ := Option.isSome_iff_exists.mp hr
        · simp only [hrr, Option.isNone_some, Bool.false_and, Bool.false_eq_true, if_false,
            RM.ret_andThen, RM.getScope_andThen, RM.get_andThen, RM.modifyScope_andThen, RM.ret]

/-- C11: in `tryResolveIdentifier`, a lookup that the expression arguments bind has their
result, whatever the aliases and the join tree hold.  Otherwise, for a lookup that is not in
process in the scope already: when the flag `prefer_column_name_to_alias` of the function
(the setting, overridden for an alias from `ARRAY JOIN`) is false and lookups in the aliases
are allowed, a lookup that the alias table resolves has the result of the alias table,
whether the join tree would resolve it or not; when the flag is true and lookups in the
join tree are allowed, a lookup that the join tree resolves has the result of the join
tree (after the block that resolves the defining expression of a column of the join tree),
whether the alias table would resolve it or not. -/
theorem tryResolveIdentifier_priority (E : Collaborators) (R : Resolver)
    (identifier_lookup : IdentifierLookup) (scope : Nat)
    (identifier_resolve_settings : IdentifierResolveContext) (s : QueryAnalyzer) :
    (∀ r, E.tryResolveIdentifierFromExpressionArguments identifier_lookup
            ((s.withLookupRegistered scope identifier_lookup).scopes scope) = .ok r →
        r.resolved_identifier.isSome = true →
        (tryResolveIdentifier E R identifier_lookup scope identifier_resolve_settings s).1
          = .ok r)
    ∧ (∀ r0 ra s2, E.tryResolveIdentifierFromExpressionArguments identifier_lookup
            ((s.withLookupRegistered scope identifier_lookup).scopes scope) = .ok r0 →
        r0.resolved_identifier = none →
        identifier_resolve_settings.allow_to_check_aliases = true →
        (s.scopes scope).identifier_in_lookup_process.lookup identifier_lookup = none →
        preferColumnNameToAlias ((s.withLookupRegistered scope identifier_lookup).scopes scope)
          identifier_lookup = false →
        R.tryResolveIdentifierFromAliases identifier_lookup scope identifier_resolve_settings
          (s.withLookupRegistered scope identifier_lookup) = (.ok ra, s2) →
        ra.resolved_identifier.isSome = true →
        ra.resolve_place = .ALIASES →
        (tryResolveIdentifier E R identifier_lookup scope identifier_resolve_settings s).1
          = .ok ra)
    ∧ (∀ r0 rj, E.tryResolveIdentifierFromExpressionArguments identifier_lookup
            ((s.withLookupRegistered scope identifier_lookup).scopes scope) = .ok r0 →
        r0.resolved_identifier = none →
        identifier_resolve_settings.allow_to_check_join_tree = true →
        preferColumnNameToAlias ((s.withLookupRegistered scope identifier_lookup).scopes scope)
          identifier_lookup = true →
        E.tryResolveIdentifierFromJoinTree identifier_lookup
            ((s.withLookupRegistered scope identifier_lookup).scopes scope) = .ok rj →
        rj.resolved_identifier.isSome = true →
        (tryResolveIdentifier E R identifier_lookup scope identifier_resolve_settings s).1
          = (resolveJoinTreeColumnExpression E R scope rj
              (s.withLookupRegistered scope identifier_lookup)).1) :=
  tryResolveIdentifier_order E R identifier_lookup scope identifier_resolve_settings s

/-- Witness of `tryResolveIdentifier_priority`: the lookup of `a` in `SELECT 1 AS a FROM t`,
where `t` has the column `a`, when `a` is moreover an expression argument, when the
setting is off and when it is on. -/
theorem tryResolveIdentifier_priority_witness :
    (tryResolveIdentifier Example.collaborators
        (resolver Example.collaborators Example.scalarCollaborators Example.unmodelled 2)
        Example.lookupA 0 {} Example.analyzerArgumentA).1
      = .ok { resolved_identifier := some (Example.literal 7 5),
              resolve_place := .EXPRESSION_ARGUMENTS }
    ∧ (tryResolveIdentifier Example.collaborators
        (resolver Example.collaborators Example.scalarCollaborators Example.unmodelled 2)
        Example.lookupA 0 {} (Example.analyzerOneAsA false)).1
      = .ok { resolved_identifier := some ((Example.literal 100 1).setAlias "a"),
              resolve_place := .ALIASES }
    ∧ (tryResolveIdentifier Example.collaborators
        (resolver Example.collaborators Example.scalarCollaborators Example.unmodelled 2)
        Example.lookupA 0 {} (Example.analyzerOneAsA true)).1
      = .ok { resolved_identifier := some Example.columnA, resolve_place := .JOIN_TREE } :=
  ⟨(tryResolveIdentifier_priority Example.collaborators
      (resolver Example.collaborators Example.scalarCollaborators Example.unmodelled 2)
      Example.lookupA 0 {} Example.analyzerArgumentA).1 _ rfl rfl,
   (tryResolveIdentifier_priority Example.collaborators
      (resolver Example.collaborators Example.scalarCollaborators Example.unmodelled 2)
      Example.lookupA 0 {} (Example.analyzerOneAsA false)).2.1 {} _ _ rfl rfl rfl rfl rfl rfl
      rfl rfl,
   ((tryResolveIdentifier_priority Example.collaborators
      (resolver Example.collaborators Example.scalarCollaborators Example.unmodelled 2)
      Example.lookupA 0 {} (Example.analyzerOneAsA true)).2.2 {} _ rfl rfl rfl rfl rfl
      rfl).trans rfl⟩

end QueryAnalyzer
end DB

namespace DB
namespace RM

/-- A normal return throws nothing. -/
theorem raises_ret {α : Type} (a : α) (s : QueryAnalyzer) (P : Exception → Prop) :
    (RM.ret a).Raises s P := by
  intro e s1 h
  simp [RM.ret] at h

/-- The exception of a throw. -/
theorem raises_throw {α : Type} (e : Exception) (s : QueryAnalyzer) (P : Exception → Prop)
    (h : P e) : (RM.throw e : RM α).Raises s P := by
  intro e1 s1 h1
  simp only [RM.throw, Prod.mk.injEq, Except.error.injEq] at h1
  rw [← h1.1]; exact h

/-- The exception of a collaborator. -/
theorem raises_lift {α : Type} (r : Except Exception α) (s : QueryAnalyzer)
    (P : Exception → Prop) (h : ∀ e, r = .error e → P e) : (RM.lift r).Raises s P := by
  intro e s1 h1
  simp only [RM.lift, Prod.mk.injEq] at h1
  exact h e h1.1

/-- The exception of a sequence is that of its first part or that of its second part. -/
theorem raises_andThen {α β : Type} (x : RM α) (f : α → RM β) (s : QueryAnalyzer)
    (P : Exception → Prop) (hx : x.Raises s P)
    (hf : ∀ a s1, x s = (.ok a, s1) → (f a).Raises s1 P) : (x.andThen f).Raises s P := by
  intro e s2 h
  unfold RM.andThen at h
  rcases hxs : x s with ⟨r, s1⟩
  rw [hxs] at h
  cases r with
  | error e1 =>
    simp only [Prod.mk.injEq, Except.error.injEq] at h
    rw [← h.1]
    exact hx e1 s1 hxs
  | ok a => exact hf a s1 hxs e s2 h

/-- Reading a scope throws nothing. -/
theorem raises_getScope (i : Nat) (s : QueryAnalyzer) (P : Exception → Prop) :
    (RM.getScope i).Raises s P := by
  intro e s1 h
  simp [RM.getScope] at h

/-- Reading the state throws nothing. -/
theorem raises_get (s : QueryAnalyzer) (P : Exception → Prop) : RM.get.Raises s P := by
  intro e s1 h
  simp [RM.get] at h

/-- A change of a scope throws nothing. -/
theorem raises_modifyScope (i : Nat) (g : IdentifierResolveScope → IdentifierResolveScope)
    (s : QueryAnalyzer) (P : Exception → Prop) : (RM.modifyScope i g).Raises s P := by
  intro e s1 h
  simp [RM.modifyScope] at h

/-- The exception of a conditional is that of one of its branches. -/
theorem raises_ite {α : Type} (c : Prop) [Decidable c] (x y : RM α) (s : QueryAnalyzer)
    (P : Exception → Prop) (hx : c → x.Raises s P) (hy : ¬ c → y.Raises s P) :
    (if c then x else y).Raises s P := by
  by_cases h : c
  · rw [if_pos h]; exact hx h
  · rw [if_neg h]; exact hy h

/-- What holds after a conditional holds after its branches. -/
theorem post_ite {α : Type} (c : Prop) [Decidable c] (x y : RM α) (s : QueryAnalyzer)
    (Q : α → QueryAnalyzer → Prop) (hx : c → x.Post s Q) (hy : ¬ c → y.Post s Q) :
    (if c then x else y).Post s Q := by
  by_cases h : c
  · rw [if_pos h]; exact hx h
  · rw [if_neg h]; exact hy h

/-- What holds after a sequence that starts with a conditional. -/
theorem post_ite_andThen {α β : Type} (c : Prop) [Decidable c] (x y : RM α) (f : α → RM β)
    (s : QueryAnalyzer) (Q : β → QueryAnalyzer → Prop)
    (hx : c → (x.andThen f).Post s Q) (hy : ¬ c → (y.andThen f).Post s Q) :
    ((if c then x else y).andThen f).Post s Q := by
  by_cases h : c
  · rw [if_pos h]; exact hx h
  · rw [if_neg h]; exact hy h

/-- A sequence after a conditional is the conditional of the sequences. -/
theorem ite_andThen {α β : Type} (c : Prop) [Decidable c] (x y : RM α) (f : α → RM β) :
    (if c then x else y).andThen f = if c then x.andThen f else y.andThen f := by
  by_cases h : c
  · rw [if_pos h, if_pos h]
  · rw [if_neg h, if_neg h]

/-- What holds after a sequence, given what the first part has returned. -/
theorem post_andThen_run {α β : Type} (x : RM α) (f : α → RM β) (s : QueryAnalyzer)
    (Q : β → QueryAnalyzer → Prop) (h : ∀ a s1, x s = (.ok a, s1) → (f a).Post s1 Q) :
    (x.andThen f).Post s Q := by
  intro b s2 hb
  obtain ⟨a, s1, h1, h2⟩ := RM.andThen_eq_ok hb
  exact h a s1 h1 b s2 h2

end RM

namespace QueryAnalyzer

/-- An exception of the binding to the expression arguments is one of a strategy. -/
theorem raises_fromExpressionArguments (E : Collaborators) (R : Resolver)
    (l : IdentifierLookup) (scope : Nat) (ctx : IdentifierResolveContext)
    (sc : IdentifierResolveScope) (s : QueryAnalyzer) :
    (RM.lift (E.tryResolveIdentifierFromExpressionArguments l sc)).Raises s
      (StrategyRaises E R l scope ctx) :=
  RM.raises_lift _ _ _ (fun _ he => Or.inl ⟨_, he⟩)

/-- An exception of the binding to the join tree is one of a strategy. -/
theorem raises_fromJoinTree (E : Collaborators) (R : Resolver)
    (l : IdentifierLookup) (scope : Nat) (ctx : IdentifierResolveContext)
    (sc : IdentifierResolveScope) (s : QueryAnalyzer) :
    (RM.lift (E.tryResolveIdentifierFromJoinTree l sc)).Raises s
      (StrategyRaises E R l scope ctx) :=
  RM.raises_lift _ _ _ (fun _ he => Or.inr (Or.inl ⟨_, he⟩))

/-- An exception of the binding to the aliases is one of a strategy. -/
theorem raises_fromAliases (E : Collaborators) (R : Resolver)
    (l : IdentifierLookup) (scope : Nat) (ctx : IdentifierResolveContext) (s : QueryAnalyzer) :
    (R.tryResolveIdentifierFromAliases l scope ctx).Raises s (StrategyRaises E R l scope ctx) :=
  fun _ _ he => Or.inr (Or.inr (Or.inl ⟨_, _, he⟩))

/-- An exception of the block for a column of the join tree is one of a strategy. -/
theorem raises_joinTreeColumnExpression (E : Collaborators) (R : Resolver)
    (l : IdentifierLookup) (scope : Nat) (ctx : IdentifierResolveContext)
    (r : IdentifierResolveResult) (s : QueryAnalyzer) :
    (resolveJoinTreeColumnExpression E R scope r).Raises s (StrategyRaises E R l scope ctx) :=
  fun _ _ he => Or.inr (Or.inr (Or.inr (Or.inl ⟨_, _, _, he⟩)))

/-- An exception of the lookup in the parent scopes is one of a strategy. -/
theorem raises_inParentScopes (E : Collaborators) (R : Resolver)
    (l : IdentifierLookup) (scope : Nat) (ctx : IdentifierResolveContext) (s : QueryAnalyzer) :
    (R.tryResolveIdentifierInParentScopes l scope ctx).Raises s
      (StrategyRaises E R l scope ctx) :=
  fun _ _ he => Or.inr (Or.inr (Or.inr (Or.inr (Or.inl ⟨_, _, he⟩))))

/-- An exception of the lookup in the database catalog is one of a strategy. -/
theorem raises_fromDatabaseCatalog (E : Collaborators) (R : Resolver)
    (l : IdentifierLookup) (scope : Nat) (ctx : IdentifierResolveContext)
    (context : Context) (s : QueryAnalyzer) :
    (RM.lift (E.tryResolveTableIdentifierFromDatabaseCatalog l.identifier context)).Raises s
      (StrategyRaises E R l scope ctx) :=
  RM.raises_lift _ _ _ (fun _ he => Or.inr (Or.inr (Or.inr (Or.inr (Or.inr ⟨_, he⟩)))))

/-- An exception of `tryResolveIdentifier` is one that a strategy has thrown. -/
theorem tryResolveIdentifier_raises (E : Collaborators) (R : Resolver)
    (identifier_lookup : IdentifierLookup) (scope : Nat)
    (identifier_resolve_settings : IdentifierResolveContext) (s : QueryAnalyzer) :
    (tryResolveIdentifier E R identifier_lookup scope identifier_resolve_settings).Raises s
      (StrategyRaises E R identifier_lookup scope identifier_resolve_settings) := by
  unfold tryResolveIdentifier
  simp only [RM.bind_eq, RM.pure_eq]
  repeat' first
    | exact RM.raises_ret _ _ _
    | exact RM.raises_getScope _ _ _
    | exact RM.raises_get _ _
    | exact RM.raises_modifyScope _ _ _ _
    | exact raises_fromExpressionArguments _ _ _ _ _ _ _
    | exact raises_fromJoinTree _ _ _ _ _ _ _
    | exact raises_fromAliases _ _ _ _ _ _
    | exact raises_joinTreeColumnExpression _ _ _ _ _ _ _
    | exact raises_inParentScopes _ _ _ _ _ _
    | exact raises_fromDatabaseCatalog _ _ _ _ _ _ _
    | refine RM.raises_andThen _ _ _ _ ?_ (fun _ _ _ => ?_)
    | refine RM.raises_ite _ _ _ _ _ (fun _ => ?_) (fun _ => ?_)

/-- The function `tryResolveIdentifier` in stages: the registration of the lookup, the
expression arguments, the strategies of the scope and the end. -/
theorem tryResolveIdentifier_stages (E : Collaborators) (R : Resolver)
    (identifier_lookup : IdentifierLookup) (scope : Nat)
    (identifier_resolve_settings : IdentifierResolveContext) (s : QueryAnalyzer) :
    tryResolveIdentifier E R identifier_lookup scope identifier_resolve_settings s
      = ((RM.lift (E.tryResolveIdentifierFromExpressionArguments identifier_lookup
            ((s.withLookupRegistered scope identifier_lookup).scopes scope))).andThen
          (fun resolve_result =>
            (if resolve_result.resolved_identifier.isNone then
              tryResolveIdentifierInScope E R identifier_lookup scope
                identifier_resolve_settings
                (registerLookup (s.scopes scope).identifier_in_lookup_process
                  identifier_lookup).2
                ((s.withLookupRegistered scope identifier_lookup).scopes scope) resolve_result
            else RM.ret resolve_result).andThen
              (finishTryResolveIdentifier E R identifier_lookup scope
                identifier_resolve_settings)))
          (s.withLookupRegistered scope identifier_lookup) := by
  unfold tryResolveIdentifier tryResolveIdentifierInScope finishTryResolveIdentifier
  simp only [RM.bind_eq, RM.pure_eq, RM.getScope_andThen, RM.modifyScope_andThen]
  rw [show s.modifyScope scope (fun sc => { sc with
        identifier_in_lookup_process :=
          (registerLookup (s.scopes scope).identifier_in_lookup_process identifier_lookup).1 })
      = s.withLookupRegistered scope identifier_lookup from rfl]
  simp only [RM.andThen_assoc, RM.ret_andThen_eq, RM.ite_andThen]

/-- A result of the strategies of the scope is one of the block for a column of the join
tree, run on a result of a strategy of the scope. -/
theorem tryResolveIdentifierInScope_bound (E : Collaborators) (R : Resolver)
    (l : IdentifierLookup) (scope : Nat) (ctx : IdentifierResolveContext)
    (already_in_resolve_process : Bool) (sc : IdentifierResolveScope)
    (r0 : IdentifierResolveResult) (s : QueryAnalyzer)
    (h0 : BoundInScope E R l scope ctx r0) :
    (tryResolveIdentifierInScope E R l scope ctx already_in_resolve_process sc r0).Post s
      (fun r _ => ∃ r1 s2 s3, BoundInScope E R l scope ctx r1
        ∧ resolveJoinTreeColumnExpression E R scope r1 s2 = (.ok r, s3)) := by
  have hfinal : ∀ (r1 : IdentifierResolveResult) (s1 : QueryAnalyzer),
      BoundInScope E R l scope ctx r1 →
      (resolveJoinTreeColumnExpression E R scope r1).Post s1
        (fun r _ => ∃ r1 s2 s3, BoundInScope E R l scope ctx r1
          ∧ resolveJoinTreeColumnExpression E R scope r1 s2 = (.ok r, s3)) :=
    fun r1 s1 h1 r s3 hrun => ⟨r1, s1, s3, h1, hrun⟩
  unfold tryResolveIdentifierInScope
  simp only [RM.bind_eq, RM.pure_eq, RM.andThen_assoc, RM.ret_andThen_eq, RM.ite_andThen]
  by_cases hp : preferColumnNameToAlias sc l = true
  · rw [if_pos hp]
    by_cases hjt : ctx.allow_to_check_join_tree = true
    · rw [if_pos hjt]
      refine RM.post_andThen_run _ _ _ _ (fun rj s1 hj => ?_)
      have hrj : BoundInScope E R l scope ctx rj :=
        Or.inr (Or.inl ⟨hjt, sc, congrArg Prod.fst hj⟩)
      refine RM.post_ite _ _ _ _ _ (fun hc => ?_) (fun _ => hfinal _ _ hrj)
      have hal : ctx.allow_to_check_aliases = true := by
        simp only [Bool.and_eq_true] at hc; exact hc.1.1
      exact RM.post_andThen_run _ _ _ _ (fun ra s2 ha =>
        hfinal _ _ (Or.inr (Or.inr ⟨hal, _, _, ha⟩)))
    · rw [if_neg hjt]
      refine RM.post_ite _ _ _ _ _ (fun hc => ?_) (fun _ => hfinal _ _ h0)
      have hal : ctx.allow_to_check_aliases = true := by
        simp only [Bool.and_eq_true] at hc; exact hc.1.1
      exact RM.post_andThen_run _ _ _ _ (fun ra s2 ha =>
        hfinal _ _ (Or.inr (Or.inr ⟨hal, _, _, ha⟩)))
  · rw [if_neg hp]
    have hjoin : ∀ (r1 : IdentifierResolveResult) (s1 : QueryAnalyzer),
        BoundInScope E R l scope ctx r1 →
        (if (r1.resolved_identifier.isNone && ctx.allow_to_check_join_tree) = true then
            (RM.getScope scope).andThen fun sc =>
              (RM.lift (E.tryResolveIdentifierFromJoinTree l sc)).andThen fun y =>
                resolveJoinTreeColumnExpression E R scope y
          else resolveJoinTreeColumnExpression E R scope r1).Post s1
          (fun r _ => ∃ r1 s2 s3, BoundInScope E R l scope ctx r1
            ∧ resolveJoinTreeColumnExpression E R scope r1 s2 = (.ok r, s3)) := by
      intro r1 s1 h1
      refine RM.post_ite _ _ _ _ _ (fun hc => ?_) (fun _ => hfinal _ _ h1)
      have hjt : ctx.allow_to_check_join_tree = true := by
        simp only [Bool.and_eq_true] at hc; exact hc.2
      refine RM.post_andThen_run _ _ _ _ (fun sc1 s2 _ => ?_)
      exact RM.post_andThen_run _ _ _ _ (fun rj s3 hj =>
        hfinal _ _ (Or.inr (Or.inl ⟨hjt, sc1, congrArg Prod.fst hj⟩)))
    refine RM.post_ite _ _ _ _ _ (fun hc => ?_) (fun _ => hjoin _ _ h0)
    have hal : ctx.allow_to_check_aliases = true := by
      simp only [Bool.and_eq_true] at hc; exact hc.1
    exact RM.post_andThen_run _ _ _ _ (fun ra s2 ha =>
      hjoin _ _ (Or.inr (Or.inr ⟨hal, _, _, ha⟩)))

/-- A resolved result of the end of `tryResolveIdentifier` is the result it was given or
one of the table of the CTEs, of the parent scopes or of the database catalog. -/
theorem finishTryResolveIdentifier_bound (E : Collaborators) (R : Resolver)
    (l : IdentifierLookup) (scope : Nat) (ctx : IdentifierResolveContext)
    (r0 : IdentifierResolveResult) (s : QueryAnalyzer)
    (h0 : r0.resolved_identifier.isSome = true →
      BoundInScope E R l scope ctx r0
      ∨ ∃ r1 s2 s3, BoundInScope E R l scope ctx r1
          ∧ resolveJoinTreeColumnExpression E R scope r1 s2 = (.ok r0, s3)) :
    (finishTryResolveIdentifier E R l scope ctx r0).Post s
      (fun r s1 => r.resolved_identifier.isSome = true →
        BoundByStrategy E R l scope ctx r s1) := by
  have hend : ∀ (r : IdentifierResolveResult) (s1 : QueryAnalyzer),
      (r.resolved_identifier.isSome = true → BoundByStrategy E R l scope ctx r
        (s1.modifyScope scope (fun sc => { sc with
          identifier_in_lookup_process :=
            unregisterLookup sc.identifier_in_lookup_process l }))) →
      ((RM.modifyScope scope (fun sc => { sc with
          identifier_in_lookup_process :=
            unregisterLookup sc.identifier_in_lookup_process l })).andThen
        fun _ => RM.ret r).Post s1
        (fun r s1 => r.resolved_identifier.isSome = true →
          BoundByStrategy E R l scope ctx r s1) := by
    intro r s1 h
    rw [RM.Post]
    intro a s2 hrun
    rw [RM.modifyScope_andThen] at hrun
    simp only [RM.ret, Prod.mk.injEq, Except.ok.injEq] at hrun
    rw [← hrun.1, ← hrun.2]
    exact h
  have hcatalog : ∀ (r : IdentifierResolveResult) (s1 : QueryAnalyzer),
      (r.resolved_identifier.isSome = true → BoundByStrategy E R l scope ctx r
        (s1.modifyScope scope (fun sc => { sc with
          identifier_in_lookup_process :=
            unregisterLookup sc.identifier_in_lookup_process l }))) →
      (if (r.resolved_identifier.isNone && ctx.allow_to_check_database_catalog
            && l.isTableExpressionLookup) = true then
          (RM.getScope scope).andThen fun sc =>
            (RM.lift (E.tryResolveTableIdentifierFromDatabaseCatalog l.identifier
                sc.context)).andThen fun y =>
              (RM.modifyScope scope (fun sc => { sc with
                identifier_in_lookup_process :=
                  unregisterLookup sc.identifier_in_lookup_process l })).andThen
                fun _ => RM.ret y
        else
          (RM.modifyScope scope (fun sc => { sc with
            identifier_in_lookup_process :=
              unregisterLookup sc.identifier_in_lookup_process l })).andThen
            fun _ => RM.ret r).Post s1
        (fun r s1 => r.resolved_identifier.isSome = true →
          BoundByStrategy E R l scope ctx r s1) := by
    intro r s1 h
    refine RM.post_ite _ _ _ _ _ (fun _ => ?_) (fun _ => hend _ _ h)
    refine RM.post_andThen_run _ _ _ _ (fun sc1 s2 _ => ?_)
    refine RM.post_andThen_run _ _ _ _ (fun rc s3 hc => ?_)
    exact hend _ _ (fun _ => Or.inr (Or.inr (Or.inr (Or.inr ⟨_, congrArg Prod.fst hc⟩))))
  unfold finishTryResolveIdentifier
  simp only [RM.bind_eq, RM.pure_eq, RM.andThen_assoc, RM.ret_andThen_eq, RM.ite_andThen]
  refine RM.post_getScope_andThen _ _ _ _ ?_
  refine RM.post_get_andThen _ _ _ ?_
  refine RM.post_ite _ _ _ _ _ (fun _ => ?_) (fun hres => ?_)
  · refine RM.post_andThen_run _ _ _ _ (fun rp s2 hp => ?_)
    exact hcatalog _ _ (fun _ => Or.inr (Or.inr (Or.inr (Or.inl ⟨_, _, hp, rfl⟩))))
  · refine hcatalog _ _ (fun hsome => ?_)
    have hr0 : r0.resolved_identifier.isSome = true → BoundByStrategy E R l scope ctx r0
        (s.modifyScope scope (fun sc => { sc with
          identifier_in_lookup_process :=
            unregisterLookup sc.identifier_in_lookup_process l })) := by
      intro h
      rcases h0 h with h1 | h1
      · exact Or.inl h1
      · exact Or.inr (Or.inl h1)
    by_cases hc : (r0.resolved_identifier.isNone && ctx.allow_to_check_cte
        && l.isTableExpressionLookup) = true
    · simp only [hc, if_true] at hsome ⊢
      have hc2 := hc
      simp only [Bool.and_eq_true] at hc2
      cases hl : (s.scopes scope).cte_name_to_query_node.lookup l.identifier.getFullName with
      | none =>
        simp only [hl] at hsome ⊢
        exact hr0 hsome
      | some cte_query_node =>
        simp only [hl] at hsome ⊢
        by_cases hin : (!s.ctes_in_resolve_process.contains cte_query_node.addr) = true
        · simp only [hin, if_true]
          refine Or.inr (Or.inr (Or.inl ⟨cte_query_node, hc2.2, hc2.1.2, ?_, ?_, rfl⟩))
          · rw [scopes_modifyScope_same]; exact hl
          · simpa using hin
        · simp only [hin, if_false] at hsome ⊢
          exact hr0 hsome
    · simp only [hc, if_false] at hsome ⊢
      exact hr0 hsome

/-- A resolved result of `tryResolveIdentifier` is one that a strategy has given. -/
theorem tryResolveIdentifier_bound (E : Collaborators) (R : Resolver)
    (l : IdentifierLookup) (scope : Nat) (ctx : IdentifierResolveContext) (s : QueryAnalyzer) :
    (tryResolveIdentifier E R l scope ctx).Post s
      (fun r s1 => r.resolved_identifier.isSome = true →
        BoundByStrategy E R l scope ctx r s1) := by
  rw [RM.Post, tryResolveIdentifier_stages]
  refine RM.post_andThen_run _ _ _ _ (fun r0 s1 h0 => ?_)
  have hr0 : BoundInScope E R l scope ctx r0 := Or.inl ⟨_, congrArg Prod.fst h0⟩
  refine RM.post_andThen_run _ _ _ _ (fun r1 s2 h1 => ?_)
  refine finishTryResolveIdentifier_bound E R l scope ctx r1 s2 (fun _ => ?_)
  by_cases hn : r0.resolved_identifier.isNone = true
  · rw [if_pos hn] at h1
    exact Or.inr (tryResolveIdentifierInScope_bound E R l scope ctx _ _ r0 s1 hr0 r1 s2 h1)
  · rw [if_neg hn] at h1
    simp only [RM.ret, Prod.mk.injEq, Except.ok.injEq] at h1
    rw [← h1.1]
    exact Or.inl hr0

/-- C12 (counterexample): the lookup of the compound identifier `a.b` as a table expression in
a scope in which `a` is the alias of a table throws `UNKNOWN_IDENTIFIER`. -/
theorem tryResolveIdentifier_compound_alias_throws :
    (tryResolveIdentifier Example.collaborators
        (resolver Example.collaborators Example.scalarCollaborators Example.unmodelled 2)
        Example.lookupTableAB 0 {} Example.analyzerTableAliasA).1
      = .error { code := .UNKNOWN_IDENTIFIER, args := ["a.b"] } := rfl

end QueryAnalyzer
end DB

namespace DB
namespace RM

/-- A normal return leaves the table of the lookups in process alone. -/
theorem mapsLookups_ret {α : Type} (scope : Nat) (a : α) :
    (RM.ret a).MapsLookups scope id := by
  intro s b s1 h
  simp only [RM.ret, Prod.mk.injEq] at h
  rw [← h.2]; rfl

/-- A throw does not return. -/
theorem mapsLookups_throw {α : Type} (scope : Nat)
    (g : List (IdentifierLookup × IdentifierResolveState) →
      List (IdentifierLookup × IdentifierResolveState)) (e : Exception) :
    (RM.throw e : RM α).MapsLookups scope g := by
  intro s b s1 h
  simp [RM.throw] at h

/-- The result of a collaborator leaves the table of the lookups in process alone. -/
theorem mapsLookups_lift {α : Type} (scope : Nat) (r : Except Exception α) :
    (RM.lift r).MapsLookups scope id := by
  intro s b s1 h
  simp only [RM.lift, Prod.mk.injEq] at h
  rw [← h.2]; rfl

/-- Reading a scope leaves the table of the lookups in process alone. -/
theorem mapsLookups_getScope (scope i : Nat) : (RM.getScope i).MapsLookups scope id := by
  intro s b s1 h
  simp only [RM.getScope, Prod.mk.injEq] at h
  rw [← h.2]; rfl

/-- Reading the state leaves the table of the lookups in process alone. -/
theorem mapsLookups_get (scope : Nat) : RM.get.MapsLookups scope id := by
  intro s b s1 h
  simp only [RM.get, Prod.mk.injEq] at h
  rw [← h.2]; rfl

/-- A sequence whose first part leaves the table of the lookups in process alone. -/
theorem mapsLookups_andThen {α β : Type} (scope : Nat)
    (g : List (IdentifierLookup × IdentifierResolveState) →
      List (IdentifierLookup × IdentifierResolveState)) (x : RM α) (f : α → RM β)
    (hx : x.MapsLookups scope id) (hf : ∀ a, (f a).MapsLookups scope g) :
    (x.andThen f).MapsLookups scope g := by
  intro s b s2 h
  obtain ⟨a, s1, h1, h2⟩ := RM.andThen_eq_ok h
  rw [hf a s1 b s2 h2, hx s a s1 h1]
  rfl

/-- A conditional whose branches change the table of the lookups in process alike. -/
theorem mapsLookups_ite {α : Type} (scope : Nat)
    (g : List (IdentifierLookup × IdentifierResolveState) →
      List (IdentifierLookup × IdentifierResolveState)) (c : Prop) [Decidable c] (x y : RM α)
    (hx : x.MapsLookups scope g) (hy : y.MapsLookups scope g) :
    (if c then x else y).MapsLookups scope g := by
  by_cases h : c
  · rw [if_pos h]; exact hx
  · rw [if_neg h]; exact hy

end RM

namespace QueryAnalyzer

/-- A key that the lookup in a table does not find is the key of no entry. -/
theorem lookup_none_ne {α β : Type} [DecidableEq α] (k : α) (t : List (α × β))
    (h : t.lookup k = none) : ∀ e ∈ t, e.1 ≠ k := by
  induction t with
  | nil => intro e he; simp at he
  | cons x xs ih =>
    intro e he
    rcases x with ⟨k1, v1⟩
    by_cases hk : k = k1
    · subst hk
      simp [List.lookup] at h
    · have hb : (k == k1) = false := by simpa using hk
      simp only [List.lookup, hb] at h
      rcases List.mem_cons.mp he with he | he
      · rw [he]; exact fun h1 => hk h1.symm
      · exact ih h e he

/-- The removal of a lookup from the table of the lookups in process undoes its
registration, when no entry of the lookup has the count zero. -/
theorem unregisterLookup_registerLookup
    (table : List (IdentifierLookup × IdentifierResolveState)) (l : IdentifierLookup)
    (hcount : ∀ e ∈ table, e.1 = l → e.2.count ≠ 0) :
    unregisterLookup (registerLookup table l).1 l = table := by
  unfold unregisterLookup registerLookup
  cases hl : table.lookup l with
  | none =>
    have hne := lookup_none_ne l table hl
    simp only [List.map_cons, if_true]
    rw [List.filter_cons_of_neg (by simp)]
    rw [List.filter_eq_self.mpr, List.map_congr_left, List.map_id]
    · intro e he
      rw [if_neg (hne e he)]; rfl
    · intro e he
      obtain ⟨e1, he1, heq⟩ := List.mem_map.mp he
      rw [if_neg (hne e1 he1)] at heq
      rw [← heq]
      simp [hne e1 he1]
  | some _ =>
    simp only [List.map_map]
    rw [List.filter_eq_self.mpr, List.map_congr_left, List.map_id]
    · intro e he
      simp only [Function.comp]
      by_cases hk : e.1 = l
      · rw [if_pos hk, if_pos hk]
        simp only [Nat.add_sub_cancel]
        rfl
      · simp only [hk, if_false]; rfl
    · intro e he
      obtain ⟨e1, he1, heq⟩ := List.mem_map.mp he
      simp only [Function.comp] at heq
      by_cases hk : e1.1 = l
      · rw [if_pos hk, if_pos hk] at heq
        simp only [Nat.add_sub_cancel] at heq
        rw [← heq]
        simpa using Or.inr (hcount e1 he1 hk)
      · simp only [hk, if_false] at heq
        rw [← heq]
        simp [hk]

/-- The last step of `tryResolveIdentifier` removes the lookup from the table. -/
theorem mapsLookups_unregister (scope : Nat) (l : IdentifierLookup)
    (y : IdentifierResolveResult) :
    ((RM.modifyScope scope (fun sc => { sc with
        identifier_in_lookup_process :=
          unregisterLookup sc.identifier_in_lookup_process l })).andThen
      fun _ => RM.ret y).MapsLookups scope (fun t => unregisterLookup t l) := by
  intro s b s1 h
  rw [RM.modifyScope_andThen] at h
  simp only [RM.ret, Prod.mk.injEq] at h
  rw [← h.2, scopes_modifyScope_same]

/-- The strategies of the scope leave the table of the lookups in process as it is when the
lookup in the aliases and the block for a column of the join tree do. -/
theorem tryResolveIdentifierInScope_mapsLookups (E : Collaborators) (R : Resolver)
    (l : IdentifierLookup) (scope : Nat) (ctx : IdentifierResolveContext)
    (already_in_resolve_process : Bool) (sc : IdentifierResolveScope)
    (r0 : IdentifierResolveResult)
    (hal : (R.tryResolveIdentifierFromAliases l scope ctx).MapsLookups scope id)
    (hjt : ∀ r, (resolveJoinTreeColumnExpression E R scope r).MapsLookups scope id) :
    (tryResolveIdentifierInScope E R l scope ctx already_in_resolve_process sc
      r0).MapsLookups scope id := by
  unfold tryResolveIdentifierInScope
  simp only [RM.bind_eq, RM.pure_eq, RM.andThen_assoc, RM.ret_andThen_eq, RM.ite_andThen]
  repeat' first
    | exact hal
    | exact hjt _
    | exact RM.mapsLookups_lift _ _
    | exact RM.mapsLookups_getScope _ _
    | refine RM.mapsLookups_andThen _ _ _ _ ?_ (fun _ => ?_)
    | refine RM.mapsLookups_ite _ _ _ _ _ ?_ ?_

/-- The end of `tryResolveIdentifier` removes the lookup from the table of the lookups in
process, when the lookup in the parent scopes leaves the table as it is. -/
theorem finishTryResolveIdentifier_mapsLookups (E : Collaborators) (R : Resolver)
    (l : IdentifierLookup) (scope : Nat) (ctx : IdentifierResolveContext)
    (r0 : IdentifierResolveResult)
    (hpar : (R.tryResolveIdentifierInParentScopes l scope ctx).MapsLookups scope id) :
    (finishTryResolveIdentifier E R l scope ctx r0).MapsLookups scope
      (fun t => unregisterLookup t l) := by
  unfold finishTryResolveIdentifier
  simp only [RM.bind_eq, RM.pure_eq, RM.andThen_assoc, RM.ret_andThen_eq, RM.ite_andThen]
  repeat' first
    | exact mapsLookups_unregister _ _ _
    | exact hpar
    | exact RM.mapsLookups_lift _ _
    | exact RM.mapsLookups_getScope _ _
    | exact RM.mapsLookups_get _
    | refine RM.mapsLookups_andThen _ _ _ _ ?_ (fun _ => ?_)
    | refine RM.mapsLookups_ite _ _ _ _ _ ?_ ?_

/-- A call of `tryResolveIdentifier` that returns normally leaves the table of the lookups
in process of the scope as it found it, when the strategies that it calls (the lookup in
the aliases, the block for a column of the join tree and the lookup in the parent scopes)
leave the table as they find it whenever they return normally, and the entries of the
lookup in the table have a count that is not zero. -/
theorem tryResolveIdentifier_keeps_lookups (E : Collaborators) (R : Resolver)
    (l : IdentifierLookup) (scope : Nat) (ctx : IdentifierResolveContext)
    (s s1 : QueryAnalyzer) (r : IdentifierResolveResult)
    (hal : (R.tryResolveIdentifierFromAliases l scope ctx).MapsLookups scope id)
    (hjt : ∀ r, (resolveJoinTreeColumnExpression E R scope r).MapsLookups scope id)
    (hpar : (R.tryResolveIdentifierInParentScopes l scope ctx).MapsLookups scope id)
    (hcount : ∀ e ∈ (s.scopes scope).identifier_in_lookup_process, e.1 = l → e.2.count ≠ 0)
    (h : tryResolveIdentifier E R l scope ctx s = (.ok r, s1)) :
    (s1.scopes scope).identifier_in_lookup_process
      = (s.scopes scope).identifier_in_lookup_process := by
  rw [tryResolveIdentifier_stages] at h
  have hm : ((RM.lift (E.tryResolveIdentifierFromExpressionArguments l
        ((s.withLookupRegistered scope l).scopes scope))).andThen
      (fun resolve_result =>
        (if resolve_result.resolved_identifier.isNone then
          tryResolveIdentifierInScope E R l scope ctx
            (registerLookup (s.scopes scope).identifier_in_lookup_process l).2
            ((s.withLookupRegistered scope l).scopes scope) resolve_result
        else RM.ret resolve_result).andThen
          (finishTryResolveIdentifier E R l scope ctx))).MapsLookups scope
      (fun t => unregisterLookup t l) := by
    refine RM.mapsLookups_andThen _ _ _ _ (RM.mapsLookups_lift _ _) (fun r0 => ?_)
    refine RM.mapsLookups_andThen _ _ _ _ ?_
      (fun r1 => finishTryResolveIdentifier_mapsLookups E R l scope ctx r1 hpar)
    exact RM.mapsLookups_ite _ _ _ _ _
      (tryResolveIdentifierInScope_mapsLookups E R l scope ctx _ _ r0 hal hjt)
      (RM.mapsLookups_ret _ _)
  rw [hm _ _ _ h]
  unfold withLookupRegistered
  rw [scopes_modifyScope_same]
  exact unregisterLookup_registerLookup _ l hcount

/-- C13 (failing input): the lookup of `z` in
`SELECT if(1, 2, y) AS z, nonexistent + 1 AS y FROM t`.  The call returns normally with the
constant `2` from the aliases: the block of `resolveFunction` for `if` catches the exception
that the resolution of `y` throws.  The table of the lookups in process of the scope was
empty before the call; after it the lookup of `y` is still registered with the count 1. -/
theorem tryResolveIdentifier_leaves_lookup_registered :
    Example.lookupsInProcess Example.analyzerConstantIf 0 = []
    ∧ Example.outcomeOfLookup
        (tryResolveIdentifier Example.collaborators
          (resolver Example.collaborators Example.scalarCollaborators Example.unmodelledButIf 12)
          (Example.lookupOf "z") 0 {} Example.analyzerConstantIf)
      = .found "Constant 2" .ALIASES
    ∧ Example.lookupsInProcess
        (tryResolveIdentifier Example.collaborators
          (resolver Example.collaborators Example.scalarCollaborators Example.unmodelledButIf 12)
          (Example.lookupOf "z") 0 {} Example.analyzerConstantIf).2 0
      = [("y", 1)] := by
  decide!

end QueryAnalyzer
end DB

namespace DB
namespace QueryAnalyzer

/-- The block for a column of the join tree keeps the place of the result, and returns a
resolved result only for a resolved one. -/
theorem resolveJoinTreeColumnExpression_place (E : Collaborators) (R : Resolver)
    (scope : Nat) (r1 : IdentifierResolveResult) (s : QueryAnalyzer) :
    (resolveJoinTreeColumnExpression E R scope r1).Post s
      (fun r _ => r.resolve_place = r1.resolve_place
        ∧ (r.resolved_identifier.isSome = true → r1.resolved_identifier.isSome = true)) := by
  unfold resolveJoinTreeColumnExpression
  split
  · split
    · rename_i heq
      split
      · simp only [RM.bind_eq, RM.pure_eq]
        intro r s1 hr
        obtain ⟨a, s2, _, h2⟩ := RM.andThen_eq_ok hr
        rw [RM.getScope_andThen] at h2
        obtain ⟨b, s3, _, h3⟩ := RM.andThen_eq_ok h2
        obtain ⟨c, s4, _, h4⟩ := RM.andThen_eq_ok h3
        simp only [RM.ret, Prod.mk.injEq, Except.ok.injEq] at h4
        rw [← h4.1]
        exact ⟨rfl, fun _ => by rw [heq]; rfl⟩
      · exact RM.post_ret _ _ _ ⟨rfl, id⟩
    · exact RM.post_ret _ _ _ ⟨rfl, id⟩
  · exact RM.post_ret _ _ _ ⟨rfl, id⟩

/-- A resolved result of `tryResolveIdentifierInParentScopes` is the result of the call of
`tryResolveIdentifier` in the parent scope, and the state is the one after that call. -/
theorem tryResolveIdentifierInParentScopes_result (E : Collaborators) (R : Resolver)
    (l : IdentifierLookup) (scope : Nat) (ctx : IdentifierResolveContext) (s : QueryAnalyzer) :
    (tryResolveIdentifierInParentScopes E R l scope ctx).Post s
      (fun r s1 => r.resolved_identifier.isSome = true →
        ∃ parent_scope ctx1, (s.scopes scope).parent_scope = some parent_scope
          ∧ R.tryResolveIdentifier l parent_scope ctx1 s = (.ok r, s1)) := by
  intro r s1 h hres
  unfold tryResolveIdentifierInParentScopes at h
  simp only [RM.bind_eq, RM.pure_eq, RM.getScope_andThen] at h
  cases hp : (s.scopes scope).parent_scope with
  | none =>
    simp only [hp, RM.ret, Prod.mk.injEq, Except.ok.injEq] at h
    rw [← h.1] at hres
    simp at hres
  | some parent_scope =>
    simp only [hp] at h
    obtain ⟨a, s2, h1, h2⟩ := RM.andThen_eq_ok h
    have hkey : a = r ∧ s2 = s1 := by
      clear h h1
      cases ha : a.resolved_identifier with
      | none =>
        simp only [ha, RM.ret, Prod.mk.injEq, Except.ok.injEq] at h2
        rw [← h2.1] at hres
        simp at hres
      | some node =>
        simp only [ha, RM.get_andThen] at h2
        have hempty : ∀ s3 : QueryAnalyzer,
            (RM.ret ({} : IdentifierResolveResult)) s3 = (Except.ok r, s1) → False := by
          intro s3 h3
          simp only [RM.ret, Prod.mk.injEq, Except.ok.injEq] at h3
          rw [← h3.1] at hres
          simp at hres
        have hsame : ∀ s3 : QueryAnalyzer, (RM.ret a) s3 = (Except.ok r, s1) → a = r ∧ s3 = s1 := by
          intro s3 h3
          simp only [RM.ret, Prod.mk.injEq, Except.ok.injEq] at h3
          exact h3
        repeat' first
          | exact (hempty _ h2).elim
          | exact hsame _ h2
          | (simp only [RM.throw, Prod.mk.injEq, reduceCtorEq, false_and] at h2; done)
          | rw [RM.get_andThen] at h2
          | split at h2
    rw [← hkey.1, ← hkey.2]
    exact ⟨parent_scope, _, rfl, h1⟩

/-- A resolved result of the lookup in the aliases, at any depth of the call stack, has the
place `ALIASES`. -/
theorem resolver_fromAliases_place (E : Collaborators) (S : ScalarCollaborators)
    (X : Unmodelled) (stack : Nat) (l : IdentifierLookup) (scope : Nat)
    (ctx : IdentifierResolveContext) (s s1 : QueryAnalyzer) (r : IdentifierResolveResult)
    (h : (resolver E S X stack).tryResolveIdentifierFromAliases l scope ctx s = (.ok r, s1))
    (hres : r.resolved_identifier.isSome = true) : r.resolve_place = .ALIASES := by
  cases stack with
  | zero => simp [resolver, stackExhausted, RM.throw] at h
  | succ n => exact tryResolveIdentifierFromAliases_place E _ l scope ctx s r s1 h hres

/-- A resolved result of a strategy of the scope does not have the place `CTE`, when the
collaborators do not give this place. -/
theorem boundInScope_place (E : Collaborators) (S : ScalarCollaborators) (X : Unmodelled)
    (hargs : ∀ l sc r, E.tryResolveIdentifierFromExpressionArguments l sc = .ok r →
      r.resolve_place ≠ .CTE)
    (hjoin : ∀ l sc r, E.tryResolveIdentifierFromJoinTree l sc = .ok r →
      r.resolve_place ≠ .CTE)
    (stack : Nat) (l : IdentifierLookup) (scope : Nat) (ctx : IdentifierResolveContext)
    (r : IdentifierResolveResult)
    (h : BoundInScope E (resolver E S X stack) l scope ctx r)
    (hres : r.resolved_identifier.isSome = true) : r.resolve_place ≠ .CTE := by
  rcases h with ⟨sc, h⟩ | ⟨_, sc, h⟩ | ⟨_, s2, s3, h⟩
  · exact hargs l sc r h
  · exact hjoin l sc r h
  · rw [resolver_fromAliases_place E S X stack l scope ctx s2 s3 r h hres]
    decide

/-- The end of `tryResolveIdentifier` hands back a resolved result as it is: the table of
the CTEs of the scope, the parent scopes and the database catalog are consulted only for
a lookup that the strategies of the scope have left unresolved. -/
theorem finishTryResolveIdentifier_resolved (E : Collaborators) (R : Resolver)
    (l : IdentifierLookup) (scope : Nat) (ctx : IdentifierResolveContext)
    (r0 : IdentifierResolveResult) (s : QueryAnalyzer)
    (h0 : r0.resolved_identifier.isSome = true) :
    (finishTryResolveIdentifier E R l scope ctx r0).Post s (fun r _ => r = r0) := by
  have hnone : r0.resolved_identifier.isNone = false := by
    cases hr : r0.resolved_identifier with
    | none => rw [hr] at h0; exact absurd h0 (by decide)
    | some _ => rfl
  intro r s1 h
  unfold finishTryResolveIdentifier at h
  simp only [RM.bind_eq, RM.pure_eq, RM.getScope_andThen, RM.get_andThen, hnone,
    Bool.false_and, Bool.false_eq_true, if_false, RM.ret_andThen_eq,
    RM.modifyScope_andThen, RM.ret, Prod.mk.injEq, Except.ok.injEq] at h
  exact h.1.symm

/-- C14: whenever `tryResolveIdentifier`, at any depth of the call stack, returns a node with
the place `CTE`, the lookup is a lookup of a table expression, the node is an entry of the
table of the CTEs of a scope under the name looked up, and the node is not in
`ctes_in_resolve_process` when the call returns: a name is never resolved to a CTE that is
being resolved.  The collaborators are taken to give their own places, not `CTE`. -/
theorem tryResolveIdentifier_cte_not_in_resolve_process (E : Collaborators)
    (S : ScalarCollaborators) (X : Unmodelled)
    (hargs : ∀ l sc r, E.tryResolveIdentifierFromExpressionArguments l sc = .ok r →
      r.resolve_place ≠ .CTE)
    (hjoin : ∀ l sc r, E.tryResolveIdentifierFromJoinTree l sc = .ok r →
      r.resolve_place ≠ .CTE)
    (hcatalog : ∀ identifier context r,
      E.tryResolveTableIdentifierFromDatabaseCatalog identifier context = .ok r →
      r.resolve_place ≠ .CTE)
    (stack : Nat) (l : IdentifierLookup) (scope : Nat) (ctx : IdentifierResolveContext)
    (s s1 : QueryAnalyzer) (r : IdentifierResolveResult) (node : QueryTreeNode)
    (h : (resolver E S X stack).tryResolveIdentifier l scope ctx s = (.ok r, s1))
    (hnode : r.resolved_identifier = some node) (hplace : r.resolve_place = .CTE) :
    l.isTableExpressionLookup = true
    ∧ s1.ctes_in_resolve_process.contains node.addr = false
    ∧ ∃ cte_scope, (s1.scopes cte_scope).cte_name_to_query_node.lookup
        l.identifier.getFullName = some node := by
  induction stack using Nat.strong_induction_on generalizing scope ctx s s1 with
  | _ stack ih =>
    have hres : r.resolved_identifier.isSome = true := by rw [hnode]; rfl
    cases stack with
    | zero => simp [resolver, stackExhausted, RM.throw] at h
    | succ n =>
      have hb := tryResolveIdentifier_bound E (resolver E S X n) l scope ctx s r s1 h hres
      rcases hb with hb | ⟨r1, s2, s3, hb, hrun⟩ | ⟨cte_query_node, hl, _, hlookup, hin, hr⟩
        | ⟨s2, s3, hrun, hs1⟩ | ⟨context, hc⟩
      · exact (boundInScope_place E S X hargs hjoin n l scope ctx r hb hres hplace).elim
      · have hp := resolveJoinTreeColumnExpression_place E (resolver E S X n) scope r1 s2 r s3 hrun
        exact (boundInScope_place E S X hargs hjoin n l scope ctx r1 hb (hp.2 hres)
          (by rw [← hp.1]; exact hplace)).elim
      · rw [hr] at hnode
        simp only [Option.some.injEq] at hnode
        rw [← hnode]
        exact ⟨hl, hin, scope, hlookup⟩
      · cases n with
        | zero => simp [resolver, stackExhausted, RM.throw] at hrun
        | succ m =>
          obtain ⟨parent_scope, ctx1, _, hparent⟩ :=
            tryResolveIdentifierInParentScopes_result E (resolver E S X m) l scope ctx s2 r s3
              hrun hres
          obtain ⟨h1, h2, cte_scope, h3⟩ :=
            ih m (by omega) parent_scope ctx1 s2 s3 hparent
          refine ⟨h1, ?_, cte_scope, ?_⟩
          · rw [hs1]; exact h2
          · rw [hs1, scopes_modifyScope]
            by_cases hi : cte_scope = scope
            · rw [if_pos hi, ← hi]; exact h3
            · rw [if_neg hi]; exact h3
      · exact (hcatalog _ _ _ hc hplace).elim

/-- The collaborators of the examples give their own places, not `CTE`. -/
theorem collaboratorsWithCatalog_places :
    (∀ l sc r, Example.collaboratorsWithCatalog.tryResolveIdentifierFromExpressionArguments l sc
        = .ok r → r.resolve_place ≠ .CTE)
    ∧ (∀ l sc r, Example.collaboratorsWithCatalog.tryResolveIdentifierFromJoinTree l sc = .ok r →
        r.resolve_place ≠ .CTE)
    ∧ (∀ identifier context r,
        Example.collaboratorsWithCatalog.tryResolveTableIdentifierFromDatabaseCatalog identifier
          context = .ok r → r.resolve_place ≠ .CTE) := by
  refine ⟨fun l sc r h => ?_, fun l sc r h => ?_, fun identifier context r h => ?_⟩
  · simp only [Example.collaboratorsWithCatalog, Example.collaborators] at h
    split at h <;> (cases h; exact fun hp => by cases hp)
  · simp only [Example.collaboratorsWithCatalog, Example.collaborators] at h
    split at h
    · split at h <;> (cases h; exact fun hp => by cases hp)
    · cases h; exact fun hp => by cases hp
  · simp only [Example.collaboratorsWithCatalog] at h
    split at h <;> (cases h; exact fun hp => by cases hp)

/-- The theorem `tryResolveIdentifier_cte_not_in_resolve_process` on
`WITH test1 AS (SELECT * FROM test1) SELECT * FROM test1`: the lookup of the outer `test1`,
in the scope of the query with no CTE in resolve process, returns the CTE, which is then
not in resolve process; the lookup of the inner `test1`, in the scope of the CTE while the
CTE is in resolve process, does not return the CTE but the table of the database
catalog. -/
theorem tryResolveIdentifier_cte_not_in_resolve_process_witness :
    (Example.lookupTableTest1.isTableExpressionLookup = true
      ∧ ((resolver Example.collaboratorsWithCatalog Example.scalarCollaborators
            Example.unmodelled 6).tryResolveIdentifier Example.lookupTableTest1 0
            Example.joinTreeLookupSettings
            (Example.analyzerWithCTE [])).2.ctes_in_resolve_process.contains
          Example.cteTest1.addr = false
      ∧ ∃ cte_scope,
          ((((resolver Example.collaboratorsWithCatalog Example.scalarCollaborators
            Example.unmodelled 6).tryResolveIdentifier Example.lookupTableTest1 0
            Example.joinTreeLookupSettings
            (Example.analyzerWithCTE [])).2).scopes cte_scope).cte_name_to_query_node.lookup
            Example.lookupTableTest1.identifier.getFullName = some Example.cteTest1)
    ∧ Example.outcomeOfLookup
        ((resolver Example.collaboratorsWithCatalog Example.scalarCollaborators
          Example.unmodelled 6).tryResolveIdentifier Example.lookupTableTest1 1
          Example.joinTreeLookupSettings (Example.analyzerWithCTE [20]))
      = .found "Table default.test1" .DATABASE_CATALOG :=
  ⟨tryResolveIdentifier_cte_not_in_resolve_process Example.collaboratorsWithCatalog
      Example.scalarCollaborators Example.unmodelled collaboratorsWithCatalog_places.1
      collaboratorsWithCatalog_places.2.1 collaboratorsWithCatalog_places.2.2 6
      Example.lookupTableTest1 0 Example.joinTreeLookupSettings (Example.analyzerWithCTE []) _
      { resolved_identifier := some Example.cteTest1, resolve_place := .CTE } Example.cteTest1
      rfl rfl rfl,
   by decide!⟩

end QueryAnalyzer
end DB

namespace DB
namespace QueryAnalyzer

/-- A resolved result of `tryResolveIdentifierInParentScopes` is the result of the call of
`tryResolveIdentifier` in the parent scope, made with options that do not allow the
database catalog, that allow neither the join tree nor the aliases for a lookup of a table
expression from the scope of a query, and that allow the join tree or the aliases only if
the options of the caller do; for a lookup of a table expression from the scope of a
query, the node is a CTE or a table of the expression arguments. -/
theorem tryResolveIdentifierInParentScopes_context (E : Collaborators) (R : Resolver)
    (l : IdentifierLookup) (scope : Nat) (ctx : IdentifierResolveContext) (s : QueryAnalyzer) :
    (tryResolveIdentifierInParentScopes E R l scope ctx).Post s
      (fun r s1 => ∀ node, r.resolved_identifier = some node →
        (∃ parent_scope ctx1, (s.scopes scope).parent_scope = some parent_scope
          ∧ R.tryResolveIdentifier l parent_scope ctx1 s = (.ok r, s1)
          ∧ (ctx.allow_to_check_join_tree = false → ctx1.allow_to_check_join_tree = false)
          ∧ (ctx.allow_to_check_aliases = false → ctx1.allow_to_check_aliases = false)
          ∧ (l.isTableExpressionLookup = true →
              (s.scopes scope).scope_node.getNodeType = .QUERY →
              ctx1.allow_to_check_join_tree = false ∧ ctx1.allow_to_check_aliases = false))
        ∧ (l.isTableExpressionLookup = true →
            (s.scopes scope).scope_node.getNodeType = .QUERY →
            isCTENode node = true
            ∨ (r.isResolvedFromExpressionArguments = true ∧ node.getNodeType = .TABLE))) := by
  intro r s1 h node hnode
  unfold tryResolveIdentifierInParentScopes at h
  simp only [RM.bind_eq, RM.pure_eq, RM.getScope_andThen] at h
  cases hp : (s.scopes scope).parent_scope with
  | none =>
    simp only [hp, RM.ret, Prod.mk.injEq, Except.ok.injEq] at h
    rw [← h.1] at hnode
    simp at hnode
  | some parent_scope =>
    simp only [hp] at h
    obtain ⟨a, s2, h1, h2⟩ := RM.andThen_eq_ok h
    have hkey : (a = r ∧ s2 = s1) ∧ (l.isTableExpressionLookup = true →
            (s.scopes scope).scope_node.getNodeType = .QUERY →
            isCTENode node = true
            ∨ (r.isResolvedFromExpressionArguments = true ∧ node.getNodeType = .TABLE)) := by
      clear h h1
      cases ha : a.resolved_identifier with
      | none =>
        simp only [ha, RM.ret, Prod.mk.injEq, Except.ok.injEq] at h2
        rw [← h2.1] at hnode
        simp at hnode
      | some node1 =>
        simp only [ha, RM.get_andThen] at h2
        have hempty : ∀ s3 : QueryAnalyzer,
            (RM.ret ({} : IdentifierResolveResult)) s3 = (Except.ok r, s1) → False := by
          intro s3 h3
          simp only [RM.ret, Prod.mk.injEq, Except.ok.injEq] at h3
          rw [← h3.1] at hnode
          simp at hnode
        have hsame : ∀ s3 : QueryAnalyzer, (RM.ret a) s3 = (Except.ok r, s1) → a = r ∧ s3 = s1 := by
          intro s3 h3
          simp only [RM.ret, Prod.mk.injEq, Except.ok.injEq] at h3
          exact h3
        by_cases ht : l.isTableExpressionLookup = true
        · rw [if_pos ht] at h2
          split at h2
          · exact (hempty _ h2).elim
          · rename_i hv
            have hs := hsame _ h2
            refine ⟨hs, fun _ hq => ?_⟩
            have hn : node1 = node := by
              have := hs.1 ▸ ha
              rw [hnode] at this
              exact (Option.some.inj this).symm
            rw [← hn, ← hs.1]
            simp only [hq, beq_self_eq_true, Bool.not_true, Bool.false_and, Bool.or_false,
              Bool.not_eq_true, Bool.not_eq_false, Bool.or_eq_true, Bool.and_eq_true,
              beq_iff_eq] at hv
            cases hx : (isCTENode node1
                || a.isResolvedFromExpressionArguments && node1.getNodeType == .TABLE) with
            | false => rw [hx] at hv; exact absurd hv (by decide)
            | true =>
              simp only [Bool.or_eq_true, Bool.and_eq_true, beq_iff_eq] at hx
              exact hx
        · refine ⟨?_, fun h3 => (ht h3).elim⟩
          rw [if_neg ht] at h2
          repeat' first
            | exact (hempty _ h2).elim
            | exact hsame _ h2
            | (simp only [RM.throw, Prod.mk.injEq, reduceCtorEq, false_and] at h2; done)
            | rw [RM.get_andThen] at h2
            | split at h2
    rw [← hkey.1.1, ← hkey.1.2]
    refine ⟨⟨parent_scope, _, rfl, h1, ?_, ?_, ?_⟩, ?_⟩
    · intro hc
      have hr : (ctx.resolveAliasesAt scope).allow_to_check_join_tree = false := by
        unfold IdentifierResolveContext.resolveAliasesAt
        split <;> exact hc
      by_cases hq : ((s.scopes scope).scope_node.getNodeType == QueryTreeNodeType.QUERY) = true
        <;> by_cases hg : (!(s.scopes scope).context.settings.enable_global_with_statement) = true
        <;> by_cases ht : l.isTableExpressionLookup = true
        <;> simp only [hq, hg, ht, if_true, if_false, Bool.false_eq_true, hr]
    · intro hc
      have hr : (ctx.resolveAliasesAt scope).allow_to_check_aliases = false := by
        unfold IdentifierResolveContext.resolveAliasesAt
        split <;> exact hc
      by_cases hq : ((s.scopes scope).scope_node.getNodeType == QueryTreeNodeType.QUERY) = true
        <;> by_cases hg : (!(s.scopes scope).context.settings.enable_global_with_statement) = true
        <;> by_cases ht : l.isTableExpressionLookup = true
        <;> simp only [hq, hg, ht, if_true, if_false, Bool.false_eq_true, hr]
    · intro ht hq
      have hq1 : ((s.scopes scope).scope_node.getNodeType == QueryTreeNodeType.QUERY) = true := by
        rw [hq]; rfl
      by_cases hg : (!(s.scopes scope).context.settings.enable_global_with_statement) = true
        <;> simp only [hq1, hg, ht, if_true, if_false, Bool.false_eq_true, and_self]
    · rw [hkey.1.1]; exact hkey.2

/-- With options that allow neither the join tree nor the aliases, a resolved result of
`tryResolveIdentifier`, at any depth of the call stack, has neither the place `JOIN_TREE`
nor the place `ALIASES`, when the collaborators for the expression arguments and for the
database catalog do not give these places. -/
theorem tryResolveIdentifier_not_from_section (E : Collaborators) (S : ScalarCollaborators)
    (X : Unmodelled)
    (hargs : ∀ l sc r, E.tryResolveIdentifierFromExpressionArguments l sc = .ok r →
      r.resolve_place ≠ .JOIN_TREE ∧ r.resolve_place ≠ .ALIASES)
    (hcatalog : ∀ identifier context r,
      E.tryResolveTableIdentifierFromDatabaseCatalog identifier context = .ok r →
      r.resolve_place ≠ .JOIN_TREE ∧ r.resolve_place ≠ .ALIASES)
    (stack : Nat) (l : IdentifierLookup) (scope : Nat) (ctx : IdentifierResolveContext)
    (s s1 : QueryAnalyzer) (r : IdentifierResolveResult)
    (hjt : ctx.allow_to_check_join_tree = false) (hal : ctx.allow_to_check_aliases = false)
    (h : (resolver E S X stack).tryResolveIdentifier l scope ctx s = (.ok r, s1))
    (hres : r.resolved_identifier.isSome = true) :
    r.resolve_place ≠ .JOIN_TREE ∧ r.resolve_place ≠ .ALIASES := by
  induction stack using Nat.strong_induction_on generalizing scope ctx s s1 with
  | _ stack ih =>
    cases stack with
    | zero => simp [resolver, stackExhausted, RM.throw] at h
    | succ n =>
      have hscope : ∀ r1, BoundInScope E (resolver E S X n) l scope ctx r1 →
          r1.resolve_place ≠ .JOIN_TREE ∧ r1.resolve_place ≠ .ALIASES := by
        intro r1 hb
        rcases hb with ⟨sc, hb⟩ | ⟨hc, _⟩ | ⟨hc, _⟩
        · exact hargs l sc r1 hb
        · rw [hjt] at hc; exact absurd hc (by decide)
        · rw [hal] at hc; exact absurd hc (by decide)
      have hb := tryResolveIdentifier_bound E (resolver E S X n) l scope ctx s r s1 h hres
      rcases hb with hb | ⟨r1, s2, s3, hb, hrun⟩ | ⟨cte_query_node, _, _, _, _, hr⟩
        | ⟨s2, s3, hrun, _⟩ | ⟨context, hc⟩
      · exact hscope r hb
      · have hp := resolveJoinTreeColumnExpression_place E (resolver E S X n) scope r1 s2 r s3 hrun
        rw [hp.1]
        exact hscope r1 hb
      · rw [hr]
        exact ⟨nofun, nofun⟩
      · cases n with
        | zero => simp [resolver, stackExhausted, RM.throw] at hrun
        | succ m =>
          obtain ⟨node, hnode⟩ := Option.isSome_iff_exists.mp hres
          obtain ⟨⟨parent_scope, ctx1, _, hparent, h1, h2, _⟩, _⟩ :=
            tryResolveIdentifierInParentScopes_context E (resolver E S X m) l scope ctx s2 r s3
              hrun node hnode
          exact ih m (by omega) parent_scope ctx1 s2 s3 (h1 hjt) (h2 hal) hparent
      · exact hcatalog _ _ _ hc

/-- C15: for a lookup of a table expression started in a scope whose node is a query, a
node that `tryResolveIdentifierInParentScopes` returns, at any depth of the call stack, is
a CTE (a query or a union marked as CTE) or a table node bound as an expression argument,
and the result has neither the place `JOIN_TREE` nor the place `ALIASES`: a table or an
alias of the join tree of an enclosing query is not returned; for every lookup, a scope
without a parent gives the empty result and leaves the state as it is.  The collaborators
for the expression arguments and for the database catalog are taken not to give the
places `JOIN_TREE` and `ALIASES`. -/
theorem tryResolveIdentifierInParentScopes_table_expression (E : Collaborators)
    (S : ScalarCollaborators) (X : Unmodelled)
    (hargs : ∀ l sc r, E.tryResolveIdentifierFromExpressionArguments l sc = .ok r →
      r.resolve_place ≠ .JOIN_TREE ∧ r.resolve_place ≠ .ALIASES)
    (hcatalog : ∀ identifier context r,
      E.tryResolveTableIdentifierFromDatabaseCatalog identifier context = .ok r →
      r.resolve_place ≠ .JOIN_TREE ∧ r.resolve_place ≠ .ALIASES)
    (stack : Nat) (l : IdentifierLookup) (scope : Nat) (ctx : IdentifierResolveContext)
    (s : QueryAnalyzer) :
    (∀ r s1 node, l.isTableExpressionLookup = true →
      (s.scopes scope).scope_node.getNodeType = .QUERY →
      tryResolveIdentifierInParentScopes E (resolver E S X stack) l scope ctx s = (.ok r, s1) →
      r.resolved_identifier = some node →
      (isCTENode node = true
        ∨ (r.resolve_place = .EXPRESSION_ARGUMENTS ∧ node.getNodeType = .TABLE))
      ∧ r.resolve_place ≠ .JOIN_TREE ∧ r.resolve_place ≠ .ALIASES)
    ∧ ((s.scopes scope).parent_scope = none →
      tryResolveIdentifierInParentScopes E (resolver E S X stack) l scope ctx s = (.ok {}, s)) := by
  refine ⟨fun r s1 node hl hq h hnode => ?_, fun hp => ?_⟩
  · obtain ⟨⟨parent_scope, ctx1, _, hparent, _, _, hflags⟩, hvalid⟩ :=
      tryResolveIdentifierInParentScopes_context E (resolver E S X stack) l scope ctx s r s1 h
        node hnode
    refine ⟨?_, tryResolveIdentifier_not_from_section E S X hargs hcatalog stack l parent_scope
      ctx1 s s1 r (hflags hl hq).1 (hflags hl hq).2 hparent (by rw [hnode]; rfl)⟩
    rcases hvalid hl hq with hv | hv
    · exact Or.inl hv
    · refine Or.inr ⟨?_, hv.2⟩
      have := hv.1
      simp only [IdentifierResolveResult.isResolvedFromExpressionArguments, beq_iff_eq] at this
      exact this
  · unfold tryResolveIdentifierInParentScopes
    simp only [RM.bind_eq, RM.pure_eq, RM.getScope_andThen, hp]
    rfl

/-- The collaborators of the examples give their own places. -/
theorem collaboratorsWithCatalog_own_places :
    (∀ l sc r, Example.collaboratorsWithCatalog.tryResolveIdentifierFromExpressionArguments l sc
        = .ok r → r.resolve_place ≠ .JOIN_TREE ∧ r.resolve_place ≠ .ALIASES)
    ∧ (∀ identifier context r,
        Example.collaboratorsWithCatalog.tryResolveTableIdentifierFromDatabaseCatalog identifier
          context = .ok r → r.resolve_place ≠ .JOIN_TREE ∧ r.resolve_place ≠ .ALIASES) := by
  refine ⟨fun l sc r h => ?_, fun identifier context r h => ?_⟩
  · simp only [Example.collaboratorsWithCatalog, Example.collaborators] at h
    split at h <;> (cases h; exact ⟨nofun, nofun⟩)
  · simp only [Example.collaboratorsWithCatalog] at h
    split at h <;> (cases h; exact ⟨nofun, nofun⟩)

/-- The theorem `tryResolveIdentifierInParentScopes_table_expression` on examples: in
`WITH test1 AS (SELECT * FROM test1) SELECT * FROM test1`, the lookup of the table `test1`
in the parent scopes of the scope of the subquery returns the CTE, and in those of the
scope of the query, which has no parent, the empty result; in
`SELECT (SELECT 1 FROM a) FROM t AS a`, the lookup of the table `a` in the parent scopes of
the scope of the subquery finds nothing, whereas the lookup in the scope of the query
finds the table `t` among the aliases. -/
theorem tryResolveIdentifierInParentScopes_table_expression_witness :
    ((isCTENode Example.cteTest1 = true
        ∨ ((IdentifierResolveResult.mk (some Example.cteTest1) .CTE).resolve_place
            = .EXPRESSION_ARGUMENTS ∧ Example.cteTest1.getNodeType = .TABLE))
      ∧ (IdentifierResolveResult.mk (some Example.cteTest1) .CTE).resolve_place ≠ .JOIN_TREE
      ∧ (IdentifierResolveResult.mk (some Example.cteTest1) .CTE).resolve_place ≠ .ALIASES)
    ∧ Example.outcomeOfLookup
        (tryResolveIdentifierInParentScopes Example.collaboratorsWithCatalog
          (resolver Example.collaboratorsWithCatalog Example.scalarCollaborators
            Example.unmodelled 6)
          Example.lookupTableTest1 0 Example.joinTreeLookupSettings (Example.analyzerWithCTE []))
      = .notFound
    ∧ Example.outcomeOfLookup
        (tryResolveIdentifierInParentScopes Example.collaboratorsWithCatalog
          (resolver Example.collaboratorsWithCatalog Example.scalarCollaborators
            Example.unmodelled 6)
          Example.lookupTableA 1 {} Example.analyzerSubqueryOverAlias)
      = .notFound
    ∧ Example.outcomeOfLookup
        (tryResolveIdentifier Example.collaboratorsWithCatalog
          (resolver Example.collaboratorsWithCatalog Example.scalarCollaborators
            Example.unmodelled 6)
          Example.lookupTableA 0 {} Example.analyzerSubqueryOverAlias)
      = .found "Table default.t AS a" .ALIASES :=
  ⟨(tryResolveIdentifierInParentScopes_table_expression Example.collaboratorsWithCatalog
      Example.scalarCollaborators Example.unmodelled collaboratorsWithCatalog_own_places.1
      collaboratorsWithCatalog_own_places.2 6 Example.lookupTableTest1 1
      Example.joinTreeLookupSettings (Example.analyzerWithCTE [])).1
      { resolved_identifier := some Example.cteTest1, resolve_place := .CTE } _
      Example.cteTest1 rfl rfl rfl rfl,
   congrArg Example.outcomeOfLookup
     ((tryResolveIdentifierInParentScopes_table_expression Example.collaboratorsWithCatalog
      Example.scalarCollaborators Example.unmodelled collaboratorsWithCatalog_own_places.1
      collaboratorsWithCatalog_own_places.2 6 Example.lookupTableTest1 0
      Example.joinTreeLookupSettings (Example.analyzerWithCTE [])).2 rfl),
   by decide!, by decide!⟩

end QueryAnalyzer
end DB

namespace DB
namespace QueryAnalyzer

/-- For a list of names without a repetition and a list of used names without a
repetition that are among them, the two lengths differ if and only if a name is not
used. -/
theorem nonMatchedColumnNames_ne_nil_iff (names used : List String) (hnames : names.Nodup)
    (hused : used.Nodup) (hsub : ∀ name ∈ used, name ∈ names) :
    names.length ≠ used.length ↔ nonMatchedColumnNames names used ≠ [] := by
  have hle : used.length ≤ names.length := (List.subperm_of_subset hused hsub).length_le
  rw [not_iff_not]
  unfold nonMatchedColumnNames
  rw [List.filter_eq_nil_iff]
  constructor
  · intro hlen name hname
    have hperm : used.Perm names :=
      (List.subperm_of_subset hused hsub).perm_of_length_le (by omega)
    have : name ∈ used := hperm.symm.subset hname
    simp [this]
  · intro hall
    have hsub2 : ∀ name ∈ names, name ∈ used := by
      intro name hname
      have := hall name hname
      simpa using this
    have := (List.subperm_of_subset hnames hsub2).length_le
    omega

/-- The last loop of `resolveMatcher` on a table of strict `EXCEPT` and `REPLACE`
transformers whose lists of names have no repetition, each with used names that are among
its names: the loop throws nothing if and only if every name of every transformer is used,
and an exception that it throws is `BAD_ARGUMENTS` with the names of a transformer that
are not used, of which there is one at least. -/
theorem checkStrictTransformers_of_nodup (T : TransformerCollaborators)
    (table : List (QueryTreeNode × List String))
    (htype : ∀ entry ∈ table, T.getTransformerType entry.1 ≠ .APPLY)
    (hnames : ∀ entry ∈ table, (strictTransformerColumnNames T entry.1).Nodup)
    (hused : ∀ entry ∈ table, entry.2.Nodup
      ∧ ∀ name ∈ entry.2, name ∈ strictTransformerColumnNames T entry.1) :
    (checkStrictTransformers T table = .ok () ↔
      ∀ entry ∈ table,
        nonMatchedColumnNames (strictTransformerColumnNames T entry.1) entry.2 = [])
    ∧ ∀ e, checkStrictTransformers T table = .error e →
        e.code = .BAD_ARGUMENTS
        ∧ ∃ entry ∈ table,
            e.args = nonMatchedColumnNames (strictTransformerColumnNames T entry.1) entry.2
            ∧ e.args ≠ [] := by
  induction table with
  | nil =>
    refine ⟨⟨fun _ entry h => (by cases h), fun _ => rfl⟩, fun e h => ?_⟩
    simp [checkStrictTransformers] at h
  | cons entry rest ih =>
    obtain ⟨transformer, used⟩ := entry
    have ih := ih (fun x hx => htype x (List.mem_cons_of_mem _ hx))
      (fun x hx => hnames x (List.mem_cons_of_mem _ hx))
      (fun x hx => hused x (List.mem_cons_of_mem _ hx))
    have ht := htype (transformer, used) (List.mem_cons_self _ _)
    have hn := hnames (transformer, used) (List.mem_cons_self _ _)
    have hu := hused (transformer, used) (List.mem_cons_self _ _)
    have hiff := nonMatchedColumnNames_ne_nil_iff _ used hn hu.1 hu.2
    simp only at ht hn hu hiff
    unfold checkStrictTransformers
    unfold strictTransformerColumnNames at hiff hn hu
    cases htt : T.getTransformerType transformer with
    | APPLY => exact (ht htt).elim
    | EXCEPT =>
      simp only [htt] at hiff hn hu ⊢
      have hhead : strictTransformerColumnNames T transformer = T.getExceptColumnNames transformer := by
        unfold strictTransformerColumnNames; rw [htt]
      by_cases hlen : (T.getExceptColumnNames transformer).length = used.length
      · have hnil : nonMatchedColumnNames (T.getExceptColumnNames transformer) used = [] := by
          by_contra hne
          exact (hiff.mpr hne) hlen
        have hif : ((T.getExceptColumnNames transformer).length != used.length) = false := by
          rw [hlen]; simp
        simp only [hif, Bool.false_eq_true, if_false, List.forall_mem_cons, hhead, hnil,
          true_and]
        refine ⟨ih.1, fun e he => ?_⟩
        obtain ⟨h1, entry, hmem, h2⟩ := ih.2 e he
        exact ⟨h1, entry, List.mem_cons_of_mem _ hmem, h2⟩
      · have hne : nonMatchedColumnNames (T.getExceptColumnNames transformer) used ≠ [] := hiff.mp hlen
        have hif : ((T.getExceptColumnNames transformer).length != used.length) = true := by
          simpa using hlen
        simp only [hif, if_true, List.forall_mem_cons, hhead, reduceCtorEq, false_iff,
          not_and]
        refine ⟨fun h => (hne h).elim, fun e he => ?_⟩
        simp only [Except.error.injEq] at he
        subst he
        exact ⟨rfl, (transformer, used), List.mem_cons_self _ _, by rw [hhead], hne⟩
    | REPLACE =>
      simp only [htt] at hiff hn hu ⊢
      have hhead : strictTransformerColumnNames T transformer = T.getReplacementsNames transformer := by
        unfold strictTransformerColumnNames; rw [htt]
      by_cases hlen : (T.getReplacementsNames transformer).length = used.length
      · have hnil : nonMatchedColumnNames (T.getReplacementsNames transformer) used = [] := by
          by_contra hne
          exact (hiff.mpr hne) hlen
        have hif : ((T.getReplacementsNames transformer).length != used.length) = false := by
          rw [hlen]; simp
        simp only [hif, Bool.false_eq_true, if_false, List.forall_mem_cons, hhead, hnil,
          true_and]
        refine ⟨ih.1, fun e he => ?_⟩
        obtain ⟨h1, entry, hmem, h2⟩ := ih.2 e he
        exact ⟨h1, entry, List.mem_cons_of_mem _ hmem, h2⟩
      · have hne : nonMatchedColumnNames (T.getReplacementsNames transformer) used ≠ [] := hiff.mp hlen
        have hif : ((T.getReplacementsNames transformer).length != used.length) = true := by
          simpa using hlen
        simp only [hif, if_true, List.forall_mem_cons, hhead, reduceCtorEq, false_iff,
          not_and]
        refine ⟨fun h => (hne h).elim, fun e he => ?_⟩
        simp only [Except.error.injEq] at he
        subst he
        exact ⟨rfl, (transformer, used), List.mem_cons_self _ _, by rw [hhead], hne⟩

/-- C16: on `SELECT * EXCEPT STRICT (id, id) FROM t`, with `t (id, value)`, the loop of
`resolveMatcher` over the matched columns consumes the listed name `id` (the table of the
strict transformers holds `id` for the transformer afterwards), and yet `resolveMatcher`
throws `BAD_ARGUMENTS`, with an empty list of names that are not consumed: the strict check
compares the number of the listed names, 2, with the number of the distinct names
consumed, 1.  With `EXCEPT STRICT (id)` the resolution proceeds, and with
`EXCEPT STRICT (id, zz)` the error reports `zz`. -/
theorem resolveMatcher_strict_except_repeated_name :
    (match (resolveMatchedNodes Example.transformerCollaborators
          (resolver Example.collaborators Example.scalarCollaborators Example.unmodelled 8) 0
          [Example.exceptTransformer 80 true ["id", "id"]]
          [(Example.columnId, "id"), (Example.columnValue, "value")] [] [] []
          (strictTransformers Example.transformerCollaborators
            [Example.exceptTransformer 80 true ["id", "id"]] [])
          Example.analyzerOverIdValue).1 with
      | .ok r => r.2.2.map (fun entry => (entry.1.addr, entry.2))
      | .error _ => []) = [(80, ["id"])]
    ∧ Example.outcomeOfMatcher
        (resolveMatcher Example.collaborators Example.matcherCollaborators
          Example.transformerCollaborators Example.unmodelledMatcher
          (resolver Example.collaborators Example.scalarCollaborators Example.unmodelled 8)
          (Example.asteriskWith [Example.exceptTransformer 80 true ["id", "id"]]) 0
          Example.analyzerOverIdValue)
      = .threw { code := .BAD_ARGUMENTS, args := [] }
    ∧ Example.outcomeOfMatcher
        (resolveMatcher Example.collaborators Example.matcherCollaborators
          Example.transformerCollaborators Example.unmodelledMatcher
          (resolver Example.collaborators Example.scalarCollaborators Example.unmodelled 8)
          (Example.asteriskWith [Example.exceptTransformer 80 true ["id"]]) 0
          Example.analyzerOverIdValue)
      = .expanded ["Column value"] ["value"]
    ∧ Example.outcomeOfMatcher
        (resolveMatcher Example.collaborators Example.matcherCollaborators
          Example.transformerCollaborators Example.unmodelledMatcher
          (resolver Example.collaborators Example.scalarCollaborators Example.unmodelled 8)
          (Example.asteriskWith [Example.exceptTransformer 80 true ["id", "zz"]]) 0
          Example.analyzerOverIdValue)
      = .threw { code := .BAD_ARGUMENTS, args := ["zz"] } := by
  refine ⟨by decide!, by decide!, by decide!, by decide!⟩

end QueryAnalyzer
end DB

namespace DB
namespace QueryAnalyzer

/-- A run whose result is not an exception has returned a value. -/
theorem run_eq_ok_of_isOk {α : Type} (x : RM α) (s : QueryAnalyzer)
    (h : (match (x s).1 with | .ok _ => true | .error _ => false) = true) :
    ∃ a, x s = (.ok a, (x s).2) := by
  rcases hx : x s with ⟨r, s1⟩
  rw [hx] at h
  cases r with
  | ok a => exact ⟨a, rfl⟩
  | error e => simp at h

/-- Replacing the last of a list of names that is not empty keeps its length. -/
theorem length_dropLast_append_singleton (names : ProjectionNames) (name : String)
    (h : names ≠ []) : (names.dropLast ++ [name]).length = names.length := by
  have : 0 < names.length := List.length_pos.mpr h
  simp only [List.length_append, List.length_dropLast, List.length_singleton]
  omega

/-- The block that ends the body of the loop over the transformers keeps the number of
the projection names of the result. -/
theorem finishColumnTransformer_names (frame : MatcherFrame) (s : QueryAnalyzer)
    (hne : frame.result_projection_names ≠ []) :
    (finishColumnTransformer frame).Post s
      (fun frame1 _ =>
        frame1.result_projection_names.length = frame.result_projection_names.length) := by
  unfold finishColumnTransformer
  refine RM.post_ite _ _ _ _ _ (fun _ => ?_) (fun _ => RM.post_ret _ _ _ rfl)
  simp only [RM.bind_eq, RM.pure_eq]
  have hend : ∀ (node : QueryTreeNode) (s0 : QueryAnalyzer),
      (match frame.node_projection_names with
        | [name] =>
          (RM.modify (fun s => { s with
            node_to_projection_name :=
              match s.node_to_projection_name.lookup node.addr with
              | some _ => s.node_to_projection_name
              | none => s.node_to_projection_name ++ [(node.addr, name)] })).andThen
            (fun _ => RM.ret ({ frame with
              node := node,
              result_projection_names := frame.result_projection_names.dropLast ++ [name],
              node_projection_names := [] } : MatcherFrame))
        | _ =>
          RM.throw { code := .LOGICAL_ERROR,
                     args := [toString frame.node_projection_names.length] }).Post s0
        (fun frame1 _ =>
          frame1.result_projection_names.length = frame.result_projection_names.length) := by
    intro node s0
    split
    · exact RM.post_modify_andThen _ _ _ _
        (RM.post_ret _ _ _ (length_dropLast_append_singleton _ _ hne))
    · exact RM.post_throw _ _ _
  split
  · split
    · exact RM.post_ret_andThen _ _ _ _ (hend _ _)
    · exact RM.post_andThen _ _ _ _ (RM.post_throw _ _ _)
  · exact RM.post_ret_andThen _ _ _ _ (hend _ _)

/-- The branch for an `APPLY` transformer keeps the projection names of the result. -/
theorem executeApplyTransformer_names (T : TransformerCollaborators) (R : Resolver)
    (scope : Nat) (transformer : QueryTreeNode) (frame : MatcherFrame) (s : QueryAnalyzer) :
    (executeApplyTransformer T R scope transformer frame).Post s
      (fun frame1 _ => frame1.result_projection_names = frame.result_projection_names) := by
  unfold executeApplyTransformer
  simp only [RM.bind_eq, RM.pure_eq]
  repeat' first
    | exact RM.post_throw _ _ _
    | exact RM.post_ret _ _ _ rfl
    | refine post_andThen_all _ _ _ _ (fun _ _ => ?_)
    | split

/-- The branch for a `REPLACE` transformer keeps the projection names of the result. -/
theorem executeReplaceTransformer_names (T : TransformerCollaborators) (R : Resolver)
    (scope : Nat) (column_name : String) (transformer replace_expression : QueryTreeNode)
    (frame : MatcherFrame) (s : QueryAnalyzer) :
    (executeReplaceTransformer T R scope column_name transformer replace_expression frame).Post s
      (fun frame1 _ => frame1.result_projection_names = frame.result_projection_names) := by
  unfold executeReplaceTransformer
  simp only [RM.bind_eq, RM.pure_eq]
  refine RM.post_andThen_run _ _ _ _ (fun node s1 _ => ?_)
  refine RM.post_andThen_run _ _ _ _ (fun r s2 _ => ?_)
  refine RM.post_ret _ _ _ ?_
  split <;> rfl

/-- The loop over the transformers keeps the number of the projection names of the
result. -/
theorem applyColumnTransformers_names (T : TransformerCollaborators) (R : Resolver)
    (scope : Nat) (column_name : String) (transformers : QueryTreeNodes) :
    ∀ (frame : MatcherFrame) (s : QueryAnalyzer), frame.result_projection_names ≠ [] →
    (applyColumnTransformers T R scope column_name transformers frame).Post s
      (fun r _ =>
        r.2.result_projection_names.length = frame.result_projection_names.length) := by
  induction transformers with
  | nil =>
    intro frame s _
    unfold applyColumnTransformers
    exact RM.post_ret _ _ _ rfl
  | cons transformer rest ih =>
    intro frame s hne
    have hnext : ∀ (frame1 : MatcherFrame) (s1 : QueryAnalyzer),
        frame1.result_projection_names.length = frame.result_projection_names.length →
        (applyColumnTransformers T R scope column_name rest frame1).Post s1
          (fun r _ =>
            r.2.result_projection_names.length = frame.result_projection_names.length) := by
      intro frame1 s1 hlen
      have hne1 : frame1.result_projection_names ≠ [] := by
        intro h0
        rw [h0] at hlen
        exact hne (List.length_eq_zero.mp hlen.symm)
      exact post_mono _ _ _ _ (ih frame1 s1 hne1) (fun r _ hr => hr.trans hlen)
    have hfinish : ∀ (frame1 : MatcherFrame) (s1 : QueryAnalyzer),
        frame1.result_projection_names.length = frame.result_projection_names.length →
        ((finishColumnTransformer frame1).andThen
          (fun frame2 => applyColumnTransformers T R scope column_name rest frame2)).Post s1
          (fun r _ =>
            r.2.result_projection_names.length = frame.result_projection_names.length) := by
      intro frame1 s1 hlen
      have hne1 : frame1.result_projection_names ≠ [] := by
        intro h0
        rw [h0] at hlen
        exact hne (List.length_eq_zero.mp hlen.symm)
      refine RM.post_andThen_run _ _ _ _ (fun frame2 s2 h2 => ?_)
      exact hnext frame2 s2 ((finishColumnTransformer_names frame1 s1 hne1 frame2 s2 h2).trans hlen)
    unfold applyColumnTransformers
    simp only [RM.bind_eq, RM.pure_eq]
    split
    · refine RM.post_andThen_run _ _ _ _ (fun frame1 s1 h1 => ?_)
      exact hfinish frame1 s1
        (congrArg List.length (executeApplyTransformer_names T R scope transformer frame s
          frame1 s1 h1))
    · refine RM.post_ite _ _ _ _ _ (fun _ => hnext frame s rfl) (fun _ => ?_)
      refine RM.post_ite _ _ _ _ _ (fun _ => ?_) (fun _ => hfinish frame s rfl)
      refine RM.post_ret _ _ _ ?_
      split <;> rfl
    · refine RM.post_ite _ _ _ _ _ (fun _ => hnext frame s rfl) (fun _ => ?_)
      split
      · exact hnext frame s rfl
      · refine RM.post_andThen_run _ _ _ _ (fun frame1 s1 h1 => ?_)
        exact hfinish frame1 s1
          (congrArg List.length (executeReplaceTransformer_names T R scope column_name
            transformer _ frame s frame1 s1 h1))

/-- The loop of `resolveMatcher` over the matched nodes keeps the number of the nodes of
the list equal to the number of the projection names of the result. -/
theorem resolveMatchedNodes_count (T : TransformerCollaborators) (R : Resolver) (scope : Nat)
    (transformers : QueryTreeNodes) (matched : List (QueryTreeNode × String)) :
    ∀ (list : QueryTreeNodes) (result_projection_names node_projection_names : ProjectionNames)
      (table : List (QueryTreeNode × List String)) (s : QueryAnalyzer),
    list.length = result_projection_names.length →
    (resolveMatchedNodes T R scope transformers matched list result_projection_names
      node_projection_names table).Post s (fun r _ => r.1.length = r.2.1.length) := by
  induction matched with
  | nil =>
    intro list names _ table s hlen
    unfold resolveMatchedNodes
    exact RM.post_ret _ _ _ hlen
  | cons entry rest ih =>
    intro list names node_names table s hlen
    obtain ⟨node, column_name⟩ := entry
    unfold resolveMatchedNodes
    simp only [RM.bind_eq, RM.pure_eq]
    refine RM.post_get_andThen _ _ _ ?_
    refine RM.post_andThen_run _ _ _ _ (fun r s1 h1 => ?_)
    have hr : r.2.result_projection_names.length = names.length + 1 := by
      have := applyColumnTransformers_names T R scope column_name transformers _ s
        (by simp only; split <;> simp) r s1 h1
      rw [this]
      simp only
      split <;> simp
    refine RM.post_ite _ _ _ _ _ (fun _ => ?_) (fun _ => ?_)
    · refine ih _ _ _ _ _ ?_
      rw [List.length_append, List.length_singleton, hr, hlen]
    · refine ih _ _ _ _ _ ?_
      rw [List.length_dropLast, hr, hlen]
      rfl

/-- The loop of `resolveExpressionNodeList` keeps the number of the flattened nodes equal
to the number of the projection names. -/
theorem resolveExpressionNodeListLoop_count (R : Resolver) (scope : Nat)
    (allow_lambda_expression allow_table_expression : Bool) (nodes : QueryTreeNodes) :
    ∀ (result_nodes : QueryTreeNodes) (result_projection_names : ProjectionNames)
      (s : QueryAnalyzer),
    result_nodes.length = result_projection_names.length →
    (resolveExpressionNodeListLoop R scope allow_lambda_expression allow_table_expression nodes
      result_nodes result_projection_names).Post s (fun r _ => r.1.length = r.2.length) := by
  induction nodes with
  | nil =>
    intro result_nodes names s hlen
    unfold resolveExpressionNodeListLoop
    exact RM.post_ret _ _ _ hlen
  | cons node rest ih =>
    intro result_nodes names s hlen
    unfold resolveExpressionNodeListLoop
    simp only [RM.bind_eq, RM.pure_eq]
    refine RM.post_andThen_run _ _ _ _ (fun r s1 _ => ?_)
    refine RM.post_ite _ _ _ _ _ (fun _ => RM.post_throw _ _ _) (fun hc => ?_)
    refine ih _ _ _ ?_
    have hc1 : r.2.length = (match r.1 with
        | .LIST _ _ expression_list =>
          (expression_list.nodes.length, result_nodes ++ expression_list.nodes)
        | _ => (1, result_nodes ++ [r.1])).1 := by
      simpa using hc
    have hpair : (match r.1 with
        | .LIST _ _ expression_list =>
          (expression_list.nodes.length, result_nodes ++ expression_list.nodes)
        | _ => (1, result_nodes ++ [r.1])).2.length
        = result_nodes.length + (match r.1 with
        | .LIST _ _ expression_list =>
          (expression_list.nodes.length, result_nodes ++ expression_list.nodes)
        | _ => (1, result_nodes ++ [r.1])).1 := by
      split <;> simp
    refine Eq.trans hpair ?_
    rw [List.length_append, ← hc1, hlen]

/-- C17: whenever `resolveMatcher` returns normally, the node that replaces the matcher is
a list node, and the number of the projection names returned is the number of the nodes of
the list, whatever the transformers of the matcher and what they do; and whenever
`resolveExpressionNodeList` returns normally, the number of the names returned is the
number of the nodes of the flattened list. -/
theorem resolveMatcher_projection_names_count (E : Collaborators) (M : MatcherCollaborators)
    (T : TransformerCollaborators) (U : UnmodelledMatcher) (R : Resolver) (scope : Nat)
    (s : QueryAnalyzer) :
    (∀ matcher_node r s1,
      resolveMatcher E M T U R matcher_node scope s = (.ok r, s1) →
      ∃ a nodes, r.1 = .LIST a "" { nodes := nodes } ∧ r.2.length = nodes.length)
    ∧ (∀ node_list allow_lambda_expression allow_table_expression r s1,
      resolveExpressionNodeList R node_list scope allow_lambda_expression
        allow_table_expression s = (.ok r, s1) →
      r.2.length = r.1.length) := by
  refine ⟨fun matcher_node => ?_, fun node_list al at_ r s1 h => ?_⟩
  · show (resolveMatcher E M T U R matcher_node scope).Post s
      (fun r _ => ∃ a nodes, r.1 = .LIST a "" { nodes := nodes } ∧ r.2.length = nodes.length)
    unfold resolveMatcher
    split
    · rename_i ma mal matcher_node_typed
      have hleaf : ∀ (list : Nat) (matched : List (QueryTreeNode × String))
          (s0 : QueryAnalyzer),
          ((resolveMatchedNodes T R scope matcher_node_typed.column_transformers matched [] []
              [] (strictTransformers T matcher_node_typed.column_transformers [])).andThen
            (fun r =>
              (RM.lift (checkStrictTransformers T (T.iterationOrder r.2.2))).andThen
                (fun _ => RM.ret
                  ((QueryTreeNode.LIST list "" { nodes := r.1 }, r.2.1) :
                    QueryTreeNode × ProjectionNames)))).Post s0
            (fun r _ => ∃ a nodes, r.1 = .LIST a "" { nodes := nodes }
              ∧ r.2.length = nodes.length) := by
        intro list matched s0
        refine RM.post_andThen_run _ _ _ _ (fun r s1 h1 => ?_)
        refine post_andThen_all _ _ _ _ (fun _ s2 => ?_)
        refine RM.post_ret _ _ _ ⟨list, r.1, rfl, ?_⟩
        exact (resolveMatchedNodes_count T R scope _ matched [] [] [] _ s0 rfl r s1 h1).symm
      simp only [RM.bind_eq, RM.pure_eq]
      repeat' first
        | exact hleaf _ _ _
        | refine post_andThen_all _ _ _ _ (fun _ _ => ?_)
        | split
    · exact RM.post_throw _ _ _
  · exact (resolveExpressionNodeListLoop_count R scope al at_ node_list [] [] s rfl r s1 h).symm

/-- The theorem `resolveMatcher_projection_names_count` on a query over `t (id, value)`:
the matcher `* EXCEPT (id) REPLACE (value + 1 AS value)` becomes a list of one node with one
name, and the list `* EXCEPT (id), id`, in which the matcher is resolved to a list, becomes
the flattened list of two nodes with two names. -/
theorem resolveMatcher_projection_names_count_witness :
    (∃ r a nodes,
      (resolveMatcher Example.collaborators Example.matcherCollaborators
          Example.transformerCollaborators Example.unmodelledMatcher
          (resolver Example.collaborators Example.scalarCollaborators
            Example.unmodelledWithMatcher 30)
          (Example.asteriskWith [Example.exceptTransformer 79 false ["id"],
            Example.replaceTransformer 80 "value"
              (Example.unresolvedCall 81 "plus" ""
                [Example.identifier 82 "value" "", Example.literal 83 1])]) 0
          Example.analyzerOverIdValue).1 = .ok r
      ∧ r.1 = .LIST a "" { nodes := nodes } ∧ r.2.length = nodes.length)
    ∧ Example.outcomeOfMatcher
        (resolveMatcher Example.collaborators Example.matcherCollaborators
          Example.transformerCollaborators Example.unmodelledMatcher
          (resolver Example.collaborators Example.scalarCollaborators
            Example.unmodelledWithMatcher 30)
          (Example.asteriskWith [Example.exceptTransformer 79 false ["id"],
            Example.replaceTransformer 80 "value"
              (Example.unresolvedCall 81 "plus" ""
                [Example.identifier 82 "value" "", Example.literal 83 1])]) 0
          Example.analyzerOverIdValue)
      = .expanded ["Function plus(Column value, Constant 1)"] ["value"]
    ∧ Example.outcomeOfList
        ((resolver Example.collaborators Example.scalarCollaborators
            Example.unmodelledWithMatcher 30).resolveExpressionNodeList
          [Example.asteriskWith [Example.exceptTransformer 79 false ["id"]],
           Example.identifier 90 "id" ""] 0 false false Example.analyzerOverIdValue)
      = .returned ["Column value", "Column id"] ["value", "id"] := by
  refine ⟨?_, by decide!, by decide!⟩
  obtain ⟨r, hr⟩ := run_eq_ok_of_isOk
    (resolveMatcher Example.collaborators Example.matcherCollaborators
      Example.transformerCollaborators Example.unmodelledMatcher
      (resolver Example.collaborators Example.scalarCollaborators
        Example.unmodelledWithMatcher 30)
      (Example.asteriskWith [Example.exceptTransformer 79 false ["id"],
        Example.replaceTransformer 80 "value"
          (Example.unresolvedCall 81 "plus" ""
            [Example.identifier 82 "value" "", Example.literal 83 1])]) 0)
    Example.analyzerOverIdValue (by decide!)
  obtain ⟨a, nodes, h1, h2⟩ :=
    (resolveMatcher_projection_names_count Example.collaborators Example.matcherCollaborators
      Example.transformerCollaborators Example.unmodelledMatcher
      (resolver Example.collaborators Example.scalarCollaborators
        Example.unmodelledWithMatcher 30) 0 Example.analyzerOverIdValue).1 _ r _ hr
  exact ⟨r, a, nodes, congrArg Prod.fst hr, h1, h2⟩

end QueryAnalyzer
end DB

namespace DB
namespace QueryAnalyzer

/-- The number of the sort nodes is the number of the nodes of the projection. -/
theorem sortNodesOver_length (all_node : SortNode QueryTreeNode) (projection : QueryTreeNodes) :
    ∀ a, (sortNodesOver all_node projection a).length = projection.length := by
  induction projection with
  | nil => intro a; rfl
  | cons node rest ih =>
    intro a
    simp only [sortNodesOver, List.length_cons, ih]

/-- The sort node at a position is the one over the node of the projection at that
position, with the directions of the sort node `ALL`. -/
theorem sortNodesOver_getElem? (all_node : SortNode QueryTreeNode)
    (projection : QueryTreeNodes) :
    ∀ (a i : Nat) (node : QueryTreeNode), projection[i]? = some node →
      (sortNodesOver all_node projection a)[i]?
        = some (.SORT (a + i) ""
            { expression := node, sort_direction := all_node.sort_direction,
              nulls_sort_direction := all_node.nulls_sort_direction,
              fill_from := none, fill_to := none, fill_step := none }) := by
  induction projection with
  | nil => intro a i node h; simp at h
  | cons first rest ih =>
    intro a i node h
    cases i with
    | zero =>
      simp only [List.getElem?_cons_zero, Option.some.injEq] at h
      simp only [sortNodesOver, List.getElem?_cons_zero, h, Nat.add_zero]
    | succ j =>
      simp only [List.getElem?_cons_succ] at h
      simp only [sortNodesOver, List.getElem?_cons_succ]
      rw [ih (a + 1) j node h]
      simp only [Nat.add_assoc, Nat.add_comm 1 j]

/-- The loop of `expandOrderByAll` returns the sort nodes over the projection when every
node of the projection that has an entry in `resolved_expressions` has one projection
name there, other than `all` in any letter case. -/
theorem orderByAllSortNodes_ok (all_node : SortNode QueryTreeNode)
    (projection : QueryTreeNodes) :
    ∀ (list_node : QueryTreeNodes) (s : QueryAnalyzer),
    (∀ node ∈ projection, ∀ names, s.resolved_expressions.lookup node.addr = some names →
      ∃ name, names = [name] ∧ iequals name "all" = false) →
    orderByAllSortNodes all_node projection list_node s
      = (.ok (list_node ++ sortNodesOver all_node projection s.next_addr),
         { s with next_addr := s.next_addr + projection.length }) := by
  induction projection with
  | nil =>
    intro list_node s _
    simp only [orderByAllSortNodes, sortNodesOver, List.append_nil, List.length_nil,
      Nat.add_zero]
    rfl
  | cons node rest ih =>
    intro list_node s h
    have hrest := ih (list_node ++
        [.SORT s.next_addr ""
          { expression := node, sort_direction := all_node.sort_direction,
            nulls_sort_direction := all_node.nulls_sort_direction,
            fill_from := none, fill_to := none, fill_step := none }])
      { s with next_addr := s.next_addr + 1 }
      (fun n hn names hl => h n (List.mem_cons_of_mem _ hn) names hl)
    unfold orderByAllSortNodes
    simp only [RM.bind_eq, RM.pure_eq, RM.get_andThen]
    cases hl : s.resolved_expressions.lookup node.addr with
    | none =>
      simp only [RM.ret_andThen]
      show orderByAllSortNodes all_node rest _ { s with next_addr := s.next_addr + 1 } = _
      rw [hrest]
      simp only [sortNodesOver, List.append_assoc, List.singleton_append, List.length_cons,
        Nat.add_assoc, Nat.add_comm 1]
    | some names =>
      obtain ⟨name, hname, hne⟩ := h node (List.mem_cons_self _ _) names hl
      subst hname
      simp only [List.length_singleton, bne_self_eq_false, Bool.false_eq_true, if_false,
        List.headD_cons, hne, RM.ret_andThen]
      show orderByAllSortNodes all_node rest _ { s with next_addr := s.next_addr + 1 } = _
      rw [hrest]
      simp only [sortNodesOver, List.append_assoc, List.singleton_append, List.length_cons,
        Nat.add_assoc, Nat.add_comm 1]

/-- The loop of `expandOrderByAll` throws `UNEXPECTED_EXPRESSION` when a node of the
projection has a projection name in `resolved_expressions` that is `all` in some letter
case, and every node of the projection that has an entry there has one name. -/
theorem orderByAllSortNodes_all (all_node : SortNode QueryTreeNode)
    (projection : QueryTreeNodes) :
    ∀ (list_node : QueryTreeNodes) (s : QueryAnalyzer),
    (∀ node ∈ projection, ∀ names, s.resolved_expressions.lookup node.addr = some names →
      names.length = 1) →
    (∃ node ∈ projection, ∃ name, s.resolved_expressions.lookup node.addr = some [name]
      ∧ iequals name "all" = true) →
    ∃ s1, orderByAllSortNodes all_node projection list_node s
      = (.error { code := .UNEXPECTED_EXPRESSION }, s1) := by
  induction projection with
  | nil =>
    intro list_node s _ h
    obtain ⟨node, hmem, _⟩ := h
    cases hmem
  | cons node rest ih =>
    intro list_node s hone hall
    unfold orderByAllSortNodes
    simp only [RM.bind_eq, RM.pure_eq, RM.get_andThen]
    have hnext : (∃ n ∈ rest, ∃ name, s.resolved_expressions.lookup n.addr = some [name]
          ∧ iequals name "all" = true) →
        ∃ s1, orderByAllSortNodes all_node rest
          (list_node ++
            [.SORT s.next_addr ""
              { expression := node, sort_direction := all_node.sort_direction,
                nulls_sort_direction := all_node.nulls_sort_direction,
                fill_from := none, fill_to := none, fill_step := none }])
          { s with next_addr := s.next_addr + 1 }
          = (.error { code := .UNEXPECTED_EXPRESSION }, s1) :=
      fun hex => ih _ { s with next_addr := s.next_addr + 1 }
        (fun n hn names hl => hone n (List.mem_cons_of_mem _ hn) names hl) hex
    have hrest_of : ¬ (∃ name, s.resolved_expressions.lookup node.addr = some [name]
          ∧ iequals name "all" = true) →
        ∃ n ∈ rest, ∃ name, s.resolved_expressions.lookup n.addr = some [name]
          ∧ iequals name "all" = true := by
      intro hnot
      obtain ⟨n, hmem, name, hl, hi⟩ := hall
      rcases List.mem_cons.mp hmem with heq | hmem
      · exact (hnot ⟨name, heq ▸ hl, hi⟩).elim
      · exact ⟨n, hmem, name, hl, hi⟩
    cases hl : s.resolved_expressions.lookup node.addr with
    | none =>
      simp only [RM.ret_andThen]
      exact hnext (hrest_of (fun ⟨name, h1, _⟩ => by rw [hl] at h1; cases h1))
    | some names =>
      have hlen := hone node (List.mem_cons_self _ _) names hl
      obtain ⟨name, hname⟩ := List.length_eq_one.mp hlen
      subst hname
      simp only [List.length_singleton, bne_self_eq_false, Bool.false_eq_true, if_false,
        List.headD_cons]
      by_cases hi : iequals name "all" = true
      · simp only [hi, if_true]
        exact ⟨s, rfl⟩
      · simp only [hi, if_false, RM.ret_andThen]
        exact hnext (hrest_of (fun ⟨name1, h1, h2⟩ => by
          rw [hl] at h1
          simp only [Option.some.injEq, List.cons.injEq, and_true] at h1
          exact hi (h1 ▸ h2)))

/-- C18 (as stated) fails for a projection that is named `ALL`, which is not the name
`all`: on `SELECT id, value AS ALL FROM t ORDER BY ALL DESC NULLS FIRST`, with the setting
on, `expandOrderByAll` throws `UNEXPECTED_EXPRESSION` and leaves the `ORDER BY` list and
the flag as they are, because the name is compared with `all` without regard to letter
case. -/
theorem expandOrderByAll_upper_case_name :
    (Example.selectOrderByAll "ALL").is_order_by_all = true
    ∧ (Example.analyzerOrderByAll "ALL").resolved_expressions
        = [(Example.columnId.addr, ["id"]), (Example.columnValue.addr, ["ALL"])]
    ∧ ((expandOrderByAll (Example.selectOrderByAll "ALL") {}
          (Example.analyzerOrderByAll "ALL")).1.1
        = .error { code := .UNEXPECTED_EXPRESSION })
    ∧ ((expandOrderByAll (Example.selectOrderByAll "ALL") {}
          (Example.analyzerOrderByAll "ALL")).1.2.order_by.map Example.describe = ["Sort"])
    ∧ (expandOrderByAll (Example.selectOrderByAll "ALL") {}
          (Example.analyzerOrderByAll "ALL")).1.2.is_order_by_all = true := by
  refine ⟨rfl, rfl, rfl, by decide!, rfl⟩

/-- C18 (amended): with `enable_order_by_all` on, for a query flagged `ORDER BY ALL` whose
first `ORDER BY` node is a sort node, and in which every node of the projection that has an
entry in `resolved_expressions` has one projection name there, other than `all` in any
letter case, `expandOrderByAll` returns normally; the `ORDER BY` list is then one sort node
for each node of the projection, in the order of the projection, over that node and with
the sort direction and the nulls direction of the first sort node, the flag is cleared and
the rest of the query node is as before.  With the setting off or the flag unset the call
changes nothing. -/
theorem expandOrderByAll_expands (query_tree_node_typed : QueryNode QueryTreeNode)
    (settings : Settings) (s : QueryAnalyzer) :
    (∀ a al all_node rest,
      settings.enable_order_by_all = true →
      query_tree_node_typed.is_order_by_all = true →
      query_tree_node_typed.order_by = .SORT a al all_node :: rest →
      (∀ node ∈ query_tree_node_typed.projection, ∀ names,
        s.resolved_expressions.lookup node.addr = some names →
        ∃ name, names = [name] ∧ iequals name "all" = false) →
      ∃ (order_by : QueryTreeNodes) (s1 : QueryAnalyzer),
        expandOrderByAll query_tree_node_typed settings s
          = ((.ok (), { query_tree_node_typed with
                order_by := order_by, is_order_by_all := false }), s1)
        ∧ order_by.length = query_tree_node_typed.projection.length
        ∧ ∀ i node, query_tree_node_typed.projection[i]? = some node →
            order_by[i]? = some (QueryTreeNode.SORT (s.next_addr + 1 + i) ""
              { expression := node, sort_direction := all_node.sort_direction,
                nulls_sort_direction := all_node.nulls_sort_direction,
                fill_from := none, fill_to := none, fill_step := none }))
    ∧ (settings.enable_order_by_all = false ∨ query_tree_node_typed.is_order_by_all = false →
      expandOrderByAll query_tree_node_typed settings s
        = ((.ok (), query_tree_node_typed), s)) := by
  refine ⟨fun a al all_node rest hs hq hall hnames => ?_, fun hoff => ?_⟩
  · refine ⟨sortNodesOver all_node query_tree_node_typed.projection (s.next_addr + 1),
      { s with next_addr := s.next_addr + 1 + query_tree_node_typed.projection.length },
      ?_, sortNodesOver_length _ _ _, fun i node hi => sortNodesOver_getElem? _ _ _ i node hi⟩
    have hloop := orderByAllSortNodes_ok all_node query_tree_node_typed.projection []
      { s with next_addr := s.next_addr + 1 } hnames
    unfold expandOrderByAll
    simp only [hs, hq, Bool.not_true, Bool.or_self, Bool.false_eq_true, if_false, hall]
    have hrun : (RM.allocate.andThen fun _ =>
        orderByAllSortNodes all_node query_tree_node_typed.projection []) s
        = (.ok (sortNodesOver all_node query_tree_node_typed.projection (s.next_addr + 1)),
           { s with next_addr := s.next_addr + 1 + query_tree_node_typed.projection.length }) := by
      show orderByAllSortNodes all_node query_tree_node_typed.projection []
        { s with next_addr := s.next_addr + 1 } = _
      rw [hloop]
      rfl
    rw [hrun]
  · unfold expandOrderByAll
    rcases hoff with h | h <;> simp [h]

/-- The theorem `expandOrderByAll_expands` on
`SELECT id, value AS v FROM t ORDER BY ALL DESC NULLS FIRST`: the `ORDER BY` list becomes
the sort nodes over `id` and over `value AS v`, both `DESC NULLS FIRST`, and the flag is
cleared; with the setting off nothing changes. -/
theorem expandOrderByAll_expands_witness :
    (∃ (order_by : QueryTreeNodes) (s1 : QueryAnalyzer),
      expandOrderByAll (Example.selectOrderByAll "v") {} (Example.analyzerOrderByAll "v")
        = ((.ok (), { Example.selectOrderByAll "v" with
              order_by := order_by, is_order_by_all := false }), s1)
      ∧ order_by.length = 2
      ∧ ∀ i node, (Example.selectOrderByAll "v").projection[i]? = some node →
          order_by[i]? = some (QueryTreeNode.SORT (100 + 1 + i) ""
            { expression := node, sort_direction := .DESCENDING,
              nulls_sort_direction := some .ASCENDING,
              fill_from := none, fill_to := none, fill_step := none }))
    ∧ expandOrderByAll (Example.selectOrderByAll "v") { enable_order_by_all := false }
        (Example.analyzerOrderByAll "v")
      = ((.ok (), Example.selectOrderByAll "v"), Example.analyzerOrderByAll "v") :=
  ⟨(expandOrderByAll_expands (Example.selectOrderByAll "v") {}
      (Example.analyzerOrderByAll "v")).1 90 ""
      { expression := Example.identifier 91 "all" "", sort_direction := .DESCENDING,
        nulls_sort_direction := some .ASCENDING, fill_from := none, fill_to := none,
        fill_step := none } [] rfl rfl rfl
      (by
        intro node hmem names hl
        simp only [Example.selectOrderByAll, Example.query, List.mem_cons, List.mem_singleton,
          List.not_mem_nil, or_false] at hmem
        rcases hmem with h | h
        · subst h
          refine ⟨"id", ?_, by decide⟩
          have : (Example.analyzerOrderByAll "v").resolved_expressions.lookup
              Example.columnId.addr = some ["id"] := by decide
          rw [this] at hl
          exact (Option.some.inj hl).symm
        · subst h
          refine ⟨"v", ?_, by decide⟩
          have : (Example.analyzerOrderByAll "v").resolved_expressions.lookup
              (Example.columnValue.setAlias "v").addr = some ["v"] := by decide
          rw [this] at hl
          exact (Option.some.inj hl).symm),
   (expandOrderByAll_expands (Example.selectOrderByAll "v") { enable_order_by_all := false }
      (Example.analyzerOrderByAll "v")).2 (Or.inl rfl)⟩

/-- C19: with `enable_order_by_all` on, for a query flagged `ORDER BY ALL` whose first
`ORDER BY` node is a sort node, `expandOrderByAll` throws `UNEXPECTED_EXPRESSION` whenever
a node of the projection has in `resolved_expressions` a projection name that is `all`
(in any letter case), every node of the projection that has an entry there having one
name; the query node, with its `ORDER BY` list and its flag, is then as it was. -/
theorem expandOrderByAll_rejects_all (query_tree_node_typed : QueryNode QueryTreeNode)
    (settings : Settings) (s : QueryAnalyzer) (a : Nat) (al : String)
    (all_node : SortNode QueryTreeNode) (rest : QueryTreeNodes)
    (hs : settings.enable_order_by_all = true)
    (hq : query_tree_node_typed.is_order_by_all = true)
    (hall : query_tree_node_typed.order_by = .SORT a al all_node :: rest)
    (hone : ∀ node ∈ query_tree_node_typed.projection, ∀ names,
      s.resolved_expressions.lookup node.addr = some names → names.length = 1)
    (hname : ∃ node ∈ query_tree_node_typed.projection, ∃ name,
      s.resolved_expressions.lookup node.addr = some [name] ∧ iequals name "all" = true) :
    (expandOrderByAll query_tree_node_typed settings s).1
      = (.error { code := .UNEXPECTED_EXPRESSION }, query_tree_node_typed) := by
  obtain ⟨s1, hloop⟩ := orderByAllSortNodes_all all_node query_tree_node_typed.projection []
    { s with next_addr := s.next_addr + 1 } hone hname
  unfold expandOrderByAll
  simp only [hs, hq, Bool.not_true, Bool.or_self, Bool.false_eq_true, if_false, hall]
  have hrun : (RM.allocate.andThen fun _ =>
      orderByAllSortNodes all_node query_tree_node_typed.projection []) s
      = (.error { code := .UNEXPECTED_EXPRESSION }, s1) := hloop
  rw [hrun]

/-- The theorem `expandOrderByAll_rejects_all` on
`SELECT id, value AS all FROM t ORDER BY ALL DESC NULLS FIRST`: the call throws
`UNEXPECTED_EXPRESSION`, and the query node is as it was. -/
theorem expandOrderByAll_rejects_all_witness :
    (expandOrderByAll (Example.selectOrderByAll "all") {} (Example.analyzerOrderByAll "all")).1
      = (.error { code := .UNEXPECTED_EXPRESSION }, Example.selectOrderByAll "all")
    ∧ (Example.selectOrderByAll "all").is_order_by_all = true
    ∧ (Example.selectOrderByAll "all").order_by = [Example.sortAll] :=
  ⟨expandOrderByAll_rejects_all (Example.selectOrderByAll "all") {}
      (Example.analyzerOrderByAll "all") 90 ""
      { expression := Example.identifier 91 "all" "", sort_direction := .DESCENDING,
        nulls_sort_direction := some .ASCENDING, fill_from := none, fill_to := none,
        fill_step := none } [] rfl rfl rfl
      (by
        intro node hmem names hl
        simp only [Example.selectOrderByAll, Example.query, List.mem_cons, List.mem_singleton,
          List.not_mem_nil, or_false] at hmem
        rcases hmem with h | h
        · subst h
          have : (Example.analyzerOrderByAll "all").resolved_expressions.lookup
              Example.columnId.addr = some ["id"] := by decide
          rw [this] at hl
          rw [← Option.some.inj hl]; rfl
        · subst h
          have : (Example.analyzerOrderByAll "all").resolved_expressions.lookup
              (Example.columnValue.setAlias "all").addr = some ["all"] := by decide
          rw [this] at hl
          rw [← Option.some.inj hl]; rfl)
      ⟨Example.columnValue.setAlias "all", by simp [Example.selectOrderByAll, Example.query],
        "all", by decide, by decide⟩,
   rfl, rfl⟩

end QueryAnalyzer
end DB

namespace DB
namespace QueryAnalyzer

/-- The loop that pulls blocks finds no block with rows if and only if the blocks have no
row in all. -/
theorem pullNonEmpty_none (blocks : List PulledBlock) :
    (blocks.map (fun block => block.rows)).sum = 0 → ∃ rest, pullNonEmpty blocks = (none, rest) := by
  induction blocks with
  | nil => intro _; exact ⟨[], rfl⟩
  | cons block rest ih =>
    intro h
    simp only [List.map_cons, List.sum_cons, Nat.add_eq_zero] at h
    obtain ⟨rest1, h1⟩ := ih h.2
    refine ⟨rest1, ?_⟩
    simp only [pullNonEmpty, h.1, beq_self_eq_true, if_true, h1]

/-- The loop that pulls blocks finds a block with rows when the blocks have a row: the
rows in all are those of the block and those of the blocks not pulled yet. -/
theorem pullNonEmpty_some (blocks : List PulledBlock) :
    0 < (blocks.map (fun block => block.rows)).sum →
    ∃ block rest, pullNonEmpty blocks = (some block, rest) ∧ block.rows ≠ 0
      ∧ (blocks.map (fun block => block.rows)).sum
          = block.rows + (rest.map (fun block => block.rows)).sum := by
  induction blocks with
  | nil => intro h; simp at h
  | cons block rest ih =>
    intro h
    by_cases h0 : block.rows = 0
    · simp only [List.map_cons, List.sum_cons, h0, Nat.zero_add] at h
      obtain ⟨b, rest1, h1, h2, h3⟩ := ih h
      refine ⟨b, rest1, ?_, h2, ?_⟩
      · simp only [pullNonEmpty, h0, beq_self_eq_true, if_true, h1]
      · simp only [List.map_cons, List.sum_cons, h0, Nat.zero_add, h3]
    · refine ⟨block, rest, ?_, h0, ?_⟩
      · have hb : (block.rows == 0) = false := by simpa using h0
        simp only [pullNonEmpty, hb, Bool.false_eq_true, if_false]
      · simp only [List.map_cons, List.sum_cons]

/-- An execution with more than one row in all has no scalar block: the error is
`INCORRECT_RESULT_OF_SCALAR_SUBQUERY`, whether the rows are in the first block with rows or
in a later one. -/
theorem scalarBlockOfExecution_many (S : ScalarCollaborators)
    (execution : ScalarSubqueryExecution) (h : 1 < execution.totalRows) :
    scalarBlockOfExecution S execution
      = .error { code := .INCORRECT_RESULT_OF_SCALAR_SUBQUERY } := by
  unfold ScalarSubqueryExecution.totalRows at h
  obtain ⟨block, rest, h1, h2, h3⟩ := pullNonEmpty_some execution.blocks (by omega)
  unfold scalarBlockOfExecution
  rw [h1]
  simp only
  by_cases hb : block.rows = 1
  · have hrest : 0 < (rest.map (fun block => block.rows)).sum := by omega
    obtain ⟨block2, rest2, h4, _, _⟩ := pullNonEmpty_some rest hrest
    simp only [hb, bne_self_eq_false, Bool.false_eq_true, if_false, h4]
  · have hb1 : (block.rows != 1) = true := by simpa using hb
    simp only [hb1, if_true]

/-- An execution without a row whose sample block has one column of the type `type`: the
scalar block is a `NULL` of the type, made nullable unless it is; there is none, and the
error is `INCORRECT_RESULT_OF_SCALAR_SUBQUERY`, for a type that is not nullable and cannot
be inside `Nullable`. -/
theorem scalarBlockOfExecution_empty (S : ScalarCollaborators)
    (execution : ScalarSubqueryExecution) (name : String) (type : DataType)
    (h : execution.totalRows = 0) (hsample : execution.sample_block = [(name, type)]) :
    scalarBlockOfExecution S execution
      = if type.isNullable then .ok { columns := [("null", type, .Null)] }
        else if S.canBeInsideNullable type then
          .ok { columns := [("null", .Nullable type, .Null)] }
        else .error { code := .INCORRECT_RESULT_OF_SCALAR_SUBQUERY } := by
  obtain ⟨rest, h1⟩ := pullNonEmpty_none execution.blocks h
  unfold scalarBlockOfExecution
  rw [h1, hsample]
  simp only [List.map_cons, List.map_nil]
  cases type.isNullable <;> cases S.canBeInsideNullable type <;> rfl

/-- The first part of `evaluateScalarSubqueryIfNeeded` for a subquery that is executed:
neither the cache that the call selects nor the query context has its scalar, and the
query is not only analyzed.  When the execution has no scalar block, the call throws the
error of the execution and the caches of the analyzer and the scalars of the contexts are
as before; when it has one, the call returns it. -/
theorem scalarBlockOfSubquery_executed (E : Collaborators) (S : ScalarCollaborators)
    (node : QueryTreeNode) (scope : Nat) (s : QueryAnalyzer)
    (execution : ScalarSubqueryExecution)
    (hexecuted : s.only_analyze = false)
    (hcache : (if canUseGlobalScalars s.only_analyze (s.scopes scope).context
            (s.clone node).1.removeAlias
          then s.scalar_subquery_to_scalar_value_global
          else s.scalar_subquery_to_scalar_value_local).lookup
            (E.getTreeHash (s.clone node).1.removeAlias) = none)
    (hcontext : (if ((s.scopes scope).context.has_query_context
            && canUseGlobalScalars s.only_analyze (s.scopes scope).context
              (s.clone node).1.removeAlias) = true
          then s.query_context_scalars.lookup
            (toString (E.getTreeHash (s.clone node).1.removeAlias))
          else none) = none)
    (hinterpret : S.interpret ((s.clone node).2.clone node).1
        (scalarSubqueryContext (s.scopes scope).context) (s.scopes scope).subquery_depth false
      = .ok execution) :
    (∀ e, scalarBlockOfExecution S execution = .error e →
      ∃ s1, scalarBlockOfSubquery E S node scope s = (.error e, s1)
        ∧ s1.scalar_subquery_to_scalar_value_global = s.scalar_subquery_to_scalar_value_global
        ∧ s1.scalar_subquery_to_scalar_value_local = s.scalar_subquery_to_scalar_value_local
        ∧ s1.query_context_scalars = s.query_context_scalars
        ∧ s1.context_scalars = s.context_scalars)
    ∧ (∀ block, scalarBlockOfExecution S execution = .ok block →
      ∃ s1, scalarBlockOfSubquery E S node scope s
        = (.ok (block, E.getTreeHash (s.clone node).1.removeAlias), s1)) := by
  have hscopes : (s.clone node).2.scopes scope = s.scopes scope := rfl
  have honly : (s.clone node).2.only_analyze = s.only_analyze := rfl
  have hg : (s.clone node).2.scalar_subquery_to_scalar_value_global
      = s.scalar_subquery_to_scalar_value_global := rfl
  have hl : (s.clone node).2.scalar_subquery_to_scalar_value_local
      = s.scalar_subquery_to_scalar_value_local := rfl
  have hq : (s.clone node).2.query_context_scalars = s.query_context_scalars := rfl
  have hctx : ∀ c : Context, ({ c with
      settings := { c.settings with
        max_result_rows := 1, extremes := false, implicit_table_at_top_level := "",
        use_structure_from_insertion_table_in_table_functions := 0 } } : Context)
      = scalarSubqueryContext c := fun _ => rfl
  have hclone1 : ∀ t : QueryAnalyzer, (t.clone node).1 = (node.cloneAt t.next_addr).1 :=
    fun _ => rfl
  have hclone2 : ∀ t : QueryAnalyzer, (t.clone node).2.only_analyze = t.only_analyze :=
    fun _ => rfl
  rw [hexecuted] at hcache hcontext
  simp only [hclone1] at hcache hcontext hinterpret ⊢
  refine ⟨fun e he => ?_, fun block hb => ?_⟩
  · unfold scalarBlockOfSubquery computeScalarSubquery
    simp only [RM.bind_eq, RM.pure_eq, RM.andThen_assoc, RM.clone_andThen,
      RM.getScope_andThen, RM.get_andThen, RM.modify_andThen, hclone1, hclone2, hscopes, honly,
      hg, hl, hq, hcache, hcontext, hctx, hexecuted, hinterpret, RM.lift_ok_andThen,
      Bool.false_eq_true, if_false, he]
    exact ⟨_, rfl, rfl, rfl, rfl, rfl⟩
  · unfold scalarBlockOfSubquery computeScalarSubquery
    simp only [RM.bind_eq, RM.pure_eq, RM.andThen_assoc, RM.clone_andThen,
      RM.getScope_andThen, RM.get_andThen, RM.modify_andThen, hclone1, hclone2, hscopes, honly,
      hg, hl, hq, hcache, hcontext, hctx, hexecuted, hinterpret, RM.lift_ok_andThen,
      Bool.false_eq_true, if_false, hb]
    split
    · exact ⟨_, rfl⟩
    · exact ⟨_, rfl⟩

/-- C20 (as stated) fails for a subquery without a row whose one column has a type that
cannot be inside `Nullable`: for a column of type `Array(UInt8)`, as in
`(SELECT [1] WHERE 0)`, the evaluation does not give a `NULL` of type
`Nullable(Array(UInt8))` but throws `INCORRECT_RESULT_OF_SCALAR_SUBQUERY`, and the caches
stay empty. -/
theorem evaluateScalarSubqueryIfNeeded_empty_array :
    Example.scalarCollaborators.canBeInsideNullable (.Array .UInt8) = false
    ∧ Example.outcomeOfScalar
        (evaluateScalarSubqueryIfNeeded Example.collaborators
          (Example.scalarCollaboratorsWith
            { sample_block := [("x", .Array .UInt8)], blocks := [] })
          (Example.scalarSelect1 10 "x") 0 Example.analyzerNoTables)
      = (.threw { code := .INCORRECT_RESULT_OF_SCALAR_SUBQUERY }, 0, 0) := by
  refine ⟨rfl, by decide!⟩

/-- C20 (amended): for a subquery that `evaluateScalarSubqueryIfNeeded` executes (a query
or union node that is not correlated, not only analyzed, whose scalar neither the selected
cache nor the query context has), with the execution that the interpreter gives: when the
blocks have more than one row in all, in the first block with rows or in a later one, the
call throws `INCORRECT_RESULT_OF_SCALAR_SUBQUERY` and the caches of the analyzer and the
scalars of the contexts are as before; when the blocks have no row and the sample block has
one column of the type `type`, the scalar is a `NULL` of the type `type` if it is nullable
and of `Nullable(type)` if it is not and can be inside `Nullable`, and otherwise the call
throws `INCORRECT_RESULT_OF_SCALAR_SUBQUERY` and stores nothing. -/
theorem evaluateScalarSubqueryIfNeeded_rows (E : Collaborators) (S : ScalarCollaborators)
    (node : QueryTreeNode) (scope : Nat) (s : QueryAnalyzer)
    (execution : ScalarSubqueryExecution)
    (hnode : node.getNodeType = .QUERY ∨ node.getNodeType = .UNION)
    (hcorrelated : isCorrelated node = false)
    (hexecuted : s.only_analyze = false)
    (hcache : (if canUseGlobalScalars s.only_analyze (s.scopes scope).context
            (s.clone node).1.removeAlias
          then s.scalar_subquery_to_scalar_value_global
          else s.scalar_subquery_to_scalar_value_local).lookup
            (E.getTreeHash (s.clone node).1.removeAlias) = none)
    (hcontext : (if ((s.scopes scope).context.has_query_context
            && canUseGlobalScalars s.only_analyze (s.scopes scope).context
              (s.clone node).1.removeAlias) = true
          then s.query_context_scalars.lookup
            (toString (E.getTreeHash (s.clone node).1.removeAlias))
          else none) = none)
    (hinterpret : S.interpret ((s.clone node).2.clone node).1
        (scalarSubqueryContext (s.scopes scope).context) (s.scopes scope).subquery_depth false
      = .ok execution) :
    (1 < execution.totalRows →
      ∃ s1, evaluateScalarSubqueryIfNeeded E S node scope s
          = (.error { code := .INCORRECT_RESULT_OF_SCALAR_SUBQUERY }, s1)
        ∧ s1.scalar_subquery_to_scalar_value_global = s.scalar_subquery_to_scalar_value_global
        ∧ s1.scalar_subquery_to_scalar_value_local = s.scalar_subquery_to_scalar_value_local
        ∧ s1.query_context_scalars = s.query_context_scalars
        ∧ s1.context_scalars = s.context_scalars)
    ∧ (execution.totalRows = 0 → ∀ name type, execution.sample_block = [(name, type)] →
      (type.isNullable = true →
        ∃ s1, scalarBlockOfSubquery E S node scope s
          = (.ok ({ columns := [("null", type, .Null)] },
              E.getTreeHash (s.clone node).1.removeAlias), s1))
      ∧ (type.isNullable = false → S.canBeInsideNullable type = true →
        ∃ s1, scalarBlockOfSubquery E S node scope s
          = (.ok ({ columns := [("null", .Nullable type, .Null)] },
              E.getTreeHash (s.clone node).1.removeAlias), s1))
      ∧ (type.isNullable = false → S.canBeInsideNullable type = false →
        ∃ s1, evaluateScalarSubqueryIfNeeded E S node scope s
            = (.error { code := .INCORRECT_RESULT_OF_SCALAR_SUBQUERY }, s1)
          ∧ s1.scalar_subquery_to_scalar_value_global
              = s.scalar_subquery_to_scalar_value_global
          ∧ s1.scalar_subquery_to_scalar_value_local = s.scalar_subquery_to_scalar_value_local
          ∧ s1.query_context_scalars = s.query_context_scalars
          ∧ s1.context_scalars = s.context_scalars)) := by
  have hparts := scalarBlockOfSubquery_executed E S node scope s execution hexecuted hcache
    hcontext hinterpret
  have hthrow : ∀ e s1, scalarBlockOfSubquery E S node scope s = (.error e, s1) →
      evaluateScalarSubqueryIfNeeded E S node scope s = (.error e, s1) := by
    intro e s1 h1
    unfold evaluateScalarSubqueryIfNeeded
    have hn : (node.getNodeType != .QUERY && node.getNodeType != .UNION) = false := by
      rcases hnode with h | h <;> simp [h]
    simp only [hn, Bool.false_eq_true, if_false, hcorrelated, RM.bind_eq]
    exact RM.andThen_error h1
  refine ⟨fun hmany => ?_, fun hnone name type hsample => ⟨fun hnull => ?_, fun hnull hcan => ?_,
    fun hnull hcan => ?_⟩⟩
  · obtain ⟨s1, h1, h2⟩ := hparts.1 _ (scalarBlockOfExecution_many S execution hmany)
    exact ⟨s1, hthrow _ _ h1, h2⟩
  · refine hparts.2 _ ?_
    rw [scalarBlockOfExecution_empty S execution name type hnone hsample, if_pos hnull]
  · refine hparts.2 _ ?_
    rw [scalarBlockOfExecution_empty S execution name type hnone hsample, hnull, hcan]
    rfl
  · obtain ⟨s1, h1, h2⟩ := hparts.1 { code := .INCORRECT_RESULT_OF_SCALAR_SUBQUERY } (by
      rw [scalarBlockOfExecution_empty S execution name type hnone hsample, hnull, hcan]
      rfl)
    exact ⟨s1, hthrow _ _ h1, h2⟩

/-- The theorem `evaluateScalarSubqueryIfNeeded_rows` on the subquery `(SELECT 1) AS x` with
an interpreter whose pipeline yields a block of one row, an empty block and another block
of one row: the call throws `INCORRECT_RESULT_OF_SCALAR_SUBQUERY` and the caches are as
before; with a pipeline that yields one empty block of a column of type `UInt8`, the scalar
is a `NULL` of type `Nullable(UInt8)` and the subquery becomes a constant `NULL`. -/
theorem evaluateScalarSubqueryIfNeeded_rows_witness :
    (∃ s1, evaluateScalarSubqueryIfNeeded Example.collaborators
          (Example.scalarCollaboratorsWith
            { sample_block := [("x", .UInt8)],
              blocks := [Example.blockOfX 1, Example.blockOfX 0, Example.blockOfX 1] })
          (Example.scalarSelect1 10 "x") 0 Example.analyzerNoTables
        = (.error { code := .INCORRECT_RESULT_OF_SCALAR_SUBQUERY }, s1)
      ∧ s1.scalar_subquery_to_scalar_value_global
          = Example.analyzerNoTables.scalar_subquery_to_scalar_value_global
      ∧ s1.scalar_subquery_to_scalar_value_local
          = Example.analyzerNoTables.scalar_subquery_to_scalar_value_local
      ∧ s1.query_context_scalars = Example.analyzerNoTables.query_context_scalars
      ∧ s1.context_scalars = Example.analyzerNoTables.context_scalars)
    ∧ (∃ s1, scalarBlockOfSubquery Example.collaborators
          (Example.scalarCollaboratorsWith
            { sample_block := [("x", .UInt8)], blocks := [Example.blockOfX 0] })
          (Example.scalarSelect1 10 "x") 0 Example.analyzerNoTables
        = (.ok ({ columns := [("null", .Nullable .UInt8, .Null)] },
            Example.collaborators.getTreeHash
              (Example.analyzerNoTables.clone (Example.scalarSelect1 10 "x")).1.removeAlias), s1))
    ∧ Example.outcomeOfScalar
        (evaluateScalarSubqueryIfNeeded Example.collaborators
          (Example.scalarCollaboratorsWith
            { sample_block := [("x", .UInt8)], blocks := [Example.blockOfX 0] })
          (Example.scalarSelect1 10 "x") 0 Example.analyzerNoTables)
      = (.returned ["Constant NULL"] [], 1, 0) :=
  ⟨(evaluateScalarSubqueryIfNeeded_rows Example.collaborators
      (Example.scalarCollaboratorsWith
        { sample_block := [("x", .UInt8)],
          blocks := [Example.blockOfX 1, Example.blockOfX 0, Example.blockOfX 1] })
      (Example.scalarSelect1 10 "x") 0 Example.analyzerNoTables _ (Or.inl rfl) rfl rfl rfl rfl
      rfl).1 (by decide),
   ((evaluateScalarSubqueryIfNeeded_rows Example.collaborators
      (Example.scalarCollaboratorsWith
        { sample_block := [("x", .UInt8)], blocks := [Example.blockOfX 0] })
      (Example.scalarSelect1 10 "x") 0 Example.analyzerNoTables _ (Or.inl rfl) rfl rfl rfl rfl
      rfl).2 (by decide) "x" .UInt8 rfl).2.1 rfl rfl,
   by decide!⟩

end QueryAnalyzer
end DB

namespace DB
namespace QueryAnalyzer

/-- A test that holds less often counts less: the count is smaller when an element of the
list passes the weaker test only. -/
theorem countP_lt_countP {α : Type} (p q : α → Bool) (l : List α)
    (himp : ∀ x, p x = true → q x = true) (x : α) (hx : x ∈ l) (hq : q x = true)
    (hp : p x = false) : l.countP p < l.countP q := by
  induction l with
  | nil => cases hx
  | cons y ys ih =>
    have hle : ys.countP p ≤ ys.countP q := List.countP_mono_left (fun z _ hz => himp z hz)
    rw [List.countP_cons, List.countP_cons]
    rcases List.mem_cons.mp hx with h | h
    · subst h
      simp only [hp, hq, Bool.false_eq_true, if_false, if_true]
      omega
    · have := ih h
      by_cases hpy : p y = true
      · simp only [hpy, himp y hpy, if_true]
        omega
      · by_cases hqy : q y = true
        · simp only [hpy, hqy, if_true, if_false, Bool.false_eq_true]
          omega
        · simp only [hpy, hqy, if_false, Bool.false_eq_true]
          omega

/-- The rounds of the loop that makes a fresh column name suffice: when the names of the
existing columns that are as long as `name` or longer are no more than the rounds, the name
returned is not the name of an existing column. -/
theorem freshColumnName_fresh (existing_columns : List String) :
    ∀ (rounds : Nat) (name : String),
      existing_columns.countP (fun column => decide (name.length ≤ column.length)) ≤ rounds →
      existing_columns.contains (freshColumnName existing_columns rounds name) = false := by
  intro rounds
  induction rounds with
  | zero =>
    intro name h
    unfold freshColumnName
    cases hc : existing_columns.contains name with
    | false => rfl
    | true =>
      have hmem : name ∈ existing_columns := by simpa using hc
      have : 0 < existing_columns.countP (fun column => decide (name.length ≤ column.length)) :=
        List.countP_pos_iff.mpr ⟨name, hmem, by simp⟩
      omega
  | succ rounds ih =>
    intro name h
    unfold freshColumnName
    cases hc : existing_columns.contains name with
    | false => simp only [Bool.false_eq_true, if_false, hc]
    | true =>
      simp only [if_true]
      apply ih
      have hmem : name ∈ existing_columns := by simpa using hc
      have hlen : ("_" ++ name).length = name.length + 1 := by
        rw [String.length_append]
        show 1 + name.length = name.length + 1
        omega
      have hlt : existing_columns.countP
            (fun column => decide (("_" ++ name).length ≤ column.length))
          < existing_columns.countP (fun column => decide (name.length ≤ column.length)) := by
        refine countP_lt_countP _ _ _ (fun column hcol => ?_) name hmem (by simp) (by simp [hlen])
        simp only [decide_eq_true_eq] at hcol ⊢
        omega
      omega

/-- The name that `resolveJoin` gives to a column made of an alias of the projection is
not the name of a column of the left table expression: the rounds that the embedding
allows the loop, one for each existing column, are enough. -/
theorem freshColumnName_not_existing (existing_columns : List String) (name : String) :
    existing_columns.contains
      (freshColumnName existing_columns existing_columns.length name) = false :=
  freshColumnName_fresh existing_columns existing_columns.length name (List.countP_le_length _)

/-- Without `analyzer_compatibility_join_using_top_level_identifier`, the left column of a
`USING` identifier is what the lookup of the identifier in the left table expression
gives. -/
theorem resolveJoinUsingLeft_lookup (E : Collaborators) (M : MatcherCollaborators)
    (J : JoinCollaborators) (R : Resolver) (join_node_typed : JoinNode QueryTreeNode)
    (scope : Nat) (identifier_node : IdentifierNode) (s : QueryAnalyzer)
    (hsetting : (s.scopes scope).context.settings.analyzer_compatibility_join_using_top_level_identifier
      = false) :
    resolveJoinUsingLeft E M J R join_node_typed scope identifier_node s
      = ((J.tryResolveIdentifierFromJoinTreeNode
            { identifier := identifier_node.identifier, lookup_context := .EXPRESSION }
            join_node_typed.left_table_expression (s.scopes scope)).map
          (fun result => result.resolved_identifier), s) := by
  unfold resolveJoinUsingLeft
  simp only [RM.bind_eq, RM.pure_eq, RM.getScope_andThen, hsetting, Bool.false_eq_true, if_false,
    RM.ret_andThen]
  cases J.tryResolveIdentifierFromJoinTreeNode
      { identifier := identifier_node.identifier, lookup_context := .EXPRESSION }
      join_node_typed.left_table_expression (s.scopes scope) <;> rfl

/-- C21: in the body of the loop of `resolveJoin` over a `USING` clause, for an identifier
that is not yet in the clause, whose left column is the column `left` and for which the
lookup in the right table expression gives the column `right`: when the types of the two
columns have no least supertype, the body throws `NO_COMMON_TYPE`; when they have one, the
identifier node is replaced by a new column node with the name of the identifier, the
least supertype as its type, the join node as its source and the list of `left` and
`right` as its expression.  The two columns are looked up on their own sides: `right` in
the right table expression, and `left`, unless
`analyzer_compatibility_join_using_top_level_identifier` is set, in the left one. -/
theorem resolveJoinUsingNode_common_type (E : Collaborators) (M : MatcherCollaborators)
    (J : JoinCollaborators) (R : Resolver) (join_node : Nat)
    (join_node_typed : JoinNode QueryTreeNode) (scope : Nat)
    (join_using_identifiers : List String) (a : Nat) (al : String)
    (identifier_node : IdentifierNode) (s s1 : QueryAnalyzer)
    (la : Nat) (lal : String) (cl : ColumnNode QueryTreeNode)
    (ra : Nat) (ral : String) (cr : ColumnNode QueryTreeNode)
    (right_result : IdentifierResolveResult)
    (hnew : join_using_identifiers.contains identifier_node.identifier.getFullName = false)
    (hleft : resolveJoinUsingLeft E M J R join_node_typed scope identifier_node s
      = (.ok (some (.COLUMN la lal cl)), s1))
    (hright : J.tryResolveIdentifierFromJoinTreeNode
        { identifier := Identifier.ofString
            (if (QueryTreeNode.IDENTIFIER a al identifier_node).hasAlias then al
              else identifier_node.identifier.getFullName),
          lookup_context := .EXPRESSION }
        join_node_typed.right_table_expression (s1.scopes scope) = .ok right_result)
    (hcolumn : right_result.resolved_identifier = some (.COLUMN ra ral cr)) :
    (M.tryGetLeastSupertype [cl.column_type, cr.column_type] = none →
      resolveJoinUsingNode E M J R join_node join_node_typed scope join_using_identifiers
          (.IDENTIFIER a al identifier_node) s
        = (.error { code := .NO_COMMON_TYPE,
                    args := [identifier_node.identifier.getFullName] }, s1))
    ∧ (∀ type, M.tryGetLeastSupertype [cl.column_type, cr.column_type] = some type →
      resolveJoinUsingNode E M J R join_node join_node_typed scope join_using_identifiers
          (.IDENTIFIER a al identifier_node) s
        = (.ok (.COLUMN (s1.next_addr + 1) ""
              { column_name := identifier_node.identifier.getFullName, column_type := type,
                column_source := join_node,
                expression := some (.LIST s1.next_addr ""
                  { nodes := [.COLUMN la lal cl, .COLUMN ra ral cr] }),
                column_source_type := .JOIN },
            join_using_identifiers ++ [identifier_node.identifier.getFullName]),
           { s1 with next_addr := s1.next_addr + 2 }))
    ∧ ((s.scopes scope).context.settings.analyzer_compatibility_join_using_top_level_identifier
        = false →
      s1 = s ∧ (J.tryResolveIdentifierFromJoinTreeNode
            { identifier := identifier_node.identifier, lookup_context := .EXPRESSION }
            join_node_typed.left_table_expression (s.scopes scope)).map
          (fun result => result.resolved_identifier) = .ok (some (.COLUMN la lal cl))) := by
  have hstart : resolveJoinUsingNode E M J R join_node join_node_typed scope
      join_using_identifiers (.IDENTIFIER a al identifier_node) s
      = ((makeJoinUsingColumn E M (.COLUMN la lal cl) (.COLUMN ra ral cr)
            identifier_node.identifier.getFullName join_node).andThen
          (fun join_using_column_node => RM.ret (join_using_column_node,
            join_using_identifiers ++ [identifier_node.identifier.getFullName]))) s1 := by
    unfold resolveJoinUsingNode
    simp only [hnew, Bool.false_eq_true, if_false, RM.bind_eq, RM.pure_eq]
    rw [RM.andThen_ok hleft]
    simp only [QueryTreeNode.getNodeType, bne_self_eq_false, Bool.false_eq_true, if_false,
      RM.getScope_andThen, QueryTreeNode.getAlias, hright, RM.lift_ok_andThen, hcolumn]
  refine ⟨fun hnone => ?_, fun type hsome => ?_, fun hsetting => ?_⟩
  · rw [hstart]
    unfold makeJoinUsingColumn
    simp only [RM.bind_eq, RM.pure_eq, QueryTreeNode.getResultType, RM.lift_ok_andThen_eq, hnone]
    rfl
  · rw [hstart]
    unfold makeJoinUsingColumn
    simp only [RM.bind_eq, RM.pure_eq, QueryTreeNode.getResultType, RM.lift_ok_andThen_eq, hsome]
    rfl
  · rw [resolveJoinUsingLeft_lookup E M J R join_node_typed scope identifier_node s hsetting]
      at hleft
    simp only [Prod.mk.injEq] at hleft
    exact ⟨hleft.2.symm, hleft.1⟩

/-- The theorem `resolveJoinUsingNode_common_type` on `t1 JOIN t2` with
`t1 (id UInt8, a UInt64, s String)` and `t2 (id UInt64, b UInt64, s UInt64)`: the identifier
`id` of `USING (id)` becomes the column `id` of type `UInt64` over `t1.id` and `t2.id`; the
identifier `s` of `USING (s)` fails with `NO_COMMON_TYPE`; and `USING (id, a AS b)` becomes
the columns `id` over `t1.id` and `t2.id` and `a` over `t1.a` and `t2.b`. -/
theorem resolveJoinUsingNode_common_type_witness :
    resolveJoinUsingNode Example.collaborators Example.matcherCollaborators
        Example.joinCollaborators
        (resolver Example.collaborators Example.scalarCollaborators Example.unmodelled 8) 52
        { left_table_expression := Example.tableT1, right_table_expression := Example.tableT2,
          join_expression := none, kind := .Inner } 0 []
        (.IDENTIFIER 80 "" { identifier := ⟨["id"]⟩ }) (Example.analyzerOver Example.scopeJoinT1T2)
      = (.ok (.COLUMN 101 ""
            { column_name := "id", column_type := .UInt64, column_source := 52,
              expression := some (.LIST 100 ""
                { nodes := [Example.columnT1Id, Example.columnT2Id] }),
              column_source_type := .JOIN }, ["id"]),
         { Example.analyzerOver Example.scopeJoinT1T2 with next_addr := 102 })
    ∧ resolveJoinUsingNode Example.collaborators Example.matcherCollaborators
        Example.joinCollaborators
        (resolver Example.collaborators Example.scalarCollaborators Example.unmodelled 8) 52
        { left_table_expression := Example.tableT1, right_table_expression := Example.tableT2,
          join_expression := none, kind := .Inner } 0 []
        (.IDENTIFIER 80 "" { identifier := ⟨["s"]⟩ }) (Example.analyzerOver Example.scopeJoinT1T2)
      = (.error { code := .NO_COMMON_TYPE, args := ["s"] },
         Example.analyzerOver Example.scopeJoinT1T2)
    ∧ Example.outcomeOfJoin
        (resolveJoinUsing Example.collaborators Example.matcherCollaborators
          Example.joinCollaborators
          (resolver Example.collaborators Example.scalarCollaborators Example.unmodelled 8)
          (Example.joinUsing [("id", ""), ("a", "b")]) 0
          (Example.analyzerOver Example.scopeJoinT1T2))
      = .inr [("id", "UInt64", [("id", 50), ("id", 51)]),
              ("a", "UInt64", [("a", 50), ("b", 51)])] :=
  ⟨(resolveJoinUsingNode_common_type Example.collaborators Example.matcherCollaborators
      Example.joinCollaborators
      (resolver Example.collaborators Example.scalarCollaborators Example.unmodelled 8) 52
      { left_table_expression := Example.tableT1, right_table_expression := Example.tableT2,
        join_expression := none, kind := .Inner } 0 [] 80 "" { identifier := ⟨["id"]⟩ }
      (Example.analyzerOver Example.scopeJoinT1T2) (Example.analyzerOver Example.scopeJoinT1T2)
      60 "" { column_name := "id", column_type := .UInt8, column_source := 50, expression := none }
      62 "" { column_name := "id", column_type := .UInt64, column_source := 51, expression := none }
      { resolved_identifier := some Example.columnT2Id, resolve_place := .JOIN_TREE }
      rfl rfl rfl rfl).2.1 .UInt64 rfl,
   (resolveJoinUsingNode_common_type Example.collaborators Example.matcherCollaborators
      Example.joinCollaborators
      (resolver Example.collaborators Example.scalarCollaborators Example.unmodelled 8) 52
      { left_table_expression := Example.tableT1, right_table_expression := Example.tableT2,
        join_expression := none, kind := .Inner } 0 [] 80 "" { identifier := ⟨["s"]⟩ }
      (Example.analyzerOver Example.scopeJoinT1T2) (Example.analyzerOver Example.scopeJoinT1T2)
      64 "" { column_name := "s", column_type := .String, column_source := 50, expression := none }
      65 "" { column_name := "s", column_type := .UInt64, column_source := 51, expression := none }
      { resolved_identifier := some (Example.typedColumn 65 "s" .UInt64 51),
        resolve_place := .JOIN_TREE }
      rfl rfl rfl rfl).1 rfl,
   by decide!⟩

end QueryAnalyzer
end DB

namespace DB
namespace QueryAnalyzer

/-- The folding block of `resolveFunction` returns the function node resolved as an
ordinary function and, with it, a constant only if the column that the function computed
is a constant column below `1_MiB` and the call holds neither an aggregate function nor
`arrayJoin`. -/
theorem buildAndFoldFunction_constant (E : Collaborators) (function : FunctionOverloadResolver)
    (function_cache : Option (Nat × ResolvedFunctionsCache)) (frame : FunctionFrame)
    (scope : Nat) (s : QueryAnalyzer) :
    (buildAndFoldFunction E function function_cache frame scope).Post s (fun r _ =>
      ∃ function_base : FunctionBase,
        r.1 = { frame with
          function_node := frame.function_node.resolveAsFunction function_base } ∧
        ∀ k, r.2 = some k →
          ∃ c : ResultColumn,
            (if frame.all_arguments_constants then function_base.execute frame.argument_columns
             else function_base.getConstantResultForNonConstArguments frame.argument_columns)
              = .ok (some c) ∧
            k = { value := c.value, result_type := function_base.result_type,
                  source_expression := some r.1.node } ∧
            c.byte_size < ONE_MiB ∧
            E.hasAggregateFunctionNodes frame.node = false ∧
            E.hasFunctionNode frame.node "arrayJoin" = false ∧
            c.is_const = true ∧ c.is_dummy = false) := by
  unfold buildAndFoldFunction
  simp only [RM.bind_eq, RM.pure_eq]
  split <;> [split; skip]
  all_goals repeat refine post_andThen_all _ _ _ _ (fun _ _ => ?_)
  all_goals
    split
    · split
      · refine RM.post_andThen_run _ _ _ _ (fun y s3 hy => ?_)
        simp only [RM.lift, Prod.mk.injEq] at hy
        split
        · split
          · exact RM.post_andThen_run _ _ _ _ (fun _ _ h => by simp [RM.throw] at h)
          · refine RM.post_ret_andThen _ _ _ _ ?_
            refine post_andThen_all _ _ _ _ (fun _ _ => RM.post_ret _ _ _ ⟨_, rfl, ?_⟩)
            intro k hk
            rename_i c _ _ _
            by_cases hc : (c.is_const && !c.is_dummy && !E.hasAggregateFunctionNodes frame.node
                && !E.hasFunctionNode frame.node "arrayJoin"
                && decide (c.byte_size < ONE_MiB)) = true
            · simp only [hc, if_true, Option.some.injEq] at hk
              simp only [Bool.and_eq_true, Bool.not_eq_true', decide_eq_true_eq] at hc
              refine ⟨c, ?_, hk.symm, hc.2, hc.1.1.2, hc.1.2, hc.1.1.1.1, hc.1.1.1.2⟩
              simp only [*, if_true, if_false, Bool.false_eq_true]
            · simp only [hc, if_false] at hk
              cases hk
        · refine RM.post_ret_andThen _ _ _ _ ?_; exact post_andThen_all _ _ _ _ (fun _ _ => RM.post_ret _ _ _ ⟨_, rfl, nofun⟩)
      · refine RM.post_andThen_run _ _ _ _ (fun y s3 hy => ?_)
        simp only [RM.lift, Prod.mk.injEq] at hy
        split
        · split
          · exact RM.post_andThen_run _ _ _ _ (fun _ _ h => by simp [RM.throw] at h)
          · refine RM.post_ret_andThen _ _ _ _ ?_
            refine post_andThen_all _ _ _ _ (fun _ _ => RM.post_ret _ _ _ ⟨_, rfl, ?_⟩)
            intro k hk
            rename_i c _ _ _
            by_cases hc : (c.is_const && !c.is_dummy && !E.hasAggregateFunctionNodes frame.node
                && !E.hasFunctionNode frame.node "arrayJoin"
                && decide (c.byte_size < ONE_MiB)) = true
            · simp only [hc, if_true, Option.some.injEq] at hk
              simp only [Bool.and_eq_true, Bool.not_eq_true', decide_eq_true_eq] at hc
              refine ⟨c, ?_, hk.symm, hc.2, hc.1.1.2, hc.1.2, hc.1.1.1.1, hc.1.1.1.2⟩
              simp only [*, if_true, if_false, Bool.false_eq_true]
            · simp only [hc, if_false] at hk
              cases hk
        · refine RM.post_ret_andThen _ _ _ _ ?_; exact post_andThen_all _ _ _ _ (fun _ _ => RM.post_ret _ _ _ ⟨_, rfl, nofun⟩)
    · refine RM.post_ret_andThen _ _ _ _ ?_; exact post_andThen_all _ _ _ _ (fun _ _ => RM.post_ret _ _ _ ⟨_, rfl, nofun⟩)

/-- A function resolved as an aggregate function stays a function node. -/
theorem resolveAsAggregateFunction_node (E : Collaborators) (X : Unmodelled)
    (frame : FunctionFrame) (scope : Nat) (s : QueryAnalyzer) :
    (resolveAsAggregateFunction E X frame scope).Post s (fun r _ =>
      ∃ (fr : FunctionFrame) (fn : FunctionNode QueryTreeNode),
        r.1 = .FUNCTION fr.addr fr.node_alias fn ∧ fn.result_type.isSome = true ∧
        (fn.kind = .ORDINARY ∨ fn.kind = .AGGREGATE)) := by
  unfold resolveAsAggregateFunction
  simp only [RM.bind_eq, RM.pure_eq]
  refine RM.post_ite _ _ _ _ _ (fun _ => RM.post_throw _ _ _) (fun _ => ?_)
  refine RM.post_ite _ _ _ _ _ (fun _ => RM.post_throw _ _ _) (fun _ => ?_)
  refine post_andThen_all _ _ _ _ (fun sc s1 => ?_)
  refine post_andThen_all _ _ _ _ (fun result_type s2 => ?_)
  refine post_andThen_all _ _ _ _ (fun _ s3 => ?_)
  exact RM.post_ret _ _ _ ⟨_, _, rfl, rfl, Or.inr rfl⟩

/-- What the end of `resolveFunction` returns: a resolved function node, or a constant
computed from a column below `1_MiB` for a call without aggregate functions and without
`arrayJoin`. -/
theorem resolveAsOrdinaryOrAggregate_result (E : Collaborators) (X : Unmodelled)
    (R : Resolver) (frame : FunctionFrame) (scope : Nat) (s : QueryAnalyzer) :
    (resolveAsOrdinaryOrAggregate E X R frame scope).Post s (fun r _ =>
      (∃ (fr : FunctionFrame) (fn : FunctionNode QueryTreeNode),
        r.1 = .FUNCTION fr.addr fr.node_alias fn ∧ fn.result_type.isSome = true ∧
        (fn.kind = .ORDINARY ∨ fn.kind = .AGGREGATE)) ∨
      (∃ (fr : FunctionFrame) (function_base : FunctionBase) (c : ResultColumn) (a : Nat),
        r.1 = .CONSTANT a ""
          { value := c.value, result_type := function_base.result_type,
            source_expression := some (.FUNCTION fr.addr fr.node_alias
              (fr.function_node.resolveAsFunction function_base)) } ∧
        (if fr.all_arguments_constants then function_base.execute fr.argument_columns
         else function_base.getConstantResultForNonConstArguments fr.argument_columns)
          = .ok (some c) ∧
        c.byte_size < ONE_MiB ∧
        E.hasAggregateFunctionNodes (.FUNCTION fr.addr fr.node_alias fr.function_node) = false ∧
        E.hasFunctionNode (.FUNCTION fr.addr fr.node_alias fr.function_node) "arrayJoin"
          = false)) := by
  have tail : ∀ (function : FunctionOverloadResolver)
      (function_cache : Option (Nat × ResolvedFunctionsCache)) (y : FunctionFrame)
      (s : QueryAnalyzer),
      ((buildAndFoldFunction E function function_cache y scope).andThen fun r =>
        match r.2 with
        | some constant_node =>
          RM.allocate.andThen fun constant_addr =>
            RM.ret (QueryTreeNode.CONSTANT constant_addr "" constant_node,
              r.1.result_projection_names)
        | none => RM.ret (r.1.node, r.1.result_projection_names)).Post s (fun r _ =>
      (∃ (fr : FunctionFrame) (fn : FunctionNode QueryTreeNode),
        r.1 = .FUNCTION fr.addr fr.node_alias fn ∧ fn.result_type.isSome = true ∧
        (fn.kind = .ORDINARY ∨ fn.kind = .AGGREGATE)) ∨
      (∃ (fr : FunctionFrame) (function_base : FunctionBase) (c : ResultColumn) (a : Nat),
        r.1 = .CONSTANT a ""
          { value := c.value, result_type := function_base.result_type,
            source_expression := some (.FUNCTION fr.addr fr.node_alias
              (fr.function_node.resolveAsFunction function_base)) } ∧
        (if fr.all_arguments_constants then function_base.execute fr.argument_columns
         else function_base.getConstantResultForNonConstArguments fr.argument_columns)
          = .ok (some c) ∧
        c.byte_size < ONE_MiB ∧
        E.hasAggregateFunctionNodes (.FUNCTION fr.addr fr.node_alias fr.function_node) = false ∧
        E.hasFunctionNode (.FUNCTION fr.addr fr.node_alias fr.function_node) "arrayJoin"
          = false)) := by
    intro function function_cache y s
    refine RM.post_andThen_run _ _ _ _ (fun r s1 hr => ?_)
    obtain ⟨function_base, h1, h2⟩ :=
      buildAndFoldFunction_constant E function function_cache y scope s r s1 hr
    cases hk : r.2 with
    | none =>
      refine RM.post_ret _ _ _ (Or.inl ⟨y, y.function_node.resolveAsFunction function_base, ?_,
        rfl, Or.inl rfl⟩)
      rw [h1]; rfl
    | some k =>
      obtain ⟨c, hc, hk1, hsize, hagg, harr, _, _⟩ := h2 k hk
      refine post_andThen_all _ _ _ _ (fun a s2 => RM.post_ret _ _ _ (Or.inr
        ⟨y, function_base, c, a, ?_, hc, hsize, hagg, harr⟩))
      rw [hk1, h1]; rfl
  unfold resolveAsOrdinaryOrAggregate
  simp only [RM.bind_eq, RM.pure_eq]
  refine post_andThen_all _ _ _ _ (fun sc s1 => ?_)
  refine post_andThen_all _ _ _ _ (fun executable s2 => ?_)
  have sets : ∀ (function : FunctionOverloadResolver)
      (function_cache : Option (Nat × ResolvedFunctionsCache)) (y : FunctionFrame)
      (s : QueryAnalyzer),
      (if y.is_special_function_in = true then
        (X.createSetForIn y scope).andThen fun y =>
          (buildAndFoldFunction E function function_cache y scope).andThen fun r =>
            match r.2 with
            | some constant_node =>
              RM.allocate.andThen fun constant_addr =>
                RM.ret (QueryTreeNode.CONSTANT constant_addr "" constant_node,
                  r.1.result_projection_names)
            | none => RM.ret (r.1.node, r.1.result_projection_names)
       else
        (RM.ret y).andThen fun y =>
          (buildAndFoldFunction E function function_cache y scope).andThen fun r =>
            match r.2 with
            | some constant_node =>
              RM.allocate.andThen fun constant_addr =>
                RM.ret (QueryTreeNode.CONSTANT constant_addr "" constant_node,
                  r.1.result_projection_names)
            | none => RM.ret (r.1.node, r.1.result_projection_names)).Post s _ :=
    fun function function_cache y s =>
      RM.post_ite _ _ _ _ _
        (fun _ => post_andThen_all _ _ _ _ (fun y1 s1 => tail function function_cache y1 s1))
        (fun _ => RM.post_ret_andThen _ _ _ _ (tail function function_cache y s))
  split
  · refine RM.post_ret_andThen _ _ _ _ ?_
    simp only []
    refine post_andThen_all _ _ _ _ (fun _ _ => ?_)
    refine RM.post_ite _ _ _ _ _ (fun _ => RM.post_throw _ _ _) (fun _ => ?_)
    refine RM.post_ite _ _ _ _ _ (fun _ => ?_) (fun _ => ?_)
    · refine post_andThen_all _ _ _ _ (fun _ _ => ?_)
      refine RM.post_ret_andThen _ _ _ _ ?_
      exact sets _ _ _ _
    · refine RM.post_ret_andThen _ _ _ _ ?_
      exact sets _ _ _ _
  · refine post_andThen_all _ _ _ _ (fun _ _ => ?_)
    refine RM.post_ret_andThen _ _ _ _ ?_
    simp only []
    split
    · exact post_mono _ _ _ _ (resolveAsAggregateFunction_node E X frame scope _)
        (fun _ _ h => Or.inl h)
    · refine post_andThen_all _ _ _ _ (fun _ _ => ?_)
      refine RM.post_ite _ _ _ _ _ (fun _ => RM.post_throw _ _ _) (fun _ => ?_)
      refine RM.post_ite _ _ _ _ _ (fun _ => ?_) (fun _ => ?_)
      · refine post_andThen_all _ _ _ _ (fun _ _ => ?_)
        refine RM.post_ret_andThen _ _ _ _ ?_
        exact sets _ _ _ _
      · refine RM.post_ret_andThen _ _ _ _ ?_
        exact sets _ _ _ _

/-- The call `small()`, whose constant result is one byte below 1 MiB, is replaced by the
constant. -/
theorem resolveAsOrdinaryOrAggregate_small :
    Example.outcomeOfNode (resolveAsOrdinaryOrAggregate Example.collaboratorsWithSizes
      Example.unmodelled stackExhausted (Example.frameOfCall "small") 0
      Example.analyzerNoTables) = .returned ["Constant 'x'"] ["small()"] := by
  decide

/-- The call `large()`, whose constant result occupies 1 MiB, stays a function node. -/
theorem resolveAsOrdinaryOrAggregate_large :
    Example.outcomeOfNode (resolveAsOrdinaryOrAggregate Example.collaboratorsWithSizes
      Example.unmodelled stackExhausted (Example.frameOfCall "large") 0
      Example.analyzerNoTables) = .returned ["Function large()"] ["large()"] := by
  decide

/-- Nothing runs after an exception is thrown. -/
theorem throw_andThen_eq {α β : Type} (e : Exception) (f : α → RM β) :
    (RM.throw e : RM α).andThen f = RM.throw e := rfl

end QueryAnalyzer
end DB

namespace DB
namespace QueryAnalyzer

/-- The loop over the arguments of a lambda leaves the lambdas in resolve process
alone. -/
theorem registerLambdaArguments_lambdas (scope : Nat) (arguments : List (String × QueryTreeNode))
    (s : QueryAnalyzer) :
    (registerLambdaArguments scope arguments).Post s (fun _ s1 =>
      s1.lambdas_in_resolve_process = s.lambdas_in_resolve_process) := by
  induction arguments generalizing s with
  | nil => exact RM.post_ret _ _ _ rfl
  | cons argument rest ih =>
    obtain ⟨lambda_argument_name, lambda_argument⟩ := argument
    unfold registerLambdaArguments
    simp only [RM.bind_eq, RM.pure_eq]
    refine RM.post_getScope_andThen _ _ _ _ ?_
    refine RM.post_ite _ _ _ _ _ (fun _ => RM.post_throw _ _ _) (fun _ => ?_)
    refine RM.post_andThen_run _ _ _ _ (fun _ s1 h1 => ?_)
    have hs : s1.lambdas_in_resolve_process = s.lambdas_in_resolve_process := by
      simp only [RM.modifyScope, RM.modify, Prod.mk.injEq] at h1
      rw [← h1.2]; rfl
    exact post_mono _ _ _ _ (ih s1) (fun _ _ h => h.trans hs)

/-- A lambda that is in the set of the lambdas in resolve process is rejected with
`UNSUPPORTED_METHOD`, and the state stays as it is. -/
theorem resolveLambda_recursive (key : QueryTreeNode → Nat)
    (visit : ScopeAliases → QueryTreeNode → Except Exception ScopeAliases) (R : Resolver)
    (lambda_node : QueryTreeNode) (addr : Nat) (node_alias : String)
    (lambda_to_resolve : LambdaNode QueryTreeNode) (lambda_arguments : QueryTreeNodes)
    (scope : Nat) (s : QueryAnalyzer)
    (h : key lambda_node ∈ s.lambdas_in_resolve_process) :
    resolveLambda key visit R lambda_node (.LAMBDA addr node_alias lambda_to_resolve)
        lambda_arguments scope s
      = (.error { code := .UNSUPPORTED_METHOD, args := [lambda_node.getAlias] }, s) := by
  have hc : s.lambdas_in_resolve_process.contains (key lambda_node) = true := by
    simpa using h
  unfold resolveLambda
  simp only [RM.bind_eq, RM.pure_eq, RM.get_andThen, hc, if_true]
  rfl

/-- A call of `resolveLambda` that returns normally leaves the set of the lambdas in
resolve process as it was, provided the resolution of the body leaves it so. -/
theorem resolveLambda_keeps_lambdas (key : QueryTreeNode → Nat)
    (visit : ScopeAliases → QueryTreeNode → Except Exception ScopeAliases) (R : Resolver)
    (hR : ∀ node scope a b c (t : QueryAnalyzer),
      (R.resolveExpressionNode node scope a b c).Post t (fun _ t1 =>
        t1.lambdas_in_resolve_process = t.lambdas_in_resolve_process))
    (lambda_node lambda_node_to_resolve : QueryTreeNode) (lambda_arguments : QueryTreeNodes)
    (scope : Nat) (s : QueryAnalyzer) :
    (resolveLambda key visit R lambda_node lambda_node_to_resolve lambda_arguments scope).Post s
      (fun _ s1 => s1.lambdas_in_resolve_process = s.lambdas_in_resolve_process) := by
  unfold resolveLambda
  split
  · simp only [RM.bind_eq, RM.pure_eq]
    refine RM.post_get_andThen _ _ _ ?_
    refine RM.post_ite _ _ _ _ _ (fun _ => RM.post_throw _ _ _) (fun hn => ?_)
    refine RM.post_modify_andThen _ _ _ _ ?_
    refine RM.post_ite _ _ _ _ _ (fun _ => RM.post_throw _ _ _) (fun _ => ?_)
    refine RM.post_getScope_andThen _ _ _ _ ?_
    refine RM.post_lift_andThen _ _ _ _ (fun aliases _ => ?_)
    refine RM.post_andThen_run _ _ _ _ (fun _ s1 h1 => ?_)
    have hs1 : s1.lambdas_in_resolve_process = key lambda_node :: s.lambdas_in_resolve_process := by
      simp only [RM.modifyScope, RM.modify, Prod.mk.injEq] at h1
      rw [← h1.2]; rfl
    refine RM.post_andThen_run _ _ _ _ (fun _ s2 h2 => ?_)
    have hs2 := registerLambdaArguments_lambdas _ _ _ _ _ h2
    refine RM.post_andThen_run _ _ _ _ (fun r s3 h3 => ?_)
    have hs3 := hR _ _ _ _ _ _ _ _ h3
    refine RM.post_modify_andThen _ _ _ _ (RM.post_ret _ _ _ ?_)
    show s3.lambdas_in_resolve_process.filter (fun k => k != key lambda_node)
      = s.lambdas_in_resolve_process
    rw [hs3, hs2, hs1]
    have hnot : key lambda_node ∉ s.lambdas_in_resolve_process := by
      intro hm
      exact hn (by simpa using hm)
    rw [List.filter_cons_of_neg (by simp)]
    exact List.filter_eq_self.mpr (fun k hk => by
      have : k ≠ key lambda_node := fun e => hnot (e ▸ hk)
      simpa using this)
  · exact RM.post_throw _ _ _

/-- C23: a call of `resolveLambda` that returns normally and leaves another lambda in the
set of the lambdas in resolve process.  With
`WITH (x -> tupleElement(x, '1')) AS f, (y -> if(1, y, f(y))) AS g`, the call for `g(7)`
starts with an empty set and returns the body `7`; the nested call for `f(7)` has thrown
inside the block of `if` that swallows exceptions, and `f` stays in the set, whether the
set compares trees or addresses.  When the set compares trees, `f((5, 6))`, which resolves
to `5` on its own, is rejected as recursive after `g(7)`. -/
theorem resolveLambda_leaves_lambda_registered :
    Example.analyzerWithLambdas.lambdas_in_resolve_process = []
    ∧ (Example.outcomeOfNode (Example.resolveLambdaG Example.treeHash),
        Example.describeBody
          (match (Example.resolveLambdaG Example.treeHash).1 with
           | .ok r => r.1
           | .error _ => Example.lambdaG))
      = (.returned ["Lambda AS g"] ["y"], "Constant 7")
    ∧ (Example.resolveLambdaG Example.treeHash).2.lambdas_in_resolve_process
      = [Example.treeHash Example.lambdaF]
    ∧ (Example.resolveLambdaG QueryTreeNode.addr).2.lambdas_in_resolve_process.length = 1
    ∧ Example.outcomeOfList
        ((resolver Example.collaborators Example.scalarCollaborators
            (Example.unmodelledButLambda Example.treeHash) 30).resolveExpressionNodeList
          [Example.unresolvedCall 3 "f" "" [Example.tuple56]] 0 false false
          Example.analyzerWithLambdas)
      = .returned ["Constant 5"] ["f((5, 6))"]
    ∧ Example.outcomeOfList
        ((resolver Example.collaborators Example.scalarCollaborators
            (Example.unmodelledButLambda Example.treeHash) 30).resolveExpressionNodeList
          [Example.unresolvedCall 1 "g" "" [Example.literal 2 7],
           Example.unresolvedCall 3 "f" "" [Example.tuple56]] 0 false false
          Example.analyzerWithLambdas)
      = .threw { code := .UNSUPPORTED_METHOD, args := ["f"] } := by
  refine ⟨rfl, by decide!, by decide!, by decide!, by decide!, by decide!⟩

/-- The lambdas of `WITH (x -> x + lambda_2(x)) AS lambda_1, (x -> x + lambda_1(x)) AS
lambda_2 SELECT lambda_1(7)` are rejected with `UNSUPPORTED_METHOD` when the set compares
the trees of the lambdas. -/
theorem resolveExpressionNode_mutual_lambdas :
    Example.outcomeOfNode
        ((resolver Example.collaborators Example.scalarCollaborators
            (Example.unmodelledButLambda Example.treeHash) 30).resolveExpressionNode
          (Example.unresolvedCall 1 "lambda_1" "" [Example.literal 2 7]) 0 false false false
          Example.analyzerWithLambdas)
      = .threw { code := .UNSUPPORTED_METHOD, args := ["lambda_1"] } := by
  decide!

end QueryAnalyzer
end DB

namespace DB
namespace QueryAnalyzer

/-- The loop over the arguments appends what the arguments contribute, from left to
right, when the recursive call does so for each argument. -/
theorem collectFromArguments_eq
    (collect : QueryTreeNode → QueryTreeNodes → Except Exception ((Bool × Nat) × QueryTreeNodes))
    (stack : Nat)
    (hc : ∀ node into, node.callDepth ≤ stack →
      collect node into = .ok
        ((node.isAggregateOrGrouping || node.hasAggregateInArguments,
          node.maxOrdinaryExpressions.length), into ++ node.maxOrdinaryExpressions))
    (arguments : QueryTreeNodes) (hd : QueryTreeNode.callDepthList arguments ≤ stack)
    (has_aggregate : Bool) (pushed_children : Nat) (into : QueryTreeNodes) :
    collectFromArguments collect arguments has_aggregate pushed_children into = .ok
      ((has_aggregate || QueryTreeNode.anyAggregate arguments,
        pushed_children + (QueryTreeNode.maxOrdinaryExpressionsOfList arguments).length),
       into ++ QueryTreeNode.maxOrdinaryExpressionsOfList arguments) := by
  induction arguments generalizing has_aggregate pushed_children into with
  | nil =>
    simp [collectFromArguments, QueryTreeNode.anyAggregate,
      QueryTreeNode.maxOrdinaryExpressionsOfList]
  | cons child rest ih =>
    simp only [QueryTreeNode.callDepthList, max_le_iff] at hd
    unfold collectFromArguments
    rw [hc child into hd.1]
    simp only
    rw [ih hd.2]
    simp [QueryTreeNode.anyAggregate, QueryTreeNode.maxOrdinaryExpressionsOfList,
      Bool.or_assoc, Nat.add_assoc]

/-- C24: whenever the call stack has room for the nesting depth of the node,
`recursivelyCollectMaxOrdinaryExpressions` returns and appends to `into` exactly the keys
of the specification, in their order, and returns their number and whether the node is
or holds an aggregate, window or `grouping` function.  By the specification a function that
is none of these and has none among its transitive function arguments contributes exactly
itself, and a function that is none of these but has one contributes what its arguments
contribute, from left to right. -/
theorem recursivelyCollectMaxOrdinaryExpressions_maximal (stack : Nat) (node : QueryTreeNode)
    (into : QueryTreeNodes) (hd : node.callDepth ≤ stack) :
    recursivelyCollectMaxOrdinaryExpressions stack node into = .ok
        ((node.isAggregateOrGrouping || node.hasAggregateInArguments,
          node.maxOrdinaryExpressions.length), into ++ node.maxOrdinaryExpressions)
    ∧ (∀ a al f, node = .FUNCTION a al f → f.isAggregateOrGrouping = false →
        QueryTreeNode.anyAggregate f.arguments = false →
        node.maxOrdinaryExpressions = [node])
    ∧ (∀ a al f, node = .FUNCTION a al f → f.isAggregateOrGrouping = false →
        QueryTreeNode.anyAggregate f.arguments = true →
        node.maxOrdinaryExpressions = QueryTreeNode.maxOrdinaryExpressionsOfList f.arguments) := by
  refine ⟨?_, ?_, ?_⟩
  · induction stack generalizing node into with
    | zero => cases node <;> simp [QueryTreeNode.callDepth] at hd
    | succ stack ih =>
      unfold recursivelyCollectMaxOrdinaryExpressions
      split
      · simp [QueryTreeNode.isAggregateOrGrouping, QueryTreeNode.hasAggregateInArguments,
          QueryTreeNode.maxOrdinaryExpressions]
      · rename_i a al function
        by_cases hagg : function.isAggregateOrGrouping = true
        · simp [hagg, QueryTreeNode.isAggregateOrGrouping, QueryTreeNode.maxOrdinaryExpressions]
        · simp only [QueryTreeNode.callDepth, Nat.add_le_add_iff_right] at hd
          rw [if_neg hagg]
          rw [collectFromArguments_eq _ stack (fun n i hn => ih n i hn) function.arguments hd]
          simp only [Bool.false_or, Nat.zero_add]
          by_cases hany : QueryTreeNode.anyAggregate function.arguments = true
          · simp [hany, hagg, QueryTreeNode.isAggregateOrGrouping,
              QueryTreeNode.hasAggregateInArguments, QueryTreeNode.maxOrdinaryExpressions]
          · simp only [Bool.not_eq_true] at hany hagg
            simp [hany, hagg, QueryTreeNode.isAggregateOrGrouping,
              QueryTreeNode.hasAggregateInArguments, QueryTreeNode.maxOrdinaryExpressions,
              popBack_append]
      · rename_i h1 h2
        cases node <;>
          first
          | exact absurd rfl (h1 _ _ _)
          | exact absurd rfl (h2 _ _ _)
          | simp [QueryTreeNode.isAggregateOrGrouping, QueryTreeNode.hasAggregateInArguments,
              QueryTreeNode.maxOrdinaryExpressions]
  · intro a al f hn hagg hany
    subst hn
    simp [QueryTreeNode.maxOrdinaryExpressions, hagg, hany]
  · intro a al f hn hagg hany
    subst hn
    simp [QueryTreeNode.maxOrdinaryExpressions, hagg, hany]

/-- The theorem applies to `substring(substring(a, 1, 2), 1, count(b))`, which contributes
`substring(a, 1, 2)`; the keys of
`SELECT substring(a, 4, 2), substring(substring(a, 1, 2), 1, count(b))` are exactly
`substring(a, 4, 2)` and `substring(a, 1, 2)`. -/
theorem recursivelyCollectMaxOrdinaryExpressions_maximal_witness :
    Example.substringWithCount.callDepth ≤ 3
    ∧ recursivelyCollectMaxOrdinaryExpressions 3 Example.substringWithCount [] = .ok
        ((Example.substringWithCount.isAggregateOrGrouping
            || Example.substringWithCount.hasAggregateInArguments,
          Example.substringWithCount.maxOrdinaryExpressions.length),
         [] ++ Example.substringWithCount.maxOrdinaryExpressions)
    ∧ Example.describeList Example.substringWithCount.maxOrdinaryExpressions
      = ["Function substring(Column a, Constant 1, Constant 2)"]
    ∧ (expandGroupByAll 3 Example.selectSubstrings).1 = .ok ()
    ∧ Example.describeList (expandGroupByAll 3 Example.selectSubstrings).2.group_by
      = ["Function substring(Column a, Constant 4, Constant 2)",
         "Function substring(Column a, Constant 1, Constant 2)"] :=
  ⟨by decide,
   (recursivelyCollectMaxOrdinaryExpressions_maximal 3 Example.substringWithCount []
     (by decide)).1,
   by decide, rfl, by decide⟩

end QueryAnalyzer
end DB

namespace DB
namespace QueryAnalyzer

/-- The flag `prefer_column_name_to_alias` of `tryResolveIdentifier` is the setting,
overridden for an expression lookup of an alias from `ARRAY JOIN`. -/
theorem preferColumnNameToAlias_eq (sc : IdentifierResolveScope)
    (identifier_lookup : IdentifierLookup) :
    preferColumnNameToAlias sc identifier_lookup
      = ((identifier_lookup.isExpressionLookup && sc.aliasFromArrayJoin identifier_lookup)
          || sc.context.settings.prefer_column_name_to_alias) := by
  unfold preferColumnNameToAlias IdentifierResolveScope.aliasFromArrayJoin
  cases he : identifier_lookup.isExpressionLookup with
  | false => simp
  | true =>
    cases hfind : sc.aliases.find identifier_lookup .FULL_NAME with
    | none => simp
    | some node =>
      cases node with
      | COLUMN a al column_node =>
        cases hs : (column_node.column_source_type == QueryTreeNodeType.ARRAY_JOIN) <;> simp [hs]
      | _ => simp

/-- Registering the lookup changes neither the aliases nor the settings of the scope. -/
theorem preferColumnNameToAlias_withLookupRegistered (s : QueryAnalyzer) (scope : Nat)
    (registered identifier_lookup : IdentifierLookup) :
    preferColumnNameToAlias ((s.withLookupRegistered scope registered).scopes scope)
        identifier_lookup
      = preferColumnNameToAlias (s.scopes scope) identifier_lookup := by
  unfold withLookupRegistered
  rw [scopes_modifyScope_same]
  rfl

/-- C25: the flag that orders the strategies of `tryResolveIdentifier` is the setting
`prefer_column_name_to_alias`, except that it is true for an expression lookup when the
alias registered under the full name of the identifier is a column node whose source is an
`ARRAY JOIN`.  So for such an alias a lookup that the join tree resolves has the result of
the join tree whatever the setting is and whatever the alias table would give; for every
other alias, with the setting off a lookup that the alias table resolves has the result of
the alias table, and with the setting on a lookup that the join tree resolves has the
result of the join tree. -/
theorem tryResolveIdentifier_array_join_alias (E : Collaborators) (R : Resolver)
    (identifier_lookup : IdentifierLookup) (scope : Nat)
    (identifier_resolve_settings : IdentifierResolveContext) (s : QueryAnalyzer) :
    (preferColumnNameToAlias (s.scopes scope) identifier_lookup
      = ((identifier_lookup.isExpressionLookup
            && (s.scopes scope).aliasFromArrayJoin identifier_lookup)
          || (s.scopes scope).context.settings.prefer_column_name_to_alias))
    ∧ (∀ r0 rj, identifier_lookup.isExpressionLookup = true →
        (s.scopes scope).aliasFromArrayJoin identifier_lookup = true →
        E.tryResolveIdentifierFromExpressionArguments identifier_lookup
            ((s.withLookupRegistered scope identifier_lookup).scopes scope) = .ok r0 →
        r0.resolved_identifier = none →
        identifier_resolve_settings.allow_to_check_join_tree = true →
        E.tryResolveIdentifierFromJoinTree identifier_lookup
            ((s.withLookupRegistered scope identifier_lookup).scopes scope) = .ok rj →
        rj.resolved_identifier.isSome = true →
        (tryResolveIdentifier E R identifier_lookup scope identifier_resolve_settings s).1
          = (resolveJoinTreeColumnExpression E R scope rj
              (s.withLookupRegistered scope identifier_lookup)).1)
    ∧ (∀ r0 ra s2,
        (identifier_lookup.isExpressionLookup
          && (s.scopes scope).aliasFromArrayJoin identifier_lookup) = false →
        (s.scopes scope).context.settings.prefer_column_name_to_alias = false →
        E.tryResolveIdentifierFromExpressionArguments identifier_lookup
            ((s.withLookupRegistered scope identifier_lookup).scopes scope) = .ok r0 →
        r0.resolved_identifier = none →
        identifier_resolve_settings.allow_to_check_aliases = true →
        (s.scopes scope).identifier_in_lookup_process.lookup identifier_lookup = none →
        R.tryResolveIdentifierFromAliases identifier_lookup scope identifier_resolve_settings
          (s.withLookupRegistered scope identifier_lookup) = (.ok ra, s2) →
        ra.resolved_identifier.isSome = true →
        ra.resolve_place = .ALIASES →
        (tryResolveIdentifier E R identifier_lookup scope identifier_resolve_settings s).1
          = .ok ra)
    ∧ (∀ r0 rj,
        (s.scopes scope).context.settings.prefer_column_name_to_alias = true →
        E.tryResolveIdentifierFromExpressionArguments identifier_lookup
            ((s.withLookupRegistered scope identifier_lookup).scopes scope) = .ok r0 →
        r0.resolved_identifier = none →
        identifier_resolve_settings.allow_to_check_join_tree = true →
        E.tryResolveIdentifierFromJoinTree identifier_lookup
            ((s.withLookupRegistered scope identifier_lookup).scopes scope) = .ok rj →
        rj.resolved_identifier.isSome = true →
        (tryResolveIdentifier E R identifier_lookup scope identifier_resolve_settings s).1
          = (resolveJoinTreeColumnExpression E R scope rj
              (s.withLookupRegistered scope identifier_lookup)).1) := by
  have horder :=
    tryResolveIdentifier_order E R identifier_lookup scope identifier_resolve_settings s
  have hflag := preferColumnNameToAlias_withLookupRegistered s scope identifier_lookup
    identifier_lookup
  refine ⟨preferColumnNameToAlias_eq _ _, ?_, ?_, ?_⟩
  · intro r0 rj he ha hargs hr0 hallow hjoin hrj
    refine horder.2.2 r0 rj hargs hr0 hallow ?_ hjoin hrj
    rw [hflag, preferColumnNameToAlias_eq, he, ha]
    rfl
  · intro r0 ra s2 ha hs hargs hr0 hallow hlookup hal hra hplace
    refine horder.2.1 r0 ra s2 hargs hr0 hallow hlookup ?_ hal hra hplace
    rw [hflag, preferColumnNameToAlias_eq, ha, hs]
    rfl
  · intro r0 rj hs hargs hr0 hallow hjoin hrj
    refine horder.2.2 r0 rj hargs hr0 hallow ?_ hjoin hrj
    rw [hflag, preferColumnNameToAlias_eq, hs, Bool.or_true]

/-- The theorem applies to the lookup of `id` with `ARRAY JOIN [0] AS id` over a table with
the column `id`: the column of the table is returned although the setting is off; and to
the lookup of `a` in `SELECT 1 AS a FROM t`, where the alias is returned. -/
theorem tryResolveIdentifier_array_join_alias_witness :
    (Example.analyzerArrayJoinId.scopes 0).context.settings.prefer_column_name_to_alias = false
    ∧ (tryResolveIdentifier Example.collaborators
        (resolver Example.collaborators Example.scalarCollaborators Example.unmodelled 2)
        Example.lookupId 0 {} Example.analyzerArrayJoinId).1
      = .ok { resolved_identifier := some Example.columnId, resolve_place := .JOIN_TREE }
    ∧ (tryResolveIdentifier Example.collaborators
        (resolver Example.collaborators Example.scalarCollaborators Example.unmodelled 2)
        Example.lookupA 0 {} (Example.analyzerOneAsA false)).1
      = .ok { resolved_identifier := some ((Example.literal 100 1).setAlias "a"),
              resolve_place := .ALIASES } :=
  ⟨rfl,
   ((tryResolveIdentifier_array_join_alias Example.collaborators
      (resolver Example.collaborators Example.scalarCollaborators Example.unmodelled 2)
      Example.lookupId 0 {} Example.analyzerArrayJoinId).2.1 {} _ rfl rfl rfl rfl rfl rfl
      rfl).trans rfl,
   (tryResolveIdentifier_array_join_alias Example.collaborators
      (resolver Example.collaborators Example.scalarCollaborators Example.unmodelled 2)
      Example.lookupA 0 {} (Example.analyzerOneAsA false)).2.2.1 {} _ _ rfl rfl rfl rfl rfl rfl
      rfl rfl rfl⟩

end QueryAnalyzer
end DB

namespace DB
namespace QueryAnalyzer

end QueryAnalyzer
end DB

namespace DB
namespace QueryAnalyzer

end QueryAnalyzer
end DB

namespace DB
namespace QueryAnalyzer

end QueryAnalyzer
end DB

namespace DB
namespace QueryAnalyzer

/-- The position that a signed constant between `-n` and `-1` denotes. -/
theorem positionalArgumentNumber_negative (v : Int) (size : Nat) (hsize : size < 2 ^ 63)
    (h1 : -(size : Int) ≤ v) (h2 : v ≤ -1) :
    positionalArgumentNumber (.Int64 v) size = some (.ok ((size : Int) + v + 1).toNat)
      ∧ 1 ≤ ((size : Int) + v + 1).toNat ∧ ((size : Int) + v + 1).toNat ≤ size := by
  have hw1 : wrapInt64 (size : Int) = size := by
    unfold wrapInt64; omega
  have hw2 : wrapInt64 (-(size : Int)) = -(size : Int) := by
    unfold wrapInt64; omega
  have hw3 : wrapUInt64 ((size : Int) + v + 1) = ((size : Int) + v + 1).toNat := by
    unfold wrapUInt64
    rw [Int.emod_eq_of_lt (by omega) (by omega)]
  have hpos : ¬ v > 0 := by omega
  have hlow : ¬ v < -(size : Int) := by omega
  have hcheck : ¬ (((size : Int) + v + 1).toNat = 0 ∨ ((size : Int) + v + 1).toNat > size) := by
    omega
  refine ⟨?_, by omega, by omega⟩
  simp only [positionalArgumentNumber, hpos, if_false, hw1, hw2, hlow, hw3,
    checkPositionalArgument, hcheck]

/-- A signed constant below `-n`, or a signed zero, denotes no position. -/
theorem positionalArgumentNumber_out_of_range (v : Int) (size : Nat) (hsize : size < 2 ^ 63)
    (hv : (v < -(size : Int) ∨ v = 0)) :
    ∃ e, positionalArgumentNumber (.Int64 v) size = some (.error e)
      ∧ e.code = .BAD_ARGUMENTS := by
  have hw1 : wrapInt64 (size : Int) = size := by
    unfold wrapInt64; omega
  have hw2 : wrapInt64 (-(size : Int)) = -(size : Int) := by
    unfold wrapInt64; omega
  have hpos : ¬ v > 0 := by omega
  rcases hv with hv | hv
  · exact ⟨{ code := .BAD_ARGUMENTS, args := [toString v, toString size] },
      by simp only [positionalArgumentNumber, hpos, if_false, hw1, hw2, hv, if_true], rfl⟩
  · subst hv
    have hlow : ¬ (0 : Int) < -(size : Int) := by omega
    have hw3 : wrapUInt64 ((size : Int) + 0 + 1) = size + 1 := by
      unfold wrapUInt64
      rw [Int.emod_eq_of_lt (by omega) (by omega)]
      omega
    have hcheck : (size + 1 = 0 ∨ size + 1 > size) := Or.inr (by omega)
    exact ⟨{ code := .BAD_ARGUMENTS, args := [toString (size + 1), toString size] },
      by simp only [positionalArgumentNumber, hpos, if_false, hw1, hw2, hlow, hw3,
        checkPositionalArgument, hcheck, if_true], rfl⟩

/-- The body of the loop puts a clone of the projection node into the slot of a signed
constant between `-n` and `-1`. -/
theorem replaceNode_int64_in_range (self : QueryAnalyzer) (node : QueryTreeNode)
    (projection_nodes : QueryTreeNodes) (v : Int) (h : isInt64Constant node v)
    (hsize : projection_nodes.length < 2 ^ 63)
    (h1 : -(projection_nodes.length : Int) ≤ v) (h2 : v ≤ -1) :
    ∃ p self2, projection_nodes[((projection_nodes.length : Int) + v + 1).toNat - 1]? = some p ∧
      self.replaceNodeWithPositionalArgument node projection_nodes =
        .ok (assignNodeToReplace node (p.cloneAt self.next_addr).1, self2) := by
  obtain ⟨a, al, c, hc, hv⟩ := h
  obtain ⟨hp, hp1, hp2⟩ := positionalArgumentNumber_negative v projection_nodes.length hsize h1 h2
  have hlt : ((projection_nodes.length : Int) + v + 1).toNat - 1 < projection_nodes.length := by
    omega
  refine ⟨projection_nodes[((projection_nodes.length : Int) + v + 1).toNat - 1], ?_⟩
  unfold replaceNodeWithPositionalArgument
  simp only [hc, hv, hp, List.getElem?_eq_getElem hlt, clone]
  exact ⟨_, trivial, rfl⟩

/-- The body of the loop throws for a signed constant below `-n` and for a signed zero. -/
theorem replaceNode_int64_out_of_range (self : QueryAnalyzer) (node : QueryTreeNode)
    (projection_nodes : QueryTreeNodes) (v : Int) (h : isInt64Constant node v)
    (hsize : projection_nodes.length < 2 ^ 63)
    (hv : v < -(projection_nodes.length : Int) ∨ v = 0) :
    ∃ e, self.replaceNodeWithPositionalArgument node projection_nodes = .error e := by
  obtain ⟨a, al, c, hc, hval⟩ := h
  obtain ⟨e, he, _⟩ := positionalArgumentNumber_out_of_range v projection_nodes.length hsize hv
  refine ⟨e, ?_⟩
  unfold replaceNodeWithPositionalArgument
  simp only [hc, hval, he]

/-- The entry for which the body of the loop returns a replacement holds it after a loop
that returns. -/
theorem loop_replaced (projection_nodes : QueryTreeNodes) (l : QueryTreeNodes)
    (self : QueryAnalyzer)
    (hok : (replaceNodesWithPositionalArgumentsLoop projection_nodes l self).1 = .ok ())
    (i : Nat) (node : QueryTreeNode) (hi : l[i]? = some node) (p : QueryTreeNode)
    (hbody : ∀ self1 : QueryAnalyzer, ∃ self2,
      self1.replaceNodeWithPositionalArgument node projection_nodes =
        .ok (assignNodeToReplace node (p.cloneAt self1.next_addr).1, self2)) :
    ∃ a, (replaceNodesWithPositionalArgumentsLoop projection_nodes l self).2.1[i]? =
        some (assignNodeToReplace node (p.cloneAt a).1) := by
  induction l generalizing self i with
  | nil => simp at hi
  | cons x rest ih =>
    unfold replaceNodesWithPositionalArgumentsLoop at hok ⊢
    split
    · rename_i e he
      simp [he] at hok
    · rename_i x2 self2 hx
      simp only [hx] at hok
      cases i with
      | zero =>
        simp only [List.getElem?_cons_zero, Option.some.injEq] at hi
        subst hi
        obtain ⟨s2, hr⟩ := hbody self
        rw [hr] at hx
        cases hx
        exact ⟨self.next_addr, by simp⟩
      | succ j =>
        simp only [List.getElem?_cons_succ] at hi ⊢
        exact ih self2 hok j hi

/-- The loop throws `BAD_ARGUMENTS` when the body throws for an entry, and leaves that
entry as it is. -/
theorem loop_throws (projection_nodes : QueryTreeNodes) (l : QueryTreeNodes)
    (self : QueryAnalyzer) (i : Nat) (node : QueryTreeNode) (hi : l[i]? = some node)
    (hbody : ∀ self1 : QueryAnalyzer, ∃ e,
      self1.replaceNodeWithPositionalArgument node projection_nodes = .error e) :
    (∃ e, (replaceNodesWithPositionalArgumentsLoop projection_nodes l self).1 = .error e ∧
        e.code = .BAD_ARGUMENTS) ∧
      (replaceNodesWithPositionalArgumentsLoop projection_nodes l self).2.1[i]? = some node := by
  induction l generalizing self i with
  | nil => simp at hi
  | cons x rest ih =>
    unfold replaceNodesWithPositionalArgumentsLoop
    split
    · rename_i e he
      exact ⟨⟨e, rfl, replaceNode_error_code _ _ _ _ he⟩, hi⟩
    · rename_i x2 self2 hx
      cases i with
      | zero =>
        simp only [List.getElem?_cons_zero, Option.some.injEq] at hi
        subst hi
        obtain ⟨e, he⟩ := hbody self
        rw [he] at hx
        cases hx
      | succ j =>
        simp only [List.getElem?_cons_succ] at hi ⊢
        exact ih self2 j hi

/-- The loop returns when the body returns for every entry. -/
theorem loop_returns (projection_nodes : QueryTreeNodes) (l : QueryTreeNodes)
    (self : QueryAnalyzer)
    (h : ∀ node ∈ l, ∀ self1 : QueryAnalyzer, ∃ r,
      self1.replaceNodeWithPositionalArgument node projection_nodes = .ok r) :
    (replaceNodesWithPositionalArgumentsLoop projection_nodes l self).1 = .ok () := by
  induction l generalizing self with
  | nil => rfl
  | cons x rest ih =>
    unfold replaceNodesWithPositionalArgumentsLoop
    obtain ⟨r, hr⟩ := h x (List.mem_cons_self _ _) self
    rw [hr]
    exact ih r.2 (fun n hn => h n (List.mem_cons_of_mem _ hn))

/-- C29: with `enable_positional_arguments` on, an initial query and `n` projection nodes
(`n` below `2^63`), for the entries of the list whose slot (the entry, or the expression of
a sort node) is a signed integer constant `v`: when `replaceNodesWithPositionalArguments`
returns, every such entry with `-n ≤ v ≤ -1` has a clone of the projection node number
`n + v + 1` (1-based) in its slot; the call returns when every entry is such an entry or
no integer constant; and an entry with `v < -n` or `v = 0` makes the call throw
`BAD_ARGUMENTS` and is not replaced. -/
theorem replaceNodesWithPositionalArguments_negative (self : QueryAnalyzer)
    (node_list projection_nodes : QueryTreeNodes) (scope : IdentifierResolveScope)
    (h_setting : scope.context.settings.enable_positional_arguments = true)
    (h_kind : scope.context.query_kind = .INITIAL_QUERY)
    (h_size : projection_nodes.length < 2 ^ 63) :
    ((self.replaceNodesWithPositionalArguments node_list projection_nodes scope).1 = .ok () →
      ∀ (i : Nat) (node : QueryTreeNode) (v : Int), node_list[i]? = some node →
        isInt64Constant node v → -(projection_nodes.length : Int) ≤ v → v ≤ -1 →
        ∃ (p : QueryTreeNode) (a : Nat),
          projection_nodes[((projection_nodes.length : Int) + v + 1).toNat - 1]? = some p ∧
          (self.replaceNodesWithPositionalArguments node_list projection_nodes scope).2.1[i]?
            = some (assignNodeToReplace node (p.cloneAt a).1)) ∧
    ((∀ node ∈ node_list, isIntegerConstant node = false ∨
        ∃ v, isInt64Constant node v ∧ -(projection_nodes.length : Int) ≤ v ∧ v ≤ -1) →
      (self.replaceNodesWithPositionalArguments node_list projection_nodes scope).1 = .ok ()) ∧
    (∀ (i : Nat) (node : QueryTreeNode) (v : Int), node_list[i]? = some node →
      isInt64Constant node v → (v < -(projection_nodes.length : Int) ∨ v = 0) →
      (∃ e, (self.replaceNodesWithPositionalArguments node_list projection_nodes scope).1
          = .error e ∧ e.code = .BAD_ARGUMENTS) ∧
      (self.replaceNodesWithPositionalArguments node_list projection_nodes scope).2.1[i]?
        = some node) := by
  have hr : self.replaceNodesWithPositionalArguments node_list projection_nodes scope =
      replaceNodesWithPositionalArgumentsLoop projection_nodes node_list self := by
    simp [replaceNodesWithPositionalArguments, h_setting, h_kind]
  rw [hr]
  refine ⟨?_, ?_, ?_⟩
  · intro hok i node v hi hv h1 h2
    obtain ⟨p, _, hp, _⟩ :=
      replaceNode_int64_in_range self node projection_nodes v hv h_size h1 h2
    have hbody : ∀ self1 : QueryAnalyzer, ∃ self2,
        self1.replaceNodeWithPositionalArgument node projection_nodes =
          .ok (assignNodeToReplace node (p.cloneAt self1.next_addr).1, self2) := by
      intro self1
      obtain ⟨p1, s2, hp1, hr1⟩ :=
        replaceNode_int64_in_range self1 node projection_nodes v hv h_size h1 h2
      rw [hp] at hp1
      cases hp1
      exact ⟨s2, hr1⟩
    obtain ⟨a, ha⟩ := loop_replaced projection_nodes node_list self hok i node hi p hbody
    exact ⟨p, a, hp, ha⟩
  · intro hall
    refine loop_returns _ _ _ (fun node hn self1 => ?_)
    rcases hall node hn with h | ⟨v, hv, h1, h2⟩
    · exact ⟨_, replaceNode_not_integer self1 node projection_nodes h⟩
    · obtain ⟨p, s2, _, hr1⟩ :=
        replaceNode_int64_in_range self1 node projection_nodes v hv h_size h1 h2
      exact ⟨_, hr1⟩
  · intro i node v hi hv hout
    exact loop_throws projection_nodes node_list self i node hi
      (fun self1 => replaceNode_int64_out_of_range self1 node projection_nodes v hv h_size hout)

/-- C29 at `SELECT 1, 2 ORDER BY -1, -2`: the call returns and the list becomes
`ORDER BY <copy of the 2nd projection>, <copy of the 1st projection>`; `ORDER BY -3` and
a signed `0` throw `BAD_ARGUMENTS`. -/
theorem replaceNodesWithPositionalArguments_negative_witness :
    ((Example.analyzerAt 7).replaceNodesWithPositionalArguments Example.orderByMinus12
        Example.select12 (Example.initialScope (Example.literal 0 0))).1 = .ok () ∧
    ((Example.analyzerAt 7).replaceNodesWithPositionalArguments Example.orderByMinus12
        Example.select12 (Example.initialScope (Example.literal 0 0))).2.1
      = [Example.sortBy 3 (Example.literal 7 2), Example.sortBy 5 (Example.literal 8 1)] ∧
    (∃ e, ((Example.analyzerAt 7).replaceNodesWithPositionalArguments
        [Example.sortBy 3 (Example.signedLiteral 4 (-3))]
        Example.select12 (Example.initialScope (Example.literal 0 0))).1 = .error e
      ∧ e.code = .BAD_ARGUMENTS) ∧
    (∃ e, ((Example.analyzerAt 7).replaceNodesWithPositionalArguments
        [Example.signedLiteral 4 0]
        Example.select12 (Example.initialScope (Example.literal 0 0))).1 = .error e
      ∧ e.code = .BAD_ARGUMENTS) :=
  ⟨(replaceNodesWithPositionalArguments_negative (Example.analyzerAt 7)
      Example.orderByMinus12 Example.select12 (Example.initialScope (Example.literal 0 0))
      rfl rfl (by simp [Example.select12])).2.1 (by
        intro node hn
        simp only [Example.orderByMinus12, List.mem_cons, List.mem_singleton,
          List.not_mem_nil, or_false] at hn
        rcases hn with rfl | rfl
        · exact Or.inr ⟨-1, ⟨4, "", _, rfl, rfl⟩, by decide, by decide⟩
        · exact Or.inr ⟨-2, ⟨6, "", _, rfl, rfl⟩, by decide, by decide⟩),
   rfl,
   ((replaceNodesWithPositionalArguments_negative (Example.analyzerAt 7)
      [Example.sortBy 3 (Example.signedLiteral 4 (-3))] Example.select12
      (Example.initialScope (Example.literal 0 0)) rfl rfl
      (by simp [Example.select12])).2.2 0 _ (-3) rfl ⟨4, "", _, rfl, rfl⟩
      (Or.inl (by decide))).1,
   ((replaceNodesWithPositionalArguments_negative (Example.analyzerAt 7)
      [Example.signedLiteral 4 0] Example.select12
      (Example.initialScope (Example.literal 0 0)) rfl rfl
      (by simp [Example.select12])).2.2 0 _ 0 rfl ⟨4, "", _, rfl, rfl⟩ (Or.inr rfl)).1⟩

end QueryAnalyzer
end DB

namespace DB
namespace QueryAnalyzer

/-- The accumulator of `String.intercalate` can be taken out. -/
theorem intercalate_go_append (separator : String) (names : List String) (x acc : String) :
    String.intercalate.go (x ++ acc) separator names
      = x ++ String.intercalate.go acc separator names := by
  induction names generalizing acc with
  | nil => rfl
  | cons name rest ih =>
    simp only [String.intercalate.go]
    rw [String.append_assoc, String.append_assoc, ← String.append_assoc acc, ih]

/-- The loops that write names append the names joined by `", "`. -/
theorem writeProjectionNames_eq (names : ProjectionNames) (buffer : String) :
    writeProjectionNames names buffer = buffer ++ ", ".intercalate names := by
  induction names generalizing buffer with
  | nil => simp [writeProjectionNames, String.intercalate]
  | cons name rest ih =>
    cases rest with
    | nil => simp [writeProjectionNames, String.intercalate, String.intercalate.go]
    | cons next rest2 =>
      rw [writeProjectionNames, ih]
      simp only [String.intercalate, String.intercalate.go]
      rw [intercalate_go_append, String.append_assoc, String.append_assoc,
        String.append_assoc]
      · intro h; cases h

/-- C30: the name that `calculateFunctionProjectionName` builds with its buffer and its
two loops is the display name of the specification: the function name, omitted when it is
exactly `array` or `tuple`; the parameter names joined by `", "` inside parentheses when
there is at least one parameter; the argument names joined by `", "` inside parentheses,
or inside square brackets when the function is `array`. -/
theorem calculateFunctionProjectionName_display_name
    (function_node : FunctionNode QueryTreeNode)
    (parameters_projection_names arguments_projection_names : ProjectionNames) :
    calculateFunctionProjectionName function_node parameters_projection_names
        arguments_projection_names
      = functionDisplayName function_node.function_name parameters_projection_names
          arguments_projection_names := by
  unfold calculateFunctionProjectionName functionDisplayName
  simp only [writeProjectionNames_eq]
  have hsquare : (")[" : String) = ")" ++ "[" := by decide
  have hround : (")(" : String) = ")" ++ "(" := by decide
  by_cases ha : function_node.function_name = "array"
  · have hne : ¬ ("array" = "tuple") := by decide
    cases parameters_projection_names with
    | nil => simp [ha, hne, String.append_assoc]
    | cons parameter rest =>
      simp [ha, hne, String.append_assoc]
      rw [hsquare, String.append_assoc]
  · by_cases ht : function_node.function_name = "tuple"
    · have hne : ¬ ("tuple" = "array") := by decide
      cases parameters_projection_names with
      | nil => simp [ht, hne, String.append_assoc]
      | cons parameter rest =>
        simp [ht, hne, String.append_assoc]
        rw [hround, String.append_assoc]
    · cases parameters_projection_names with
      | nil => simp [ha, ht, String.append_assoc]
      | cons parameter rest =>
        simp [ha, ht, String.append_assoc]
        rw [hround, String.append_assoc]

/-- The examples of the claim: `plus(a, b)`, `[a, b]` for `array`, `(a, b)` for `tuple`,
`name()` for a function without arguments, and a function with a parameter. -/
theorem calculateFunctionProjectionName_display_name_witness :
    calculateFunctionProjectionName (Example.functionNamed "plus") [] ["a", "b"] = "plus(a, b)"
    ∧ calculateFunctionProjectionName (Example.functionNamed "array") [] ["a", "b"] = "[a, b]"
    ∧ calculateFunctionProjectionName (Example.functionNamed "tuple") [] ["a", "b"] = "(a, b)"
    ∧ calculateFunctionProjectionName (Example.functionNamed "name") [] [] = "name()"
    ∧ calculateFunctionProjectionName (Example.functionNamed "quantile") ["0.5"] ["x"]
      = "quantile(0.5)(x)"
    ∧ calculateFunctionProjectionName (Example.functionNamed "Array") [] ["a", "b"]
      = "Array(a, b)" :=
  ⟨(calculateFunctionProjectionName_display_name _ _ _).trans (by decide),
   (calculateFunctionProjectionName_display_name _ _ _).trans (by decide),
   (calculateFunctionProjectionName_display_name _ _ _).trans (by decide),
   (calculateFunctionProjectionName_display_name _ _ _).trans (by decide),
   (calculateFunctionProjectionName_display_name _ _ _).trans (by decide),
   (calculateFunctionProjectionName_display_name _ _ _).trans (by decide)⟩

end QueryAnalyzer
end DB

namespace DB
namespace QueryAnalyzer

/-- Nothing is left to try: the search returns the result it has. -/
theorem tryStrategies_nil (resolve_result : IdentifierResolveResult) :
    tryStrategies [] resolve_result = RM.ret resolve_result := rfl

/-- The search runs its first strategy when the identifier is not bound. -/
theorem tryStrategies_cons_none
    (strategy : IdentifierResolveResult → RM IdentifierResolveResult)
    (rest : List (IdentifierResolveResult → RM IdentifierResolveResult))
    (resolve_result : IdentifierResolveResult)
    (h : resolve_result.resolved_identifier = none) :
    tryStrategies (strategy :: rest) resolve_result
      = (strategy resolve_result).andThen (tryStrategies rest) := by
  rw [tryStrategies, h]
  rfl

/-- The search runs no strategy once the identifier is bound. -/
theorem tryStrategies_resolved
    (strategies : List (IdentifierResolveResult → RM IdentifierResolveResult))
    (resolve_result : IdentifierResolveResult)
    (h : resolve_result.resolved_identifier.isSome = true) :
    tryStrategies strategies resolve_result = RM.ret resolve_result := by
  cases strategies with
  | nil => rfl
  | cons strategy rest =>
    have hn : resolve_result.resolved_identifier.isNone = false := by
      cases hr : resolve_result.resolved_identifier with
      | none => rw [hr] at h; cases h
      | some _ => rfl
    rw [tryStrategies, hn]
    rfl

/-- The search over two lists of strategies, one after the other. -/
theorem tryStrategies_append
    (first second : List (IdentifierResolveResult → RM IdentifierResolveResult))
    (resolve_result : IdentifierResolveResult) :
    tryStrategies (first ++ second) resolve_result
      = (tryStrategies first resolve_result).andThen (tryStrategies second) := by
  induction first generalizing resolve_result with
  | nil => rfl
  | cons strategy rest ih =>
    cases hr : resolve_result.resolved_identifier with
    | none =>
      rw [List.cons_append, tryStrategies_cons_none _ _ _ hr, tryStrategies_cons_none _ _ _ hr,
        RM.andThen_assoc]
      exact congrArg _ (funext ih)
    | some node =>
      have h : resolve_result.resolved_identifier.isSome = true := by rw [hr]; rfl
      rw [tryStrategies_resolved _ _ h, tryStrategies_resolved _ _ h, RM.ret_andThen_eq,
        tryStrategies_resolved _ _ h]

/-- The strategies that have returned without binding the identifier, followed by others. -/
theorem returnedUnbound_append
    (first second : List (IdentifierResolveResult → RM IdentifierResolveResult))
    (resolve_result last : IdentifierResolveResult) (s s1 : QueryAnalyzer) :
    ReturnedUnbound (first ++ second) resolve_result s last s1
      ↔ ∃ middle s2, ReturnedUnbound first resolve_result s middle s2
          ∧ ReturnedUnbound second middle s2 last s1 := by
  induction first generalizing resolve_result s with
  | nil =>
    constructor
    · intro h
      exact ⟨resolve_result, s, ⟨rfl, rfl⟩, h⟩
    · rintro ⟨middle, s2, ⟨h1, h2⟩, h3⟩
      subst h1 h2
      exact h3
  | cons strategy rest ih =>
    constructor
    · rintro ⟨next, s2, h1, h2, h3⟩
      obtain ⟨middle, s3, h4, h5⟩ := (ih next s2).mp h3
      exact ⟨middle, s3, ⟨next, s2, h1, h2, h4⟩, h5⟩
    · rintro ⟨middle, s3, ⟨next, s2, h1, h2, h4⟩, h5⟩
      exact ⟨next, s2, h1, h2, (ih next s2).mpr ⟨middle, s3, h4, h5⟩⟩

/-- The strategies that have returned without binding the identifier leave it unbound, if
it was not bound before them. -/
theorem returnedUnbound_none
    (strategies : List (IdentifierResolveResult → RM IdentifierResolveResult))
    (resolve_result last : IdentifierResolveResult) (s s1 : QueryAnalyzer)
    (h0 : resolve_result.resolved_identifier = none)
    (h : ReturnedUnbound strategies resolve_result s last s1) :
    last.resolved_identifier = none := by
  induction strategies generalizing resolve_result s with
  | nil => rw [h.1]; exact h0
  | cons strategy rest ih =>
    obtain ⟨next, s2, _, h2, h3⟩ := h
    exact ih next s2 h2 h3

/-- The search returns a result that does not bind the identifier exactly when every
strategy has returned, in its turn, without an exception and without binding it. -/
theorem tryStrategies_unbound
    (strategies : List (IdentifierResolveResult → RM IdentifierResolveResult))
    (resolve_result last : IdentifierResolveResult) (s s1 : QueryAnalyzer)
    (h0 : resolve_result.resolved_identifier = none) (hlast : last.resolved_identifier = none) :
    tryStrategies strategies resolve_result s = (.ok last, s1)
      ↔ ReturnedUnbound strategies resolve_result s last s1 := by
  induction strategies generalizing resolve_result s with
  | nil =>
    simp only [tryStrategies_nil, RM.ret, Prod.mk.injEq, Except.ok.injEq, ReturnedUnbound]
    constructor
    · rintro ⟨h1, h2⟩; exact ⟨h1.symm, h2.symm⟩
    · rintro ⟨h1, h2⟩; exact ⟨h1.symm, h2.symm⟩
  | cons strategy rest ih =>
    rw [tryStrategies_cons_none _ _ _ h0]
    constructor
    · intro h
      obtain ⟨next, s2, h1, h2⟩ := RM.andThen_eq_ok h
      cases hn : next.resolved_identifier with
      | none => exact ⟨next, s2, h1, hn, (ih next s2 hn).mp h2⟩
      | some node =>
        have hs : next.resolved_identifier.isSome = true := by rw [hn]; rfl
        rw [tryStrategies_resolved _ _ hs] at h2
        simp only [RM.ret, Prod.mk.injEq, Except.ok.injEq] at h2
        rw [h2.1, hlast] at hn
        cases hn
    · rintro ⟨next, s2, h1, h2, h3⟩
      rw [RM.andThen_ok h1]
      exact (ih next s2 h2).mpr h3

/-- The search ends with something else than a result that does not bind the identifier,
an exception or a result that binds it, exactly when a strategy of the list has ended with
it after the strategies before it had returned without binding the identifier. -/
theorem tryStrategies_decided
    (strategies : List (IdentifierResolveResult → RM IdentifierResolveResult))
    (resolve_result : IdentifierResolveResult) (s s1 : QueryAnalyzer)
    (out : Except Exception IdentifierResolveResult)
    (h0 : resolve_result.resolved_identifier = none)
    (hout : ∀ r, out = .ok r → r.resolved_identifier.isSome = true) :
    tryStrategies strategies resolve_result s = (out, s1)
      ↔ ∃ before strategy after last s0,
          strategies = before ++ strategy :: after
          ∧ ReturnedUnbound before resolve_result s last s0
          ∧ strategy last s0 = (out, s1) := by
  induction strategies generalizing resolve_result s with
  | nil =>
    constructor
    · intro h
      simp only [tryStrategies_nil, RM.ret, Prod.mk.injEq] at h
      have := hout resolve_result h.1.symm
      rw [h0] at this
      cases this
    · rintro ⟨before, strategy, after, _, _, h, _⟩
      cases before <;> cases h
  | cons first rest ih =>
    rw [tryStrategies_cons_none _ _ _ h0]
    constructor
    · intro h
      rcases hf : first resolve_result s with ⟨result, s2⟩
      cases result with
      | error e =>
        rw [RM.andThen_error hf] at h
        exact ⟨[], first, rest, resolve_result, s, rfl, ⟨rfl, rfl⟩, hf.trans h⟩
      | ok next =>
        rw [RM.andThen_ok hf] at h
        cases hn : next.resolved_identifier with
        | none =>
          obtain ⟨before, strategy, after, last, s0, h1, h2, h3⟩ := (ih next s2 hn).mp h
          exact ⟨first :: before, strategy, after, last, s0, by rw [h1]; rfl,
            ⟨next, s2, hf, hn, h2⟩, h3⟩
        | some node =>
          have hs : next.resolved_identifier.isSome = true := by rw [hn]; rfl
          rw [tryStrategies_resolved _ _ hs] at h
          exact ⟨[], first, rest, resolve_result, s, rfl, ⟨rfl, rfl⟩, hf.trans h⟩
    · rintro ⟨before, strategy, after, last, s0, h1, h2, h3⟩
      cases before with
      | nil =>
        simp only [List.nil_append, List.cons.injEq] at h1
        obtain ⟨h4, h5⟩ := h2
        subst h4 h5
        rw [← h1.1] at h3
        cases out with
        | error e => exact RM.andThen_error h3
        | ok r =>
          rw [RM.andThen_ok h3, tryStrategies_resolved _ _ (hout r rfl)]
          rfl
      | cons b0 before =>
        simp only [List.cons_append, List.cons.injEq] at h1
        obtain ⟨next, s2, h4, h5, h6⟩ := h2
        rw [← h1.1] at h4
        rw [RM.andThen_ok h4]
        exact (ih next s2 h5).mpr ⟨before, strategy, after, last, s0, h1.2, h6, h3⟩


/-- A computation followed by the normal return of its result is the computation. -/
theorem andThen_ret_eq {α : Type} (x : RM α) : x.andThen RM.ret = x := by
  funext s
  simp only [RM.andThen]
  rcases x s with ⟨r, s1⟩
  cases r <;> rfl

/-- A test on the result of a computation that the results never pass can be left out. -/
theorem andThen_ite_of_post {α : Type} (x : RM α) (c : α → Bool) (f : α → RM α)
    (h : ∀ s, x.Post s (fun a _ => c a = false)) :
    (x.andThen fun a => if c a = true then f a else RM.ret a) = x := by
  funext s
  rcases hx : x s with ⟨r, s1⟩
  cases r with
  | error e => exact RM.andThen_error hx
  | ok a =>
    rw [RM.andThen_ok hx, h s a s1 hx]
    rfl

/-- Two computations with the same outcome in a state have it still when the same
computation follows them. -/
theorem andThen_congr_run {α β : Type} (x y : RM α) (f : α → RM β) (s : QueryAnalyzer)
    (h : x s = y s) : x.andThen f s = y.andThen f s := by
  simp only [RM.andThen, h]

/-- The block for a column of the join tree leaves a result that does not bind the
identifier as it is. -/
theorem resolveJoinTreeColumnExpression_none (E : Collaborators) (R : Resolver) (scope : Nat)
    (resolve_result : IdentifierResolveResult)
    (h : resolve_result.resolved_identifier = none) :
    resolveJoinTreeColumnExpression E R scope resolve_result = RM.ret resolve_result := by
  unfold resolveJoinTreeColumnExpression
  rw [h]
  split <;> rfl

/-- The block for a column of the join tree returns no unbound result when it is given a
result that binds the identifier. -/
theorem resolveJoinTreeColumnExpression_not_none (E : Collaborators) (R : Resolver)
    (scope : Nat) (resolve_result : IdentifierResolveResult)
    (h : resolve_result.resolved_identifier.isSome = true) (s : QueryAnalyzer) :
    (resolveJoinTreeColumnExpression E R scope resolve_result).Post s
      (fun r _ => r.resolved_identifier.isNone = false) :=
  post_mono _ _ _ _ (resolveJoinTreeColumnExpression_resolved E R scope resolve_result s h)
    (fun r _ hr => by
      cases hx : r.resolved_identifier with
      | none => rw [hx] at hr; cases hr
      | some _ => rfl)

/-- The head of the search, whatever the result it starts from. -/
theorem tryStrategies_cons
    (strategy : IdentifierResolveResult → RM IdentifierResolveResult)
    (rest : List (IdentifierResolveResult → RM IdentifierResolveResult))
    (resolve_result : IdentifierResolveResult) :
    tryStrategies (strategy :: rest) resolve_result
      = if resolve_result.resolved_identifier.isNone = true then
          (strategy resolve_result).andThen (tryStrategies rest)
        else RM.ret resolve_result := by
  rw [tryStrategies]
  rfl

/-- The lookup in the parent scopes and in the database catalog, with the removal of the
lookup from the table of the lookups in process, is the search over these two strategies
followed by the removal. -/
theorem parentScopesAndCatalog_eq_tryStrategies (E : Collaborators) (R : Resolver)
    (l : IdentifierLookup) (scope : Nat) (ctx : IdentifierResolveContext)
    (resolve_result : IdentifierResolveResult) :
    (if resolve_result.resolved_identifier.isNone = true then
      (R.tryResolveIdentifierInParentScopes l scope ctx).andThen fun y =>
        if (y.resolved_identifier.isNone && ctx.allow_to_check_database_catalog
            && l.isTableExpressionLookup) = true then
          (RM.getScope scope).andThen fun sc =>
            (RM.lift (E.tryResolveTableIdentifierFromDatabaseCatalog l.identifier
              sc.context)).andThen fun y =>
              (RM.modifyScope scope (fun sc => { sc with
                identifier_in_lookup_process :=
                  unregisterLookup sc.identifier_in_lookup_process l })).andThen fun _ =>
                RM.ret y
        else
          (RM.modifyScope scope (fun sc => { sc with
            identifier_in_lookup_process :=
              unregisterLookup sc.identifier_in_lookup_process l })).andThen fun _ => RM.ret y
    else
      if (resolve_result.resolved_identifier.isNone && ctx.allow_to_check_database_catalog
          && l.isTableExpressionLookup) = true then
        (RM.getScope scope).andThen fun sc =>
          (RM.lift (E.tryResolveTableIdentifierFromDatabaseCatalog l.identifier
            sc.context)).andThen fun y =>
            (RM.modifyScope scope (fun sc => { sc with
              identifier_in_lookup_process :=
                unregisterLookup sc.identifier_in_lookup_process l })).andThen fun _ =>
              RM.ret y
      else
        (RM.modifyScope scope (fun sc => { sc with
          identifier_in_lookup_process :=
            unregisterLookup sc.identifier_in_lookup_process l })).andThen fun _ =>
          RM.ret resolve_result)
      = (tryStrategies [strategyParentScopes R l scope ctx,
          strategyDatabaseCatalog E l scope ctx] resolve_result).andThen (fun r =>
            (RM.modifyScope scope (fun sc => { sc with
              identifier_in_lookup_process :=
                unregisterLookup sc.identifier_in_lookup_process l })).andThen fun _ =>
              RM.ret r) := by
  cases hr : resolve_result.resolved_identifier with
  | some node =>
    have hs : resolve_result.resolved_identifier.isSome = true := by rw [hr]; rfl
    rw [tryStrategies_resolved _ _ hs]
    simp only [Option.isNone_some, Bool.false_and, Bool.false_eq_true, if_false,
      RM.ret_andThen_eq]
  | none =>
    rw [tryStrategies_cons_none _ _ _ hr]
    simp only [Option.isNone_none, if_true, RM.andThen_assoc]
    unfold strategyParentScopes
    refine congrArg _ (funext fun y => ?_)
    cases hy : y.resolved_identifier with
    | some node =>
      have hs : y.resolved_identifier.isSome = true := by rw [hy]; rfl
      rw [tryStrategies_resolved _ _ hs]
      simp only [Option.isNone_some, Bool.false_and, Bool.false_eq_true, if_false,
        RM.ret_andThen_eq]
    | none =>
      rw [tryStrategies_cons_none _ _ _ hy]
      simp only [Option.isNone_none, Bool.true_and]
      unfold strategyDatabaseCatalog
      simp only [RM.bind_eq, RM.pure_eq, RM.ite_andThen, RM.andThen_assoc, RM.ret_andThen_eq,
        tryStrategies_nil]

/-- The end of `tryResolveIdentifier` is the search over the CTEs of the scope, the parent
scopes and the database catalog, followed by the removal of the lookup from the table of
the lookups in process. -/
theorem finishTryResolveIdentifier_eq_tryStrategies (E : Collaborators) (R : Resolver)
    (l : IdentifierLookup) (scope : Nat) (ctx : IdentifierResolveContext)
    (resolve_result : IdentifierResolveResult) :
    finishTryResolveIdentifier E R l scope ctx resolve_result
      = (tryStrategies [strategyCTE l scope ctx, strategyParentScopes R l scope ctx,
          strategyDatabaseCatalog E l scope ctx] resolve_result).andThen (fun r =>
            (RM.modifyScope scope (fun sc => { sc with
              identifier_in_lookup_process :=
                unregisterLookup sc.identifier_in_lookup_process l })).andThen fun _ =>
              RM.ret r) := by
  funext s0
  unfold finishTryResolveIdentifier
  simp only [RM.bind_eq, RM.pure_eq]
  rw [RM.getScope_andThen, RM.get_andThen]
  cases hr : resolve_result.resolved_identifier with
  | some node =>
    have hs : resolve_result.resolved_identifier.isSome = true := by rw [hr]; rfl
    rw [tryStrategies_resolved _ _ hs]
    simp only [hr, Option.isNone_some, Bool.false_and, Bool.false_eq_true, if_false,
      RM.ret_andThen_eq]
  | none =>
    rw [tryStrategies_cons_none _ _ _ hr]
    simp only [hr, Option.isNone_none, Bool.true_and]
    unfold strategyCTE
    simp only [RM.bind_eq, RM.pure_eq, RM.andThen_assoc, RM.ret_andThen_eq]
    rw [RM.getScope_andThen, RM.get_andThen]
    exact congrFun (parentScopesAndCatalog_eq_tryStrategies E R l scope ctx _) s0


/-- The search as a test on the result it starts from. -/
theorem tryStrategies_cons_fun
    (strategy : IdentifierResolveResult → RM IdentifierResolveResult)
    (rest : List (IdentifierResolveResult → RM IdentifierResolveResult)) :
    tryStrategies (strategy :: rest)
      = fun resolve_result =>
          if resolve_result.resolved_identifier.isNone = true then
            (strategy resolve_result).andThen (tryStrategies rest)
          else RM.ret resolve_result :=
  funext (tryStrategies_cons strategy rest)

/-- The search over one strategy, from a result that does not bind the identifier, is the
strategy. -/
theorem tryStrategies_singleton
    (strategy : IdentifierResolveResult → RM IdentifierResolveResult)
    (resolve_result : IdentifierResolveResult)
    (h : resolve_result.resolved_identifier = none) :
    tryStrategies [strategy] resolve_result = strategy resolve_result := by
  rw [tryStrategies_cons_none _ _ _ h]
  exact andThen_ret_eq _

/-- The block for a column of the join tree followed by a search is the block alone when it
is given a result that binds the identifier. -/
theorem resolveJoinTreeColumnExpression_andThen_tryStrategies (E : Collaborators)
    (R : Resolver) (scope : Nat) (resolve_result : IdentifierResolveResult)
    (strategies : List (IdentifierResolveResult → RM IdentifierResolveResult))
    (h : resolve_result.resolved_identifier.isSome = true) :
    (resolveJoinTreeColumnExpression E R scope resolve_result).andThen
        (tryStrategies strategies)
      = resolveJoinTreeColumnExpression E R scope resolve_result := by
  cases strategies with
  | nil => exact andThen_ret_eq _
  | cons strategy rest =>
    rw [tryStrategies_cons_fun]
    exact andThen_ite_of_post _
      (fun r : IdentifierResolveResult => r.resolved_identifier.isNone) _
      (resolveJoinTreeColumnExpression_not_none E R scope resolve_result h)

/-- The strategy of the join tree as a sequence. -/
theorem strategyJoinTree_eq (E : Collaborators) (R : Resolver) (l : IdentifierLookup)
    (scope : Nat) (ctx : IdentifierResolveContext) (resolve_result : IdentifierResolveResult) :
    strategyJoinTree E R l scope ctx resolve_result
      = (if ctx.allow_to_check_join_tree = true then
          (RM.getScope scope).andThen fun sc => RM.lift (E.tryResolveIdentifierFromJoinTree l sc)
        else RM.ret resolve_result).andThen (resolveJoinTreeColumnExpression E R scope) := by
  unfold strategyJoinTree
  simp only [RM.bind_eq, RM.pure_eq, RM.andThen_assoc, RM.ret_andThen_eq, RM.ite_andThen]

/-- The strategy of the aliases as a sequence. -/
theorem strategyAliases_eq (E : Collaborators) (R : Resolver) (l : IdentifierLookup)
    (scope : Nat) (ctx : IdentifierResolveContext) (already_in_resolve_process : Bool)
    (resolve_result : IdentifierResolveResult) :
    strategyAliases E R l scope ctx already_in_resolve_process resolve_result
      = (if (ctx.allow_to_check_aliases && !already_in_resolve_process) = true then
          R.tryResolveIdentifierFromAliases l scope ctx
        else RM.ret resolve_result).andThen (resolveJoinTreeColumnExpression E R scope) := by
  unfold strategyAliases
  simp only [RM.bind_eq, RM.pure_eq, RM.andThen_assoc, RM.ret_andThen_eq, RM.ite_andThen]

/-- The aliases after the join tree, in `tryResolveIdentifier` with
`prefer_column_name_to_alias`, are the second strategy of the search. -/
theorem aliasesAfterJoinTree_eq (E : Collaborators) (R : Resolver) (l : IdentifierLookup)
    (scope : Nat) (ctx : IdentifierResolveContext) (already_in_resolve_process : Bool)
    (resolve_result : IdentifierResolveResult) :
    ((if (ctx.allow_to_check_aliases && resolve_result.resolved_identifier.isNone
          && !already_in_resolve_process) = true then
        R.tryResolveIdentifierFromAliases l scope ctx
      else RM.ret resolve_result).andThen (resolveJoinTreeColumnExpression E R scope))
      = (resolveJoinTreeColumnExpression E R scope resolve_result).andThen
          (tryStrategies [strategyAliases E R l scope ctx already_in_resolve_process]) := by
  cases hr : resolve_result.resolved_identifier with
  | none =>
    rw [resolveJoinTreeColumnExpression_none E R scope resolve_result hr, RM.ret_andThen_eq,
      tryStrategies_singleton _ _ hr, strategyAliases_eq]
    simp only [Option.isNone_none, Bool.and_true]
  | some node =>
    have hs : resolve_result.resolved_identifier.isSome = true := by rw [hr]; rfl
    rw [resolveJoinTreeColumnExpression_andThen_tryStrategies E R scope resolve_result _ hs]
    simp only [Option.isNone_some, Bool.and_false, Bool.false_and, Bool.false_eq_true,
      if_false, RM.ret_andThen_eq]

/-- The join tree after the aliases, in `tryResolveIdentifier` without
`prefer_column_name_to_alias`, is the second strategy of the search. -/
theorem joinTreeAfterAliases_eq (E : Collaborators) (R : Resolver) (l : IdentifierLookup)
    (scope : Nat) (ctx : IdentifierResolveContext)
    (resolve_result : IdentifierResolveResult) :
    ((if (resolve_result.resolved_identifier.isNone && ctx.allow_to_check_join_tree) = true then
        (RM.getScope scope).andThen fun sc => RM.lift (E.tryResolveIdentifierFromJoinTree l sc)
      else RM.ret resolve_result).andThen (resolveJoinTreeColumnExpression E R scope))
      = (resolveJoinTreeColumnExpression E R scope resolve_result).andThen
          (tryStrategies [strategyJoinTree E R l scope ctx]) := by
  cases hr : resolve_result.resolved_identifier with
  | none =>
    rw [resolveJoinTreeColumnExpression_none E R scope resolve_result hr, RM.ret_andThen_eq,
      tryStrategies_singleton _ _ hr, strategyJoinTree_eq]
    simp only [Option.isNone_none, Bool.true_and]
  | some node =>
    have hs : resolve_result.resolved_identifier.isSome = true := by rw [hr]; rfl
    rw [resolveJoinTreeColumnExpression_andThen_tryStrategies E R scope resolve_result _ hs]
    simp only [Option.isNone_some, Bool.false_and, Bool.false_eq_true, if_false,
      RM.ret_andThen_eq]

/-- The strategies of the scope in `tryResolveIdentifier`, written as sequences. -/
theorem tryResolveIdentifierInScope_eq (E : Collaborators) (R : Resolver)
    (l : IdentifierLookup) (scope : Nat) (ctx : IdentifierResolveContext)
    (already_in_resolve_process : Bool) (sc : IdentifierResolveScope)
    (resolve_result : IdentifierResolveResult) :
    tryResolveIdentifierInScope E R l scope ctx already_in_resolve_process sc resolve_result
      = if preferColumnNameToAlias sc l = true then
          (if ctx.allow_to_check_join_tree = true then
              RM.lift (E.tryResolveIdentifierFromJoinTree l sc)
            else RM.ret resolve_result).andThen fun resolve_result =>
            (if (ctx.allow_to_check_aliases && resolve_result.resolved_identifier.isNone
                && !already_in_resolve_process) = true then
              R.tryResolveIdentifierFromAliases l scope ctx
            else RM.ret resolve_result).andThen (resolveJoinTreeColumnExpression E R scope)
        else
          (if (ctx.allow_to_check_aliases && !already_in_resolve_process) = true then
              R.tryResolveIdentifierFromAliases l scope ctx
            else RM.ret resolve_result).andThen fun resolve_result =>
            (if (resolve_result.resolved_identifier.isNone && ctx.allow_to_check_join_tree)
                = true then
              (RM.getScope scope).andThen fun sc =>
                RM.lift (E.tryResolveIdentifierFromJoinTree l sc)
            else RM.ret resolve_result).andThen (resolveJoinTreeColumnExpression E R scope) := by
  unfold tryResolveIdentifierInScope
  simp only [RM.bind_eq, RM.pure_eq, RM.andThen_assoc, RM.ret_andThen_eq, RM.ite_andThen]

/-- The strategies of the scope in `tryResolveIdentifier`, run from a result that does not
bind the identifier in a state whose scope is the one they are given, are the search over
the join tree and the aliases in the order of `prefer_column_name_to_alias`. -/
theorem tryResolveIdentifierInScope_eq_tryStrategies (E : Collaborators) (R : Resolver)
    (l : IdentifierLookup) (scope : Nat) (ctx : IdentifierResolveContext)
    (already_in_resolve_process : Bool) (resolve_result : IdentifierResolveResult)
    (s0 : QueryAnalyzer) (h0 : resolve_result.resolved_identifier = none) :
    tryResolveIdentifierInScope E R l scope ctx already_in_resolve_process (s0.scopes scope)
        resolve_result s0
      = tryStrategies
          (if preferColumnNameToAlias (s0.scopes scope) l = true then
            [strategyJoinTree E R l scope ctx,
             strategyAliases E R l scope ctx already_in_resolve_process]
          else
            [strategyAliases E R l scope ctx already_in_resolve_process,
             strategyJoinTree E R l scope ctx]) resolve_result s0 := by
  rw [tryResolveIdentifierInScope_eq]
  by_cases hp : preferColumnNameToAlias (s0.scopes scope) l = true
  · rw [if_pos hp, if_pos hp, tryStrategies_cons_none _ _ _ h0]
    simp only [aliasesAfterJoinTree_eq]
    rw [strategyJoinTree_eq, RM.andThen_assoc]
    refine andThen_congr_run _ _ _ _ ?_
    by_cases hj : ctx.allow_to_check_join_tree = true
    · rw [if_pos hj, if_pos hj]
      rfl
    · rw [if_neg hj, if_neg hj]
  · rw [if_neg hp, if_neg hp, tryStrategies_cons_none _ _ _ h0]
    simp only [joinTreeAfterAliases_eq]
    rw [strategyAliases_eq, RM.andThen_assoc]


/-- The function `tryResolveIdentifier` is the search over its strategies, run once the
lookup is registered and followed by the removal of the lookup from the table of the
lookups in process. -/
theorem tryResolveIdentifier_eq_tryStrategies (E : Collaborators) (R : Resolver)
    (l : IdentifierLookup) (scope : Nat) (ctx : IdentifierResolveContext) (s : QueryAnalyzer) :
    tryResolveIdentifier E R l scope ctx s
      = ((tryStrategies (strategiesOfCall E R l scope ctx s) {}).andThen fun r =>
          (RM.modifyScope scope (fun sc => { sc with
            identifier_in_lookup_process :=
              unregisterLookup sc.identifier_in_lookup_process l })).andThen fun _ =>
            RM.ret r) (s.withLookupRegistered scope l) := by
  rw [tryResolveIdentifier_stages]
  unfold strategiesOfCall lookupStrategies
  rw [tryStrategies_cons_none _ _ _ rfl, RM.andThen_assoc]
  unfold strategyExpressionArguments
  simp only [RM.bind_eq]
  rw [RM.andThen_assoc, RM.getScope_andThen]
  cases hargs : E.tryResolveIdentifierFromExpressionArguments l
      ((s.withLookupRegistered scope l).scopes scope) with
  | error e => rfl
  | ok r0 =>
    rw [RM.lift_ok_andThen, RM.lift_ok_andThen, tryStrategies_append, RM.andThen_assoc]
    simp only [← finishTryResolveIdentifier_eq_tryStrategies]
    refine andThen_congr_run _ _ _ _ ?_
    cases hr : r0.resolved_identifier with
    | none =>
      simp only [Option.isNone_none, if_true]
      exact tryResolveIdentifierInScope_eq_tryStrategies E R l scope ctx _ r0 _ hr
    | some node =>
      have hs : r0.resolved_identifier.isSome = true := by rw [hr]; rfl
      rw [tryStrategies_resolved _ _ hs]
      simp only [Option.isNone_some, Bool.false_eq_true, if_false]


/-- A computation followed by the removal of the lookup from the table of the lookups in
process ends with an exception exactly when the computation does. -/
theorem andThen_unregister_error {α : Type} (x : RM α) (scope : Nat) (l : IdentifierLookup)
    (s0 s1 : QueryAnalyzer) (e : Exception) :
    (x.andThen fun r =>
        (RM.modifyScope scope (fun sc => { sc with
          identifier_in_lookup_process :=
            unregisterLookup sc.identifier_in_lookup_process l })).andThen fun _ =>
          RM.ret r) s0 = (.error e, s1)
      ↔ x s0 = (.error e, s1) := by
  rcases hx : x s0 with ⟨result, s2⟩
  cases result with
  | error e1 => rw [RM.andThen_error hx]
  | ok r =>
    rw [RM.andThen_ok hx]
    constructor
    · intro h
      simp [RM.modifyScope, RM.modify, RM.andThen, RM.ret] at h
    · intro h
      simp at h

/-- A computation followed by the removal of the lookup from the table of the lookups in
process returns the result of the computation in the state without the lookup. -/
theorem andThen_unregister_ok {α : Type} (x : RM α) (scope : Nat) (l : IdentifierLookup)
    (s0 s1 : QueryAnalyzer) (r : α) :
    (x.andThen fun r =>
        (RM.modifyScope scope (fun sc => { sc with
          identifier_in_lookup_process :=
            unregisterLookup sc.identifier_in_lookup_process l })).andThen fun _ =>
          RM.ret r) s0 = (.ok r, s1)
      ↔ ∃ s2, x s0 = (.ok r, s2) ∧ s1 = s2.withLookupUnregistered scope l := by
  rcases hx : x s0 with ⟨result, s2⟩
  cases result with
  | error e1 =>
    rw [RM.andThen_error hx]
    constructor
    · intro h
      simp at h
    · rintro ⟨s3, h, _⟩
      simp at h
  | ok r1 =>
    rw [RM.andThen_ok hx]
    have hk : ((RM.modifyScope scope (fun sc => { sc with
          identifier_in_lookup_process :=
            unregisterLookup sc.identifier_in_lookup_process l })).andThen fun _ =>
          RM.ret r1) s2 = (.ok r1, s2.withLookupUnregistered scope l) := rfl
    rw [hk]
    constructor
    · intro h
      simp only [Prod.mk.injEq, Except.ok.injEq] at h
      exact ⟨s2, by rw [h.1], h.2.symm⟩
    · rintro ⟨s3, h, h1⟩
      simp only [Prod.mk.injEq, Except.ok.injEq] at h
      rw [h1, ← h.2, h.1]

/-- C12 (amended): `tryResolveIdentifier` throws nothing and binds nothing of its own, and
it returns that nothing is found only when no strategy binds the identifier.  The strategies
of the call, `strategiesOfCall`, run in order from the state in which the lookup is
registered, each in the state that the one before it left.  The call ends with an exception
exactly when a strategy ends with this exception after all the strategies before it have
returned without binding the identifier; it returns a result that binds the identifier
exactly when a strategy returns this result after all the strategies before it have returned
without binding the identifier; and it returns a result that does not bind the identifier
exactly when every strategy has returned without an exception and without binding it, and
this result is the one of the last strategy.  When the call returns, the lookup is removed
from the table of the lookups in process. -/
theorem tryResolveIdentifier_no_own_error (E : Collaborators) (R : Resolver)
    (l : IdentifierLookup) (scope : Nat) (ctx : IdentifierResolveContext) (s : QueryAnalyzer) :
    (∀ e s1, tryResolveIdentifier E R l scope ctx s = (.error e, s1) ↔
        ∃ before strategy after last s0,
          strategiesOfCall E R l scope ctx s = before ++ strategy :: after
          ∧ ReturnedUnbound before {} (s.withLookupRegistered scope l) last s0
          ∧ strategy last s0 = (.error e, s1))
    ∧ (∀ r s1, r.resolved_identifier.isSome = true →
        (tryResolveIdentifier E R l scope ctx s = (.ok r, s1) ↔
          ∃ before strategy after last s0 s2,
            strategiesOfCall E R l scope ctx s = before ++ strategy :: after
            ∧ ReturnedUnbound before {} (s.withLookupRegistered scope l) last s0
            ∧ strategy last s0 = (.ok r, s2)
            ∧ s1 = s2.withLookupUnregistered scope l))
    ∧ (∀ r s1, r.resolved_identifier = none →
        (tryResolveIdentifier E R l scope ctx s = (.ok r, s1) ↔
          ∃ s2,
            ReturnedUnbound (strategiesOfCall E R l scope ctx s) {}
              (s.withLookupRegistered scope l) r s2
            ∧ s1 = s2.withLookupUnregistered scope l)) := by
  refine ⟨fun e s1 => ?_, fun r s1 hr => ?_, fun r s1 hr => ?_⟩
  · rw [tryResolveIdentifier_eq_tryStrategies, andThen_unregister_error]
    exact tryStrategies_decided _ _ _ _ _ rfl nofun
  · rw [tryResolveIdentifier_eq_tryStrategies, andThen_unregister_ok]
    constructor
    · rintro ⟨s2, h, h1⟩
      obtain ⟨before, strategy, after, last, s0, h2, h3, h4⟩ :=
        (tryStrategies_decided _ _ _ _ (.ok r) rfl (fun r1 h5 => by cases h5; exact hr)).mp h
      exact ⟨before, strategy, after, last, s0, s2, h2, h3, h4, h1⟩
    · rintro ⟨before, strategy, after, last, s0, s2, h2, h3, h4, h1⟩
      exact ⟨s2, (tryStrategies_decided _ _ _ _ (.ok r) rfl
        (fun r1 h5 => by cases h5; exact hr)).mpr ⟨before, strategy, after, last, s0, h2, h3, h4⟩,
        h1⟩
  · rw [tryResolveIdentifier_eq_tryStrategies, andThen_unregister_ok]
    constructor
    · rintro ⟨s2, h, h1⟩
      exact ⟨s2, (tryStrategies_unbound _ _ _ _ _ rfl hr).mp h, h1⟩
    · rintro ⟨s2, h, h1⟩
      exact ⟨s2, (tryStrategies_unbound _ _ _ _ _ rfl hr).mpr h, h1⟩


/-- Witness of `tryResolveIdentifier_no_own_error`: the exception of the lookup of `a.b` is
the one of a strategy of the call, run after the strategies before it had returned without
binding the identifier; the result of the lookup of `a` in `SELECT 1 AS a FROM t` is the
one of a strategy of the call; and for the lookup of `zzz` there, which returns that nothing
is found, every strategy of the call has returned without binding the identifier. -/
theorem tryResolveIdentifier_no_own_error_witness :
    (∃ before strategy after last s0 s1,
      strategiesOfCall Example.collaborators
          (resolver Example.collaborators Example.scalarCollaborators Example.unmodelled 2)
          Example.lookupTableAB 0 {} Example.analyzerTableAliasA
        = before ++ strategy :: after
      ∧ ReturnedUnbound before {}
          (Example.analyzerTableAliasA.withLookupRegistered 0 Example.lookupTableAB) last s0
      ∧ strategy last s0
          = (.error { code := .UNKNOWN_IDENTIFIER, args := ["a.b"] }, s1))
    ∧ (∃ before strategy after last s0 s2,
      strategiesOfCall Example.collaborators
          (resolver Example.collaborators Example.scalarCollaborators Example.unmodelled 2)
          Example.lookupA 0 {} (Example.analyzerOneAsA false)
        = before ++ strategy :: after
      ∧ ReturnedUnbound before {}
          ((Example.analyzerOneAsA false).withLookupRegistered 0 Example.lookupA) last s0
      ∧ strategy last s0
          = (.ok { resolved_identifier := some ((Example.literal 100 1).setAlias "a"),
                   resolve_place := .ALIASES }, s2))
    ∧ (∃ r s2,
      r.resolved_identifier = none
      ∧ ReturnedUnbound
          (strategiesOfCall Example.collaborators
            (resolver Example.collaborators Example.scalarCollaborators Example.unmodelled 2)
            Example.lookupZzz 0 {} (Example.analyzerOneAsA false)) {}
          ((Example.analyzerOneAsA false).withLookupRegistered 0 Example.lookupZzz) r s2) := by
  refine ⟨?_, ?_, ?_⟩
  · obtain ⟨before, strategy, after, last, s0, h⟩ :=
      ((tryResolveIdentifier_no_own_error Example.collaborators
        (resolver Example.collaborators Example.scalarCollaborators Example.unmodelled 2)
        Example.lookupTableAB 0 {} Example.analyzerTableAliasA).1 _ _).mp rfl
    exact ⟨before, strategy, after, last, s0, _, h⟩
  · obtain ⟨before, strategy, after, last, s0, s2, h1, h2, h3, _⟩ :=
      ((tryResolveIdentifier_no_own_error Example.collaborators
        (resolver Example.collaborators Example.scalarCollaborators Example.unmodelled 2)
        Example.lookupA 0 {} (Example.analyzerOneAsA false)).2.1
          { resolved_identifier := some ((Example.literal 100 1).setAlias "a"),
            resolve_place := .ALIASES } _ rfl).mp rfl
    exact ⟨before, strategy, after, last, s0, s2, h1, h2, h3⟩
  · obtain ⟨r, hr⟩ := run_eq_ok_of_isOk
      (tryResolveIdentifier Example.collaborators
        (resolver Example.collaborators Example.scalarCollaborators Example.unmodelled 2)
        Example.lookupZzz 0 {}) (Example.analyzerOneAsA false) (by decide!)
    have hnone : r.resolved_identifier = none := by
      have h : Example.outcomeOfLookup
          (tryResolveIdentifier Example.collaborators
            (resolver Example.collaborators Example.scalarCollaborators Example.unmodelled 2)
            Example.lookupZzz 0 {} (Example.analyzerOneAsA false)) = .notFound := by decide!
      rw [hr] at h
      unfold Example.outcomeOfLookup at h
      cases hx : r.resolved_identifier with
      | none => rfl
      | some node => simp [hx] at h
    obtain ⟨s2, h, _⟩ :=
      ((tryResolveIdentifier_no_own_error Example.collaborators
        (resolver Example.collaborators Example.scalarCollaborators Example.unmodelled 2)
        Example.lookupZzz 0 {} (Example.analyzerOneAsA false)).2.2 r _ hnone).mp hr
    exact ⟨r, s2, hnone, h⟩

end QueryAnalyzer
end DB
